import Mathlib

/-!
# nof0 manager core: budget guard, position registry, secondary risk, config sync

A shallow embedding of the Go sources of the trading orchestrator and the
properties its specification states about them.

Conventions of the embedding.

* Go `int64` / `int` quantities are integers (`Int`); token counters are far
  below `2^63`, so sums are the mathematical sums.
* Go `float64` quantities are exact rationals (`ℚ`). In `pkg/llm/budget.go`, where a
  comparison depends on the last bit of a quotient, every `float64` operation is the
  exact operation followed by rounding to the nearest binary64 value (`roundFloat64`).
* A `time.Time` is the number of nanoseconds since Go's zero time
  `0001-01-01T00:00:00Z` (so `IsZero` is `= 0`); the clock a call reads is an
  explicit argument.
* A Go `error` result is an `Option`: `none` is `nil`.
* Mutating methods return the receiver's new state next to their result.
-/

set_option autoImplicit false

namespace Nof0

/-! ## Go string helpers -/

/-- Whitespace as `unicode.IsSpace` defines it (the set `strings.TrimSpace` and
`bytes.TrimSpace` strip). -/
def isSpace (c : Char) : Bool :=
  let n := c.toNat
  n == 0x09 || n == 0x0A || n == 0x0B || n == 0x0C || n == 0x0D || n == 0x20 ||
  n == 0x85 || n == 0xA0 || n == 0x1680 || (0x2000 ≤ n && n ≤ 0x200A) ||
  n == 0x2028 || n == 0x2029 || n == 0x202F || n == 0x205F || n == 0x3000

/-- Strip leading and trailing whitespace from a list of characters. -/
def trimChars (cs : List Char) : List Char :=
  ((cs.dropWhile isSpace).reverse.dropWhile isSpace).reverse

/-- Embedding of `strings.TrimSpace`. -/
def goTrimSpace (s : String) : String :=
  String.mk (trimChars s.data)

/-- Embedding of `strings.ToLower`; the case mapping is the ASCII one, other
characters are left as they are. -/
def goToLower (s : String) : String :=
  String.mk (s.data.map Char.toLower)

/-- Embedding of `strings.ToUpper`; the case mapping is the ASCII one, other
characters are left as they are. -/
def goToUpper (s : String) : String :=
  String.mk (s.data.map Char.toUpper)

/-! ## pkg/llm/budget.go -/

/-- The error values of package `llm` that the budget guard returns. -/
inductive LlmError where
  | ErrBudgetExceeded
  deriving DecidableEq, Repr

/-- Embedding of `BudgetConfig` (pkg/llm/config.go). The cost table is the Go map
as an association list. -/
structure BudgetConfig where
  DailyTokenLimit : Int
  AlertThresholdPct : Int
  StrictEnforcement : Bool
  CostPerMillionTokens : List (String × ℚ)

/-- Embedding of `BudgetSnapshot`. -/
structure BudgetSnapshot where
  UsedTokens : Int
  Limit : Int
  UsagePct : ℚ
  UsedCostUSD : ℚ
  AlertThresholdPct : Int
  AlertTriggered : Bool

/-- The zero value `BudgetSnapshot{}`. -/
def BudgetSnapshot.zero : BudgetSnapshot :=
  { UsedTokens := 0, Limit := 0, UsagePct := 0, UsedCostUSD := 0,
    AlertThresholdPct := 0, AlertTriggered := false }

/-- Embedding of `BudgetGuard`: the configuration pointer (`none` is `nil`) and the
ledger. The mutex and the clock function are not state: calls are sequential and
take the clock reading as an argument. -/
structure BudgetGuard where
  cfg : Option BudgetConfig
  usedTokens : Int
  usedCostUSD : ℚ
  periodStart : Int

/-- Nanoseconds in one UTC day. -/
def nanosPerDay : Int := 86400 * 1000000000

/-- Embedding of `truncateDay`: midnight UTC of the instant's calendar day. -/
def truncateDay (t : Int) : Int :=
  t - t % nanosPerDay

/-! ### float64 arithmetic

A finite `float64` is a rational `m * 2^e` with `|m| < 2^53`. Go rounds the result of
a conversion and of each arithmetic operation to the nearest such value, ties to the
even significand. The exponent range (overflow, subnormal values) is not modelled: the
quotients of `int64` values lie far inside it. -/

/-- The number of binary digits of `n`, by halving at most `fuel` times. -/
def bitLengthAux : Nat → Nat → Nat
  | 0, _ => 0
  | fuel + 1, n => if n = 0 then 0 else bitLengthAux fuel (n / 2) + 1

/-- The number of binary digits of `n` (`0` for `0`). -/
def bitLength (n : Nat) : Nat := bitLengthAux n n

/-- The natural number nearest to `n / d`, a tie going to the even one. -/
def roundHalfEven (n d : Nat) : Nat :=
  if 2 * (n % d) < d then n / d
  else if d < 2 * (n % d) then n / d + 1
  else if (n / d) % 2 = 0 then n / d else n / d + 1

/-- The binary exponent of `p / q` for positive `p` and `q`: the `e` with
`2^e ≤ p / q < 2^(e+1)`. The difference of the bit lengths is `e` or `e + 1`. -/
def binaryExponent (p q : Nat) : Int :=
  let e0 : Int := (bitLength p : Int) - (bitLength q : Int)
  if (if 0 ≤ e0 then q * 2 ^ e0.toNat ≤ p else q ≤ p * 2 ^ (-e0).toNat) then e0 else e0 - 1

/-- The binary64 value nearest to `p / q` for positive `p` and `q`: `p / q` is scaled
by a power of two into `[2^52, 2^53)`, rounded to an integer significand, and scaled
back. -/
def roundPositive (p q : Nat) : ℚ :=
  let s : Int := binaryExponent p q - 52
  if 0 ≤ s then ((roundHalfEven p (q * 2 ^ s.toNat) : Nat) : ℚ) * ((2 ^ s.toNat : Nat) : ℚ)
  else ((roundHalfEven (p * 2 ^ (-s).toNat) q : Nat) : ℚ) / ((2 ^ (-s).toNat : Nat) : ℚ)

/-- Rounding of an exact result to `float64`: round to nearest, ties to even. -/
def roundFloat64 (x : ℚ) : ℚ :=
  if x = 0 then 0
  else if 0 < x then roundPositive x.num.natAbs x.den
  else - roundPositive x.num.natAbs x.den

/-- The conversion `float64(n)` of an integer. -/
def float64OfInt (n : Int) : ℚ := roundFloat64 (n : ℚ)

/-- The `float64` sum `x + y`. -/
def float64Add (x y : ℚ) : ℚ := roundFloat64 (x + y)

/-- The `float64` product `x * y`. -/
def float64Mul (x y : ℚ) : ℚ := roundFloat64 (x * y)

/-- The `float64` quotient `x / y`, for `y ≠ 0`. -/
def float64Div (x y : ℚ) : ℚ := roundFloat64 (x / y)

/-- Embedding of `percentage`: `math.Min(100, float64(value)/float64(limit)*100)`. -/
def percentage (value limit : Int) : ℚ :=
  if limit ≤ 0 then 0
  else min 100 (float64Mul (float64Div (float64OfInt value) (float64OfInt limit)) 100)

/-- Embedding of `NewBudgetGuard`: `none` (a nil guard) unless the limit is positive. -/
def NewBudgetGuard (cfg : Option BudgetConfig) : Option BudgetGuard :=
  match cfg with
  | none => none
  | some c =>
    if c.DailyTokenLimit ≤ 0 then none
    else some { cfg := some c, usedTokens := 0, usedCostUSD := 0, periodStart := 0 }

/-- Embedding of `BudgetGuard.resetIfNeeded`, reading the clock as `now`. -/
def BudgetGuard.resetIfNeeded (g : BudgetGuard) (now : Int) : BudgetGuard :=
  let currentPeriod := truncateDay now
  if g.periodStart = 0 ∨ ¬ (currentPeriod = g.periodStart) then
    { g with periodStart := currentPeriod, usedTokens := 0, usedCostUSD := 0 }
  else g

/-- Embedding of `BudgetGuard.costRate`. -/
def BudgetGuard.costRate (g : BudgetGuard) (model : String) : ℚ :=
  match g.cfg with
  | none => 0
  | some c =>
    if c.CostPerMillionTokens.length = 0 then 0
    else
      match c.CostPerMillionTokens.lookup model with
      | some rate => rate
      | none =>
        match c.CostPerMillionTokens.lookup (goToLower (goTrimSpace model)) with
        | some rate => rate
        | none => 0

/-- Embedding of `BudgetGuard.AllowAttempt`: the returned error and the guard after
the call. -/
def BudgetGuard.AllowAttempt (g : BudgetGuard) (now : Int) : Option LlmError × BudgetGuard :=
  match g.cfg with
  | none => (none, g)
  | some c =>
    if c.DailyTokenLimit ≤ 0 then (none, g)
    else
      let g1 := g.resetIfNeeded now
      if g1.usedTokens ≥ c.DailyTokenLimit then
        if c.StrictEnforcement then (some LlmError.ErrBudgetExceeded, g1)
        else (none, g1)
      else (none, g1)

/-- Embedding of `BudgetGuard.RecordUsage`: the snapshot, the returned error and
the guard after the call. -/
def BudgetGuard.RecordUsage (g : BudgetGuard) (now : Int) (model : String) (tokens : Int) :
    (BudgetSnapshot × Option LlmError) × BudgetGuard :=
  match g.cfg with
  | none => ((BudgetSnapshot.zero, none), g)
  | some c =>
    if c.DailyTokenLimit ≤ 0 ∨ tokens ≤ 0 then ((BudgetSnapshot.zero, none), g)
    else
      let g1 := g.resetIfNeeded now
      let limit := c.DailyTokenLimit
      let newTotal := g1.usedTokens + tokens
      let usagePct := percentage newTotal limit
      let costRate := g1.costRate model
      let g2 : BudgetGuard :=
        { g1 with usedTokens := newTotal,
                  usedCostUSD := float64Add g1.usedCostUSD
                    (float64Mul (float64Div (float64OfInt tokens) 1000000) costRate) }
      let snapshot : BudgetSnapshot :=
        { UsedTokens := g2.usedTokens
          Limit := limit
          UsagePct := usagePct
          UsedCostUSD := g2.usedCostUSD
          AlertThresholdPct := c.AlertThresholdPct
          AlertTriggered :=
            decide (limit > 0) && decide (c.AlertThresholdPct > 0) &&
              decide (usagePct ≥ float64OfInt c.AlertThresholdPct) }
      if limit > 0 ∧ newTotal > limit ∧ c.StrictEnforcement = true then
        ((snapshot, some LlmError.ErrBudgetExceeded), g2)
      else ((snapshot, none), g2)

/-- The configuration of `TestBudgetGuardRecordUsage`. -/
def testBudgetConfig : BudgetConfig :=
  { DailyTokenLimit := 1000, AlertThresholdPct := 80, StrictEnforcement := true,
    CostPerMillionTokens := [("gpt-5", 20)] }

/-- The clock reading `2025-11-08T00:00:00Z` of the test: 739562 days after
`0001-01-01`. -/
def testStart : Int := 739562 * nanosPerDay

/-- A guard on `testBudgetConfig` whose ledger holds `used` tokens for the test day. -/
def testGuard (used : Int) (strict : Bool) : BudgetGuard :=
  { cfg := some { testBudgetConfig with StrictEnforcement := strict },
    usedTokens := used, usedCostUSD := 0, periodStart := testStart }

/-- The snapshot `RecordUsage` builds from the ledger `g1` it finds after the day reset. -/
def usageSnapshot (c : BudgetConfig) (g1 : BudgetGuard) (model : String) (tokens : Int) :
    BudgetSnapshot :=
  { UsedTokens := g1.usedTokens + tokens
    Limit := c.DailyTokenLimit
    UsagePct := percentage (g1.usedTokens + tokens) c.DailyTokenLimit
    UsedCostUSD := float64Add g1.usedCostUSD
      (float64Mul (float64Div (float64OfInt tokens) 1000000) (g1.costRate model))
    AlertThresholdPct := c.AlertThresholdPct
    AlertTriggered :=
      decide (c.DailyTokenLimit > 0) && decide (c.AlertThresholdPct > 0) &&
        decide (percentage (g1.usedTokens + tokens) c.DailyTokenLimit ≥
          float64OfInt c.AlertThresholdPct) }

/-- The guard `NewBudgetGuard` returns for `testBudgetConfig`. -/
def freshTestGuard : BudgetGuard :=
  { cfg := some testBudgetConfig, usedTokens := 0, usedCostUSD := 0, periodStart := 0 }

/-- The guard of the test after `RecordUsage("gpt-5", 600)`. -/
def testGuardAfter600 : BudgetGuard :=
  (freshTestGuard.RecordUsage testStart "gpt-5" 600).2

/-- The guard of the test after the further `RecordUsage("gpt-5", 300)`. -/
def testGuardAfter900 : BudgetGuard :=
  (testGuardAfter600.RecordUsage testStart "gpt-5" 300).2

/-- The guard of the test after the further `RecordUsage("gpt-5", 200)`. -/
def testGuardAfter1100 : BudgetGuard :=
  (testGuardAfter900.RecordUsage testStart "gpt-5" 200).2

/-- A guard on the test configuration with the alert threshold set to 0, its ledger
empty for the test day. -/
def alertOffGuard : BudgetGuard :=
  { cfg := some { DailyTokenLimit := 1000, AlertThresholdPct := 0, StrictEnforcement := true,
                  CostPerMillionTokens := [("gpt-5", 20)] },
    usedTokens := 0, usedCostUSD := 0, periodStart := testStart }

/-- The clock reading of the test one day after `testStart`. -/
def testNextDay : Int := testStart + 24 * 3600 * 1000000000

/-- The clock reading `2025-11-08T23:59:59.999999999Z`, the last nanosecond of the
test day. -/
def testLastNano : Int := testStart + (24 * 3600 * 1000000000 - 1)

/-- The clock reading `2025-11-09T13:45:00Z`, in the afternoon of the next day. -/
def testAfternoon : Int := testNextDay + (13 * 3600 + 45 * 60) * 1000000000

/-- A guard on limit 1000 with the alert threshold at 29 percent, its ledger empty for
the test day. -/
def alert29Guard : BudgetGuard :=
  { cfg := some { DailyTokenLimit := 1000, AlertThresholdPct := 29, StrictEnforcement := true,
                  CostPerMillionTokens := [("gpt-5", 20)] },
    usedTokens := 0, usedCostUSD := 0, periodStart := testStart }

/-! ## Go maps as association lists -/

/-- A Go `delete(m, k)` on a map kept as an association list. -/
def mapErase {β : Type} (k : String) (m : List (String × β)) : List (String × β) :=
  m.filter (fun e => e.1 != k)

/-- A Go `m[k] = v` on a map kept as an association list. -/
def mapInsert {β : Type} (k : String) (v : β) (m : List (String × β)) : List (String × β) :=
  (k, v) :: mapErase k m

/-! ## pkg/exchange/types.go and pkg/executor/types.go -/

/-- Embedding of `exchange.Leverage`. -/
structure Leverage where
  Type_ : String
  Value : Int
  deriving DecidableEq, Repr

/-- Embedding of `exchange.Position`; the pointer fields are options. -/
structure Position where
  Coin : String
  EntryPx : Option String
  PositionValue : String
  Szi : String
  UnrealizedPnl : String
  ReturnOnEquity : String
  Leverage : Leverage
  LiquidationPx : Option String
  deriving DecidableEq, Repr

/-- Embedding of `executor.Decision`. -/
structure Decision where
  Symbol : String
  Action : String
  Leverage : Int
  PositionSizeUSD : ℚ
  EntryPrice : ℚ
  StopLoss : ℚ
  TakeProfit : ℚ
  Confidence : Int
  RiskUSD : ℚ
  Reasoning : String
  InvalidationCondition : String

/-! ## pkg/manager: position registry and secondary risk

`manager.go` is not among the sources: only its tests (`manager_guard_test.go`)
and the specification (§3, §4.1, §4.3) describe it. -/

/-- Modelled from the spec: the `VirtualPosition` record of §3 (its declaration in
`manager.go` is missing). -/
structure VirtualPosition where
  Symbol : String
  Side : String
  Quantity : ℚ
  EntryPrice : ℚ
  Leverage : Int
  Confidence : Int
  RiskUSD : ℚ
  OpenedAtMs : Int
  Exchange : String

/-- Modelled from the spec: the `risk_params` of a trader (§3), with the field names
the tests use; the declaration of `RiskParameters` is missing. -/
structure RiskParameters where
  MaxPositions : Int
  MaxPositionSizeUSD : ℚ
  MaxMarginUsagePct : ℚ
  MajorCoinLeverage : Int
  AltcoinLeverage : Int
  MinRiskRewardRatio : ℚ
  MinConfidence : Int
  StopLossEnabled : Bool
  TakeProfitEnabled : Bool

/-- Modelled from the spec: the `resource_alloc` of a trader (§3); the declaration
of `ResourceAllocation` is missing. -/
structure ResourceAllocation where
  CurrentEquityUSD : ℚ
  MarginUsedUSD : ℚ

/-- Modelled from the spec: the `VirtualTrader` of §3 as far as the registry and the
risk guards read it; its declaration is missing. `VirtualPositions` is the map from
upper-case symbol to position. -/
structure VirtualTrader where
  ID : String
  RiskParams : RiskParameters
  ResourceAlloc : ResourceAllocation
  VirtualPositions : List (String × VirtualPosition)

/-- The error kinds of §7 that the registry and the risk evaluator return. -/
inductive ManagerError where
  | ErrSymbolOwned
  | ErrRiskViolation (reason : String)
  deriving DecidableEq, Repr

/-- Modelled from the spec: the manager state the registry operations of §4.1 act
on (the `Manager` struct is missing): the trader each id denotes, and the
`PositionOwnerRegistry` mapping a symbol to the id of its owner, a symbol that is
not present being ownerless. -/
structure Manager where
  traders : String → VirtualTrader
  positionOwners : List (String × String)

/-- Modelled from the spec: `normalizeSymbol` (missing). "Symbols are canonicalised
to upper-case before hashing/comparison" and `"btc "` and `"BTC"` resolve to the
same registry key (§3, §8). -/
def normalizeSymbol (symbol : String) : String :=
  goToUpper (goTrimSpace symbol)

/-- Modelled from the spec: `owner(symbol) → trader_id | empty` of §4.1
(`getPositionOwner`, missing). -/
def Manager.getPositionOwner (m : Manager) (symbol : String) : Option String :=
  m.positionOwners.lookup (normalizeSymbol symbol)

/-- Modelled from the spec: `assign(trader_id, position)` of §4.1
(`assignVirtualPosition`, missing): "claims `position.symbol`. Fails with
`ErrSymbolOwned` if already owned by another trader; succeeds (idempotently
refreshing) if owned by the caller. Adds the entry to the trader's
`virtual_positions`." The entry is stored under the canonical symbol and carries
it (§3: the symbol of a `VirtualPosition` is uppercase). -/
def Manager.assignVirtualPosition (m : Manager) (traderID : String) (pos : VirtualPosition) :
    Option ManagerError × Manager :=
  let key := normalizeSymbol pos.Symbol
  match m.positionOwners.lookup key with
  | some owner =>
    if owner ≠ traderID then (some ManagerError.ErrSymbolOwned, m)
    else
      (none,
       { traders := Function.update m.traders traderID
           { m.traders traderID with
             VirtualPositions :=
               mapInsert key { pos with Symbol := key } (m.traders traderID).VirtualPositions }
         positionOwners := mapInsert key traderID m.positionOwners })
  | none =>
    (none,
     { traders := Function.update m.traders traderID
         { m.traders traderID with
           VirtualPositions :=
             mapInsert key { pos with Symbol := key } (m.traders traderID).VirtualPositions }
       positionOwners := mapInsert key traderID m.positionOwners })

/-- Modelled from the spec: `release(trader_id, symbol)` of §4.1
(`releaseVirtualPosition`, missing): "removes ownership only if current owner
matches; silently no-op otherwise. Removes from the trader's positions." -/
def Manager.releaseVirtualPosition (m : Manager) (traderID : String) (symbol : String) :
    Manager :=
  let key := normalizeSymbol symbol
  if m.positionOwners.lookup key = some traderID then
    { traders := Function.update m.traders traderID
        { m.traders traderID with
          VirtualPositions := mapErase key (m.traders traderID).VirtualPositions }
      positionOwners := mapErase key m.positionOwners }
  else m

/-- Modelled from the spec: `filter(trader_id, exchange_positions[])` of §4.1
(`filterPositionsForTrader`, missing): "returns the subset of exchange-reported
positions either owned by `trader_id` or ownerless", collected in one pass over the
input. -/
def Manager.filterPositionsForTrader (m : Manager) (traderID : String) :
    List Position → List Position
  | [] => []
  | p :: rest =>
    match m.getPositionOwner p.Coin with
    | none => p :: m.filterPositionsForTrader traderID rest
    | some owner =>
      if owner = traderID then p :: m.filterPositionsForTrader traderID rest
      else m.filterPositionsForTrader traderID rest

/-- Whether the position's symbol is owned by `traderID` or has no owner. -/
def Manager.visibleTo (m : Manager) (traderID : String) (p : Position) : Bool :=
  match m.getPositionOwner p.Coin with
  | none => true
  | some owner => decide (owner = traderID)

/-- Modelled from the spec: the guards of §4.3 that come after the two caps:
"count open positions against `max_positions`; reject when
`confidence < min_confidence` or
`(take_profit − entry)/(entry − stop_loss) < min_risk_reward_ratio`". A
`max_positions` of zero is a guard that is not configured. `true` when one of them
rejects the decision. -/
def otherGuardsReject (trader : VirtualTrader) (decision : Decision) : Bool :=
  (decide (trader.RiskParams.MaxPositions > 0) &&
      decide ((trader.VirtualPositions.length : Int) ≥ trader.RiskParams.MaxPositions)) ||
  decide ((decision.Confidence) < trader.RiskParams.MinConfidence) ||
  decide ((decision.TakeProfit - decision.EntryPrice) / (decision.EntryPrice - decision.StopLoss)
      < trader.RiskParams.MinRiskRewardRatio)

/-- Modelled from the spec: the secondary guards of §4.3 (`enforceSecondaryRisk`,
missing): "re-validate `position_size_usd ≤ max_position_size_usd`; compute
projected margin = `current_margin_used + position_size_usd / leverage` and reject
when it exceeds `equity × max_margin_usage_pct / 100`", then the remaining guards.
`none` accepts; a rejection is an `ErrRiskViolation` with its reason. -/
def enforceSecondaryRisk (trader : VirtualTrader) (decision : Decision) (leverage : ℚ) :
    Option ManagerError :=
  if decision.PositionSizeUSD > trader.RiskParams.MaxPositionSizeUSD then
    some (ManagerError.ErrRiskViolation "position size exceeds max_position_size_usd")
  else if trader.ResourceAlloc.MarginUsedUSD + decision.PositionSizeUSD / leverage >
      trader.ResourceAlloc.CurrentEquityUSD * trader.RiskParams.MaxMarginUsagePct / 100 then
    some (ManagerError.ErrRiskViolation "projected margin exceeds max_margin_usage_pct")
  else if otherGuardsReject trader decision then
    some (ManagerError.ErrRiskViolation "decision rejected by risk parameters")
  else none

/-- Whether an error is of kind `ErrRiskViolation`. -/
def ManagerError.isRiskViolation : ManagerError → Bool
  | ManagerError.ErrRiskViolation _ => true
  | ManagerError.ErrSymbolOwned => false

/-- A position with the given symbol and nothing else set. -/
def VirtualPosition.ofSymbol (symbol : String) : VirtualPosition :=
  { Symbol := symbol, Side := "", Quantity := 0, EntryPrice := 0, Leverage := 0,
    Confidence := 0, RiskUSD := 0, OpenedAtMs := 0, Exchange := "" }

/-- The zero value of `RiskParameters`. -/
def RiskParameters.zero : RiskParameters :=
  { MaxPositions := 0, MaxPositionSizeUSD := 0, MaxMarginUsagePct := 0, MajorCoinLeverage := 0,
    AltcoinLeverage := 0, MinRiskRewardRatio := 0, MinConfidence := 0,
    StopLossEnabled := false, TakeProfitEnabled := false }

/-- A trader with the given id, no positions and zero parameters. -/
def VirtualTrader.empty (id : String) : VirtualTrader :=
  { ID := id, RiskParams := RiskParameters.zero,
    ResourceAlloc := { CurrentEquityUSD := 0, MarginUsedUSD := 0 }, VirtualPositions := [] }

/-- The manager of `TestManagerAssignReleaseVirtualPosition`: no owners, no positions. -/
def testManagerEmpty : Manager :=
  { traders := VirtualTrader.empty, positionOwners := [] }

/-- The position the test assigns: BTC, long, quantity 1 at 100. -/
def testBtcPosition : VirtualPosition :=
  { (VirtualPosition.ofSymbol "BTC") with Side := "long", Quantity := 1, EntryPrice := 100 }

/-- The manager of `TestFilterPositionsForTrader`: BTC is owned by `t1`. -/
def testManagerBtcOwned : Manager :=
  { traders := VirtualTrader.empty, positionOwners := [("BTC", "t1")] }

/-- An exchange position for the given coin, all other fields empty. -/
def Position.ofCoin (coin : String) : Position :=
  { Coin := coin, EntryPx := none, PositionValue := "", Szi := "", UnrealizedPnl := "",
    ReturnOnEquity := "", Leverage := { Type_ := "", Value := 0 }, LiquidationPx := none }

/-- The trader of `TestManagerEnforceSecondaryRisk`: equity 1000, margin used 200,
max size 500, max margin usage 30%. -/
def testRiskTrader : VirtualTrader :=
  { ID := "t-risk"
    RiskParams := { RiskParameters.zero with MaxPositionSizeUSD := 500, MaxMarginUsagePct := 30 }
    ResourceAlloc := { CurrentEquityUSD := 1000, MarginUsedUSD := 200 }
    VirtualPositions := [] }

/-- The decision of the test: BTC with the given size, everything else zero. -/
def testDecision (size : ℚ) : Decision :=
  { Symbol := "BTC", Action := "", Leverage := 0, PositionSizeUSD := size, EntryPrice := 0,
    StopLoss := 0, TakeProfit := 0, Confidence := 0, RiskUSD := 0, Reasoning := "",
    InvalidationCondition := "" }

/-! ## pkg/repo/trader_config_repo.go

The repository runs against Postgres through the table models of
`internal/model`. The database is a pair of tables held as lists of rows; the
statements the code issues are functions on it. What the environment decides (the
clock, the JSON library, whether a statement fails in the driver) is a parameter
of every operation. -/

/-- Embedding of `TraderConfigRecord`. -/
structure TraderConfigRecord where
  ID : String
  ExchangeProvider : String
  MarketProvider : String
  AllocationPct : ℚ
  Detail : String
  CreatedBy : String
  ChangeReason : String

/-- Embedding of `ConfigSyncResult`. -/
structure ConfigSyncResult where
  Inserted : List String
  Updated : List String
  Unchanged : List String
  deriving DecidableEq, Repr

/-- Embedding of `configSyncAction` and its three constants. -/
inductive configSyncAction where
  | configUnchanged
  | configInserted
  | configUpdated
  deriving DecidableEq, Repr

/-- Modelled from the spec: a row of table `trader_config` (§3 TraderConfig, §6), the
struct `model.TraderConfig` whose generated declaration is missing, with the
columns `InsertTx` writes; `created_at` and `updated_at`, which the database fills
in, are left out. A `sql.NullString` is an option. -/
structure TraderConfig where
  Id : String
  Version : Int
  ExchangeProvider : String
  MarketProvider : String
  AllocationPct : ℚ
  Detail : String
  CreatedBy : Option String

/-- Modelled from the spec: a row of table `trader_config_history` (§4.9, §6), the
struct `model.TraderConfigHistory` whose generated declaration is missing, with the
columns `InsertTx` writes. -/
structure TraderConfigHistory where
  TraderId : String
  Version : Int
  ConfigSnapshot : String
  ChangedFields : List String
  ChangeReason : Option String
  ChangedBy : Option String
  ChangedAt : Int

/-- The two tables the repository writes. -/
structure DB where
  traderConfig : List TraderConfig
  traderConfigHistory : List TraderConfigHistory

/-- The errors `syncOne` can return. -/
inductive RepoError where
  | missingID
  | normalizeDetail (id : String) (cause : String)
  | ErrNotFound
  | ErrNilDB
  | driver (msg : String)
  deriving DecidableEq, Repr

/-- The statements and calls at which the database, its driver or the row cache
can fail. -/
inductive DbOp where
  | findOne (id : String)
  | beginTx
  | insertConfig (id : String)
  | updateConfig (id : String)
  | insertHistory (id : String) (version : Int)
  | delCache (id : String)
  | commit
  deriving DecidableEq, Repr

/-- The parts of `encoding/json` that `normalizeDetail` calls: `json.Unmarshal` into
an untyped value and `json.Marshal` of that value. -/
structure JsonLib where
  Value : Type
  unmarshal : String → Except String Value
  marshal : Value → Except String String

/-- What the environment of a repository call fixes: the reading of `time.Now()`,
whether the `*sql.DB` handle is nil, the failure (if any) the driver reports for an
operation, and the JSON library. -/
structure RepoEnv where
  now : Int
  dbNil : Bool
  fault : DbOp → Option String
  json : JsonLib

/-- Embedding of `ConfigSyncResult.recordInserted`. -/
def ConfigSyncResult.recordInserted (r : ConfigSyncResult) (id : String) : ConfigSyncResult :=
  { r with Inserted := r.Inserted ++ [id] }

/-- Embedding of `ConfigSyncResult.recordUpdated`. -/
def ConfigSyncResult.recordUpdated (r : ConfigSyncResult) (id : String) : ConfigSyncResult :=
  { r with Updated := r.Updated ++ [id] }

/-- Embedding of `ConfigSyncResult.recordUnchanged`. -/
def ConfigSyncResult.recordUnchanged (r : ConfigSyncResult) (id : String) : ConfigSyncResult :=
  { r with Unchanged := r.Unchanged ++ [id] }

/-- Embedding of `normalizeDetail`. -/
def normalizeDetail (json : JsonLib) (raw : String) : Except String String :=
  let trimmed := goTrimSpace raw
  if trimmed.length = 0 then Except.ok "\x7b\x7d"
  else
    match json.unmarshal trimmed with
    | Except.error e => Except.error e
    | Except.ok payload =>
      match json.marshal payload with
      | Except.error e => Except.error e
      | Except.ok canonical => Except.ok canonical

/-- Modelled from the spec: `TraderConfigModel.FindOne`, whose generated
implementation is missing: the row of `trader_config` with the given id, or
`ErrNotFound`. -/
def findOne (env : RepoEnv) (db : DB) (id : String) : Except RepoError TraderConfig :=
  match env.fault (DbOp.findOne id) with
  | some msg => Except.error (RepoError.driver msg)
  | none =>
    match db.traderConfig.find? (fun row => decide (row.Id = id)) with
    | some row => Except.ok row
    | none => Except.error RepoError.ErrNotFound

/-- Embedding of `customTraderConfigModel.InsertTx`: the `insert` statement (refused
by the primary key when the id is already stored), then the cache delete. The
transaction handle is the one `withTx` opened, never nil. -/
def insertConfigTx (env : RepoEnv) (db : DB) (data : TraderConfig) : Except RepoError DB :=
  match env.fault (DbOp.insertConfig data.Id) with
  | some msg => Except.error (RepoError.driver msg)
  | none =>
    if db.traderConfig.any (fun row => decide (row.Id = data.Id)) then
      Except.error (RepoError.driver "duplicate key value violates unique constraint")
    else
      match env.fault (DbOp.delCache data.Id) with
      | some msg => Except.error (RepoError.driver msg)
      | none => Except.ok { db with traderConfig := db.traderConfig ++ [data] }

/-- Embedding of `customTraderConfigModel.UpdateTx`: the `update ... where id = $1`
statement, which sets version, providers, allocation and detail, then the cache
delete. -/
def updateConfigTx (env : RepoEnv) (db : DB) (data : TraderConfig) : Except RepoError DB :=
  match env.fault (DbOp.updateConfig data.Id) with
  | some msg => Except.error (RepoError.driver msg)
  | none =>
    match env.fault (DbOp.delCache data.Id) with
    | some msg => Except.error (RepoError.driver msg)
    | none =>
      Except.ok
        { db with
          traderConfig := db.traderConfig.map (fun row =>
            if row.Id = data.Id then
              { row with
                Version := data.Version
                ExchangeProvider := data.ExchangeProvider
                MarketProvider := data.MarketProvider
                AllocationPct := data.AllocationPct
                Detail := data.Detail }
            else row) }

/-- Embedding of `customTraderConfigHistoryModel.InsertTx`. -/
def insertHistoryTx (env : RepoEnv) (db : DB) (data : TraderConfigHistory) :
    Except RepoError DB :=
  match env.fault (DbOp.insertHistory data.TraderId data.Version) with
  | some msg => Except.error (RepoError.driver msg)
  | none => Except.ok { db with traderConfigHistory := db.traderConfigHistory ++ [data] }

/-- Embedding of `withTx`: the error of the transaction and the database after it;
the writes of `fn` are kept only when `fn` and the commit succeed. -/
def withTx (env : RepoEnv) (db : DB) (fn : DB → Except RepoError DB) :
    Option RepoError × DB :=
  if env.dbNil then (some RepoError.ErrNilDB, db)
  else
    match env.fault DbOp.beginTx with
    | some msg => (some (RepoError.driver msg), db)
    | none =>
      match fn db with
      | Except.error e => (some e, db)
      | Except.ok db1 =>
        match env.fault DbOp.commit with
        | some msg => (some (RepoError.driver msg), db)
        | none => (none, db1)

/-- Embedding of `buildConfigRow`. -/
def buildConfigRow (rec : TraderConfigRecord) (detail : String) (version : Int) :
    TraderConfig :=
  { Id := rec.ID
    Version := version
    ExchangeProvider := rec.ExchangeProvider
    MarketProvider := rec.MarketProvider
    AllocationPct := rec.AllocationPct
    Detail := detail
    CreatedBy := if goTrimSpace rec.CreatedBy ≠ "" then some rec.CreatedBy else none }

/-- Embedding of `buildHistoryRow`, reading the clock as `now`. -/
def buildHistoryRow (now : Int) (row : TraderConfig) (changedFields : List String)
    (rec : TraderConfigRecord) : TraderConfigHistory :=
  { TraderId := row.Id
    Version := row.Version
    ConfigSnapshot := row.Detail
    ChangedAt := now
    ChangedFields := if changedFields.length > 0 then changedFields else []
    ChangeReason :=
      if goTrimSpace rec.ChangeReason ≠ "" then some (goTrimSpace rec.ChangeReason) else none
    ChangedBy :=
      if goTrimSpace rec.CreatedBy ≠ "" then some (goTrimSpace rec.CreatedBy) else none }

/-- The de-duplication loop of `computeChangedFields`: drop each field equal to the
last one kept (`last` starts as the empty string). -/
def dedupeLoop : String → List String → List String
  | _, [] => []
  | last, field :: rest =>
    if field = last then dedupeLoop last rest
    else field :: dedupeLoop field rest

/-- Embedding of `computeChangedFields`; `sort.Strings` is an insertion sort. -/
def computeChangedFields (existing : TraderConfig) (rec : TraderConfigRecord)
    (detail : String) : List String :=
  let changed0 : List String := []
  let changed1 :=
    if existing.ExchangeProvider ≠ rec.ExchangeProvider then changed0 ++ ["exchange_provider"]
    else changed0
  let changed2 :=
    if existing.MarketProvider ≠ rec.MarketProvider then changed1 ++ ["market_provider"]
    else changed1
  let changed3 :=
    if existing.AllocationPct ≠ rec.AllocationPct then changed2 ++ ["allocation_pct"]
    else changed2
  let changed4 :=
    if goTrimSpace existing.Detail ≠ detail then changed3 ++ ["detail"]
    else changed3
  if changed4.length = 0 then []
  else dedupeLoop "" (changed4.insertionSort (fun a b => a ≤ b))

/-- Embedding of `traderConfigRepo.syncOne`: the action and error it returns and the
database after the call. -/
def syncOne (env : RepoEnv) (db : DB) (rec : TraderConfigRecord) :
    (configSyncAction × Option RepoError) × DB :=
  if goTrimSpace rec.ID = "" then
    ((configSyncAction.configUnchanged, some RepoError.missingID), db)
  else
    match normalizeDetail env.json rec.Detail with
    | Except.error e =>
      ((configSyncAction.configUnchanged, some (RepoError.normalizeDetail rec.ID e)), db)
    | Except.ok detail =>
      match findOne env db rec.ID with
      | Except.error RepoError.ErrNotFound =>
        let row := buildConfigRow rec detail 1
        let history := buildHistoryRow env.now row
          ["exchange_provider", "market_provider", "allocation_pct", "detail"] rec
        match withTx env db (fun tx =>
            match insertConfigTx env tx row with
            | Except.error e => Except.error e
            | Except.ok tx1 => insertHistoryTx env tx1 history) with
        | (some e, db1) => ((configSyncAction.configUnchanged, some e), db1)
        | (none, db1) => ((configSyncAction.configInserted, none), db1)
      | Except.error e => ((configSyncAction.configUnchanged, some e), db)
      | Except.ok existing =>
        let changes := computeChangedFields existing rec detail
        if changes.length = 0 then ((configSyncAction.configUnchanged, none), db)
        else
          let row := buildConfigRow rec detail (existing.Version + 1)
          let history := buildHistoryRow env.now row changes rec
          match withTx env db (fun tx =>
              match updateConfigTx env tx row with
              | Except.error e => Except.error e
              | Except.ok tx1 => insertHistoryTx env tx1 history) with
          | (some e, db1) => ((configSyncAction.configUnchanged, some e), db1)
          | (none, db1) => ((configSyncAction.configUpdated, none), db1)

/-- The loop of `traderConfigRepo.Sync` over the records still to process, with the
summary built so far. -/
def syncLoop (env : RepoEnv) :
    DB → ConfigSyncResult → List TraderConfigRecord → (ConfigSyncResult × Option RepoError) × DB
  | db, summary, [] => ((summary, none), db)
  | db, summary, rec :: rest =>
    match syncOne env db rec with
    | ((_, some err), db1) => ((summary, some err), db1)
    | ((configSyncAction.configInserted, none), db1) =>
      syncLoop env db1 (summary.recordInserted rec.ID) rest
    | ((configSyncAction.configUpdated, none), db1) =>
      syncLoop env db1 (summary.recordUpdated rec.ID) rest
    | ((configSyncAction.configUnchanged, none), db1) =>
      syncLoop env db1 (summary.recordUnchanged rec.ID) rest

/-- Embedding of `traderConfigRepo.Sync`: the summary and error it returns and the
database after the call. -/
def Sync (env : RepoEnv) (db : DB) (records : List TraderConfigRecord) :
    (ConfigSyncResult × Option RepoError) × DB :=
  let summary : ConfigSyncResult := { Inserted := [], Updated := [], Unchanged := [] }
  if records.length = 0 then ((summary, none), db)
  else syncLoop env db summary records

/-- A stand-in for `encoding/json` on the sample records: text between braces
parses, and is written back with all whitespace removed. -/
def sampleJson : JsonLib :=
  { Value := String
    unmarshal := fun s =>
      if s.data.head? = some (Char.ofNat 123) ∧ s.data.getLast? = some (Char.ofNat 125) then Except.ok s
      else Except.error "invalid character looking for beginning of value"
    marshal := fun v => Except.ok (String.mk (v.data.filter (fun c => !isSpace c))) }

/-- An environment in which no database operation fails. -/
def sampleEnv : RepoEnv :=
  { now := testStart, dbNil := false, fault := fun _ => none, json := sampleJson }

/-- The environment `sampleEnv` with the driver failing the history insert. -/
def historyFailEnv : RepoEnv :=
  { sampleEnv with
    fault := fun op =>
      match op with
      | DbOp.insertHistory _ _ => some "connection reset"
      | _ => none }

/-- A sample record for trader `t1`. -/
def sampleRecord : TraderConfigRecord :=
  { ID := "t1", ExchangeProvider := "hyperliquid", MarketProvider := "hl_market",
    AllocationPct := 40, Detail := " \x7b \"id\" : \"t1\" \x7d ", CreatedBy := "ops",
    ChangeReason := "initial sync" }

/-- The empty database. -/
def emptyDB : DB :=
  { traderConfig := [], traderConfigHistory := [] }

/-- The invariant of table `trader_config` that `syncOne` maintains: no stored row
has a blank id. -/
def storedIdsNonBlank (db : DB) : Prop :=
  ∀ row ∈ db.traderConfig, goTrimSpace row.Id ≠ ""

/-- The database a successful insert transaction of `syncOne` leaves: the two new
rows appended to their tables. -/
def withInserted (db : DB) (row : TraderConfig) (history : TraderConfigHistory) : DB :=
  { traderConfig := db.traderConfig ++ [row]
    traderConfigHistory := db.traderConfigHistory ++ [history] }

/-- The changed-field list `syncOne` records for a new trader. -/
def insertedFields : List String :=
  ["exchange_provider", "market_provider", "allocation_pct", "detail"]

/-- The rows of `trader_config` after the `update` statement of `UpdateTx` for `data`. -/
def updatedConfigRows (rows : List TraderConfig) (data : TraderConfig) : List TraderConfig :=
  rows.map (fun row =>
    if row.Id = data.Id then
      { row with
        Version := data.Version
        ExchangeProvider := data.ExchangeProvider
        MarketProvider := data.MarketProvider
        AllocationPct := data.AllocationPct
        Detail := data.Detail }
    else row)

/-- The database a successful update transaction of `syncOne` leaves: the stored row
rewritten and the history row appended. -/
def withUpdated (db : DB) (row : TraderConfig) (history : TraderConfigHistory) : DB :=
  { traderConfig := updatedConfigRows db.traderConfig row
    traderConfigHistory := db.traderConfigHistory ++ [history] }

/-- The columns among the four compared ones in which the stored row differs from the
record, in ascending order of their names. -/
def differingColumns (existing : TraderConfig) (rec : TraderConfigRecord) (detail : String) :
    List String :=
  (if existing.AllocationPct ≠ rec.AllocationPct then ["allocation_pct"] else []) ++
  (if goTrimSpace existing.Detail ≠ detail then ["detail"] else []) ++
  (if existing.ExchangeProvider ≠ rec.ExchangeProvider then ["exchange_provider"] else []) ++
  (if existing.MarketProvider ≠ rec.MarketProvider then ["market_provider"] else [])

/-- The sample record with its allocation and exchange provider changed. -/
def sampleRecordChanged : TraderConfigRecord :=
  { sampleRecord with AllocationPct := 50, ExchangeProvider := "sim", ChangeReason := "rebalance" }

/-- The database after a first `Sync` of the sample record. -/
def sampleDBSynced : DB :=
  (Sync sampleEnv emptyDB [sampleRecord]).2

/-! ## pkg/journal/reader.go

The file system the reader runs on is a parameter: what `os.ReadDir` and
`os.ReadFile` return, how `filepath.Join` prefixes an entry name, and how
`json.Unmarshal` decodes a cycle record. -/

/-- A directory entry as `os.ReadDir` reports it: its name and whether it is a
directory. -/
structure DirEntry where
  Name : String
  IsDir : Bool
  deriving DecidableEq, Repr

/-- The errors of the journal reader, each wrapping its cause. -/
inductive JournalError where
  | listDir (dir : String) (cause : String)
  | read (path : String) (cause : String)
  | decode (path : String) (cause : String)
  deriving DecidableEq, Repr

/-- The environment of the journal reader. `joinPrefix dir` is what
`filepath.Join(dir, name)` puts before a directory entry name (the cleaned directory
and its separator; an entry name is one path element that `Join` leaves as it is).
`Record` is the type of a decoded `CycleRecord`. -/
structure JournalEnv (Record : Type) where
  readDir : String → Except String (List DirEntry)
  joinPrefix : String → String
  readFile : String → Except String String
  unmarshal : String → Except String Record

/-- Embedding of `journal.Reader`. -/
structure Reader where
  dir : String

/-- Embedding of `NewReader`. -/
def NewReader (dir : String) : Reader :=
  if goTrimSpace dir = "" then { dir := "journal" } else { dir := dir }

/-- The result type of `Reader.List`: the paths or an error. -/
abbrev ListedFiles : Type := Except JournalError (List String)

/-- The result type of `Reader.Latest`: the decoded records or an error. -/
abbrev LoadedRecords (Record : Type) : Type := Except JournalError (List Record)

/-- Embedding of `strings.HasPrefix`. -/
def goHasPrefix (s pre : String) : Bool :=
  pre.data.isPrefixOf s.data

/-- Embedding of `strings.HasSuffix`. -/
def goHasSuffix (s suf : String) : Bool :=
  suf.data.isSuffixOf s.data

/-- The loop of `Reader.List` over the directory entries: the joined paths of the
entries that are kept, in directory order. -/
def collectCycleFiles {Record : Type} (env : JournalEnv Record) (dir : String) :
    List DirEntry → List String
  | [] => []
  | ent :: rest =>
    if ent.IsDir then collectCycleFiles env dir rest
    else if !goHasPrefix ent.Name "cycle_" || !goHasSuffix ent.Name ".json" then
      collectCycleFiles env dir rest
    else (env.joinPrefix dir ++ ent.Name) :: collectCycleFiles env dir rest

/-- Embedding of `Reader.List`; `sort.Strings` is an insertion sort. -/
def Reader.List {Record : Type} (env : JournalEnv Record) (r : Reader) (limit : Int) :
    ListedFiles :=
  match env.readDir r.dir with
  | Except.error e => Except.error (JournalError.listDir r.dir e)
  | Except.ok entries =>
    let files := (collectCycleFiles env r.dir entries).insertionSort (fun a b => a ≤ b)
    if limit > 0 ∧ (files.length : Int) > limit then
      Except.ok (files.drop (files.length - limit.toNat))
    else Except.ok files

/-- Embedding of `Reader.Load`. -/
def Reader.Load {Record : Type} (env : JournalEnv Record) (_r : Reader) (path : String) :
    Except JournalError Record :=
  match env.readFile path with
  | Except.error e => Except.error (JournalError.read path e)
  | Except.ok data =>
    match env.unmarshal data with
    | Except.error e => Except.error (JournalError.decode path e)
    | Except.ok rec => Except.ok rec

/-- The loop of `Reader.Latest` over the listed files: the records loaded so far are
dropped when a file fails to load. -/
def loadCycleFiles {Record : Type} (env : JournalEnv Record) (r : Reader) :
    List String → LoadedRecords Record
  | [] => Except.ok []
  | path :: rest =>
    match r.Load env path with
    | Except.error e => Except.error e
    | Except.ok rec =>
      match loadCycleFiles env r rest with
      | Except.error e => Except.error e
      | Except.ok out => Except.ok (rec :: out)

/-- Embedding of `Reader.Latest`. -/
def Reader.Latest {Record : Type} (env : JournalEnv Record) (r : Reader) (limit : Int) :
    LoadedRecords Record :=
  match r.List env limit with
  | Except.error e => Except.error e
  | Except.ok files => loadCycleFiles env r files

/-- Whether `Reader.List` keeps a directory entry: a non-directory whose name starts
with `cycle_` and ends with `.json`. -/
def isCycleFile (ent : DirEntry) : Bool :=
  !ent.IsDir && goHasPrefix ent.Name "cycle_" && goHasSuffix ent.Name ".json"

/-- The names of the cycle files of a directory listing, sorted ascending. -/
def sortedCycleNames (entries : List DirEntry) : List String :=
  ((entries.filter isCycleFile).map (fun ent => ent.Name)).insertionSort (fun a b => a ≤ b)

/-- The directory of `TestReaderLatest`: two cycle files and `notes.txt`, in the
order `os.ReadDir` lists them. -/
def testJournalEntries : List DirEntry :=
  [{ Name := "cycle_20250101_000001.json", IsDir := false },
   { Name := "cycle_20250102_000001.json", IsDir := false },
   { Name := "notes.txt", IsDir := false }]

/-- The file system of `TestReaderLatest` under directory `tmp`: each cycle file
holds the trader id of its record, and a record decodes to that id. -/
def testJournalEnv : JournalEnv String :=
  { readDir := fun dir =>
      if dir = "tmp" then Except.ok testJournalEntries
      else Except.error "no such file or directory"
    joinPrefix := fun dir => dir ++ "/"
    readFile := fun path =>
      if path = "tmp/cycle_20250101_000001.json" then Except.ok "t1"
      else if path = "tmp/cycle_20250102_000001.json" then Except.ok "t2"
      else if path = "tmp/notes.txt" then Except.ok ""
      else Except.error "no such file or directory"
    unmarshal := fun data =>
      if data = "" then Except.error "unexpected end of JSON input" else Except.ok data }

/-- The file system of the test with the older cycle file unreadable as a record. -/
def brokenJournalEnv : JournalEnv String :=
  { testJournalEnv with
    readFile := fun path =>
      if path = "tmp/cycle_20250101_000001.json" then Except.ok ""
      else testJournalEnv.readFile path }

/-! ## internal/persistence/engine/persistence.go: events, ids and quantities

The declarations of package `manager` that the persistence service reads
(`PositionEvent`, `DecisionCycleRecord`, `AccountSyncSnapshot`) and the generated
row structs of `internal/model` are not among the sources; they are given here with
the fields `persistence.go` reads and writes. A JSON `detail` column is kept as the
value its text decodes to. -/

/-- Embedding of `exchange.FilledOrder`. -/
structure FilledOrder where
  TotalSz : String
  AvgPx : String
  Oid : Int
  deriving DecidableEq, Repr

/-- Embedding of `exchange.RestingOrder`. -/
structure RestingOrder where
  Oid : Int
  deriving DecidableEq, Repr

/-- Embedding of `exchange.OrderStatusResponse`. -/
structure OrderStatusResponse where
  Resting : Option RestingOrder
  Filled : Option FilledOrder
  Error : String
  deriving DecidableEq, Repr

/-- Embedding of `exchange.OrderResponseDataDetail`. -/
structure OrderResponseDataDetail where
  Statuses : List OrderStatusResponse
  deriving DecidableEq, Repr

/-- Embedding of `exchange.OrderResponseData`. -/
structure OrderResponseData where
  Type_ : String
  Data : OrderResponseDataDetail
  deriving DecidableEq, Repr

/-- Embedding of `exchange.OrderResponse`. -/
structure OrderResponse where
  Status : String
  Response : OrderResponseData
  ErrorMessage : String
  deriving DecidableEq, Repr

/-- The kinds of position event `RecordPositionEvent` switches on. -/
inductive PositionEventKind where
  | PositionEventOpen
  | PositionEventClose
  | other
  deriving DecidableEq, Repr

/-- Modelled from the spec: the trader an event points to (§3 VirtualTrader), with the
two fields `normalizedModelID` and `traderExchange` read; the declaration is
missing. -/
structure EventTrader where
  ID : String
  Exchange : String

/-- Modelled from the spec: the `PositionEvent` the manager hands to
`RecordPositionEvent(open|close)` (§4.8), with the fields `persistence.go` reads; its
declaration in package `manager` is missing. -/
structure PositionEvent where
  TraderID : String
  Trader : Option EventTrader
  Decision : Decision
  Event : PositionEventKind
  FillPrice : ℚ
  FillSize : ℚ
  ExchangeResponse : Option OrderResponse
  OccurredAt : Int

/-- Nanoseconds between Go's zero time and the Unix epoch. -/
def unixEpochNanos : Int := 719162 * nanosPerDay

/-- Embedding of `t.UTC().UnixNano()`. -/
def unixNano (t : Int) : Int := t - unixEpochNanos

/-- Embedding of `t.UTC().UnixMilli()`. -/
def unixMilli (t : Int) : Int := (t - unixEpochNanos) / 1000000

/-- Embedding of `normalizedModelID`. -/
def normalizedModelID (event : PositionEvent) : String :=
  if goTrimSpace event.TraderID ≠ "" then event.TraderID
  else
    match event.Trader with
    | some trader => trader.ID
    | none => ""

/-- Embedding of `traderExchange`. -/
def traderExchange (event : PositionEvent) : String :=
  match event.Trader with
  | some trader => if goTrimSpace trader.Exchange ≠ "" then trader.Exchange else "unknown"
  | none => "unknown"

/-- Embedding of `positionID`: `fmt.Sprintf("%s|%s", ...)`. -/
def positionID (modelID symbol : String) : String :=
  goTrimSpace modelID ++ "|" ++ goToUpper (goTrimSpace symbol)

/-- Embedding of `buildTradeID`: `fmt.Sprintf("%s|%s|%d", ...)`. -/
def buildTradeID (modelID symbol : String) (closeTime : Int) : String :=
  modelID ++ "|" ++ goToUpper (goTrimSpace symbol) ++ "|" ++ toString (unixNano closeTime)

/-- Embedding of `extractFill`, with `strconv.ParseFloat` as `parseFloat`: the average
price and total size of the first filled status. -/
def extractFill (parseFloat : String → Option ℚ) (resp : Option OrderResponse) :
    ℚ × ℚ × Bool :=
  match resp with
  | none => (0, 0, false)
  | some r =>
    match r.Response.Data.Statuses.find? (fun status => status.Filled.isSome) with
    | none => (0, 0, false)
    | some status =>
      match status.Filled with
      | none => (0, 0, false)
      | some filled =>
        ((parseFloat filled.AvgPx).getD 0, (parseFloat filled.TotalSz).getD 0, true)

/-- Embedding of `effectivePrice`. -/
def effectivePrice (parseFloat : String → Option ℚ) (event : PositionEvent) : ℚ :=
  if event.FillPrice > 0 then event.FillPrice
  else if event.Decision.EntryPrice > 0 then event.Decision.EntryPrice
  else
    let fill := extractFill parseFloat event.ExchangeResponse
    if fill.2.2 = true ∧ fill.1 > 0 then fill.1
    else 0

/-- Embedding of `effectiveQuantity`; a rational quotient is never infinite or NaN. -/
def effectiveQuantity (parseFloat : String → Option ℚ) (event : PositionEvent) (price : ℚ) :
    ℚ :=
  if event.FillSize > 0 then event.FillSize
  else if price > 0 ∧ event.Decision.PositionSizeUSD > 0 ∧
      event.Decision.PositionSizeUSD / price > 0 then
    event.Decision.PositionSizeUSD / price
  else
    let fill := extractFill parseFloat event.ExchangeResponse
    if fill.2.2 = true ∧ fill.2.1 > 0 then fill.2.1
    else if event.Decision.PositionSizeUSD > 0 then event.Decision.PositionSizeUSD
    else 0

/-- The characters `strings.EqualFold` identifies with an ASCII letter beyond its two
cases: the long s with `s` and the Kelvin sign with `k`. -/
def foldChar (c : Char) : Char :=
  if c.toNat = 0x17F then 's'
  else if c.toNat = 0x212A then 'k'
  else c.toLower

/-- Embedding of `strings.EqualFold` for comparisons against ASCII text: equality
under Unicode simple case folding, whose classes of ASCII letters are folded by
`foldChar`. -/
def goEqualFold (s t : String) : Bool :=
  s.data.map foldChar == t.data.map foldChar

/-- Embedding of `positionEntryDetail`. -/
structure positionEntryDetail where
  Price : ℚ
  Quantity : ℚ
  TimeMs : Int
  Leverage : ℚ

/-- Embedding of `positionExchangeDetail`. -/
structure positionExchangeDetail where
  Provider : String

/-- Embedding of `positionRiskDetail`. -/
structure positionRiskDetail where
  Confidence : ℚ
  RiskUSD : ℚ

/-- Embedding of `positionCloseDetail`. -/
structure positionCloseDetail where
  Price : ℚ
  TimeMs : Int
  Quantity : ℚ
  PnL : ℚ

/-- Embedding of `positionMetricsDetail`. -/
structure positionMetricsDetail where
  UnrealizedPnL : ℚ

/-- Embedding of `positionDetail`, the value of a position row's `detail` JSON. -/
structure positionDetail where
  Entry : positionEntryDetail
  Exchange : positionExchangeDetail
  Risk : positionRiskDetail
  Close : Option positionCloseDetail
  Metrics : positionMetricsDetail

/-- The zero value `positionDetail{}`, which `decodePositionDetail` returns for blank
or undecodable text. -/
def positionDetail.zero : positionDetail :=
  { Entry := { Price := 0, Quantity := 0, TimeMs := 0, Leverage := 0 }
    Exchange := { Provider := "" }
    Risk := { Confidence := 0, RiskUSD := 0 }
    Close := none
    Metrics := { UnrealizedPnL := 0 } }

/-- Embedding of `positionDetailInput`. -/
structure positionDetailInput where
  Price : ℚ
  Quantity : ℚ
  TimeMs : Int
  Leverage : ℚ
  Confidence : ℚ
  RiskUSD : ℚ
  Exchange : String
  Orientation : String

/-- Embedding of `buildPositionDetail`: the detail value whose JSON is stored. -/
def buildPositionDetail (input : positionDetailInput) : positionDetail :=
  { Entry := { Price := input.Price, Quantity := input.Quantity, TimeMs := input.TimeMs,
               Leverage := input.Leverage }
    Exchange := { Provider := goTrimSpace input.Exchange }
    Risk := { Confidence := input.Confidence, RiskUSD := input.RiskUSD }
    Close := none
    Metrics := { UnrealizedPnL := 0 } }

/-- Embedding of `updatePositionDetailOnClose` on the decoded detail (`none` for the
empty text passed when no row exists). -/
def updatePositionDetailOnClose (raw : Option positionDetail) (closeInfo : positionCloseDetail) :
    positionDetail :=
  { (raw.getD positionDetail.zero) with Close := some closeInfo }

/-- Embedding of `tradeDetail`, the value of a trade row's `detail` JSON (the nested
anonymous structs flattened). -/
structure tradeDetail where
  TimeOpenTsMs : Int
  TimeCloseTsMs : Int
  TimeDurationSeconds : Int
  PricesEntry : ℚ
  PricesExit : ℚ
  QuantityTotal : ℚ
  RiskConfidence : ℚ
  RiskLeverage : ℚ
  ExchangeProvider : String
  PnLNet : ℚ

/-- Embedding of `tradeDetailInput`. -/
structure tradeDetailInput where
  EntryPrice : ℚ
  ExitPrice : ℚ
  EntryTimeMs : Int
  CloseTimeMs : Int
  Quantity : ℚ
  Confidence : ℚ
  Leverage : ℚ
  Exchange : String
  PnL : ℚ

/-- Embedding of `buildTradeDetail`: the detail value whose JSON is stored. -/
def buildTradeDetail (input : tradeDetailInput) : tradeDetail :=
  { TimeOpenTsMs := input.EntryTimeMs
    TimeCloseTsMs := input.CloseTimeMs
    TimeDurationSeconds :=
      if input.CloseTimeMs > 0 ∧ input.EntryTimeMs > 0 ∧
          input.CloseTimeMs - input.EntryTimeMs > 0 then
        (input.CloseTimeMs - input.EntryTimeMs) / 1000
      else 0
    PricesEntry := input.EntryPrice
    PricesExit := input.ExitPrice
    QuantityTotal := input.Quantity
    RiskConfidence := input.Confidence
    RiskLeverage := input.Leverage
    ExchangeProvider := goTrimSpace input.Exchange
    PnLNet := input.PnL }

/-- Modelled from the spec: a row of table `positions` (§4.8, §6), the struct
`model.Positions` whose generated declaration is missing, with the columns
`handleOpenPosition` writes; `detail` holds the decoded `positionDetail`. -/
structure Positions where
  Id : String
  TraderId : String
  Symbol : String
  Side : String
  Status : String
  Detail : positionDetail

/-- Modelled from the spec: a row of table `trades` (§4.8, §6), the struct
`model.Trades` whose generated declaration is missing, with the fields `insertTrade`
sets; `detail` holds the decoded `tradeDetail`. -/
structure Trades where
  Id : String
  TraderId : String
  Symbol : String
  Side : String
  CloseTsMs : Int
  Detail : tradeDetail

/-- The values `handleClosePosition` derives from the event and the stored row before
it writes: close price and quantity after their fallbacks, the quantity used for the
PnL, and the PnL (a `sql.NullFloat64`). -/
structure CloseNumbers where
  closePrice : ℚ
  qty : ℚ
  qtyForPnl : ℚ
  pnl : Option ℚ

/-- Embedding of the computation of `handleClosePosition` between the row lookup and
the writes; `existing` is the row `FindOne` returned, if any. -/
def closeNumbers (parseFloat : String → Option ℚ) (existing : Option Positions)
    (event : PositionEvent) : CloseNumbers :=
  let existingDetail : positionDetail :=
    match existing with
    | some pos => pos.Detail
    | none => positionDetail.zero
  let closePrice0 := effectivePrice parseFloat event
  let closePrice :=
    if closePrice0 ≤ 0 ∧ existing.isSome = true ∧ existingDetail.Entry.Price > 0 then
      existingDetail.Entry.Price
    else closePrice0
  let qty0 := effectiveQuantity parseFloat event closePrice
  let qty :=
    if qty0 ≤ 0 ∧ existing.isSome = true ∧ existingDetail.Entry.Quantity > 0 then
      existingDetail.Entry.Quantity
    else qty0
  let qtyForPnl :=
    if qty ≤ 0 ∧ existing.isSome = true then existingDetail.Entry.Quantity
    else qty
  let pnl : Option ℚ :=
    match existing with
    | some pos =>
      if closePrice > 0 ∧ existingDetail.Entry.Price > 0 ∧ qtyForPnl > 0 then
        let sign : ℚ := if goEqualFold pos.Side "short" then -1 else 1
        some (sign * (closePrice - existingDetail.Entry.Price) * qtyForPnl)
      else none
    | none => none
  { closePrice := closePrice, qty := qty, qtyForPnl := qtyForPnl, pnl := pnl }

/-- The value recorded for a PnL: the number when one was computed, else 0. -/
def pnlOrZero (pnl : Option ℚ) : ℚ :=
  match pnl with
  | some value => value
  | none => 0

/-! ## internal/persistence/engine/persistence.go: tables, caches and the service -/

/-- Embedding of `positionCacheEntry`. -/
structure positionCacheEntry where
  Symbol : String
  Side : String
  Quantity : ℚ
  EntryPrice : ℚ
  Leverage : ℚ
  Confidence : ℚ
  RiskUSD : ℚ
  UpdatedAtMs : Int
  Exchange : String

/-- Embedding of `tradeCacheEntry`. -/
structure tradeCacheEntry where
  ModelID : String
  Symbol : String
  Side : String
  Quantity : ℚ
  EntryPrice : ℚ
  ExitPrice : ℚ
  RealizedPnL : ℚ
  Confidence : ℚ
  ClosedAtMs : Int
  Exchange : String
  EntryTimeMs : Int
  Leverage : ℚ
  PositionSize : ℚ

/-- Embedding of `decisionCacheEntry`. -/
structure decisionCacheEntry where
  ModelID : String
  ConfigVersion : Int
  Success : Bool
  Timestamp : Int
  Symbol : String
  Action : String
  Confidence : Int
  Error : String

/-- Modelled from the spec: a row of table `account_equity_snapshots` (§4.8, §6), the
struct `model.AccountEquitySnapshots` whose generated declaration is missing, with the
fields `RecordAccountSnapshot` sets. A `sql.NullFloat64` is an option. -/
structure AccountEquitySnapshots where
  Id : Int
  ModelId : String
  TsMs : Int
  DollarEquity : ℚ
  RealizedPnl : ℚ
  TotalUnrealizedPnl : ℚ
  Metadata : String
  CumPnlPct : Option ℚ
  SharpeRatio : Option ℚ

/-- Modelled from the spec: a row of table `decision_cycles` (§4.8, §6), the struct
`model.DecisionCycles` whose generated declaration is missing, with the fields
`RecordDecisionCycle` sets. -/
structure DecisionCycles where
  ModelId : String
  Success : Bool
  ConfigVersion : Int
  ExecutedAt : Int
  CycleNumber : Option Int
  PromptDigest : Option String
  CotTrace : Option String
  Decisions : Option String
  ErrorMessage : Option String

/-- The errors the database and the cache return to the service. `pq` is a
`*pq.Error` with its SQLSTATE code. -/
inductive PersistError where
  | pq (code : String)
  | ErrNotFound
  | other (msg : String)
  deriving DecidableEq, Repr

/-- Embedding of `isUniqueViolation`. -/
def isUniqueViolation (err : Option PersistError) : Bool :=
  match err with
  | some (PersistError.pq code) => decide (code = "23505")
  | _ => false

/-- A value of Go type `any` as `cacheDecisionSummary` and `replay.go` inspect it: a
string, an `int` or `int64`, a `float64` or `float32`, a `json.Number`, or something
else. -/
inductive AnyValue where
  | str (s : String)
  | int (n : Int)
  | float (q : ℚ)
  | number (literal : String)
  | other
  deriving DecidableEq

/-- The database statements and cache calls at which the environment can fail. -/
inductive PersistOp where
  | findPosition (id : String)
  | upsertPosition (id : String)
  | closePosition (id : String)
  | insertTrade (id : String)
  | insertSnapshot (modelID : String) (tsMs : Int)
  | findSnapshot (modelID : String) (tsMs : Int)
  | updateSnapshot (id : Int)
  | insertDecision (modelID : String)
  | activeByModels
  | recentByModel (modelID : String)
  | lastDecision (modelID : String)
  | cacheGet (slot : String)
  | cacheSet (slot : String)
  | cacheDel (slot : String)
  deriving DecidableEq, Repr

/-- The four tables and three caches the claims are about. A cache maps a slot (the
hash field under Redis, the key under the in-process cache) to its payload. -/
structure PersistStore where
  positions : List Positions
  trades : List Trades
  snapshots : List AccountEquitySnapshots
  decisionCycles : List DecisionCycles
  positionsCache : List (String × List (String × positionCacheEntry))
  tradesCache : List (String × List tradeCacheEntry)
  decisionCache : List (String × decisionCacheEntry)

/-- What the environment of a `Service` call fixes: the clock, `strconv.ParseFloat`,
the metadata JSON encoder, which collaborators of the `Service` are non-nil, the
failure (if any) of each database and cache operation, the key functions and TTLs
of package `cachekeys` (not among the sources), and which pairs of rows the unique
constraint of table `decision_cycles` (whose schema is not among the sources)
refuses to hold together, and `json.Unmarshal` of a `decisions` column into
`[]map[string]any` (`none` when it fails). -/
structure PersistEnv where
  now : Int
  parseFloat : String → Option ℚ
  metaJSON : ℚ → ℚ → String
  sqlConn : Bool
  positionsModel : Bool
  tradesModel : Bool
  snapshotsModel : Bool
  decisionModel : Bool
  redis : Bool
  cache : Bool
  fault : PersistOp → Option PersistError
  traderHashField : String → String
  positionsHashKey : String → String
  tradesRecentKey : String → String
  decisionLastKey : String → String
  positionsTTL : Int
  tradesRecentTTL : Int
  decisionLastTTL : Int
  decisionConflict : DecisionCycles → DecisionCycles → Bool
  decodeDecisions : String → Option (List (List (String × AnyValue)))

/-- Embedding of `recentTradesLimit`. -/
def recentTradesLimit : Nat := 100

/-- Embedding of `defaultCacheTTL` (one minute, in nanoseconds). -/
def defaultCacheTTL : Int := 60 * 1000000000

/-- Embedding of `Service.ttlDuration`. -/
def ttlDuration (value : Int) : Int :=
  if value ≤ 0 then defaultCacheTTL else value

/-- The slot of a trader's positions payload. -/
def PersistEnv.positionsSlot (env : PersistEnv) (traderID : String) : String :=
  if env.redis then env.traderHashField traderID else env.positionsHashKey traderID

/-- The slot of a trader's recent-trades payload. -/
def PersistEnv.tradesSlot (env : PersistEnv) (traderID : String) : String :=
  if env.redis then env.traderHashField traderID else env.tradesRecentKey traderID

/-- The slot of a trader's last-decision entry. -/
def PersistEnv.decisionSlot (env : PersistEnv) (traderID : String) : String :=
  if env.redis then env.traderHashField traderID else env.decisionLastKey traderID

/-- Embedding of `Service.loadPositionsCache`: the cached map, empty when absent. -/
def loadPositionsCache (env : PersistEnv) (st : PersistStore) (traderID : String) :
    Except PersistError (List (String × positionCacheEntry)) :=
  if env.redis then
    if goTrimSpace (env.traderHashField traderID) = "" then Except.ok []
    else
      match env.fault (PersistOp.cacheGet (env.traderHashField traderID)) with
      | some err => Except.error err
      | none => Except.ok ((st.positionsCache.lookup (env.traderHashField traderID)).getD [])
  else if !env.cache then Except.ok []
  else
    match env.fault (PersistOp.cacheGet (env.positionsHashKey traderID)) with
    | some err => Except.error err
    | none => Except.ok ((st.positionsCache.lookup (env.positionsHashKey traderID)).getD [])

/-- Embedding of `Service.writePositionsCache`: an empty payload deletes the slot, any
other payload is stored; a failing cache call is logged and changes nothing. -/
def writePositionsCache (env : PersistEnv) (st : PersistStore) (traderID : String)
    (payload : List (String × positionCacheEntry)) : PersistStore :=
  let ttl := ttlDuration env.positionsTTL
  if env.redis then
    let field := env.traderHashField traderID
    if payload.length = 0 then
      if goTrimSpace field = "" then st
      else
        match env.fault (PersistOp.cacheDel field) with
        | some _ => st
        | none => { st with positionsCache := mapErase field st.positionsCache }
    else if goTrimSpace field = "" then st
    else
      match env.fault (PersistOp.cacheSet field) with
      | some _ => st
      | none => { st with positionsCache := mapInsert field payload st.positionsCache }
  else if !env.cache then st
  else
    let key := env.positionsHashKey traderID
    if payload.length = 0 then
      match env.fault (PersistOp.cacheDel key) with
      | some _ => st
      | none => { st with positionsCache := mapErase key st.positionsCache }
    else if ttl ≤ 0 then st
    else
      match env.fault (PersistOp.cacheSet key) with
      | some _ => st
      | none => { st with positionsCache := mapInsert key payload st.positionsCache }

/-- Embedding of `Service.loadTradesCache`: the cached list, nil when absent. -/
def loadTradesCache (env : PersistEnv) (st : PersistStore) (traderID : String) :
    Except PersistError (List tradeCacheEntry) :=
  if env.redis then
    if goTrimSpace (env.traderHashField traderID) = "" then Except.ok []
    else
      match env.fault (PersistOp.cacheGet (env.traderHashField traderID)) with
      | some err => Except.error err
      | none => Except.ok ((st.tradesCache.lookup (env.traderHashField traderID)).getD [])
  else if !env.cache then Except.ok []
  else
    match env.fault (PersistOp.cacheGet (env.tradesRecentKey traderID)) with
    | some err => Except.error err
    | none => Except.ok ((st.tradesCache.lookup (env.tradesRecentKey traderID)).getD [])

/-- Embedding of `Service.writeTradesCache`. -/
def writeTradesCache (env : PersistEnv) (st : PersistStore) (traderID : String)
    (payload : List tradeCacheEntry) : PersistStore :=
  let ttl := ttlDuration env.tradesRecentTTL
  if env.redis then
    let field := env.traderHashField traderID
    if payload.length = 0 then
      if goTrimSpace field = "" then st
      else
        match env.fault (PersistOp.cacheDel field) with
        | some _ => st
        | none => { st with tradesCache := mapErase field st.tradesCache }
    else if goTrimSpace field = "" then st
    else
      match env.fault (PersistOp.cacheSet field) with
      | some _ => st
      | none => { st with tradesCache := mapInsert field payload st.tradesCache }
  else if !env.cache then st
  else
    let key := env.tradesRecentKey traderID
    if payload.length = 0 then
      match env.fault (PersistOp.cacheDel key) with
      | some _ => st
      | none => { st with tradesCache := mapErase key st.tradesCache }
    else if ttl ≤ 0 then st
    else
      match env.fault (PersistOp.cacheSet key) with
      | some _ => st
      | none => { st with tradesCache := mapInsert key payload st.tradesCache }

/-- Embedding of `Service.cacheOpenPosition`; `entry = none` is the nil entry that
removes the symbol. -/
def cacheOpenPosition (env : PersistEnv) (st : PersistStore) (modelID symbol : String)
    (entry : Option positionCacheEntry) : PersistStore :=
  if !env.redis && !env.cache then st
  else
    match loadPositionsCache env st modelID with
    | Except.error _ => st
    | Except.ok payload =>
      let upSymbol := goToUpper (goTrimSpace symbol)
      if upSymbol = "" then st
      else
        let payload1 :=
          match entry with
          | none => mapErase upSymbol payload
          | some e =>
            let e1 := if e.Symbol = "" then { e with Symbol := upSymbol } else e
            mapInsert upSymbol { e1 with Exchange := goTrimSpace e1.Exchange } payload
        writePositionsCache env st modelID payload1

/-- Embedding of `Service.appendRecentTrade`. -/
def appendRecentTrade (env : PersistEnv) (st : PersistStore) (modelID : String)
    (entry : tradeCacheEntry) : PersistStore :=
  if !env.redis && !env.cache then st
  else
    match loadTradesCache env st modelID with
    | Except.error _ => st
    | Except.ok payload =>
      let payload1 := entry :: payload
      let payload2 :=
        if payload1.length > recentTradesLimit then payload1.take recentTradesLimit
        else payload1
      writeTradesCache env st modelID payload2

/-- Modelled from the spec: `PositionsModel.FindOne`, whose generated implementation
is missing: the row of `positions` with the given id, or `ErrNotFound`. -/
def findPosition (env : PersistEnv) (st : PersistStore) (id : String) :
    Except PersistError Positions :=
  match env.fault (PersistOp.findPosition id) with
  | some err => Except.error err
  | none =>
    match st.positions.find? (fun row => decide (row.Id = id)) with
    | some row => Except.ok row
    | none => Except.error PersistError.ErrNotFound

/-- The `INSERT ... ON CONFLICT (id) DO UPDATE` statement of `handleOpenPosition`. -/
def upsertPosition (rows : List Positions) (id traderID symbol side : String)
    (detail : positionDetail) : List Positions :=
  if rows.any (fun row => decide (row.Id = id)) then
    rows.map (fun row =>
      if row.Id = id then { row with Side := side, Status := "open", Detail := detail }
      else row)
  else
    rows ++ [{ Id := id, TraderId := traderID, Symbol := symbol, Side := side,
               Status := "open", Detail := detail }]

/-- Embedding of `Service.handleOpenPosition`: the error returned and the store after
the call. -/
def handleOpenPosition (env : PersistEnv) (st : PersistStore) (modelID symbol : String)
    (event : PositionEvent) : Option PersistError × PersistStore :=
  let price := effectivePrice env.parseFloat event
  let qty := effectiveQuantity env.parseFloat event price
  let side := if goEqualFold event.Decision.Action "open_short" then "short" else "long"
  let entryTime := if event.OccurredAt = 0 then env.now else event.OccurredAt
  let detail := buildPositionDetail
    { Price := price, Quantity := qty, TimeMs := unixMilli entryTime,
      Leverage := (event.Decision.Leverage : ℚ), Confidence := (event.Decision.Confidence : ℚ),
      RiskUSD := event.Decision.RiskUSD, Exchange := traderExchange event,
      Orientation := side }
  match env.fault (PersistOp.upsertPosition (positionID modelID symbol)) with
  | some err => (some err, st)
  | none =>
    let st1 : PersistStore :=
      { st with
        positions := upsertPosition st.positions (positionID modelID symbol) modelID symbol
          side detail }
    (none,
     cacheOpenPosition env st1 modelID symbol
       (some { Symbol := symbol, Side := side, Quantity := qty, EntryPrice := price,
               Leverage := (event.Decision.Leverage : ℚ),
               Confidence := (event.Decision.Confidence : ℚ),
               RiskUSD := event.Decision.RiskUSD, UpdatedAtMs := unixMilli env.now,
               Exchange := traderExchange event }))

/-- Modelled from the spec: `TradesModel.Insert`, whose generated implementation is
missing: the row is appended unless its id is already stored, which the primary key
refuses with SQLSTATE 23505. -/
def insertTradeRow (env : PersistEnv) (st : PersistStore) (trade : Trades) :
    Except PersistError PersistStore :=
  match env.fault (PersistOp.insertTrade trade.Id) with
  | some err => Except.error err
  | none =>
    if st.trades.any (fun row => decide (row.Id = trade.Id)) then
      Except.error (PersistError.pq "23505")
    else Except.ok { st with trades := st.trades ++ [trade] }

/-- Embedding of `Service.insertTrade`: the cache summary (nil when no trade row was
written), the error, and the store after the call. -/
def insertTrade (env : PersistEnv) (st : PersistStore) (pos : Option Positions)
    (modelID symbol : String) (closePrice qty : ℚ) (pnl : Option ℚ) (closeTime : Int)
    (event : PositionEvent) : (Option tradeCacheEntry × Option PersistError) × PersistStore :=
  match pos with
  | none => ((none, none), st)
  | some p =>
    if !env.tradesModel then ((none, none), st)
    else
      let posDetail := p.Detail
      let tradeQty := if qty ≤ 0 then posDetail.Entry.Quantity else qty
      let entryTs := posDetail.Entry.TimeMs
      let detail := buildTradeDetail
        { EntryPrice := posDetail.Entry.Price, ExitPrice := closePrice, EntryTimeMs := entryTs,
          CloseTimeMs := unixMilli closeTime, Quantity := tradeQty,
          Confidence := (event.Decision.Confidence : ℚ), Leverage := posDetail.Entry.Leverage,
          Exchange := posDetail.Exchange.Provider, PnL := pnlOrZero pnl }
      let trade : Trades :=
        { Id := buildTradeID modelID symbol closeTime, TraderId := p.TraderId, Symbol := symbol,
          Side := p.Side, CloseTsMs := unixMilli closeTime, Detail := detail }
      match insertTradeRow env st trade with
      | Except.error err =>
        if isUniqueViolation (some err) then ((none, none), st)
        else ((none, some err), st)
      | Except.ok st1 =>
        ((some { ModelID := p.TraderId, Symbol := symbol, Side := p.Side, Quantity := tradeQty,
                 EntryPrice := posDetail.Entry.Price, ExitPrice := closePrice,
                 RealizedPnL := pnlOrZero pnl,
                 Confidence := (event.Decision.Confidence : ℚ),
                 ClosedAtMs := unixMilli closeTime, Exchange := posDetail.Exchange.Provider,
                 EntryTimeMs := entryTs, Leverage := posDetail.Entry.Leverage,
                 PositionSize := posDetail.Entry.Quantity }, none), st1)

/-- The `UPDATE public.positions SET status = 'closed', detail = $2 WHERE id = $1`
statement of `handleClosePosition`. -/
def closePositionRows (rows : List Positions) (id : String) (detail : positionDetail) :
    List Positions :=
  rows.map (fun row =>
    if row.Id = id then { row with Status := "closed", Detail := detail } else row)

/-- Embedding of `Service.handleClosePosition`: the error returned and the store after
the call. -/
def handleClosePosition (env : PersistEnv) (st : PersistStore) (modelID symbol : String)
    (event : PositionEvent) : Option PersistError × PersistStore :=
  let lookup : Except PersistError (Option Positions) :=
    if env.positionsModel then
      match findPosition env st (positionID modelID symbol) with
      | Except.ok pos => Except.ok (some pos)
      | Except.error PersistError.ErrNotFound => Except.ok none
      | Except.error err => Except.error err
    else Except.ok none
  match lookup with
  | Except.error err => (some err, st)
  | Except.ok existing =>
    let nums := closeNumbers env.parseFloat existing event
    let closeTime := if event.OccurredAt = 0 then env.now else event.OccurredAt
    let detail := updatePositionDetailOnClose (existing.map (fun pos => pos.Detail))
      { Price := nums.closePrice, TimeMs := unixMilli closeTime, Quantity := nums.qty,
        PnL := pnlOrZero nums.pnl }
    match env.fault (PersistOp.closePosition (positionID modelID symbol)) with
    | some err => (some err, st)
    | none =>
      let st1 : PersistStore :=
        { st with positions := closePositionRows st.positions (positionID modelID symbol) detail }
      match insertTrade env st1 existing modelID symbol nums.closePrice nums.qty nums.pnl
          closeTime event with
      | ((_, some err), st2) => (some err, st2)
      | ((summary, none), st2) =>
        let st3 := cacheOpenPosition env st2 modelID symbol none
        match summary with
        | some entry => (none, appendRecentTrade env st3 modelID entry)
        | none => (none, st3)

/-- Embedding of `Service.RecordPositionEvent`. -/
def RecordPositionEvent (env : PersistEnv) (st : PersistStore) (event : PositionEvent) :
    Option PersistError × PersistStore :=
  if !env.sqlConn then (none, st)
  else
    let modelID := normalizedModelID event
    let symbol := goToUpper (goTrimSpace event.Decision.Symbol)
    if modelID = "" ∨ symbol = "" then (none, st)
    else
      match event.Event with
      | PositionEventKind.PositionEventOpen => handleOpenPosition env st modelID symbol event
      | PositionEventKind.PositionEventClose => handleClosePosition env st modelID symbol event
      | PositionEventKind.other => (none, st)

/-- The close time `handleClosePosition` uses: the event's, or the clock when the
event has none. -/
def closeTimeOf (env : PersistEnv) (event : PositionEvent) : Int :=
  if event.OccurredAt = 0 then env.now else event.OccurredAt

/-- The detail `handleClosePosition` stores in the position row it closes, for the row
`pos` found. -/
def closedDetail (env : PersistEnv) (pos : Positions) (event : PositionEvent) :
    positionDetail :=
  updatePositionDetailOnClose (some pos.Detail)
    { Price := (closeNumbers env.parseFloat (some pos) event).closePrice
      TimeMs := unixMilli (closeTimeOf env event)
      Quantity := (closeNumbers env.parseFloat (some pos) event).qty
      PnL := pnlOrZero (closeNumbers env.parseFloat (some pos) event).pnl }

/-- The trade row `insertTrade` builds when `handleClosePosition` closes the row `pos`. -/
def closedTrade (env : PersistEnv) (pos : Positions) (modelID symbol : String)
    (event : PositionEvent) : Trades :=
  { Id := buildTradeID modelID symbol (closeTimeOf env event)
    TraderId := pos.TraderId
    Symbol := symbol
    Side := pos.Side
    CloseTsMs := unixMilli (closeTimeOf env event)
    Detail := buildTradeDetail
      { EntryPrice := pos.Detail.Entry.Price
        ExitPrice := (closeNumbers env.parseFloat (some pos) event).closePrice
        EntryTimeMs := pos.Detail.Entry.TimeMs
        CloseTimeMs := unixMilli (closeTimeOf env event)
        Quantity :=
          if (closeNumbers env.parseFloat (some pos) event).qty ≤ 0 then
            pos.Detail.Entry.Quantity
          else (closeNumbers env.parseFloat (some pos) event).qty
        Confidence := (event.Decision.Confidence : ℚ)
        Leverage := pos.Detail.Entry.Leverage
        Exchange := pos.Detail.Exchange.Provider
        PnL := pnlOrZero (closeNumbers env.parseFloat (some pos) event).pnl } }

/-- The sign `handleClosePosition` gives the PnL of a row with the stored side. -/
def pnlSign (side : String) : ℚ :=
  if goEqualFold side "short" then -1 else 1

/-- A `Service` with every collaborator but Redis configured, a clock at the test
day, no failing operation, and cache keys that prefix the trader id. -/
def samplePersistEnv : PersistEnv :=
  { now := testStart
    parseFloat := fun _ => none
    metaJSON := fun _ _ => "meta"
    sqlConn := true
    positionsModel := true
    tradesModel := true
    snapshotsModel := true
    decisionModel := true
    redis := false
    cache := true
    fault := fun _ => none
    traderHashField := fun id => id
    positionsHashKey := fun id => "positions:" ++ id
    tradesRecentKey := fun id => "trades:" ++ id
    decisionLastKey := fun id => "decision:" ++ id
    positionsTTL := 0
    tradesRecentTTL := 0
    decisionLastTTL := 0
    decisionConflict := fun a b =>
      decide (a.ModelId = b.ModelId ∧ a.ExecutedAt = b.ExecutedAt)
    decodeDecisions := fun _ => none }

/-- The store with empty tables and empty caches. -/
def emptyStore : PersistStore :=
  { positions := [], trades := [], snapshots := [], decisionCycles := [],
    positionsCache := [], tradesCache := [], decisionCache := [] }

/-- A BTC decision with the given action, size and entry price (scenario 1 of §8:
leverage 5, confidence 90, risk 10). -/
def btcDecision (action : String) (size entry : ℚ) : Decision :=
  { Symbol := "BTC", Action := action, Leverage := 5, PositionSizeUSD := size,
    EntryPrice := entry, StopLoss := 95, TakeProfit := 115, Confidence := 90, RiskUSD := 10,
    Reasoning := "", InvalidationCondition := "" }

/-- The open event of scenario 1: trader `t1` opens BTC long with
`position_size_usd = 200` at entry price 100. -/
def btcOpenEvent : PositionEvent :=
  { TraderID := "t1", Trader := none, Decision := btcDecision "open_long" 200 100,
    Event := PositionEventKind.PositionEventOpen, FillPrice := 0, FillSize := 0,
    ExchangeResponse := none, OccurredAt := testStart }

/-- A close event of trader `t1` for BTC filled at `fillPrice`, carrying the fill size
`fillSize` and the decision size `size`. -/
def btcCloseEvent (fillPrice fillSize size : ℚ) : PositionEvent :=
  { TraderID := "t1", Trader := none, Decision := btcDecision "close_long" size 0,
    Event := PositionEventKind.PositionEventClose, FillPrice := fillPrice,
    FillSize := fillSize, ExchangeResponse := none, OccurredAt := testNextDay }

/-- The position row the open event of scenario 1 stores. -/
def btcOpenRow : Positions :=
  { Id := "t1|BTC", TraderId := "t1", Symbol := "BTC", Side := "long", Status := "open",
    Detail :=
      { Entry := { Price := 100, Quantity := 2, TimeMs := unixMilli testStart, Leverage := 5 }
        Exchange := { Provider := "unknown" }
        Risk := { Confidence := 90, RiskUSD := 10 }
        Close := none
        Metrics := { UnrealizedPnL := 0 } } }

/-- A stored short BTC position of trader `t1`: entry price 100, quantity 2. -/
def btcShortRow : Positions :=
  { btcOpenRow with Side := "Short" }

/-- The store holding the one position row `row` and nothing else. -/
def storeWithRow (row : Positions) : PersistStore :=
  { emptyStore with positions := [row] }

/-- The detail `handleOpenPosition` stores for an open event. -/
def openedDetail (env : PersistEnv) (event : PositionEvent) : positionDetail :=
  buildPositionDetail
    { Price := effectivePrice env.parseFloat event
      Quantity := effectiveQuantity env.parseFloat event (effectivePrice env.parseFloat event)
      TimeMs := unixMilli (if event.OccurredAt = 0 then env.now else event.OccurredAt)
      Leverage := (event.Decision.Leverage : ℚ)
      Confidence := (event.Decision.Confidence : ℚ)
      RiskUSD := event.Decision.RiskUSD
      Exchange := traderExchange event
      Orientation := if goEqualFold event.Decision.Action "open_short" then "short" else "long" }

/-- The side `handleOpenPosition` stores for an open event. -/
def openedSide (event : PositionEvent) : String :=
  if goEqualFold event.Decision.Action "open_short" then "short" else "long"

/-- The quantity a close event carries itself at close price `price`: its fill size,
else `position_size_usd / price`, else the exchange fill size, else
`position_size_usd`; 0 when it carries none. -/
def closeEventQuantity (env : PersistEnv) (event : PositionEvent) (price : ℚ) : ℚ :=
  effectiveQuantity env.parseFloat event price

/-- Recording an open event and then a close event. -/
def recordOpenThenClose (env : PersistEnv) (st : PersistStore) (openEv closeEv : PositionEvent) :
    Option PersistError × PersistStore :=
  RecordPositionEvent env (RecordPositionEvent env st openEv).2 closeEv

/-! ## internal/persistence/engine/persistence.go: decision cycles and snapshots -/

/-- Modelled from the spec: `journal.CycleRecord` (§4.7), whose declaration is missing,
with the fields `persistence.go` and `replay.go` read and set. A Go map is an
association list, `none` the nil map; a market digest payload that is no map is
`none`. -/
structure CycleRecord where
  TraderID : String
  Timestamp : Int
  Success : Bool
  ConfigVersion : Int
  CycleNumber : Int
  PromptDigest : String
  CoTTrace : String
  DecisionsJSON : String
  ErrorMessage : String
  Actions : List (List (String × AnyValue))
  Account : Option (List (String × AnyValue)) := none
  Positions : List (Option (List (String × AnyValue))) := []
  Candidates : List String := []
  MarketDigest : List (String × Option (List (String × AnyValue))) := []

/-- Modelled from the spec: `manager.DecisionCycleRecord`, whose declaration is
missing, with the fields `persistence.go` reads and sets; `Cycle` is a pointer. -/
structure DecisionCycleRecord where
  TraderID : String
  ConfigVersion : Int
  Cycle : Option CycleRecord

/-- Modelled from the spec: `manager.AccountSyncSnapshot`, whose declaration is
missing, with the fields `RecordAccountSnapshot` reads. -/
structure AccountSyncSnapshot where
  TraderID : String
  SyncedAt : Int
  EquityUSD : ℚ
  AvailableBalanceUSD : ℚ
  UnrealizedPnLUSD : ℚ

/-- The conversion `int(math.Round(c))`: to the nearest integer, halves away from
zero. -/
def goRound (q : ℚ) : Int :=
  if q < 0 then -⌊-q + 1 / 2⌋ else ⌊q + 1 / 2⌋

/-- The type assertion `first[key].(string)` of `cacheDecisionSummary`. -/
def actionString (first : List (String × AnyValue)) (key : String) : Option String :=
  match first.lookup key with
  | some (AnyValue.str s) => some s
  | _ => none

/-- The entry `cacheDecisionSummary` builds for a record whose cycle is `cycle`. -/
def decisionSummaryEntry (env : PersistEnv) (modelID : String) (record : DecisionCycleRecord)
    (cycle : CycleRecord) : decisionCacheEntry :=
  let ts := if cycle.Timestamp = 0 then env.now else cycle.Timestamp
  let entry : decisionCacheEntry :=
    { ModelID := modelID, ConfigVersion := record.ConfigVersion, Success := cycle.Success,
      Timestamp := unixMilli ts, Symbol := "", Action := "", Confidence := 0,
      Error := cycle.ErrorMessage }
  match cycle.Actions with
  | [] => entry
  | first :: _ =>
    { entry with
      Symbol := (actionString first "symbol").getD ""
      Action := (actionString first "action").getD ""
      Confidence :=
        match first.lookup "confidence" with
        | some (AnyValue.int c) => c
        | some (AnyValue.float c) => goRound c
        | _ => 0 }

/-- Embedding of `Service.cacheDecisionSummary`: a failing cache call is logged and
changes nothing. -/
def cacheDecisionSummary (env : PersistEnv) (st : PersistStore) (modelID : String)
    (record : DecisionCycleRecord) : PersistStore :=
  match record.Cycle with
  | none => st
  | some cycle =>
    let entry := decisionSummaryEntry env modelID record cycle
    let ttl := ttlDuration env.decisionLastTTL
    if ttl ≤ 0 then st
    else if env.redis then
      let field := env.traderHashField modelID
      if goTrimSpace field = "" then st
      else
        match env.fault (PersistOp.cacheSet field) with
        | some _ => st
        | none => { st with decisionCache := mapInsert field entry st.decisionCache }
    else if !env.cache then st
    else
      let legacyKey := env.decisionLastKey modelID
      match env.fault (PersistOp.cacheSet legacyKey) with
      | some _ => st
      | none => { st with decisionCache := mapInsert legacyKey entry st.decisionCache }

/-- The row `RecordDecisionCycle` builds for trader `mID`. -/
def decisionRow (env : PersistEnv) (mID : String) (record : DecisionCycleRecord)
    (cycle : CycleRecord) : DecisionCycles :=
  { ModelId := mID
    Success := cycle.Success
    ConfigVersion :=
      if record.ConfigVersion > 0 then record.ConfigVersion
      else if cycle.ConfigVersion > 0 then cycle.ConfigVersion
      else 1
    ExecutedAt := if cycle.Timestamp = 0 then env.now else cycle.Timestamp
    CycleNumber := if cycle.CycleNumber > 0 then some cycle.CycleNumber else none
    PromptDigest :=
      if goTrimSpace cycle.PromptDigest ≠ "" then some cycle.PromptDigest else none
    CotTrace := if goTrimSpace cycle.CoTTrace ≠ "" then some cycle.CoTTrace else none
    Decisions :=
      if goTrimSpace cycle.DecisionsJSON ≠ "" then some cycle.DecisionsJSON else none
    ErrorMessage :=
      if goTrimSpace cycle.ErrorMessage ≠ "" then some cycle.ErrorMessage else none }

/-- Modelled from the spec: `DecisionCyclesModel.Insert`, whose generated
implementation is missing: the row is appended unless the unique constraint of the
table refuses it next to a stored row, with SQLSTATE 23505. -/
def insertDecisionRow (env : PersistEnv) (st : PersistStore) (row : DecisionCycles) :
    Except PersistError PersistStore :=
  match env.fault (PersistOp.insertDecision row.ModelId) with
  | some err => Except.error err
  | none =>
    if st.decisionCycles.any (fun stored => env.decisionConflict stored row) then
      Except.error (PersistError.pq "23505")
    else Except.ok { st with decisionCycles := st.decisionCycles ++ [row] }

/-- Embedding of `Service.RecordDecisionCycle`: the error returned and the store after
the call. -/
def RecordDecisionCycle (env : PersistEnv) (st : PersistStore)
    (record : DecisionCycleRecord) : Option PersistError × PersistStore :=
  if !env.decisionModel then (none, st)
  else
    match record.Cycle with
    | none => (none, st)
    | some cycle =>
      let mID := if record.TraderID = "" then cycle.TraderID else record.TraderID
      if mID = "" then (none, st)
      else
        match insertDecisionRow env st (decisionRow env mID record cycle) with
        | Except.error err =>
          if isUniqueViolation (some err) then (none, st) else (some err, st)
        | Except.ok st1 => (none, cacheDecisionSummary env st1 mID record)

/-- The trader id `RecordDecisionCycle` records a cycle under. -/
def decisionModelID (record : DecisionCycleRecord) (cycle : CycleRecord) : String :=
  if record.TraderID = "" then cycle.TraderID else record.TraderID

/-- The row `RecordAccountSnapshot` builds, before the database assigns its id. -/
def snapshotRow (env : PersistEnv) (snapshot : AccountSyncSnapshot) : AccountEquitySnapshots :=
  { Id := 0
    ModelId := snapshot.TraderID
    TsMs := unixMilli (if snapshot.SyncedAt = 0 then env.now else snapshot.SyncedAt)
    DollarEquity := snapshot.EquityUSD
    RealizedPnl := 0
    TotalUnrealizedPnl := snapshot.UnrealizedPnLUSD
    Metadata := env.metaJSON snapshot.AvailableBalanceUSD snapshot.UnrealizedPnLUSD
    CumPnlPct :=
      if snapshot.EquityUSD ≠ 0 then
        some (snapshot.UnrealizedPnLUSD / snapshot.EquityUSD * 100)
      else none
    SharpeRatio := none }

/-- The id the serial column of `account_equity_snapshots` gives the next row: one
more than every id stored. -/
def nextSnapshotId (rows : List AccountEquitySnapshots) : Int :=
  (rows.map (fun row => row.Id)).foldr max 0 + 1

/-- The unique key `(model_id, ts_ms)` of a snapshot row. -/
def snapshotKey (row : AccountEquitySnapshots) : String × Int :=
  (row.ModelId, row.TsMs)

/-- Modelled from the spec: `AccountEquitySnapshotsModel.Insert`, whose generated
implementation is missing: the row is appended under a fresh id unless a stored row has
its `(model_id, ts_ms)`, which the unique index refuses with SQLSTATE 23505. -/
def insertSnapshotRow (env : PersistEnv) (st : PersistStore) (row : AccountEquitySnapshots) :
    Except PersistError PersistStore :=
  match env.fault (PersistOp.insertSnapshot row.ModelId row.TsMs) with
  | some err => Except.error err
  | none =>
    if st.snapshots.any (fun stored => decide (snapshotKey stored = snapshotKey row)) then
      Except.error (PersistError.pq "23505")
    else
      Except.ok
        { st with snapshots := st.snapshots ++ [{ row with Id := nextSnapshotId st.snapshots }] }

/-- Modelled from the spec: `AccountEquitySnapshotsModel.FindOneByModelIdTsMs`, whose
generated implementation is missing. -/
def findSnapshotByModelIdTsMs (env : PersistEnv) (st : PersistStore) (modelID : String)
    (tsMs : Int) : Except PersistError AccountEquitySnapshots :=
  match env.fault (PersistOp.findSnapshot modelID tsMs) with
  | some err => Except.error err
  | none =>
    match st.snapshots.find? (fun stored => decide (snapshotKey stored = (modelID, tsMs))) with
    | some stored => Except.ok stored
    | none => Except.error PersistError.ErrNotFound

/-- Modelled from the spec: `AccountEquitySnapshotsModel.Update`, whose generated
implementation is missing: the stored row with the id of `row` takes its values. -/
def updateSnapshotRow (env : PersistEnv) (st : PersistStore) (row : AccountEquitySnapshots) :
    Option PersistError × PersistStore :=
  match env.fault (PersistOp.updateSnapshot row.Id) with
  | some err => (some err, st)
  | none =>
    (none,
     { st with
       snapshots := st.snapshots.map (fun stored => if stored.Id = row.Id then row else stored) })

/-- Embedding of `Service.RecordAccountSnapshot`: the error returned and the store
after the call. -/
def RecordAccountSnapshot (env : PersistEnv) (st : PersistStore)
    (snapshot : AccountSyncSnapshot) : Option PersistError × PersistStore :=
  if !env.snapshotsModel ∨ snapshot.TraderID = "" then (none, st)
  else
    let row := snapshotRow env snapshot
    match insertSnapshotRow env st row with
    | Except.ok st1 => (none, st1)
    | Except.error err =>
      if isUniqueViolation (some err) then
        match findSnapshotByModelIdTsMs env st row.ModelId row.TsMs with
        | Except.error findErr => (some findErr, st)
        | Except.ok existing => updateSnapshotRow env st { row with Id := existing.Id }
      else (some err, st)

/-- A successful cycle of trader `t1` at the test day whose first action opens BTC
long with confidence 90. -/
def sampleCycle : CycleRecord :=
  { TraderID := "t1", Timestamp := testStart, Success := true, ConfigVersion := 3,
    CycleNumber := 7, PromptDigest := "digest", CoTTrace := "", DecisionsJSON := "[]",
    ErrorMessage := "",
    Actions := [[("symbol", AnyValue.str "BTC"), ("action", AnyValue.str "open_long"),
                 ("confidence", AnyValue.int 90)]] }

/-- The decision cycle record of `sampleCycle`, without a trader id of its own. -/
def sampleDecisionRecord : DecisionCycleRecord :=
  { TraderID := "", ConfigVersion := 0, Cycle := some sampleCycle }

/-- The state of table `account_equity_snapshots` its primary key and its unique index
on `(model_id, ts_ms)` maintain: no two rows share an id, no two rows share a key. -/
def snapshotsWellKeyed (rows : List AccountEquitySnapshots) : Prop :=
  (rows.map (fun row => row.Id)).Nodup ∧ (rows.map snapshotKey).Nodup

/-- The stored rows with the key `key`. -/
def snapshotsWithKey (rows : List AccountEquitySnapshots) (key : String × Int) :
    List AccountEquitySnapshots :=
  rows.filter (fun stored => decide (snapshotKey stored = key))

/-- The stored rows with another key than `key`. -/
def snapshotsOffKey (rows : List AccountEquitySnapshots) (key : String × Int) :
    List AccountEquitySnapshots :=
  rows.filter (fun stored => decide (snapshotKey stored ≠ key))

/-- A snapshot of trader `t1` taken at the test day with the given equity and
unrealized PnL. -/
def sampleSnapshot (equity unrealized : ℚ) : AccountSyncSnapshot :=
  { TraderID := "t1", SyncedAt := testStart, EquityUSD := equity,
    AvailableBalanceUSD := 50, UnrealizedPnLUSD := unrealized }

/-- A cached trade of trader `t1` closed at millisecond `closedAt`. -/
def sampleTradeEntry (closedAt : Int) : tradeCacheEntry :=
  { ModelID := "t1", Symbol := "BTC", Side := "long", Quantity := 2, EntryPrice := 100,
    ExitPrice := 110, RealizedPnL := 20, Confidence := 90, ClosedAtMs := closedAt,
    Exchange := "unknown", EntryTimeMs := 0, Leverage := 5, PositionSize := 2 }

/-- The store whose recent-trades cache holds, for trader `t1`, one hundred trades
closed at milliseconds 100, 99, ..., 1. -/
def fullTradesStore : PersistStore :=
  { emptyStore with
    tradesCache :=
      [("trades:t1", (List.range 100).map (fun i => sampleTradeEntry (100 - (i : Int))))] }

/-! ## internal/model and the cache hydration of persistence.go -/

/-- Embedding of `model.PositionRecord`; a `*float64` is an option. -/
structure PositionRecord where
  ID : String
  TraderID : String
  ExchangeProvider : String
  Symbol : String
  Side : String
  Status : String
  EntryTimeMs : Int
  EntryPrice : ℚ
  Quantity : ℚ
  Leverage : Option ℚ
  Confidence : Option ℚ
  RiskUsd : Option ℚ
  UnrealizedPnl : Option ℚ

/-- Embedding of `model.TradeRecord`. -/
structure TradeRecord where
  ID : String
  ModelID : String
  ExchangeProvider : String
  Symbol : String
  Side : String
  Quantity : Option ℚ
  Leverage : Option ℚ
  Confidence : Option ℚ
  EntryPrice : Option ℚ
  EntryTsMs : Int
  EntrySz : Option ℚ
  ExitPrice : Option ℚ
  ExitTsMs : Option Int
  RealizedNetPnl : Option ℚ

/-- Embedding of `floatPtr`: nil for 0. -/
def floatPtr (value : ℚ) : Option ℚ :=
  if value = 0 then none else some value

/-- Embedding of `floatPtrValue`. -/
def floatPtrValue (ptr : Option ℚ) : ℚ := ptr.getD 0

/-- Embedding of `intPtrValue`. -/
def intPtrValue (ptr : Option Int) : Int := ptr.getD 0

/-- Embedding of `buildPositionRecord`. -/
def buildPositionRecord (row : Positions) : PositionRecord :=
  { ID := row.Id
    TraderID := row.TraderId
    ExchangeProvider := row.Detail.Exchange.Provider
    Symbol := row.Symbol
    Side := row.Side
    Status := row.Status
    EntryTimeMs := row.Detail.Entry.TimeMs
    EntryPrice := row.Detail.Entry.Price
    Quantity := row.Detail.Entry.Quantity
    Leverage := floatPtr row.Detail.Entry.Leverage
    Confidence := floatPtr row.Detail.Risk.Confidence
    RiskUsd := floatPtr row.Detail.Risk.RiskUSD
    UnrealizedPnl := floatPtr row.Detail.Metrics.UnrealizedPnL }

/-- Embedding of `buildTradeRecord`. -/
def buildTradeRecord (row : Trades) : TradeRecord :=
  { ID := row.Id
    ModelID := row.TraderId
    ExchangeProvider := row.Detail.ExchangeProvider
    Symbol := row.Symbol
    Side := row.Side
    Quantity := floatPtr row.Detail.QuantityTotal
    Leverage := floatPtr row.Detail.RiskLeverage
    Confidence := floatPtr row.Detail.RiskConfidence
    EntryPrice := floatPtr row.Detail.PricesEntry
    EntryTsMs := row.Detail.TimeOpenTsMs
    EntrySz := floatPtr row.Detail.QuantityTotal
    ExitPrice := floatPtr row.Detail.PricesExit
    ExitTsMs := if row.CloseTsMs > 0 then some row.CloseTsMs else none
    RealizedNetPnl := floatPtr row.Detail.PnLNet }

/-- The grouping loop of `ActiveByModels`: each record is appended to the slice of its
trader; traders are kept in the order they first appear. -/
def groupByTrader (rows : List Positions) : List (String × List PositionRecord) :=
  rows.foldl (fun result row =>
    match result.lookup row.TraderId with
    | some records =>
      result.map (fun group =>
        if group.1 = row.TraderId then (group.1, records ++ [buildPositionRecord row])
        else group)
    | none => result ++ [(row.TraderId, [buildPositionRecord row])]) []

/-- Embedding of `customPositionsModel.ActiveByModels`: the open rows, of the given
traders when some are given, in `(trader_id, symbol)` order, grouped by trader. -/
def ActiveByModels (env : PersistEnv) (st : PersistStore) (modelIDs : List String) :
    Except PersistError (List (String × List PositionRecord)) :=
  match env.fault PersistOp.activeByModels with
  | some err => Except.error err
  | none =>
    Except.ok (groupByTrader
      ((st.positions.filter (fun row =>
          decide (row.Status = "open" ∧ (modelIDs.length > 0 → row.TraderId ∈ modelIDs)))).insertionSort
        (fun a b => a.TraderId < b.TraderId ∨ (a.TraderId = b.TraderId ∧ a.Symbol ≤ b.Symbol))))

/-- Embedding of `customTradesModel.RecentByModel`: the trader's rows, latest close
first, at most `limit` of them (200 when `limit` is not positive). -/
def RecentByModel (env : PersistEnv) (st : PersistStore) (modelID : String) (limit : Int) :
    Except PersistError (List TradeRecord) :=
  match env.fault (PersistOp.recentByModel modelID) with
  | some err => Except.error err
  | none =>
    Except.ok
      ((((st.trades.filter (fun row => decide (row.TraderId = modelID))).insertionSort
          (fun a b => a.CloseTsMs ≥ b.CloseTsMs)).take
          (if limit ≤ 0 then 200 else limit.toNat)).map buildTradeRecord)

/-- Embedding of `normalizeIDs`: the distinct non-empty trimmed upper-cased ids, sorted. -/
def normalizeIDs (ids : List String) : List String :=
  (((ids.map (fun id => goToUpper (goTrimSpace id))).filter
    (fun id => decide (id ≠ ""))).dedup).insertionSort (fun a b => a ≤ b)

/-- The inner loop of `hydratePositions`: the cache map built from the records of one
trader, records with a blank symbol skipped. -/
def hydratedEntries (env : PersistEnv) (records : List PositionRecord) :
    List (String × positionCacheEntry) :=
  records.foldl (fun entries rec =>
    let symbol := goToUpper (goTrimSpace rec.Symbol)
    if symbol = "" then entries
    else
      mapInsert symbol
        { Symbol := symbol
          Side := goToLower (goTrimSpace rec.Side)
          Quantity := rec.Quantity
          EntryPrice := rec.EntryPrice
          Leverage := floatPtrValue rec.Leverage
          Confidence := floatPtrValue rec.Confidence
          RiskUSD :=
            match rec.UnrealizedPnl with
            | some pnl => pnl
            | none => floatPtrValue rec.RiskUsd
          UpdatedAtMs := unixMilli env.now
          Exchange := goTrimSpace rec.ExchangeProvider } entries) []

/-- Embedding of `Service.hydratePositions` (with `persistPositionCache`): the error
returned and the store after the call. -/
def hydratePositions (env : PersistEnv) (st : PersistStore) (traderIDs : List String) :
    Option PersistError × PersistStore :=
  match ActiveByModels env st traderIDs with
  | Except.error err => (some err, st)
  | Except.ok data =>
    (none,
     data.foldl (fun acc group =>
       writePositionsCache env acc group.1 (hydratedEntries env group.2)) st)

/-- The cache entry `hydrateTrades` builds from a trade record. -/
def hydratedTrade (rec : TradeRecord) : tradeCacheEntry :=
  { ModelID := rec.ModelID
    Symbol := goToUpper (goTrimSpace rec.Symbol)
    Side := goToLower (goTrimSpace rec.Side)
    Quantity := floatPtrValue rec.Quantity
    EntryPrice := floatPtrValue rec.EntryPrice
    ExitPrice := floatPtrValue rec.ExitPrice
    RealizedPnL := floatPtrValue rec.RealizedNetPnl
    Confidence := floatPtrValue rec.Confidence
    ClosedAtMs :=
      if intPtrValue rec.ExitTsMs = 0 ∧ rec.EntryTsMs > 0 then rec.EntryTsMs
      else intPtrValue rec.ExitTsMs
    Exchange := goTrimSpace rec.ExchangeProvider
    EntryTimeMs := rec.EntryTsMs
    Leverage := floatPtrValue rec.Leverage
    PositionSize := floatPtrValue rec.EntrySz }

/-- Embedding of `Service.hydrateTrades` (with `persistTradeCache`): the loop stops at
the first failing query. -/
def hydrateTrades (env : PersistEnv) (st : PersistStore) :
    List String → Option PersistError × PersistStore
  | [] => (none, st)
  | modelID :: rest =>
    match RecentByModel env st modelID recentTradesLimit with
    | Except.error err => (some err, st)
    | Except.ok records =>
      if records.length = 0 then hydrateTrades env st rest
      else hydrateTrades env (writeTradesCache env st modelID (records.map hydratedTrade)) rest

/-- The query of `hydrateDecisionCycles`: the trader's row of `decision_cycles` with
the latest `executed_at`, `ErrNotFound` when the trader has none. -/
def lastDecisionRow (env : PersistEnv) (st : PersistStore) (modelID : String) :
    Except PersistError DecisionCycles :=
  match env.fault (PersistOp.lastDecision modelID) with
  | some err => Except.error err
  | none =>
    match ((st.decisionCycles.filter (fun row => decide (row.ModelId = modelID))).insertionSort
        (fun a b => a.ExecutedAt ≥ b.ExecutedAt)).head? with
    | some row => Except.ok row
    | none => Except.error PersistError.ErrNotFound

/-- The actions `hydrateDecisionCycles` rebuilds from a row's `decisions` column: of
each decoded decision the keys `symbol`, `action` and `confidence`; none when the column
is null, blank or undecodable. -/
def hydratedActions (env : PersistEnv) (row : DecisionCycles) :
    List (List (String × AnyValue)) :=
  match row.Decisions with
  | none => []
  | some text =>
    if goTrimSpace text ≠ "" then
      match env.decodeDecisions text with
      | none => []
      | some raw =>
        raw.map (fun d =>
          ["symbol", "action", "confidence"].filterMap (fun key =>
            (d.lookup key).map (fun value => (key, value))))
    else []

/-- The record `hydrateDecisionCycles` passes to `cacheDecisionSummary` for a row. -/
def hydratedDecisionRecord (env : PersistEnv) (modelID : String) (row : DecisionCycles) :
    DecisionCycleRecord :=
  { TraderID := modelID
    ConfigVersion := row.ConfigVersion
    Cycle := some
      { TraderID := modelID, Timestamp := row.ExecutedAt, Success := row.Success,
        ConfigVersion := row.ConfigVersion, CycleNumber := 0, PromptDigest := "",
        CoTTrace := "", DecisionsJSON := row.Decisions.getD "",
        ErrorMessage := row.ErrorMessage.getD "", Actions := hydratedActions env row } }

/-- The loop of `hydrateDecisionCycles`: a trader without a row is skipped, any other
query failure ends the loop. -/
def hydrateDecisionLoop (env : PersistEnv) (st : PersistStore) :
    List String → Option PersistError × PersistStore
  | [] => (none, st)
  | modelID :: rest =>
    match lastDecisionRow env st modelID with
    | Except.error PersistError.ErrNotFound => hydrateDecisionLoop env st rest
    | Except.error err => (some err, st)
    | Except.ok row =>
      hydrateDecisionLoop env
        (cacheDecisionSummary env st modelID (hydratedDecisionRecord env modelID row)) rest

/-- Embedding of `Service.hydrateDecisionCycles`. -/
def hydrateDecisionCycles (env : PersistEnv) (st : PersistStore) (traderIDs : List String) :
    Option PersistError × PersistStore :=
  if !env.sqlConn then (none, st) else hydrateDecisionLoop env st traderIDs

/-- Embedding of `Service.HydrateCaches`: the errors joined in the result (none for
nil) and the store after the call. -/
def HydrateCaches (env : PersistEnv) (st : PersistStore) (traderIDs : List String) :
    List PersistError × PersistStore :=
  if !env.cache then ([], st)
  else if (normalizeIDs traderIDs).length = 0 then ([], st)
  else
    let r1 :=
      if env.positionsModel then hydratePositions env st (normalizeIDs traderIDs)
      else (none, st)
    let r2 :=
      if env.tradesModel then hydrateTrades env r1.2 (normalizeIDs traderIDs)
      else (none, r1.2)
    let r3 :=
      if env.decisionModel then hydrateDecisionCycles env r2.2 (normalizeIDs traderIDs)
      else (none, r2.2)
    (r1.1.toList ++ r2.1.toList ++ r3.1.toList, r3.2)

/-- An open position row of trader `T1` whose symbol is blank. -/
def blankSymbolRow : Positions :=
  { Id := "T1|", TraderId := "T1", Symbol := " ", Side := "long", Status := "open",
    Detail := btcOpenRow.Detail }

/-- The cached BTC position of the open event of scenario 1. -/
def btcCacheEntry : positionCacheEntry :=
  { Symbol := "BTC", Side := "long", Quantity := 2, EntryPrice := 100, Leverage := 5,
    Confidence := 90, RiskUSD := 10, UpdatedAtMs := unixMilli testStart,
    Exchange := "unknown" }

/-- A store whose only open row of trader `T1` has a blank symbol, while the cache
holds a BTC position for `T1`. -/
def staleCacheStore : PersistStore :=
  { emptyStore with
    positions := [blankSymbolRow]
    positionsCache := [("positions:T1", [("BTC", btcCacheEntry)])] }

/-! ## pkg/llm/promptmeta.go

A template file is kept as the text it holds; `os.ReadFile` is a function of the
environment. The regular expression `(?i)version:\s*([a-z0-9._-]+)` is embedded as the
leftmost-first search it performs. -/

/-- Embedding of `defaultPromptHeaderScanLimit`. -/
def defaultPromptHeaderScanLimit : Int := 8 * 1024

/-- Embedding of `TemplateVersionGuard`; the `Logger` is the log `Enforce` returns. -/
structure TemplateVersionGuard where
  Component : String
  ExpectedVersion : String
  RequireVersionHeader : Bool
  StrictMode : Bool
  ScanLimit : Int

/-- The errors of `promptmeta.go`: the empty path, the failed read (with the cause
`os.ReadFile` gave), the missing header, and the version mismatch, which is
`fmt.Errorf(msg)` kept as its message `msg`. -/
inductive TemplateError where
  | emptyPath
  | read (path : String) (cause : String)
  | missingHeader (path : String)
  | mismatch (msg : String)
  deriving DecidableEq, Repr

/-- The number of bytes of a character in UTF-8. -/
def utf8Width (c : Char) : Nat :=
  if c.toNat < 0x80 then 1
  else if c.toNat < 0x800 then 2
  else if c.toNat < 0x10000 then 3
  else 4

/-- The number of bytes of a text in UTF-8: `len(data)`. -/
def utf8Len (cs : List Char) : Nat :=
  (cs.map utf8Width).sum

/-- The text of `data[:n]`: the characters that lie within the first `n` bytes. A
character the cut divides is left out, its remaining bytes being no character the
pattern matches. -/
def takeBytes : Nat → List Char → List Char
  | _, [] => []
  | n, c :: cs => if utf8Width c ≤ n then c :: takeBytes (n - utf8Width c) cs else []

/-- The class `\s` of the pattern: tab, newline, form feed, carriage return, space. -/
def isPatternSpace (c : Char) : Bool :=
  c.toNat == 0x09 || c.toNat == 0x0A || c.toNat == 0x0C || c.toNat == 0x0D || c.toNat == 0x20

/-- The class `[a-z0-9._-]` of the pattern under `(?i)`. -/
def isVersionChar (c : Char) : Bool :=
  (0x61 ≤ (foldChar c).toNat && (foldChar c).toNat ≤ 0x7A) ||
  (0x30 ≤ c.toNat && c.toNat ≤ 0x39) ||
  c.toNat == 0x2E || c.toNat == 0x5F || c.toNat == 0x2D

/-- A literal of the pattern matched under `(?i)` at the head of the input: what
follows the match, if it matches. -/
def matchFolded : List Char → List Char → Option (List Char)
  | [], cs => some cs
  | _ :: _, [] => none
  | p :: ps, c :: cs => if foldChar c = p then matchFolded ps cs else none

/-- The pattern matched at the head of the input: the text of its group. -/
def versionHeaderAt (cs : List Char) : Option String :=
  match matchFolded "version:".data cs with
  | none => none
  | some rest =>
    if ((rest.dropWhile isPatternSpace).takeWhile isVersionChar).length = 0 then none
    else some (String.mk ((rest.dropWhile isPatternSpace).takeWhile isVersionChar))

/-- Embedding of `versionHeaderRegexp.FindStringSubmatch(content)[1]`: the group of
the leftmost match, `none` when there is no match. -/
def findVersionHeader : List Char → Option String
  | [] => none
  | c :: cs =>
    match versionHeaderAt (c :: cs) with
    | some version => some version
    | none => findVersionHeader cs

/-- The content `ExtractTemplateVersion` scans: the first `scanLimit` bytes of the
file, 8 KiB when `scanLimit` is not positive, the whole file when it is shorter. -/
def scannedContent (scanLimit : Int) (data : String) : List Char :=
  let limit := if scanLimit ≤ 0 then defaultPromptHeaderScanLimit else scanLimit
  let limit1 := if limit > (utf8Len data.data : Int) then (utf8Len data.data : Int) else limit
  takeBytes limit1.toNat data.data

/-- Embedding of `ExtractTemplateVersion`. -/
def ExtractTemplateVersion (readFile : String → Except String String) (templatePath : String)
    (scanLimit : Int) : Except TemplateError String :=
  match readFile templatePath with
  | Except.error cause => Except.error (TemplateError.read templatePath cause)
  | Except.ok data =>
    match findVersionHeader (scannedContent scanLimit data) with
    | none => Except.error (TemplateError.missingHeader templatePath)
    | some version => Except.ok (goTrimSpace version)

/-- Embedding of `TemplateVersionGuard.scanLimit`. -/
def TemplateVersionGuard.scanLimit (g : TemplateVersionGuard) : Int :=
  if g.ScanLimit > 0 then g.ScanLimit else defaultPromptHeaderScanLimit

/-- Embedding of `TemplateVersionGuard.componentName`. -/
def TemplateVersionGuard.componentName (g : TemplateVersionGuard) : String :=
  if goTrimSpace g.Component ≠ "" then g.Component else "prompt"

/-- The message `Enforce` formats for a version mismatch. -/
def mismatchMessage (g : TemplateVersionGuard) (templatePath version expected : String) :
    String :=
  g.componentName ++ " template " ++ templatePath ++ " declared version " ++ version ++
    " but expected " ++ expected

/-- What `Enforce` hands to the logger: an error, or a mismatch message. -/
inductive TemplateLog where
  | error (err : TemplateError)
  | message (msg : String)
  deriving DecidableEq, Repr

/-- Embedding of `TemplateVersionGuard.Enforce`: the version and error returned, and
what was logged. -/
def TemplateVersionGuard.Enforce (g : TemplateVersionGuard)
    (readFile : String → Except String String) (templatePath : String) :
    (String × Option TemplateError) × List TemplateLog :=
  if goTrimSpace templatePath = "" then (("", some TemplateError.emptyPath), [])
  else
    match ExtractTemplateVersion readFile (goTrimSpace templatePath) g.scanLimit with
    | Except.error err =>
      if g.RequireVersionHeader then (("", some err), [])
      else (("", none), [TemplateLog.error err])
    | Except.ok version =>
      if goTrimSpace g.ExpectedVersion ≠ "" ∧ version ≠ goTrimSpace g.ExpectedVersion then
        if g.StrictMode then
          (("", some (TemplateError.mismatch
            (mismatchMessage g (goTrimSpace templatePath) version
              (goTrimSpace g.ExpectedVersion)))), [])
        else
          ((version, none),
           [TemplateLog.message (mismatchMessage g (goTrimSpace templatePath) version
              (goTrimSpace g.ExpectedVersion))])
      else ((version, none), [])

/-- A file system holding one template, at `prompt.tmpl`. -/
def oneTemplate (content : String) : String → Except String String :=
  fun path => if path = "prompt.tmpl" then Except.ok content else Except.error "no such file"

/-- The guard of the prompt tests: expected version `v1.0.0`, with the given modes. -/
def versionGuard (strict require : Bool) : TemplateVersionGuard :=
  { Component := "executor", ExpectedVersion := "v1.0.0", RequireVersionHeader := require,
    StrictMode := strict, ScanLimit := 0 }

/-- The store with its three caches emptied, as after a restart. -/
def clearCaches (st : PersistStore) : PersistStore :=
  { st with positionsCache := [], tradesCache := [], decisionCache := [] }

/-- The tables trader `t1` leaves behind: its BTC position opened, closed at 110 and
opened again, and one decision cycle recorded; the caches are empty. -/
def restartStore : PersistStore :=
  clearCaches
    (RecordDecisionCycle samplePersistEnv
      (RecordPositionEvent samplePersistEnv
        (recordOpenThenClose samplePersistEnv emptyStore btcOpenEvent
          (btcCloseEvent 110 0 0)).2
        btcOpenEvent).2
      sampleDecisionRecord).2

/-- The contract of `encoding/json` that `normalizeDetail` relies on: a value decoded
from a text is marshalled without error, to a non-empty text without surrounding
whitespace that decodes to a value marshalled to the same text; the empty text is not
decoded; and the empty object is marshalled as the text `{}`. -/
structure JsonLib.RoundTrips (json : JsonLib) : Prop where
  marshals : ∀ (d : String) (v : json.Value), json.unmarshal d = Except.ok v →
    ∃ s, json.marshal v = Except.ok s
  canonical : ∀ (d : String) (v : json.Value) (s : String),
    json.unmarshal d = Except.ok v → json.marshal v = Except.ok s →
    goTrimSpace s = s ∧ s.length ≠ 0 ∧
      ∃ v1, json.unmarshal s = Except.ok v1 ∧ json.marshal v1 = Except.ok s
  emptyObject : ∃ v, json.unmarshal "\x7b\x7d" = Except.ok v ∧
    json.marshal v = Except.ok "\x7b\x7d"

/-! ## pkg/journal/replay.go

`fmt.Sprint`, `strconv.ParseFloat` and the RFC 3339 formatting of a time are functions
of the environment. The fields of `executor.Context` that `BuildExecutorContext` leaves
zero are left out. -/

/-- The library functions `replay.go` calls. `sprint` is given the value, `none` for
nil. -/
structure ReplayEnv where
  sprint : Option AnyValue → String
  parseFloat : String → Option ℚ
  formatTime : Int → String

/-- Embedding of `executor.PositionInfo`. -/
structure PositionInfo where
  Symbol : String
  Side : String
  EntryPrice : ℚ
  MarkPrice : ℚ
  Quantity : ℚ
  Leverage : Int
  UnrealizedPnL : ℚ
  UnrealizedPnLPct : ℚ
  LiquidationPrice : ℚ
  MarginUsed : ℚ
  UpdateTime : Int

/-- Embedding of `executor.AccountInfo`. -/
structure AccountInfo where
  TotalEquity : ℚ
  AvailableBalance : ℚ
  TotalPnL : ℚ
  TotalPnLPct : ℚ
  MarginUsed : ℚ
  MarginUsedPct : ℚ
  PositionCount : Int

/-- Embedding of `executor.CandidateCoin`. -/
structure CandidateCoin where
  Symbol : String
  Sources : List String

/-- Modelled from the spec: `market.Snapshot` (§3), whose declaration is missing, with
the fields `mapMarketDigest` sets; the two pointers are options. -/
structure Snapshot where
  Symbol : String
  PriceLast : ℚ
  ChangeOneHour : ℚ
  ChangeFourHour : ℚ
  OpenInterestLatest : Option ℚ
  FundingRate : Option ℚ

/-- Modelled from the spec: `executor.Config` (§5), whose declaration is missing, with
the two fields `BuildExecutorContext` reads. -/
structure ExecutorConfig where
  MajorCoinLeverage : Int
  AltcoinLeverage : Int

/-- Embedding of `executor.Context`, the fields `BuildExecutorContext` sets. -/
structure ExecutorContext where
  CurrentTime : String
  Account : AccountInfo
  Positions : List PositionInfo
  CandidateCoins : List CandidateCoin
  MarketDataMap : List (String × Snapshot)
  MajorCoinLeverage : Int
  AltcoinLeverage : Int

/-- The conversion `int(f)` of a float: towards zero. -/
def goTruncate (q : ℚ) : Int :=
  if q < 0 then ⌈q⌉ else ⌊q⌋

/-- Embedding of `parseStringFloat`; `none` is the error. -/
def parseStringFloat (env : ReplayEnv) (s : String) : Option ℚ :=
  if goTrimSpace s = "" then none else env.parseFloat (goTrimSpace s)

/-- Embedding of `asFloat`; `none` is nil. -/
def asFloat (env : ReplayEnv) (v : Option AnyValue) : ℚ :=
  match v with
  | some (AnyValue.float q) => q
  | some (AnyValue.int n) => (n : ℚ)
  | some (AnyValue.number literal) => (env.parseFloat literal).getD 0
  | some (AnyValue.str s) => (parseStringFloat env s).getD 0
  | _ => 0

/-- Embedding of `asString`; `none` is nil. -/
def asString (env : ReplayEnv) (v : Option AnyValue) : String :=
  match v with
  | some (AnyValue.str s) => s
  | other => env.sprint other

/-- The zero value `executor.AccountInfo{}`. -/
def AccountInfo.zero : AccountInfo :=
  { TotalEquity := 0, AvailableBalance := 0, TotalPnL := 0, TotalPnLPct := 0, MarginUsed := 0,
    MarginUsedPct := 0, PositionCount := 0 }

/-- Embedding of `mapAccountInfo`. -/
def mapAccountInfo (env : ReplayEnv) (data : Option (List (String × AnyValue))) : AccountInfo :=
  match data with
  | none => AccountInfo.zero
  | some fields =>
    { TotalEquity := asFloat env (fields.lookup "equity")
      AvailableBalance := asFloat env (fields.lookup "available")
      TotalPnL := 0
      TotalPnLPct := 0
      MarginUsed := asFloat env (fields.lookup "used_margin")
      MarginUsedPct := asFloat env (fields.lookup "used_pct")
      PositionCount := goTruncate (asFloat env (fields.lookup "positions")) }

/-- Embedding of `mapPositions`: nil items are skipped. -/
def mapPositions (env : ReplayEnv) (raw : List (Option (List (String × AnyValue)))) :
    List PositionInfo :=
  raw.filterMap (fun item =>
    match item with
    | none => none
    | some fields =>
      some
        { Symbol := asString env (fields.lookup "symbol")
          Side := goToLower (asString env (fields.lookup "side"))
          EntryPrice := asFloat env (fields.lookup "entry")
          MarkPrice := asFloat env (fields.lookup "mark")
          Quantity := asFloat env (fields.lookup "qty")
          Leverage := goTruncate (asFloat env (fields.lookup "lev"))
          UnrealizedPnL := asFloat env (fields.lookup "upnl")
          UnrealizedPnLPct := 0
          LiquidationPrice := asFloat env (fields.lookup "liq")
          MarginUsed := 0
          UpdateTime := 0 })

/-- Embedding of `mapCandidates`: blank symbols are skipped. -/
def mapCandidates (raw : List String) : List CandidateCoin :=
  raw.filterMap (fun sym =>
    if goToUpper (goTrimSpace sym) = "" then none
    else some { Symbol := goToUpper (goTrimSpace sym), Sources := [] })

/-- The snapshot `mapMarketDigest` builds for one entry of the digest. -/
def digestSnapshot (env : ReplayEnv) (sym : String)
    (payload : Option (List (String × AnyValue))) : Snapshot :=
  let mp := payload.getD []
  { Symbol := goToUpper sym
    PriceLast := asFloat env (mp.lookup "price")
    ChangeOneHour := asFloat env (mp.lookup "chg1h")
    ChangeFourHour := asFloat env (mp.lookup "chg4h")
    OpenInterestLatest :=
      if asFloat env (mp.lookup "oi_latest") ≠ 0 then some (asFloat env (mp.lookup "oi_latest"))
      else none
    FundingRate :=
      if asFloat env (mp.lookup "funding") ≠ 0 then some (asFloat env (mp.lookup "funding"))
      else none }

/-- Embedding of `mapMarketDigest`; the entries of the digest are visited in the
order of the list. -/
def mapMarketDigest (env : ReplayEnv)
    (raw : List (String × Option (List (String × AnyValue)))) : List (String × Snapshot) :=
  raw.foldl (fun out entry =>
    mapInsert (goToUpper entry.1) (digestSnapshot env entry.1 entry.2) out) []

/-- The zero value `executor.Context{}`. -/
def ExecutorContext.zero : ExecutorContext :=
  { CurrentTime := "", Account := AccountInfo.zero, Positions := [], CandidateCoins := [],
    MarketDataMap := [], MajorCoinLeverage := 0, AltcoinLeverage := 0 }

/-- Embedding of `BuildExecutorContext`; `none` is a nil pointer. -/
def BuildExecutorContext (env : ReplayEnv) (cfg : Option ExecutorConfig)
    (rec : Option CycleRecord) : ExecutorContext :=
  match rec with
  | none => ExecutorContext.zero
  | some r =>
    { CurrentTime := if r.Timestamp ≠ 0 then env.formatTime r.Timestamp else ""
      MajorCoinLeverage := (cfg.map (fun c => c.MajorCoinLeverage)).getD 0
      AltcoinLeverage := (cfg.map (fun c => c.AltcoinLeverage)).getD 0
      Account :=
        { mapAccountInfo env r.Account with
          PositionCount := ((mapPositions env r.Positions).length : Int) }
      Positions := mapPositions env r.Positions
      CandidateCoins := mapCandidates r.Candidates
      MarketDataMap := mapMarketDigest env r.MarketDigest }

/-- Library stand-ins for the sample records: nil prints as `<nil>`, no text parses
as a number. -/
def sampleReplayEnv : ReplayEnv :=
  { sprint := fun v => match v with
      | none => "<nil>"
      | _ => "?"
    parseFloat := fun _ => none
    formatTime := fun _ => "2025-11-08T00:00:00Z" }

/-- A journal record of trader `t1` holding a long position whose symbol is written
`btc`, the candidate ` eth ` and a market digest for `sol`. -/
def lowerCaseRecord : CycleRecord :=
  { sampleCycle with
    Positions := [some [("symbol", AnyValue.str "btc"), ("side", AnyValue.str "LONG"),
                        ("qty", AnyValue.float 2)]]
    Candidates := [" eth "]
    MarketDigest := [("sol", some [("price", AnyValue.float 150)])] }

/-! ## pkg/exchange/types.go orders and pkg/backtest/journal_replay.go

The provider's `GetAssetIndex` and `fmt.Sprintf("%.8f", v)` are functions of the
environment. -/

/-- Embedding of `exchange.LimitOrderType`. -/
structure LimitOrderType where
  TIF : String
  deriving DecidableEq, Repr

/-- Embedding of `exchange.TriggerOrderType`. -/
structure TriggerOrderType where
  IsMarket : Bool
  Tpsl : String
  deriving DecidableEq, Repr

/-- Embedding of `exchange.OrderType`; the two pointers are options. -/
structure OrderType where
  Limit : Option LimitOrderType
  Trigger : Option TriggerOrderType
  deriving DecidableEq, Repr

/-- Embedding of `exchange.BuilderInfo`. -/
structure BuilderInfo where
  Name : String
  FeeBps : Int
  deriving DecidableEq, Repr

/-- Embedding of `exchange.Order`. -/
structure Order where
  Asset : Int
  IsBuy : Bool
  LimitPx : String
  Sz : String
  ReduceOnly : Bool
  OrderType : OrderType
  Cloid : String
  TriggerPx : String
  TriggerRel : String
  Grouping : String
  Builder : Option BuilderInfo
  deriving DecidableEq, Repr

/-- What the environment of a `journalStrategy` fixes: the provider's asset index of
a symbol (or its error) and the text of a number with eight decimals. -/
structure BacktestEnv where
  getAssetIndex : String → Except String Int
  formatDecimal : ℚ → String

/-- Embedding of `journalStrategy`, the fields `decisionToOrder` reads and writes. -/
structure journalStrategy where
  symbol : String
  assetCache : List (String × Int)

/-- Embedding of `journalStrategy.ensureAsset`: the index or error, and the strategy
with its cache after the call. -/
def journalStrategy.ensureAsset (env : BacktestEnv) (s : journalStrategy) (symbol : String) :
    Except String Int × journalStrategy :=
  match s.assetCache.lookup (goToUpper symbol) with
  | some id => (Except.ok id, s)
  | none =>
    match env.getAssetIndex (goToUpper symbol) with
    | Except.error err => (Except.error err, s)
    | Except.ok id =>
      (Except.ok id, { s with assetCache := mapInsert (goToUpper symbol) id s.assetCache })

/-- The order `decisionToOrder` builds once price, size, asset and the two flags are
known. -/
def iocLimitOrder (env : BacktestEnv) (asset : Int) (isBuy reduceOnly : Bool)
    (price qty : ℚ) : Order :=
  { Asset := asset, IsBuy := isBuy, LimitPx := env.formatDecimal price,
    Sz := env.formatDecimal qty, ReduceOnly := reduceOnly,
    OrderType := { Limit := some { TIF := "Ioc" }, Trigger := none },
    Cloid := "", TriggerPx := "", TriggerRel := "", Grouping := "", Builder := none }

/-- The price `decisionToOrder` uses: the fallback price when positive, else the
decision's entry price. -/
def orderPrice (d : Decision) (fallbackPrice : ℚ) : ℚ :=
  if fallbackPrice > 0 then fallbackPrice else d.EntryPrice

/-- Embedding of `journalStrategy.decisionToOrder`: the order (`none` when the second
result is false) and the strategy after the call. -/
def journalStrategy.decisionToOrder (env : BacktestEnv) (s : journalStrategy) (d : Decision)
    (fallbackPrice : ℚ) : Option Order × journalStrategy :=
  let price := orderPrice d fallbackPrice
  if price ≤ 0 then (none, s)
  else if d.PositionSizeUSD ≤ 0 then (none, s)
  else if d.PositionSizeUSD / price ≤ 0 then (none, s)
  else
    match s.ensureAsset env d.Symbol with
    | (Except.error _, s1) => (none, s1)
    | (Except.ok asset, s1) =>
      let action := goToLower (goTrimSpace d.Action)
      if action = "open_long" then
        (some (iocLimitOrder env asset true false price (d.PositionSizeUSD / price)), s1)
      else if action = "open_short" then
        (some (iocLimitOrder env asset false false price (d.PositionSizeUSD / price)), s1)
      else if action = "close_long" then
        (some (iocLimitOrder env asset false true price (d.PositionSizeUSD / price)), s1)
      else if action = "close_short" then
        (some (iocLimitOrder env asset true true price (d.PositionSizeUSD / price)), s1)
      else (none, s1)

/-- A provider that knows every symbol as asset 0, and a number format that only
tells 110 and 2 apart from the rest. -/
def sampleBacktestEnv : BacktestEnv :=
  { getAssetIndex := fun _ => Except.ok 0
    formatDecimal := fun q =>
      if q = 110 then "110.00000000" else if q = 2 then "2.00000000" else "?" }

/-- A strategy for BTC with an empty asset cache. -/
def btcStrategy : journalStrategy :=
  { symbol := "BTC", assetCache := [] }

/-! ## pkg/exchange/types.go: `OrderResponse.UnmarshalJSON`

A JSON text is kept as the value it denotes, `none` for a text that is no JSON. The
calls of `json.Unmarshal` are embedded by the rules of `encoding/json` for the target
types: a JSON null leaves a string, a number or a struct as it is and sets a pointer or
a slice to nil; an object key selects the field whose name it equals ignoring case, and
other keys are skipped; a value of another kind than the target's is an error. -/

/-- A JSON value; a number keeps its literal. -/
inductive JsonValue where
  | null
  | bool (b : Bool)
  | number (literal : String)
  | string (s : String)
  | array (items : List JsonValue)
  | object (members : List (String × JsonValue))

/-- `json.Unmarshal` into a Go string that holds `cur`. -/
def decodeStringInto (cur : String) : JsonValue → Option String
  | JsonValue.null => some cur
  | JsonValue.string s => some s
  | _ => none

/-- The number a non-empty run of decimal digits denotes. -/
def parseDigits (cs : List Char) : Option Nat :=
  if cs.length = 0 ∨ ¬ cs.all Char.isDigit then none
  else some (cs.foldl (fun n c => 10 * n + (c.toNat - 48)) 0)

/-- The integer a JSON number literal denotes, `none` when it has a fraction or an
exponent. -/
def parseIntLiteral (literal : String) : Option Int :=
  match literal.data with
  | '-' :: rest => (parseDigits rest).map (fun n => -(n : Int))
  | cs => (parseDigits cs).map (fun n => (n : Int))

/-- `json.Unmarshal` into an `int64` that holds `cur`. -/
def decodeInt64Into (cur : Int) : JsonValue → Option Int
  | JsonValue.null => some cur
  | JsonValue.number literal =>
    match parseIntLiteral literal with
    | some n => if -9223372036854775808 ≤ n ∧ n ≤ 9223372036854775807 then some n else none
    | none => none
  | _ => none

/-- The members of an object decoded one after the other into a struct that holds
`init`; `step` decodes one member into the field its key selects. -/
def decodeMembers {α : Type} (step : α → String → JsonValue → Option α) (init : α)
    (members : List (String × JsonValue)) : Option α :=
  members.foldl (fun acc member => acc.bind (fun st => step st member.1 member.2)) (some init)

/-- `json.Unmarshal` into a struct that holds `cur`. -/
def decodeStructInto {α : Type} (step : α → String → JsonValue → Option α) (cur : α) :
    JsonValue → Option α
  | JsonValue.null => some cur
  | JsonValue.object members => decodeMembers step cur members
  | _ => none

/-- `json.Unmarshal` into a pointer to a struct, `zero` being the struct's zero
value. -/
def decodePointerInto {α : Type} (step : α → String → JsonValue → Option α) (zero : α)
    (cur : Option α) : JsonValue → Option (Option α)
  | JsonValue.null => some none
  | JsonValue.object members => (decodeMembers step (cur.getD zero) members).map some
  | _ => none

/-- The elements of a list of results, when none of them is an error. -/
def allDecoded {α : Type} : List (Option α) → Option (List α)
  | [] => some []
  | none :: _ => none
  | some a :: rest => (allDecoded rest).map (fun l => a :: l)

/-- `json.Unmarshal` into a slice of structs: each element is decoded into the zero
value. -/
def decodeSliceInto {α : Type} (step : α → String → JsonValue → Option α) (zero : α) :
    JsonValue → Option (List α)
  | JsonValue.null => some []
  | JsonValue.array items => allDecoded (items.map (decodeStructInto step zero))
  | _ => none

/-- The fields of `RestingOrder`. -/
def restingStep (st : RestingOrder) (key : String) (v : JsonValue) : Option RestingOrder :=
  if goEqualFold key "oid" then (decodeInt64Into st.Oid v).map (fun n => { st with Oid := n })
  else some st

/-- The fields of `FilledOrder`. -/
def filledStep (st : FilledOrder) (key : String) (v : JsonValue) : Option FilledOrder :=
  if goEqualFold key "totalSz" then
    (decodeStringInto st.TotalSz v).map (fun s => { st with TotalSz := s })
  else if goEqualFold key "avgPx" then
    (decodeStringInto st.AvgPx v).map (fun s => { st with AvgPx := s })
  else if goEqualFold key "oid" then
    (decodeInt64Into st.Oid v).map (fun n => { st with Oid := n })
  else some st

/-- The fields of `OrderStatusResponse`. -/
def statusStep (st : OrderStatusResponse) (key : String) (v : JsonValue) :
    Option OrderStatusResponse :=
  if goEqualFold key "resting" then
    (decodePointerInto restingStep { Oid := 0 } st.Resting v).map
      (fun r => { st with Resting := r })
  else if goEqualFold key "filled" then
    (decodePointerInto filledStep { TotalSz := "", AvgPx := "", Oid := 0 } st.Filled v).map
      (fun f => { st with Filled := f })
  else if goEqualFold key "error" then
    (decodeStringInto st.Error v).map (fun s => { st with Error := s })
  else some st

/-- The fields of `OrderResponseDataDetail`. -/
def detailStep (st : OrderResponseDataDetail) (key : String) (v : JsonValue) :
    Option OrderResponseDataDetail :=
  if goEqualFold key "statuses" then
    (decodeSliceInto statusStep { Resting := none, Filled := none, Error := "" } v).map
      (fun l => { st with Statuses := l })
  else some st

/-- The fields of `OrderResponseData`. -/
def responseDataStep (st : OrderResponseData) (key : String) (v : JsonValue) :
    Option OrderResponseData :=
  if goEqualFold key "type" then
    (decodeStringInto st.Type_ v).map (fun s => { st with Type_ := s })
  else if goEqualFold key "data" then
    (decodeStructInto detailStep st.Data v).map (fun d => { st with Data := d })
  else some st

/-- The zero value `OrderResponseData{}`. -/
def OrderResponseData.zero : OrderResponseData :=
  { Type_ := "", Data := { Statuses := [] } }

/-- The local struct `temp` of `UnmarshalJSON`; the `json.RawMessage` is the value it
holds, `none` when it is empty. -/
structure responseEnvelope where
  Status : String
  Response : Option JsonValue

/-- The fields of `temp`. -/
def envelopeStep (st : responseEnvelope) (key : String) (v : JsonValue) :
    Option responseEnvelope :=
  if goEqualFold key "status" then
    (decodeStringInto st.Status v).map (fun s => { st with Status := s })
  else if goEqualFold key "response" then some { st with Response := some v }
  else some st

/-- The errors of `UnmarshalJSON`: the one `json.Unmarshal` of the whole text gives,
and "response field is neither OrderResponseData nor string". -/
inductive UnmarshalError where
  | json
  | neither
  deriving DecidableEq, Repr

/-- Embedding of `OrderResponse.UnmarshalJSON`: the error returned and the receiver
after the call. -/
def OrderResponse.UnmarshalJSON (o : OrderResponse) (data : Option JsonValue) :
    Option UnmarshalError × OrderResponse :=
  match data.bind (decodeStructInto envelopeStep { Status := "", Response := none }) with
  | none => (some UnmarshalError.json, o)
  | some temp =>
    match temp.Response.bind (decodeStructInto responseDataStep OrderResponseData.zero) with
    | some respData => (none, { o with Status := temp.Status, Response := respData })
    | none =>
      match temp.Response.bind (decodeStringInto "") with
      | some respStr => (none, { o with Status := temp.Status, ErrorMessage := respStr })
      | none => (some UnmarshalError.neither, { o with Status := temp.Status })

/-- The zero value `OrderResponse{}`. -/
def OrderResponse.zero : OrderResponse :=
  { Status := "", Response := OrderResponseData.zero, ErrorMessage := "" }

/-- The JSON object with the members `status` and `response`. -/
def responseText (status : String) (response : JsonValue) : Option JsonValue :=
  some (JsonValue.object [("status", JsonValue.string status), ("response", response)])

/-! ## pkg/llm/budget.go: sequences of calls -/

/-- A call on a `BudgetGuard`, with the clock reading it makes. -/
inductive BudgetCall where
  | allow (now : Int)
  | record (now : Int) (model : String) (tokens : Int)

/-- The clock reading of a call. -/
def BudgetCall.now : BudgetCall → Int
  | BudgetCall.allow now => now
  | BudgetCall.record now _ _ => now

/-- The error a call returns and the guard after it. -/
def BudgetGuard.step (g : BudgetGuard) : BudgetCall → Option LlmError × BudgetGuard
  | BudgetCall.allow now => g.AllowAttempt now
  | BudgetCall.record now model tokens =>
    ((g.RecordUsage now model tokens).1.2, (g.RecordUsage now model tokens).2)

/-- The guard after a sequence of calls. -/
def BudgetGuard.run (g : BudgetGuard) (calls : List BudgetCall) : BudgetGuard :=
  calls.foldl (fun acc call => (acc.step call).2) g

/-- The guard of `NewBudgetGuard` on the test configuration after
`RecordUsage("gpt-5", 500)` on the test day: its period is the test day and its ledger
holds 500 tokens. -/
def staleTestGuard : BudgetGuard :=
  (freshTestGuard.RecordUsage testStart "gpt-5" 500).2

/-- The ids of the records, in order, whose action in `actions` (one per record) is
`action`. -/
def idsWithAction (records : List TraderConfigRecord) (actions : List configSyncAction)
    (action : configSyncAction) : List String :=
  ((records.zip actions).filter (fun p => decide (p.2 = action))).map (fun p => p.1.ID)

/-- The empty summary `Sync` starts from. -/
def emptySummary : ConfigSyncResult :=
  { Inserted := [], Updated := [], Unchanged := [] }

/-- A record without an id. -/
def blankIdRecord : TraderConfigRecord :=
  { sampleRecord with ID := "  " }

/-! ## pkg/journal/replay.go `ParseDecisionsJSON` and cmd/journalreplay/main.go

`json.Unmarshal` into `[]executor.Decision` and `json.Marshal` of the compact list are
functions of the environment. -/

/-- Embedding of `ParseDecisionsJSON`, with `json.Unmarshal` into a decision slice as
`decode`. -/
def ParseDecisionsJSON (decode : String → Except String (List Decision)) (payload : String) :
    Except String (List Decision) :=
  if goTrimSpace payload = "" then Except.ok [] else decode payload

/-- Embedding of the local type `compact` of `normalizeDecisions`. -/
structure compactDecision where
  Symbol : String
  Action : String
  PositionSizeUSD : ℚ
  EntryPrice : ℚ
  StopLoss : ℚ
  TakeProfit : ℚ
  Confidence : Int
  deriving DecidableEq

/-- The `json.Marshal` of a list of `compact` values: the type of the texts it yields,
with their equality, and the function. -/
structure CompactJson where
  Text : Type
  textEq : DecidableEq Text
  marshal : List compactDecision → Except String Text

/-- The `compact` value `normalizeDecisions` builds from a decision. -/
def compactOf (d : Decision) : compactDecision :=
  { Symbol := goToUpper (goTrimSpace d.Symbol)
    Action := goToLower (goTrimSpace d.Action)
    PositionSizeUSD := d.PositionSizeUSD
    EntryPrice := d.EntryPrice
    StopLoss := d.StopLoss
    TakeProfit := d.TakeProfit
    Confidence := d.Confidence }

/-- Embedding of `normalizeDecisions`. -/
def normalizeDecisions (lib : CompactJson) (decisions : List Decision) :
    Except String lib.Text :=
  lib.marshal (decisions.map compactOf)

/-- The errors of `compareDecisions`. -/
inductive CompareError where
  | parse (cause : String)
  | countMismatch (recorded replayed : Nat)
  | marshal (cause : String)
  | payloadMismatch
  deriving DecidableEq, Repr

/-- Embedding of `compareDecisions`: the error returned, `none` for nil. -/
def compareDecisions (lib : CompactJson) (decode : String → Except String (List Decision))
    (recordedJSON : String) (replayed : List Decision) : Option CompareError :=
  match ParseDecisionsJSON decode recordedJSON with
  | Except.error cause => some (CompareError.parse cause)
  | Except.ok recorded =>
    if recorded.length = 0 ∧ replayed.length = 0 then none
    else if recorded.length ≠ replayed.length then
      some (CompareError.countMismatch recorded.length replayed.length)
    else
      match normalizeDecisions lib recorded with
      | Except.error cause => some (CompareError.marshal cause)
      | Except.ok normRecorded =>
        match normalizeDecisions lib replayed with
        | Except.error cause => some (CompareError.marshal cause)
        | Except.ok normReplay =>
          match lib.textEq normRecorded normReplay with
          | isTrue _ => none
          | isFalse _ => some CompareError.payloadMismatch

/-- Two decisions agree on what `compareDecisions` compares: symbol and action up to
case and surrounding whitespace, the four prices and sizes, and the confidence. -/
def decisionsAgree (a b : Decision) : Prop :=
  goToUpper (goTrimSpace a.Symbol) = goToUpper (goTrimSpace b.Symbol) ∧
  goToLower (goTrimSpace a.Action) = goToLower (goTrimSpace b.Action) ∧
  a.PositionSizeUSD = b.PositionSizeUSD ∧ a.EntryPrice = b.EntryPrice ∧
  a.StopLoss = b.StopLoss ∧ a.TakeProfit = b.TakeProfit ∧ a.Confidence = b.Confidence

/-- A `json.Marshal` stand-in that keeps the compact list as its own text. -/
def sampleCompactJson : CompactJson :=
  { Text := List compactDecision, textEq := inferInstance, marshal := fun l => Except.ok l }

/-- A `json.Unmarshal` stand-in that knows one text, which holds the BTC decision of
scenario 1. -/
def sampleDecode : String → Except String (List Decision) :=
  fun payload =>
    if payload = "[btc]" then Except.ok [btcDecision "open_long" 200 100]
    else Except.error "invalid character"

/-! # Theorems -/

theorem recordUsage_enabled (g : BudgetGuard) (now : Int) (model : String) (tokens : Int)
    (c : BudgetConfig) (hcfg : g.cfg = some c) (hen : 0 < c.DailyTokenLimit)
    (htok : 0 < tokens) :
    g.RecordUsage now model tokens =
      ((usageSnapshot c (g.resetIfNeeded now) model tokens,
        if c.StrictEnforcement = true ∧
            (g.resetIfNeeded now).usedTokens + tokens > c.DailyTokenLimit
          then some LlmError.ErrBudgetExceeded else none),
       { g.resetIfNeeded now with
          usedTokens := (g.resetIfNeeded now).usedTokens + tokens,
          usedCostUSD := float64Add (g.resetIfNeeded now).usedCostUSD
            (float64Mul (float64Div (float64OfInt tokens) 1000000)
              ((g.resetIfNeeded now).costRate model)) }) := by
  have hlim : ¬ (c.DailyTokenLimit ≤ 0 ∨ tokens ≤ 0) := by
    rintro (h | h)
    · exact absurd hen (not_lt.mpr h)
    · exact absurd htok (not_lt.mpr h)
  unfold BudgetGuard.RecordUsage usageSnapshot
  simp only [hcfg, hlim, if_false]
  by_cases hcond : c.StrictEnforcement = true ∧
      (g.resetIfNeeded now).usedTokens + tokens > c.DailyTokenLimit
  · have h3 : c.DailyTokenLimit > 0 ∧
        (g.resetIfNeeded now).usedTokens + tokens > c.DailyTokenLimit ∧
        c.StrictEnforcement = true := ⟨hen, hcond.2, hcond.1⟩
    rw [if_pos h3, if_pos hcond]
  · have h3 : ¬ (c.DailyTokenLimit > 0 ∧
        (g.resetIfNeeded now).usedTokens + tokens > c.DailyTokenLimit ∧
        c.StrictEnforcement = true) := fun h => hcond ⟨h.2.2, h.2.1⟩
    rw [if_neg h3, if_neg hcond]

theorem resetIfNeeded_same_day (g : BudgetGuard) (now : Int)
    (h0 : g.periodStart ≠ 0) (hd : truncateDay now = g.periodStart) :
    g.resetIfNeeded now = g := by
  unfold BudgetGuard.resetIfNeeded
  simp [h0, hd]

theorem resetIfNeeded_new_day (g : BudgetGuard) (now : Int)
    (hd : truncateDay now ≠ g.periodStart) :
    g.resetIfNeeded now =
      { g with periodStart := truncateDay now, usedTokens := 0, usedCostUSD := 0 } := by
  unfold BudgetGuard.resetIfNeeded
  simp [hd]

theorem cfg_resetIfNeeded (g : BudgetGuard) (now : Int) :
    (g.resetIfNeeded now).cfg = g.cfg := by
  by_cases h : g.periodStart = 0 ∨ ¬ (truncateDay now = g.periodStart)
  · simp [BudgetGuard.resetIfNeeded, h]
  · simp [BudgetGuard.resetIfNeeded, h]

theorem costRate_resetIfNeeded (g : BudgetGuard) (now : Int) (model : String) :
    (g.resetIfNeeded now).costRate model = g.costRate model := by
  unfold BudgetGuard.costRate
  rw [cfg_resetIfNeeded]

/-! ### The UTC day of an instant -/

theorem truncateDay_le (t : Int) : truncateDay t ≤ t := by
  unfold truncateDay
  have h := Int.emod_nonneg t (show nanosPerDay ≠ 0 by decide)
  omega

theorem lt_truncateDay_add (t : Int) : t < truncateDay t + nanosPerDay := by
  unfold truncateDay
  have h := Int.emod_lt_of_pos t (show (0 : Int) < nanosPerDay by decide)
  omega

theorem truncateDay_emod (t : Int) : truncateDay t % nanosPerDay = 0 := by
  unfold truncateDay
  have h : t - t % nanosPerDay = nanosPerDay * (t / nanosPerDay) := by
    have := Int.emod_add_ediv t nanosPerDay
    omega
  rw [h]
  exact Int.mul_emod_right _ _

theorem truncateDay_eq_of_mem (t p : Int) (hp : p % nanosPerDay = 0)
    (hle : p ≤ t) (hlt : t < p + nanosPerDay) : truncateDay t = p := by
  have h1 := truncateDay_le t
  have h2 := lt_truncateDay_add t
  have h3 := truncateDay_emod t
  have hd : nanosPerDay ∣ truncateDay t - p := by
    apply Int.dvd_of_emod_eq_zero
    rw [Int.sub_emod, h3, hp]
    rfl
  obtain ⟨k, hk⟩ := hd
  have hpos : (0 : Int) < nanosPerDay := by decide
  have hk0 : k = 0 := by
    by_contra hne
    rcases lt_or_gt_of_ne hne with hneg | hgt
    · have : nanosPerDay * k ≤ nanosPerDay * (-1) :=
        Int.mul_le_mul_of_nonneg_left (by omega) (le_of_lt hpos)
      omega
    · have : nanosPerDay * 1 ≤ nanosPerDay * k :=
        Int.mul_le_mul_of_nonneg_left (by omega) (le_of_lt hpos)
      omega
  rw [hk0] at hk
  omega

theorem truncateDay_ne_of_outside (t p : Int)
    (hout : ¬ (p ≤ t ∧ t < p + nanosPerDay)) : truncateDay t ≠ p := by
  intro h
  apply hout
  rw [← h]
  exact ⟨truncateDay_le t, lt_truncateDay_add t⟩

/-! ### float64 rounding -/

theorem bitLengthAux_le (fuel : Nat) :
    ∀ (n k : Nat), n < 2 ^ k → bitLengthAux fuel n ≤ k := by
  induction fuel with
  | zero =>
    intro n k _
    simp [bitLengthAux]
  | succ f ih =>
    intro n k hn
    unfold bitLengthAux
    by_cases h0 : n = 0
    · simp [h0]
    · simp only [h0, if_false]
      cases k with
      | zero =>
        simp at hn
        exact absurd hn h0
      | succ j =>
        have hhalf : n / 2 < 2 ^ j := by
          rw [Nat.div_lt_iff_lt_mul (by decide)]
          rw [pow_succ] at hn
          exact hn
        have := ih (n / 2) j hhalf
        omega

theorem roundHalfEven_one (n : Nat) : roundHalfEven n 1 = n := by
  unfold roundHalfEven
  simp [Nat.mod_one]

theorem binaryExponent_le (p q : Nat) :
    binaryExponent p q ≤ (bitLength p : Int) - (bitLength q : Int) := by
  unfold binaryExponent
  simp only []
  split_ifs <;> omega

theorem roundPositive_of_small (p : Nat) (hp : p < 2 ^ 53) : roundPositive p 1 = (p : ℚ) := by
  have hb : bitLength p ≤ 53 := bitLengthAux_le p p 53 hp
  have h1 : bitLength 1 = 1 := by decide
  have he := binaryExponent_le p 1
  rw [h1] at he
  unfold roundPositive
  simp only []
  by_cases hs : 0 ≤ binaryExponent p 1 - 52
  · have hz : binaryExponent p 1 - 52 = 0 := by omega
    rw [if_pos hs, hz]
    simp [roundHalfEven_one]
  · rw [if_neg hs, roundHalfEven_one]
    have hne : (((2 ^ (-(binaryExponent p 1 - 52)).toNat : Nat)) : ℚ) ≠ 0 := by
      exact_mod_cast (pow_pos (by decide : 0 < 2) _).ne'
    rw [Nat.cast_mul, mul_div_assoc, div_self hne, mul_one]

theorem float64OfInt_of_small (n : Int) (hn : n.natAbs < 2 ^ 53) :
    float64OfInt n = (n : ℚ) := by
  unfold float64OfInt roundFloat64
  by_cases h0 : (n : ℚ) = 0
  · rw [if_pos h0, h0]
  · rw [if_neg h0]
    simp only [Rat.num_intCast, Rat.den_intCast]
    rw [roundPositive_of_small _ hn]
    by_cases hpos : (0 : ℚ) < (n : ℚ)
    · rw [if_pos hpos]
      have : 0 < n := by exact_mod_cast hpos
      rw [Nat.cast_natAbs, abs_of_pos this]
    · rw [if_neg hpos]
      have : n ≤ 0 := by exact_mod_cast not_lt.mp hpos
      rw [Nat.cast_natAbs, abs_of_nonpos this]
      push_cast
      ring

theorem percentage_le_hundred (value limit : Int) : percentage value limit ≤ 100 := by
  unfold percentage
  split_ifs
  · norm_num
  · exact min_le_left _ _

unseal Rat.mul Rat.inv Rat.add Rat.sub in
theorem percentage_600_of_1000 : percentage 600 1000 = 60 := by decide

unseal Rat.mul Rat.inv Rat.add Rat.sub in
theorem percentage_900_of_1000 : percentage 900 1000 = 90 := by decide

unseal Rat.mul Rat.inv Rat.add Rat.sub in
theorem percentage_290_of_1000 :
    percentage 290 1000 = 8162774324609023 / 281474976710656 := by decide

/-! ## Budget guard -/

/-- Claim C1: for an enabled guard, `AllowAttempt` (after the day reset) returns
`ErrBudgetExceeded` exactly when enforcement is strict and the used tokens have
reached the daily limit, and returns no error otherwise; the guard it leaves is the
guard after the day reset; at `used_tokens == daily_token_limit` it fails under
strict enforcement and succeeds without it. -/
theorem allowAttempt_budget_exceeded_iff (g : BudgetGuard) (now : Int) (c : BudgetConfig)
    (hcfg : g.cfg = some c) (hen : 0 < c.DailyTokenLimit) :
    ((g.AllowAttempt now).1 = some LlmError.ErrBudgetExceeded ↔
        c.StrictEnforcement = true ∧ (g.resetIfNeeded now).usedTokens ≥ c.DailyTokenLimit) ∧
    ((g.AllowAttempt now).1 = none ↔
        ¬ (c.StrictEnforcement = true ∧ (g.resetIfNeeded now).usedTokens ≥ c.DailyTokenLimit)) ∧
    (g.AllowAttempt now).2 = g.resetIfNeeded now ∧
    ((g.resetIfNeeded now).usedTokens = c.DailyTokenLimit →
        (g.AllowAttempt now).1 =
          if c.StrictEnforcement = true then some LlmError.ErrBudgetExceeded else none) := by
  have hlim : ¬ c.DailyTokenLimit ≤ 0 := not_le.mpr hen
  unfold BudgetGuard.AllowAttempt
  simp only [hcfg, hlim, if_false]
  by_cases hu : (g.resetIfNeeded now).usedTokens ≥ c.DailyTokenLimit
  · by_cases hs : c.StrictEnforcement = true
    · simp [hu, hs]
    · simp [hu, hs]
  · have hne : (g.resetIfNeeded now).usedTokens ≠ c.DailyTokenLimit := by
      intro h; exact hu (le_of_eq h.symm)
    simp [hu, hne]

/-- Claim C1 at limit 1000 on the test day: with exactly 1000 tokens used the attempt
is refused under strict enforcement and allowed without it; with 999 used it is
allowed; after the 1100 tokens of the test it is refused. -/
theorem allowAttempt_budget_exceeded_iff_witness :
    (testGuard 1000 true).cfg = some testBudgetConfig ∧
    ((testGuard 1000 true).AllowAttempt testStart).1 = some LlmError.ErrBudgetExceeded ∧
    ((testGuard 1000 false).AllowAttempt testStart).1 = none ∧
    ((testGuard 999 true).AllowAttempt testStart).1 = none ∧
    (testGuardAfter1100.AllowAttempt testStart).1 = some LlmError.ErrBudgetExceeded := by
  have h1 := allowAttempt_budget_exceeded_iff (testGuard 1000 true) testStart testBudgetConfig rfl
    (by decide)
  have h2 := allowAttempt_budget_exceeded_iff (testGuard 1000 false) testStart
    { testBudgetConfig with StrictEnforcement := false } rfl (by decide)
  refine ⟨rfl, ?_, ?_, ?_, ?_⟩
  · exact h1.1.mpr ⟨rfl, by decide⟩
  · exact h2.2.1.mpr (by decide)
  · decide
  · decide

/-- Claim C2: for an enabled guard and `tokens > 0`, `RecordUsage` adds the tokens to
the ledger (the snapshot and the guard hold the total after the day reset plus
`tokens`; on the same day that is the previous total plus `tokens`) and returns
`ErrBudgetExceeded` exactly when enforcement is strict and the new total exceeds
the daily limit; the tokens are added also when the error is returned. -/
theorem recordUsage_accumulates (g : BudgetGuard) (now : Int) (model : String) (tokens : Int)
    (c : BudgetConfig) (hcfg : g.cfg = some c) (hen : 0 < c.DailyTokenLimit)
    (htok : 0 < tokens) :
    (g.RecordUsage now model tokens).1.1.UsedTokens = (g.resetIfNeeded now).usedTokens + tokens ∧
    (g.RecordUsage now model tokens).2.usedTokens = (g.resetIfNeeded now).usedTokens + tokens ∧
    ((g.RecordUsage now model tokens).1.2 = some LlmError.ErrBudgetExceeded ↔
        c.StrictEnforcement = true ∧
          (g.resetIfNeeded now).usedTokens + tokens > c.DailyTokenLimit) ∧
    ((g.RecordUsage now model tokens).1.2 = none ↔
        ¬ (c.StrictEnforcement = true ∧
          (g.resetIfNeeded now).usedTokens + tokens > c.DailyTokenLimit)) ∧
    (g.periodStart ≠ 0 → truncateDay now = g.periodStart →
        (g.RecordUsage now model tokens).1.1.UsedTokens = g.usedTokens + tokens ∧
        (g.RecordUsage now model tokens).2.usedTokens = g.usedTokens + tokens) := by
  rw [recordUsage_enabled g now model tokens c hcfg hen htok]
  refine ⟨rfl, rfl, ?_, ?_, ?_⟩
  · by_cases hcond : c.StrictEnforcement = true ∧
        (g.resetIfNeeded now).usedTokens + tokens > c.DailyTokenLimit
    · simp only [if_pos hcond, true_iff]; exact hcond
    · simp only [if_neg hcond]; simp [hcond]
  · by_cases hcond : c.StrictEnforcement = true ∧
        (g.resetIfNeeded now).usedTokens + tokens > c.DailyTokenLimit
    · simp only [if_pos hcond]; simp [hcond]
    · simp only [if_neg hcond, true_iff]; exact hcond
  · intro h0 hd
    rw [resetIfNeeded_same_day g now h0 hd]
    exact ⟨rfl, rfl⟩

/-- Claim C2 on the run of `TestBudgetGuardRecordUsage` (limit 1000, strict): 600 and
then 300 tokens are recorded without error, a further 200 returns
`ErrBudgetExceeded` with `UsedTokens = 1100`, and the ledger holds 1100. -/
theorem recordUsage_accumulates_witness :
    NewBudgetGuard (some testBudgetConfig) = some freshTestGuard ∧
    testGuardAfter900.cfg = some testBudgetConfig ∧
    (0 : Int) < testBudgetConfig.DailyTokenLimit ∧ (0 : Int) < 200 ∧
    (freshTestGuard.RecordUsage testStart "gpt-5" 600).1.2 = none ∧
    (freshTestGuard.RecordUsage testStart "gpt-5" 600).1.1.UsedTokens = 600 ∧
    (testGuardAfter600.RecordUsage testStart "gpt-5" 300).1.2 = none ∧
    (testGuardAfter600.RecordUsage testStart "gpt-5" 300).1.1.UsedTokens = 900 ∧
    (testGuardAfter900.RecordUsage testStart "gpt-5" 200).1.1.UsedTokens = 1100 ∧
    (testGuardAfter900.RecordUsage testStart "gpt-5" 200).1.2 =
      some LlmError.ErrBudgetExceeded ∧
    (testGuardAfter900.RecordUsage testStart "gpt-5" 200).2.usedTokens = 1100 := by
  have h := recordUsage_accumulates testGuardAfter900 testStart "gpt-5" 200
    testBudgetConfig rfl (by decide) (by decide)
  have hr : (testGuardAfter900.resetIfNeeded testStart).usedTokens = 900 := by decide
  rw [hr] at h
  refine ⟨?_, rfl, by decide, by decide, by decide, by decide, by decide, by decide, ?_, ?_, ?_⟩
  · simp [NewBudgetGuard, freshTestGuard, testBudgetConfig]
  · rw [h.1]; rfl
  · exact h.2.2.1.mpr ⟨rfl, by decide⟩
  · rw [h.2.1]; rfl

/-- Claim C3: for an enabled guard, a call at an instant outside the 24 hours that
begin at `period_start` first resets the ledger. `AllowAttempt` leaves used tokens and
cost at zero and succeeds, and the new `period_start` is the UTC midnight of the
instant's day: a multiple of one day, at or before the instant and less than one day
before it. `RecordUsage` with `tokens > 0` leaves exactly the tokens and cost of this
call on the new day. Later calls within the 24 hours of that day do not reset again. A
`RecordUsage` with `tokens ≤ 0` returns before it reads the clock and leaves the guard
as it is. -/
theorem budget_resets_on_new_day (g : BudgetGuard) (now : Int) (c : BudgetConfig)
    (hcfg : g.cfg = some c) (hen : 0 < c.DailyTokenLimit)
    (hday : ¬ (g.periodStart ≤ now ∧ now < g.periodStart + nanosPerDay)) :
    (g.AllowAttempt now).2 =
        { g with periodStart := truncateDay now, usedTokens := 0, usedCostUSD := 0 } ∧
    (g.AllowAttempt now).1 = none ∧
    ((g.AllowAttempt now).2.periodStart % nanosPerDay = 0 ∧
      (g.AllowAttempt now).2.periodStart ≤ now ∧
      now < (g.AllowAttempt now).2.periodStart + nanosPerDay) ∧
    (∀ (model : String) (tokens : Int), 0 < tokens →
      (g.RecordUsage now model tokens).2 =
          { g with periodStart := truncateDay now, usedTokens := tokens,
                   usedCostUSD := float64Add 0
                     (float64Mul (float64Div (float64OfInt tokens) 1000000)
                       (g.costRate model)) } ∧
      (g.RecordUsage now model tokens).1.1.UsedTokens = tokens ∧
      (g.RecordUsage now model tokens).1.1.UsedCostUSD =
          float64Add 0
            (float64Mul (float64Div (float64OfInt tokens) 1000000) (g.costRate model)) ∧
      (g.RecordUsage now model tokens).2.periodStart % nanosPerDay = 0 ∧
      (g.RecordUsage now model tokens).2.periodStart ≤ now ∧
      now < (g.RecordUsage now model tokens).2.periodStart + nanosPerDay) ∧
    ((g.AllowAttempt now).2.periodStart ≠ 0 → ∀ later : Int,
      (g.AllowAttempt now).2.periodStart ≤ later →
      later < (g.AllowAttempt now).2.periodStart + nanosPerDay →
      (g.AllowAttempt now).2.resetIfNeeded later = (g.AllowAttempt now).2) ∧
    (∀ (model : String) (tokens : Int), tokens ≤ 0 →
      g.RecordUsage now model tokens = ((BudgetSnapshot.zero, none), g)) := by
  have hne : truncateDay now ≠ g.periodStart := truncateDay_ne_of_outside now _ hday
  have hreset := resetIfNeeded_new_day g now hne
  have hlim : ¬ c.DailyTokenLimit ≤ 0 := not_le.mpr hen
  have hallow : g.AllowAttempt now =
      (none, { g with periodStart := truncateDay now, usedTokens := 0, usedCostUSD := 0 }) := by
    unfold BudgetGuard.AllowAttempt
    simp only [hcfg, hlim, if_false, hreset]
  have hmid : truncateDay now % nanosPerDay = 0 ∧ truncateDay now ≤ now ∧
      now < truncateDay now + nanosPerDay :=
    ⟨truncateDay_emod now, truncateDay_le now, lt_truncateDay_add now⟩
  refine ⟨by rw [hallow], by rw [hallow], by rw [hallow]; exact hmid, ?_, ?_, ?_⟩
  · intro model tokens htok
    have hrate := costRate_resetIfNeeded g now model
    rw [recordUsage_enabled g now model tokens c hcfg hen htok]
    simp only [usageSnapshot]
    rw [hrate, hreset]
    refine ⟨by simp, by simp, rfl, hmid⟩
  · intro hnz later hle hlt
    rw [hallow] at hnz hle hlt ⊢
    exact resetIfNeeded_same_day _ later hnz
      (truncateDay_eq_of_mem later _ (truncateDay_emod now) hle hlt)
  · intro model tokens htok
    unfold BudgetGuard.RecordUsage
    simp only [hcfg, htok, or_true, if_true]

/-- Claim C3 on the run of `TestBudgetGuardRecordUsage`: with the budget exhausted on
2025-11-08 (1100 of 1000 tokens), `AllowAttempt` is still refused at the last
nanosecond of that day; 24 hours after the start it succeeds and a `RecordUsage` of
100 tokens reports `UsedTokens = 100`; at 13:45 of the next day it succeeds as well and
moves `period_start` to midnight of 2025-11-09, not to 13:45. -/
theorem budget_resets_on_new_day_witness :
    testGuardAfter1100.cfg = some testBudgetConfig ∧
    testGuardAfter1100.periodStart = testStart ∧
    testGuardAfter1100.usedTokens = 1100 ∧
    (testGuardAfter1100.AllowAttempt testStart).1 = some LlmError.ErrBudgetExceeded ∧
    (testGuardAfter1100.AllowAttempt testLastNano).1 = some LlmError.ErrBudgetExceeded ∧
    (testGuardAfter1100.AllowAttempt testNextDay).1 = none ∧
    ((testGuardAfter1100.AllowAttempt testNextDay).2.RecordUsage
        testNextDay "gpt-5" 100).1.1.UsedTokens = 100 ∧
    (testGuardAfter1100.RecordUsage testNextDay "gpt-5" 100).1.1.UsedTokens = 100 ∧
    (testGuardAfter1100.AllowAttempt testAfternoon).1 = none ∧
    (testGuardAfter1100.AllowAttempt testAfternoon).2.periodStart = testNextDay ∧
    (testGuardAfter1100.AllowAttempt testAfternoon).2.usedTokens = 0 ∧
    (testGuardAfter1100.RecordUsage testAfternoon "gpt-5" 100).2.periodStart = testNextDay ∧
    (testGuardAfter1100.RecordUsage testAfternoon "gpt-5" 100).1.1.UsedTokens = 100 := by
  have h := budget_resets_on_new_day testGuardAfter1100
    testNextDay testBudgetConfig rfl (by decide) (by decide)
  have ha := budget_resets_on_new_day testGuardAfter1100
    testAfternoon testBudgetConfig rfl (by decide) (by decide)
  have hmid : truncateDay testAfternoon = testNextDay := by decide
  refine ⟨rfl, by decide, by decide, by decide, by decide, h.2.1, by decide,
    (h.2.2.2.1 "gpt-5" 100 (by decide)).2.1, ha.2.1, ?_, ?_, ?_,
    (ha.2.2.2.1 "gpt-5" 100 (by decide)).2.1⟩
  · rw [ha.1]; exact hmid
  · rw [ha.1]
  · rw [(ha.2.2.2.1 "gpt-5" 100 (by decide)).1]; exact hmid

/-- Claim C4 fails when the alert threshold is 0: on limit 1000 a first record of 600
tokens reports a usage of 60 percent, which is at least the threshold 0, and yet
`AlertTriggered` is false. It also fails on limit 1000 with threshold 29 for a first
record of 290 tokens: 290 is 29 percent of 1000, and yet `AlertTriggered` is false,
because the reported `UsagePct` is the `float64` value `28.999999999999996`. -/
theorem recordUsage_alert_counterexample :
    alertOffGuard.cfg.map (fun c => (c.DailyTokenLimit, c.AlertThresholdPct)) =
      some (1000, 0) ∧
    (alertOffGuard.RecordUsage testStart "gpt-5" 600).1.1.AlertTriggered = false ∧
    (alertOffGuard.RecordUsage testStart "gpt-5" 600).1.1.UsagePct = 60 ∧
    (alertOffGuard.RecordUsage testStart "gpt-5" 600).1.1.UsagePct ≥
      float64OfInt (alertOffGuard.RecordUsage testStart "gpt-5" 600).1.1.AlertThresholdPct ∧
    (alertOffGuard.RecordUsage testStart "gpt-5" 600).1.1.UsagePct ≥
      ((alertOffGuard.RecordUsage testStart "gpt-5" 600).1.1.AlertThresholdPct : ℚ) ∧
    alert29Guard.cfg.map (fun c => (c.DailyTokenLimit, c.AlertThresholdPct)) =
      some (1000, 29) ∧
    (alert29Guard.RecordUsage testStart "gpt-5" 290).1.1.UsedTokens = 290 ∧
    ((290 : ℚ) / 1000 * 100 ≥ 29) ∧
    (alert29Guard.RecordUsage testStart "gpt-5" 290).1.1.AlertTriggered = false := by
  rw [recordUsage_enabled alertOffGuard testStart "gpt-5" 600 _ rfl (by decide) (by decide),
    recordUsage_enabled alert29Guard testStart "gpt-5" 290 _ rfl (by decide) (by decide)]
  have hr : (alertOffGuard.resetIfNeeded testStart).usedTokens = 0 := by decide
  have hr29 : (alert29Guard.resetIfNeeded testStart).usedTokens = 0 := by decide
  have h0 : float64OfInt 0 = 0 := float64OfInt_of_small 0 (by decide)
  have h29 : float64OfInt 29 = 29 := float64OfInt_of_small 29 (by decide)
  simp only [usageSnapshot, hr, hr29]
  refine ⟨rfl, ?_, ?_, ?_, ?_, rfl, rfl, by norm_num, ?_⟩
  · simp
  · exact percentage_600_of_1000
  · show percentage (0 + 600) 1000 ≥ float64OfInt 0
    rw [h0]
    show percentage 600 1000 ≥ 0
    rw [percentage_600_of_1000]
    norm_num
  · show percentage 600 1000 ≥ ((0 : Int) : ℚ)
    rw [percentage_600_of_1000]
    norm_num
  · show (decide ((1000 : Int) > 0) && decide ((29 : Int) > 0) &&
      decide (percentage (0 + 290) 1000 ≥ float64OfInt 29)) = false
    rw [h29]
    have hp : percentage (0 + 290) 1000 = 8162774324609023 / 281474976710656 :=
      percentage_290_of_1000
    rw [hp]
    have hlt : ¬ ((8162774324609023 : ℚ) / 281474976710656 ≥ 29) := by norm_num
    simp [hlt]

/-- Claim C4, amended: for an enabled guard and `tokens > 0`, `AlertTriggered` is
true exactly when the alert threshold is positive and the reported `UsagePct` is at
least `float64(threshold)`, which for a threshold below `2^53` is the threshold
itself; `UsagePct` is `float64(total) / float64(limit) * 100` as `float64` arithmetic
rounds it, capped at 100, where `total` is the new total of used tokens. -/
theorem recordUsage_alert_iff (g : BudgetGuard) (now : Int) (model : String) (tokens : Int)
    (c : BudgetConfig) (hcfg : g.cfg = some c) (hen : 0 < c.DailyTokenLimit)
    (htok : 0 < tokens) :
    ((g.RecordUsage now model tokens).1.1.AlertTriggered = true ↔
        0 < c.AlertThresholdPct ∧
        (g.RecordUsage now model tokens).1.1.UsagePct ≥ float64OfInt c.AlertThresholdPct) ∧
    (c.AlertThresholdPct.natAbs < 2 ^ 53 →
      ((g.RecordUsage now model tokens).1.1.AlertTriggered = true ↔
        0 < c.AlertThresholdPct ∧
        (g.RecordUsage now model tokens).1.1.UsagePct ≥ (c.AlertThresholdPct : ℚ))) ∧
    (g.RecordUsage now model tokens).1.1.UsagePct =
        min 100 (float64Mul
          (float64Div (float64OfInt ((g.resetIfNeeded now).usedTokens + tokens))
            (float64OfInt c.DailyTokenLimit)) 100) ∧
    (g.RecordUsage now model tokens).1.1.UsagePct ≤ 100 ∧
    (100 < c.AlertThresholdPct → c.AlertThresholdPct.natAbs < 2 ^ 53 →
      (g.RecordUsage now model tokens).1.1.AlertTriggered = false) := by
  have hl' : ¬ c.DailyTokenLimit ≤ 0 := not_le.mpr hen
  rw [recordUsage_enabled g now model tokens c hcfg hen htok]
  have hfirst : (usageSnapshot c (g.resetIfNeeded now) model tokens).AlertTriggered = true ↔
      0 < c.AlertThresholdPct ∧
      (usageSnapshot c (g.resetIfNeeded now) model tokens).UsagePct ≥
        float64OfInt c.AlertThresholdPct := by
    simp [usageSnapshot, hen]
  have hle : (usageSnapshot c (g.resetIfNeeded now) model tokens).UsagePct ≤ 100 :=
    percentage_le_hundred _ _
  refine ⟨hfirst, ?_, ?_, hle, ?_⟩
  · intro hsmall
    rw [hfirst, float64OfInt_of_small _ hsmall]
  · simp [usageSnapshot, percentage, hl']
  · intro hbig hsmall
    rw [← Bool.not_eq_true, hfirst, float64OfInt_of_small _ hsmall]
    rintro ⟨_, hge⟩
    have h100 : (100 : ℚ) < (c.AlertThresholdPct : ℚ) := by exact_mod_cast hbig
    exact absurd (lt_of_lt_of_le h100 (le_trans hge hle)) (lt_irrefl _)

/-- Claim C4 on the run of `TestBudgetGuardRecordUsage` (limit 1000, threshold 80): a
total of 600 does not alert, a total of 900 alerts with a usage of 90 percent. On
limit 1000 with threshold 29 a total of 290 does not alert: `float64` arithmetic gives
`290 / 1000 * 100` as `28.999999999999996`. -/
theorem recordUsage_alert_iff_witness :
    testGuardAfter600.cfg = some testBudgetConfig ∧
    (0 : Int) < testBudgetConfig.DailyTokenLimit ∧ (0 : Int) < 300 ∧
    (freshTestGuard.RecordUsage testStart "gpt-5" 600).1.1.AlertTriggered = false ∧
    (testGuardAfter600.RecordUsage testStart "gpt-5" 300).1.1.AlertTriggered = true ∧
    (testGuardAfter600.RecordUsage testStart "gpt-5" 300).1.1.UsagePct = 90 ∧
    (alert29Guard.RecordUsage testStart "gpt-5" 290).1.1.UsagePct =
      8162774324609023 / 281474976710656 ∧
    (alert29Guard.RecordUsage testStart "gpt-5" 290).1.1.UsagePct < 29 ∧
    (alert29Guard.RecordUsage testStart "gpt-5" 290).1.1.AlertTriggered = false := by
  have h6 := recordUsage_alert_iff freshTestGuard testStart "gpt-5" 600
    testBudgetConfig rfl (by decide) (by decide)
  have h9 := recordUsage_alert_iff testGuardAfter600 testStart "gpt-5" 300
    testBudgetConfig rfl (by decide) (by decide)
  have h29 := recordUsage_alert_iff alert29Guard testStart "gpt-5" 290
    { DailyTokenLimit := 1000, AlertThresholdPct := 29, StrictEnforcement := true,
      CostPerMillionTokens := [("gpt-5", 20)] } rfl (by decide) (by decide)
  have hr6 : (freshTestGuard.resetIfNeeded testStart).usedTokens = 0 := by decide
  have hr9 : (testGuardAfter600.resetIfNeeded testStart).usedTokens = 600 := by decide
  have hr29 : (alert29Guard.resetIfNeeded testStart).usedTokens = 0 := by decide
  have hp6 : (freshTestGuard.RecordUsage testStart "gpt-5" 600).1.1.UsagePct = 60 := by
    rw [h6.2.2.1, hr6]
    exact percentage_600_of_1000
  have hp9 : (testGuardAfter600.RecordUsage testStart "gpt-5" 300).1.1.UsagePct = 90 := by
    rw [h9.2.2.1, hr9]
    exact percentage_900_of_1000
  have hp29 : (alert29Guard.RecordUsage testStart "gpt-5" 290).1.1.UsagePct =
      8162774324609023 / 281474976710656 := by
    rw [h29.2.2.1, hr29]
    exact percentage_290_of_1000
  refine ⟨rfl, by decide, by decide, ?_, ?_, hp9, hp29, ?_, ?_⟩
  · rw [← Bool.not_eq_true, (h6.2.1 (by decide))]
    rintro ⟨_, hge⟩
    rw [hp6] at hge
    norm_num [testBudgetConfig] at hge
  · rw [(h9.2.1 (by decide)), hp9]
    norm_num [testBudgetConfig]
  · rw [hp29]; norm_num
  · rw [← Bool.not_eq_true, (h29.2.1 (by decide))]
    rintro ⟨_, hge⟩
    rw [hp29] at hge
    norm_num at hge

/-! ## Lemmas on maps kept as association lists -/

theorem lookup_mapErase_self {β : Type} (k : String) (m : List (String × β)) :
    (mapErase k m).lookup k = none := by
  induction m with
  | nil => rfl
  | cons e rest ih =>
    by_cases h : e.1 = k
    · have hb : (e.1 != k) = false := by simp [h]
      simp only [mapErase, List.filter_cons, hb] at ih ⊢
      exact ih
    · have hb : (e.1 != k) = true := by simp [h]
      have hk : (k == e.1) = false := by
        simp only [beq_eq_false_iff_ne, ne_eq]
        exact fun h2 => h h2.symm
      simp only [mapErase, List.filter_cons, hb, if_true] at ih ⊢
      rw [List.lookup_cons, hk]
      exact ih

theorem lookup_mapErase_ne {β : Type} (k k2 : String) (m : List (String × β)) (hne : k2 ≠ k) :
    (mapErase k m).lookup k2 = m.lookup k2 := by
  induction m with
  | nil => rfl
  | cons e rest ih =>
    by_cases h : e.1 = k
    · have hb : (e.1 != k) = false := by simp [h]
      have hk : (k2 == e.1) = false := by
        simp only [beq_eq_false_iff_ne, ne_eq]
        exact fun h2 => hne (h2.trans h)
      simp only [mapErase, List.filter_cons, hb] at ih ⊢
      rw [List.lookup_cons, hk]
      exact ih
    · have hb : (e.1 != k) = true := by simp [h]
      simp only [mapErase, List.filter_cons, hb, if_true] at ih ⊢
      rw [List.lookup_cons, List.lookup_cons, ih]

theorem lookup_mapInsert_self {β : Type} (k : String) (v : β) (m : List (String × β)) :
    (mapInsert k v m).lookup k = some v := by
  simp [mapInsert, List.lookup_cons]

theorem lookup_mapInsert_ne {β : Type} (k k2 : String) (v : β) (m : List (String × β))
    (hne : k2 ≠ k) : (mapInsert k v m).lookup k2 = m.lookup k2 := by
  have hk : (k2 == k) = false := by simpa using hne
  simp only [mapInsert, List.lookup_cons, hk]
  exact lookup_mapErase_ne k k2 m hne

/-! ## Position registry -/

theorem assign_of_free (m : Manager) (traderID : String) (pos : VirtualPosition)
    (h : m.getPositionOwner pos.Symbol = none ∨ m.getPositionOwner pos.Symbol = some traderID) :
    m.assignVirtualPosition traderID pos =
      (none,
       { traders := Function.update m.traders traderID
           { m.traders traderID with
             VirtualPositions :=
               mapInsert (normalizeSymbol pos.Symbol)
                 { pos with Symbol := normalizeSymbol pos.Symbol }
                 (m.traders traderID).VirtualPositions }
         positionOwners := mapInsert (normalizeSymbol pos.Symbol) traderID m.positionOwners }) := by
  unfold Manager.getPositionOwner at h
  unfold Manager.assignVirtualPosition
  rcases h with h | h
  · simp only [h]
  · simp only [h, ne_eq, not_true_eq_false, if_false]

theorem filterPositionsForTrader_eq_filter (m : Manager) (traderID : String)
    (positions : List Position) :
    m.filterPositionsForTrader traderID positions = positions.filter (m.visibleTo traderID) := by
  induction positions with
  | nil => rfl
  | cons p rest ih =>
    unfold Manager.filterPositionsForTrader
    cases hown : m.getPositionOwner p.Coin with
    | none =>
      have hv : m.visibleTo traderID p = true := by simp [Manager.visibleTo, hown]
      simp only [List.filter_cons, hv, if_true, ih]
    | some owner =>
      by_cases ho : owner = traderID
      · have hv : m.visibleTo traderID p = true := by simp [Manager.visibleTo, hown, ho]
        simp only [List.filter_cons, hv, if_true, ih, ho]
      · have hv : m.visibleTo traderID p = false := by simp [Manager.visibleTo, hown, ho]
        simp only [List.filter_cons, hv, ih, ho, if_false]
        rfl

theorem visibleTo_iff (m : Manager) (traderID : String) (p : Position) :
    m.visibleTo traderID p = true ↔
      (m.getPositionOwner p.Coin = none ∨ m.getPositionOwner p.Coin = some traderID) := by
  unfold Manager.visibleTo
  cases m.getPositionOwner p.Coin with
  | none => simp
  | some owner => simp

/-- Claim C5: `assign` fails with `ErrSymbolOwned` and leaves the manager (registry and
every trader's positions) as it was when the symbol is owned by another trader;
when the symbol is ownerless or already owned by the caller it succeeds, the
registry then names the caller as owner, the caller's `virtual_positions` holds the
position under the upper-cased symbol (the position itself when its symbol is
already canonical), and no other symbol's owner and no other trader changes. -/
theorem assign_claims_or_rejects (m : Manager) (traderID : String) (pos : VirtualPosition) :
    (∀ owner : String, m.getPositionOwner pos.Symbol = some owner → owner ≠ traderID →
        m.assignVirtualPosition traderID pos = (some ManagerError.ErrSymbolOwned, m)) ∧
    ((m.getPositionOwner pos.Symbol = none ∨ m.getPositionOwner pos.Symbol = some traderID) →
        (m.assignVirtualPosition traderID pos).1 = none ∧
        (m.assignVirtualPosition traderID pos).2.getPositionOwner pos.Symbol = some traderID ∧
        ((m.assignVirtualPosition traderID pos).2.traders traderID).VirtualPositions.lookup
            (normalizeSymbol pos.Symbol) =
          some { pos with Symbol := normalizeSymbol pos.Symbol } ∧
        (normalizeSymbol pos.Symbol = pos.Symbol →
          ((m.assignVirtualPosition traderID pos).2.traders traderID).VirtualPositions.lookup
            pos.Symbol = some pos) ∧
        (∀ other : String, normalizeSymbol other ≠ normalizeSymbol pos.Symbol →
          (m.assignVirtualPosition traderID pos).2.getPositionOwner other =
            m.getPositionOwner other) ∧
        (∀ t : String, t ≠ traderID →
          (m.assignVirtualPosition traderID pos).2.traders t = m.traders t)) := by
  constructor
  · intro owner hown hne
    unfold Manager.getPositionOwner at hown
    unfold Manager.assignVirtualPosition
    simp only [hown, ne_eq, hne, not_false_eq_true, if_true]
  · intro h
    rw [assign_of_free m traderID pos h]
    refine ⟨rfl, ?_, ?_, ?_, ?_, ?_⟩
    · simp only [Manager.getPositionOwner]
      exact lookup_mapInsert_self _ _ _
    · simp only [Function.update_same]
      exact lookup_mapInsert_self _ _ _
    · intro hcanon
      simp only [Function.update_same, hcanon]
      exact lookup_mapInsert_self _ _ _
    · intro other hne
      simp only [Manager.getPositionOwner]
      exact lookup_mapInsert_ne _ _ _ _ hne
    · intro t hne
      simp only [Function.update_noteq hne]

/-- Claim C5, at the inputs of `TestManagerAssignReleaseVirtualPosition` and of the
ownership conflict of §8: `t1` claims the free BTC, after which `t2` is refused. -/
theorem assign_claims_or_rejects_witness :
    (testManagerEmpty.assignVirtualPosition "t1" testBtcPosition).1 = none ∧
    (testManagerEmpty.assignVirtualPosition "t1" testBtcPosition).2.getPositionOwner "BTC" =
      some "t1" ∧
    ((testManagerEmpty.assignVirtualPosition "t1" testBtcPosition).2.assignVirtualPosition "t2"
        testBtcPosition).1 = some ManagerError.ErrSymbolOwned ∧
    ((testManagerEmpty.assignVirtualPosition "t1" testBtcPosition).2.assignVirtualPosition "t2"
        testBtcPosition).2.getPositionOwner "btc " = some "t1" := by
  have h1 := (assign_claims_or_rejects testManagerEmpty "t1" testBtcPosition).2
    (Or.inl (by decide))
  have h2 := (assign_claims_or_rejects
    (testManagerEmpty.assignVirtualPosition "t1" testBtcPosition).2 "t2" testBtcPosition).1
    "t1" h1.2.1 (by decide)
  refine ⟨h1.1, h1.2.1, ?_, ?_⟩
  · rw [h2]
  · rw [h2]; decide

/-- Claim C6: `release(T, S)` removes the ownership entry of `S` and removes `S` from
`T`'s `virtual_positions` when `T` is the current owner of `S`, and leaves the
manager as it was when `S` is ownerless or owned by another trader; after a
successful `assign(T, pos)` a `release(T, pos.Symbol)` leaves the symbol ownerless
and absent from `T`'s positions. -/
theorem release_only_by_owner (m : Manager) (traderID : String) (symbol : String) :
    (m.getPositionOwner symbol = some traderID →
        (m.releaseVirtualPosition traderID symbol).getPositionOwner symbol = none ∧
        ((m.releaseVirtualPosition traderID symbol).traders traderID).VirtualPositions.lookup
            (normalizeSymbol symbol) = none ∧
        (∀ other : String, normalizeSymbol other ≠ normalizeSymbol symbol →
          (m.releaseVirtualPosition traderID symbol).getPositionOwner other =
            m.getPositionOwner other) ∧
        (∀ t : String, t ≠ traderID →
          (m.releaseVirtualPosition traderID symbol).traders t = m.traders t)) ∧
    (m.getPositionOwner symbol ≠ some traderID →
        m.releaseVirtualPosition traderID symbol = m) ∧
    (∀ pos : VirtualPosition, pos.Symbol = symbol →
        (m.assignVirtualPosition traderID pos).1 = none →
        ((m.assignVirtualPosition traderID pos).2.releaseVirtualPosition traderID
            symbol).getPositionOwner symbol = none ∧
        (((m.assignVirtualPosition traderID pos).2.releaseVirtualPosition traderID
            symbol).traders traderID).VirtualPositions.lookup (normalizeSymbol symbol) = none) := by
  have hrel : ∀ m0 : Manager, m0.getPositionOwner symbol = some traderID →
      m0.releaseVirtualPosition traderID symbol =
        { traders := Function.update m0.traders traderID
            { m0.traders traderID with
              VirtualPositions :=
                mapErase (normalizeSymbol symbol) (m0.traders traderID).VirtualPositions }
          positionOwners := mapErase (normalizeSymbol symbol) m0.positionOwners } := by
    intro m0 h
    unfold Manager.getPositionOwner at h
    unfold Manager.releaseVirtualPosition
    simp only [h, if_true]
  have hgone : ∀ m0 : Manager, m0.getPositionOwner symbol = some traderID →
      (m0.releaseVirtualPosition traderID symbol).getPositionOwner symbol = none ∧
      ((m0.releaseVirtualPosition traderID symbol).traders traderID).VirtualPositions.lookup
          (normalizeSymbol symbol) = none := by
    intro m0 h
    rw [hrel m0 h]
    constructor
    · simp only [Manager.getPositionOwner]
      exact lookup_mapErase_self _ _
    · simp only [Function.update_same]
      exact lookup_mapErase_self _ _
  refine ⟨?_, ?_, ?_⟩
  · intro h
    refine ⟨(hgone m h).1, (hgone m h).2, ?_, ?_⟩
    · intro other hne
      rw [hrel m h]
      simp only [Manager.getPositionOwner]
      exact lookup_mapErase_ne _ _ _ hne
    · intro t hne
      rw [hrel m h]
      simp only [Function.update_noteq hne]
  · intro h
    unfold Manager.getPositionOwner at h
    unfold Manager.releaseVirtualPosition
    simp only [h, if_false]
  · intro pos hsym hok
    apply hgone
    have hfree : m.getPositionOwner pos.Symbol = none ∨
        m.getPositionOwner pos.Symbol = some traderID := by
      cases hown : m.getPositionOwner pos.Symbol with
      | none => exact Or.inl rfl
      | some owner =>
        by_cases ho : owner = traderID
        · exact Or.inr (by rw [ho])
        · exfalso
          have hfail : m.assignVirtualPosition traderID pos =
              (some ManagerError.ErrSymbolOwned, m) := by
            unfold Manager.getPositionOwner at hown
            unfold Manager.assignVirtualPosition
            simp only [hown, ne_eq, ho, not_false_eq_true, if_true]
          rw [hfail] at hok
          exact absurd hok (by simp)
    rw [assign_of_free m traderID pos hfree, ← hsym]
    simp only [Manager.getPositionOwner]
    exact lookup_mapInsert_self _ _ _

/-- Claim C6, at the inputs of `TestManagerAssignReleaseVirtualPosition`: after `t1` is
assigned BTC and releases it, BTC has no owner and is absent from the positions of
`t1`; a release by `t2` instead changes nothing. -/
theorem release_only_by_owner_witness :
    ((testManagerEmpty.assignVirtualPosition "t1" testBtcPosition).2.releaseVirtualPosition "t1"
        "BTC").getPositionOwner "BTC" = none ∧
    (((testManagerEmpty.assignVirtualPosition "t1" testBtcPosition).2.releaseVirtualPosition "t1"
        "BTC").traders "t1").VirtualPositions.lookup (normalizeSymbol "BTC") = none ∧
    ((testManagerEmpty.assignVirtualPosition "t1" testBtcPosition).2.releaseVirtualPosition "t2"
        "BTC").getPositionOwner "BTC" = some "t1" := by
  have h := release_only_by_owner testManagerEmpty "t1" "BTC"
  have h2 := (release_only_by_owner
    (testManagerEmpty.assignVirtualPosition "t1" testBtcPosition).2 "t2" "BTC").2.1 (by decide)
  refine ⟨(h.2.2 testBtcPosition rfl (by decide)).1, (h.2.2 testBtcPosition rfl (by decide)).2, ?_⟩
  rw [h2]; decide

/-- Claim C7: `filter(T, positions)` returns exactly the positions whose symbol is owned
by `T` or has no owner, in their original order: it is the input filtered by that
test, a sublist of the input, and contains no position owned by another trader. -/
theorem filter_owned_or_ownerless (m : Manager) (traderID : String)
    (positions : List Position) :
    m.filterPositionsForTrader traderID positions =
        positions.filter (fun p => decide (m.getPositionOwner p.Coin = none ∨
          m.getPositionOwner p.Coin = some traderID)) ∧
    (m.filterPositionsForTrader traderID positions).Sublist positions ∧
    (∀ p : Position, p ∈ m.filterPositionsForTrader traderID positions ↔
        p ∈ positions ∧
          (m.getPositionOwner p.Coin = none ∨ m.getPositionOwner p.Coin = some traderID)) ∧
    (∀ (p : Position) (owner : String), p ∈ m.filterPositionsForTrader traderID positions →
        m.getPositionOwner p.Coin = some owner → owner = traderID) := by
  have hmem : ∀ p : Position, p ∈ m.filterPositionsForTrader traderID positions ↔
      p ∈ positions ∧
        (m.getPositionOwner p.Coin = none ∨ m.getPositionOwner p.Coin = some traderID) := by
    intro p
    rw [filterPositionsForTrader_eq_filter, List.mem_filter, visibleTo_iff]
  refine ⟨?_, ?_, hmem, ?_⟩
  · rw [filterPositionsForTrader_eq_filter]
    apply List.filter_congr
    intro p _
    rw [Bool.eq_iff_iff, visibleTo_iff]
    simp
  · rw [filterPositionsForTrader_eq_filter]
    exact List.filter_sublist _
  · intro p owner hp hown
    rcases ((hmem p).mp hp).2 with h | h
    · rw [h] at hown; exact absurd hown (by simp)
    · rw [h] at hown; exact (Option.some.inj hown).symm

/-- Claim C7, at the inputs of `TestFilterPositionsForTrader`: with BTC owned by `t1`,
`t1` sees BTC and ETH and `t2` sees only ETH. -/
theorem filter_owned_or_ownerless_witness :
    testManagerBtcOwned.filterPositionsForTrader "t1"
        [Position.ofCoin "BTC", Position.ofCoin "ETH"] =
      [Position.ofCoin "BTC", Position.ofCoin "ETH"] ∧
    testManagerBtcOwned.filterPositionsForTrader "t2"
        [Position.ofCoin "BTC", Position.ofCoin "ETH"] = [Position.ofCoin "ETH"] := by
  have h1 := (filter_owned_or_ownerless testManagerBtcOwned "t1"
    [Position.ofCoin "BTC", Position.ofCoin "ETH"]).1
  have h2 := (filter_owned_or_ownerless testManagerBtcOwned "t2"
    [Position.ofCoin "BTC", Position.ofCoin "ETH"]).1
  constructor
  · rw [h1]; decide
  · rw [h2]; decide

/-- Claim C8: The secondary risk check rejects a decision whose size exceeds
`max_position_size_usd`, rejects one whose projected margin
`margin_used + position_size_usd / leverage` exceeds
`equity × max_margin_usage_pct / 100`, each with an `ErrRiskViolation`, and accepts
exactly the decisions within both caps that no other configured guard rejects. -/
theorem secondary_risk_caps (trader : VirtualTrader) (decision : Decision) (leverage : ℚ) :
    (decision.PositionSizeUSD > trader.RiskParams.MaxPositionSizeUSD →
        ∃ reason : String, enforceSecondaryRisk trader decision leverage =
          some (ManagerError.ErrRiskViolation reason)) ∧
    (trader.ResourceAlloc.MarginUsedUSD + decision.PositionSizeUSD / leverage >
          trader.ResourceAlloc.CurrentEquityUSD * trader.RiskParams.MaxMarginUsagePct / 100 →
        ∃ reason : String, enforceSecondaryRisk trader decision leverage =
          some (ManagerError.ErrRiskViolation reason)) ∧
    (enforceSecondaryRisk trader decision leverage = none ↔
        decision.PositionSizeUSD ≤ trader.RiskParams.MaxPositionSizeUSD ∧
        trader.ResourceAlloc.MarginUsedUSD + decision.PositionSizeUSD / leverage ≤
          trader.ResourceAlloc.CurrentEquityUSD * trader.RiskParams.MaxMarginUsagePct / 100 ∧
        otherGuardsReject trader decision = false) := by
  unfold enforceSecondaryRisk
  by_cases hsize : decision.PositionSizeUSD > trader.RiskParams.MaxPositionSizeUSD
  · have hs2 : ¬ decision.PositionSizeUSD ≤ trader.RiskParams.MaxPositionSizeUSD :=
      not_le.mpr hsize
    simp only [hsize, if_true, hs2, false_and, iff_false]
    exact ⟨fun _ => ⟨_, rfl⟩, fun _ => ⟨_, rfl⟩, by simp⟩
  · have hs2 : decision.PositionSizeUSD ≤ trader.RiskParams.MaxPositionSizeUSD :=
      not_lt.mp hsize
    by_cases hmargin : trader.ResourceAlloc.MarginUsedUSD + decision.PositionSizeUSD / leverage >
        trader.ResourceAlloc.CurrentEquityUSD * trader.RiskParams.MaxMarginUsagePct / 100
    · have hm2 : ¬ trader.ResourceAlloc.MarginUsedUSD + decision.PositionSizeUSD / leverage ≤
          trader.ResourceAlloc.CurrentEquityUSD * trader.RiskParams.MaxMarginUsagePct / 100 :=
        not_le.mpr hmargin
      simp only [hsize, if_false, hmargin, if_true, hs2, hm2, false_and, and_false, iff_false]
      exact ⟨fun h => absurd h (by simp), fun _ => ⟨_, rfl⟩, by simp⟩
    · have hm2 : trader.ResourceAlloc.MarginUsedUSD + decision.PositionSizeUSD / leverage ≤
          trader.ResourceAlloc.CurrentEquityUSD * trader.RiskParams.MaxMarginUsagePct / 100 :=
        not_lt.mp hmargin
      simp only [hsize, if_false, hmargin, hs2, hm2, true_and]
      refine ⟨fun h => absurd h (by simp), fun h => absurd h (by simp), ?_⟩
      cases otherGuardsReject trader decision <;> simp

/-- Claim C8, at the inputs of `TestManagerEnforceSecondaryRisk` (equity 1000, margin
used 200, max margin 30%, max size 500): size 600 is rejected, size 300 at leverage
2 is rejected, size 200 at leverage 4 is accepted. -/
theorem secondary_risk_caps_witness :
    (∃ reason : String, enforceSecondaryRisk testRiskTrader (testDecision 600) 3 =
        some (ManagerError.ErrRiskViolation reason)) ∧
    (∃ reason : String, enforceSecondaryRisk testRiskTrader (testDecision 300) 2 =
        some (ManagerError.ErrRiskViolation reason)) ∧
    testRiskTrader.ResourceAlloc.MarginUsedUSD + (testDecision 300).PositionSizeUSD / 2 = 350 ∧
    testRiskTrader.ResourceAlloc.MarginUsedUSD + (testDecision 200).PositionSizeUSD / 4 = 250 ∧
    enforceSecondaryRisk testRiskTrader (testDecision 200) 4 = none := by
  refine ⟨?_, ?_, ?_, ?_, ?_⟩
  · exact (secondary_risk_caps testRiskTrader (testDecision 600) 3).1
      (by norm_num [testRiskTrader, testDecision, RiskParameters.zero])
  · exact (secondary_risk_caps testRiskTrader (testDecision 300) 2).2.1
      (by norm_num [testRiskTrader, testDecision, RiskParameters.zero])
  · norm_num [testRiskTrader, testDecision]
  · norm_num [testRiskTrader, testDecision]
  · exact (secondary_risk_caps testRiskTrader (testDecision 200) 4).2.2.mpr
      (by norm_num [testRiskTrader, testDecision, RiskParameters.zero, otherGuardsReject])

/-! ## Config sync -/

theorem dropWhile_of_all_false (p : Char → Bool) (l : List Char)
    (h : ∀ c ∈ l, p c = false) : l.dropWhile p = l := by
  cases l with
  | nil => rfl
  | cons c rest =>
    have hc : p c = false := h c (List.mem_cons_self c rest)
    simp [List.dropWhile, hc]

theorem trimChars_of_no_space (l : List Char) (h : ∀ c ∈ l, isSpace c = false) :
    trimChars l = l := by
  unfold trimChars
  rw [dropWhile_of_all_false isSpace l h]
  have hr : ∀ c ∈ l.reverse, isSpace c = false := fun c hc => h c (List.mem_reverse.mp hc)
  rw [dropWhile_of_all_false isSpace l.reverse hr, List.reverse_reverse]

theorem sampleJson_marshal_trimmed (v : sampleJson.Value) (out : String)
    (h : sampleJson.marshal v = Except.ok out) : goTrimSpace out = out := by
  have hout : out = String.mk (v.data.filter (fun c => !isSpace c)) := by
    simp only [sampleJson, Except.ok.injEq] at h
    exact h.symm
  rw [hout]
  unfold goTrimSpace
  congr 1
  apply trimChars_of_no_space
  intro c hc
  have := (List.mem_filter.mp hc).2
  simpa using this

theorem normalizeDetail_trimmed (json : JsonLib)
    (hjson : ∀ (v : json.Value) (out : String),
      json.marshal v = Except.ok out → goTrimSpace out = out)
    (raw detail : String) (h : normalizeDetail json raw = Except.ok detail) :
    goTrimSpace detail = detail := by
  unfold normalizeDetail at h
  by_cases hlen : (goTrimSpace raw).length = 0
  · simp only [hlen, if_true, Except.ok.injEq] at h
    rw [← h]
    decide
  · simp only [hlen, if_false] at h
    cases hu : json.unmarshal (goTrimSpace raw) with
    | error e => simp only [hu] at h; exact absurd h (by simp)
    | ok payload =>
      cases hm : json.marshal payload with
      | error e => simp only [hu, hm] at h; exact absurd h (by simp)
      | ok canonical =>
        simp only [hu, hm, Except.ok.injEq] at h
        rw [← h]
        exact hjson payload canonical hm

theorem computeChangedFields_nil (existing : TraderConfig) (rec : TraderConfigRecord)
    (detail : String)
    (hex : existing.ExchangeProvider = rec.ExchangeProvider)
    (hmk : existing.MarketProvider = rec.MarketProvider)
    (hal : existing.AllocationPct = rec.AllocationPct)
    (hdt : goTrimSpace existing.Detail = detail) :
    computeChangedFields existing rec detail = [] := by
  unfold computeChangedFields
  simp [hex, hmk, hal, hdt]

theorem syncOne_of_no_changes (env : RepoEnv) (db : DB) (rec : TraderConfigRecord)
    (existing : TraderConfig) (detail : String)
    (hid : goTrimSpace rec.ID ≠ "")
    (hnorm : normalizeDetail env.json rec.Detail = Except.ok detail)
    (hfind : findOne env db rec.ID = Except.ok existing)
    (hnil : computeChangedFields existing rec detail = []) :
    syncOne env db rec = ((configSyncAction.configUnchanged, none), db) := by
  unfold syncOne
  simp only [hid, if_false, hnorm, hfind, hnil, List.length_nil, if_true]


theorem findOne_ok_mem (env : RepoEnv) (db : DB) (id : String) (row : TraderConfig)
    (h : findOne env db id = Except.ok row) : row ∈ db.traderConfig ∧ row.Id = id := by
  unfold findOne at h
  cases hf : env.fault (DbOp.findOne id) with
  | some msg => simp only [hf] at h; exact absurd h (by simp)
  | none =>
    cases hfind : db.traderConfig.find? (fun r => decide (r.Id = id)) with
    | none => simp only [hf, hfind] at h; exact absurd h (by simp)
    | some r =>
      simp only [hf, hfind, Except.ok.injEq] at h
      rw [← h]
      exact ⟨List.mem_of_find?_eq_some hfind, by simpa using List.find?_some hfind⟩

theorem findOne_notFound_absent (env : RepoEnv) (db : DB) (id : String)
    (h : findOne env db id = Except.error RepoError.ErrNotFound) :
    db.traderConfig.any (fun row => decide (row.Id = id)) = false := by
  unfold findOne at h
  cases hf : env.fault (DbOp.findOne id) with
  | some msg => simp only [hf] at h; exact absurd h (by simp)
  | none =>
    cases hfind : db.traderConfig.find? (fun r => decide (r.Id = id)) with
    | some r => simp only [hf, hfind] at h; exact absurd h (by simp)
    | none =>
      rw [List.find?_eq_none] at hfind
      rw [List.any_eq_false]
      exact hfind

theorem withTx_cases (env : RepoEnv) (db : DB) (fn : DB → Except RepoError DB) :
    (∃ e : RepoError, withTx env db fn = (some e, db)) ∨
    (∃ db1 : DB, fn db = Except.ok db1 ∧ withTx env db fn = (none, db1)) := by
  unfold withTx
  cases env.dbNil with
  | true => exact Or.inl ⟨_, rfl⟩
  | false =>
    cases env.fault DbOp.beginTx with
    | some msg => exact Or.inl ⟨_, rfl⟩
    | none =>
      cases hfn : fn db with
      | error e => exact Or.inl ⟨e, rfl⟩
      | ok db1 =>
        cases env.fault DbOp.commit with
        | some msg => exact Or.inl ⟨_, rfl⟩
        | none => exact Or.inr ⟨db1, rfl, rfl⟩

theorem withTx_ok (env : RepoEnv) (db db1 : DB) (fn : DB → Except RepoError DB)
    (hnil : env.dbNil = false) (hbegin : env.fault DbOp.beginTx = none)
    (hfn : fn db = Except.ok db1) (hcommit : env.fault DbOp.commit = none) :
    withTx env db fn = (none, db1) := by
  unfold withTx
  simp only [hnil, hbegin, hfn, hcommit, Bool.false_eq_true, if_false]

theorem insertBoth_cases (env : RepoEnv) (db : DB) (row : TraderConfig)
    (history : TraderConfigHistory) (db1 : DB)
    (h : (match insertConfigTx env db row with
          | Except.error e => Except.error e
          | Except.ok tx1 => insertHistoryTx env tx1 history) = Except.ok db1) :
    db1 = withInserted db row history := by
  cases hc : insertConfigTx env db row with
  | error e => simp only [hc] at h; exact absurd h (by simp)
  | ok tx1 =>
    simp only [hc] at h
    have htx1 : tx1 = { db with traderConfig := db.traderConfig ++ [row] } := by
      unfold insertConfigTx at hc
      cases hf : env.fault (DbOp.insertConfig row.Id) with
      | some msg => simp only [hf] at hc; exact absurd hc (by simp)
      | none =>
        simp only [hf] at hc
        cases hany : db.traderConfig.any (fun r => decide (r.Id = row.Id)) with
        | true => simp only [hany, if_true] at hc; exact absurd hc (by simp)
        | false =>
          cases hd : env.fault (DbOp.delCache row.Id) with
          | some msg =>
            simp only [hany, hd, Bool.false_eq_true, if_false] at hc
            exact absurd hc (by simp)
          | none =>
            simp only [hany, hd, Bool.false_eq_true, if_false, Except.ok.injEq] at hc
            exact hc.symm
    unfold insertHistoryTx at h
    cases hh : env.fault (DbOp.insertHistory history.TraderId history.Version) with
    | some msg => simp only [hh] at h; exact absurd h (by simp)
    | none =>
      simp only [hh, Except.ok.injEq] at h
      rw [← h, htx1]
      rfl

theorem insertBoth_ok (env : RepoEnv) (db : DB) (row : TraderConfig)
    (history : TraderConfigHistory)
    (habsent : db.traderConfig.any (fun r => decide (r.Id = row.Id)) = false)
    (hins : env.fault (DbOp.insertConfig row.Id) = none)
    (hdel : env.fault (DbOp.delCache row.Id) = none)
    (hhist : env.fault (DbOp.insertHistory history.TraderId history.Version) = none) :
    (match insertConfigTx env db row with
      | Except.error e => Except.error e
      | Except.ok tx1 => insertHistoryTx env tx1 history) =
      Except.ok (withInserted db row history) := by
  unfold insertConfigTx insertHistoryTx
  simp only [hins, habsent, hdel, hhist, Bool.false_eq_true, if_false]
  rfl

theorem syncOne_of_notFound (env : RepoEnv) (db : DB) (rec : TraderConfigRecord)
    (detail : String)
    (hid : goTrimSpace rec.ID ≠ "")
    (hnorm : normalizeDetail env.json rec.Detail = Except.ok detail)
    (hfind : findOne env db rec.ID = Except.error RepoError.ErrNotFound) :
    syncOne env db rec =
      match withTx env db (fun tx =>
          match insertConfigTx env tx (buildConfigRow rec detail 1) with
          | Except.error e => Except.error e
          | Except.ok tx1 =>
            insertHistoryTx env tx1
              (buildHistoryRow env.now (buildConfigRow rec detail 1) insertedFields rec)) with
      | (some e, db1) => ((configSyncAction.configUnchanged, some e), db1)
      | (none, db1) => ((configSyncAction.configInserted, none), db1) := by
  unfold syncOne
  simp only [hid, if_false, hnorm, hfind, insertedFields]


theorem updateBoth_cases (env : RepoEnv) (db : DB) (row : TraderConfig)
    (history : TraderConfigHistory) (db1 : DB)
    (h : (match updateConfigTx env db row with
          | Except.error e => Except.error e
          | Except.ok tx1 => insertHistoryTx env tx1 history) = Except.ok db1) :
    db1 =
      { traderConfig := db.traderConfig.map (fun r =>
          if r.Id = row.Id then
            { r with
              Version := row.Version
              ExchangeProvider := row.ExchangeProvider
              MarketProvider := row.MarketProvider
              AllocationPct := row.AllocationPct
              Detail := row.Detail }
          else r)
        traderConfigHistory := db.traderConfigHistory ++ [history] } := by
  cases hc : updateConfigTx env db row with
  | error e => simp only [hc] at h; exact absurd h (by simp)
  | ok tx1 =>
    simp only [hc] at h
    unfold updateConfigTx at hc
    cases hf : env.fault (DbOp.updateConfig row.Id) with
    | some msg => simp only [hf] at hc; exact absurd hc (by simp)
    | none =>
      cases hd : env.fault (DbOp.delCache row.Id) with
      | some msg => simp only [hf, hd] at hc; exact absurd hc (by simp)
      | none =>
        simp only [hf, hd, Except.ok.injEq] at hc
        unfold insertHistoryTx at h
        cases hh : env.fault (DbOp.insertHistory history.TraderId history.Version) with
        | some msg => simp only [hh] at h; exact absurd h (by simp)
        | none =>
          simp only [hh, Except.ok.injEq] at h
          rw [← h, ← hc]

theorem syncOne_preserves_storedIdsNonBlank (env : RepoEnv) (db : DB)
    (rec : TraderConfigRecord) (hwf : storedIdsNonBlank db) :
    storedIdsNonBlank (syncOne env db rec).2 := by
  by_cases hid : goTrimSpace rec.ID = ""
  · unfold syncOne
    simp only [hid, if_true]
    exact hwf
  · cases hnorm : normalizeDetail env.json rec.Detail with
    | error e =>
      unfold syncOne
      simp only [hid, if_false, hnorm]
      exact hwf
    | ok detail =>
      cases hfind : findOne env db rec.ID with
      | error e =>
        by_cases hnf : e = RepoError.ErrNotFound
        · rw [hnf] at hfind
          rw [syncOne_of_notFound env db rec detail hid hnorm hfind]
          rcases withTx_cases env db (fun tx =>
              match insertConfigTx env tx (buildConfigRow rec detail 1) with
              | Except.error e => Except.error e
              | Except.ok tx1 =>
                insertHistoryTx env tx1
                  (buildHistoryRow env.now (buildConfigRow rec detail 1) insertedFields rec))
            with ⟨e2, he⟩ | ⟨db1, hfn, hok⟩
          · rw [he]; exact hwf
          · rw [hok, insertBoth_cases env db _ _ db1 hfn]
            intro row hrow
            simp only [withInserted, List.mem_append, List.mem_singleton] at hrow
            rcases hrow with hrow | hrow
            · exact hwf row hrow
            · rw [hrow]; exact hid
        · unfold syncOne
          simp only [hid, if_false, hnorm, hfind]
          cases e with
          | ErrNotFound => exact absurd rfl hnf
          | missingID => exact hwf
          | normalizeDetail a b => exact hwf
          | ErrNilDB => exact hwf
          | driver msg => exact hwf
      | ok existing =>
        unfold syncOne
        simp only [hid, if_false, hnorm, hfind]
        by_cases hlen : (computeChangedFields existing rec detail).length = 0
        · simp only [hlen, if_true]
          exact hwf
        · simp only [hlen, if_false]
          rcases withTx_cases env db (fun tx =>
              match updateConfigTx env tx
                (buildConfigRow rec detail (existing.Version + 1)) with
              | Except.error e => Except.error e
              | Except.ok tx1 =>
                insertHistoryTx env tx1
                  (buildHistoryRow env.now (buildConfigRow rec detail (existing.Version + 1))
                    (computeChangedFields existing rec detail) rec))
            with ⟨e2, he⟩ | ⟨db1, hfn, hok⟩
          · rw [he]; exact hwf
          · rw [hok, updateBoth_cases env db _ _ db1 hfn]
            intro row hrow
            simp only [List.mem_map] at hrow
            obtain ⟨r, hr, hrow⟩ := hrow
            have hrid : row.Id = r.Id := by
              rw [← hrow]
              split <;> rfl
            rw [hrid]
            exact hwf r hr

theorem storedIdsNonBlank_emptyDB : storedIdsNonBlank emptyDB := by
  intro row hrow
  simp [emptyDB] at hrow

/-- Claim C9: When the trader of a record has a stored row with the same exchange
provider, market provider and allocation and the stored detail equals the record's
canonical detail, `syncOne` writes nothing: it returns `unchanged` with no error,
the database (hence the stored version and the history table) is what it was, and
`Sync` reports the id under `Unchanged`. The database is one `Sync` maintains (no
stored id is blank) and the JSON library marshals without surrounding whitespace. -/
theorem syncOne_unchanged_no_write (env : RepoEnv) (db : DB) (rec : TraderConfigRecord)
    (existing : TraderConfig) (detail : String)
    (hjson : ∀ (v : env.json.Value) (out : String),
      env.json.marshal v = Except.ok out → goTrimSpace out = out)
    (hwf : storedIdsNonBlank db)
    (hnorm : normalizeDetail env.json rec.Detail = Except.ok detail)
    (hfind : findOne env db rec.ID = Except.ok existing)
    (hex : existing.ExchangeProvider = rec.ExchangeProvider)
    (hmk : existing.MarketProvider = rec.MarketProvider)
    (hal : existing.AllocationPct = rec.AllocationPct)
    (hdt : existing.Detail = detail) :
    syncOne env db rec = ((configSyncAction.configUnchanged, none), db) ∧
    (syncOne env db rec).2.traderConfigHistory = db.traderConfigHistory ∧
    (syncOne env db rec).2.traderConfig = db.traderConfig ∧
    findOne env (syncOne env db rec).2 rec.ID = Except.ok existing ∧
    (∀ (summary : ConfigSyncResult) (rest : List TraderConfigRecord),
      syncLoop env db summary (rec :: rest) =
        syncLoop env db (summary.recordUnchanged rec.ID) rest) ∧
    Sync env db [rec] =
      (({ Inserted := [], Updated := [], Unchanged := [rec.ID] }, none), db) := by
  have hmem := findOne_ok_mem env db rec.ID existing hfind
  have hid : goTrimSpace rec.ID ≠ "" := by
    rw [← hmem.2]
    exact hwf existing hmem.1
  have htrim : goTrimSpace existing.Detail = detail := by
    rw [hdt]
    exact normalizeDetail_trimmed env.json hjson rec.Detail detail hnorm
  have hone := syncOne_of_no_changes env db rec existing detail hid hnorm hfind
    (computeChangedFields_nil existing rec detail hex hmk hal htrim)
  have hloop : ∀ (summary : ConfigSyncResult) (rest : List TraderConfigRecord),
      syncLoop env db summary (rec :: rest) =
        syncLoop env db (summary.recordUnchanged rec.ID) rest := by
    intro summary rest
    rw [syncLoop, hone]
  refine ⟨hone, by rw [hone], by rw [hone], by rw [hone]; exact hfind, hloop, ?_⟩
  unfold Sync
  simp only [List.length_singleton, one_ne_zero, if_false]
  rw [hloop]
  rfl

/-- Claim C9, on the empty database: after a first `Sync` of the sample record has stored
it, a second `Sync` of the same record reports it unchanged and the history table
still has its one row. -/
theorem syncOne_unchanged_no_write_witness :
    (Sync sampleEnv emptyDB [sampleRecord]).1.1 =
      { Inserted := ["t1"], Updated := [], Unchanged := [] } ∧
    (Sync sampleEnv (Sync sampleEnv emptyDB [sampleRecord]).2 [sampleRecord]).1 =
      ({ Inserted := [], Updated := [], Unchanged := ["t1"] }, none) ∧
    (Sync sampleEnv (Sync sampleEnv emptyDB [sampleRecord]).2
      [sampleRecord]).2.traderConfigHistory.length = 1 ∧
    (Sync sampleEnv (Sync sampleEnv emptyDB [sampleRecord]).2
      [sampleRecord]).2.traderConfig.map (fun row => row.Version) = [1] := by
  have hwf : storedIdsNonBlank (Sync sampleEnv emptyDB [sampleRecord]).2 :=
    syncOne_preserves_storedIdsNonBlank sampleEnv emptyDB sampleRecord
      storedIdsNonBlank_emptyDB
  have h := syncOne_unchanged_no_write sampleEnv (Sync sampleEnv emptyDB [sampleRecord]).2
    sampleRecord (buildConfigRow sampleRecord "\x7b\"id\":\"t1\"\x7d" 1) "\x7b\"id\":\"t1\"\x7d"
    sampleJson_marshal_trimmed hwf rfl rfl rfl rfl rfl rfl
  refine ⟨by decide, ?_, ?_, ?_⟩
  · rw [h.2.2.2.2.2]; rfl
  · rw [h.2.2.2.2.2]; decide
  · rw [h.2.2.2.2.2]; decide

/-- Claim C10: For a record with a non-blank id and valid detail whose trader has no stored
row, `syncOne` inserts a `trader_config` row with version 1 and one
`trader_config_history` row with version 1 whose changed fields are
`exchange_provider`, `market_provider`, `allocation_pct`, `detail`, and reports the
id as inserted, whenever the database runs the transaction; the two rows are
written in one transaction: whatever the database does, either both are appended or
the call fails and the database is what it was. -/
theorem syncOne_inserts_version_one (env : RepoEnv) (db : DB) (rec : TraderConfigRecord)
    (detail : String)
    (hid : goTrimSpace rec.ID ≠ "")
    (hnorm : normalizeDetail env.json rec.Detail = Except.ok detail)
    (hfind : findOne env db rec.ID = Except.error RepoError.ErrNotFound) :
    (buildConfigRow rec detail 1).Id = rec.ID ∧
    (buildConfigRow rec detail 1).Version = 1 ∧
    (buildConfigRow rec detail 1).Detail = detail ∧
    (buildHistoryRow env.now (buildConfigRow rec detail 1) insertedFields rec).TraderId =
      rec.ID ∧
    (buildHistoryRow env.now (buildConfigRow rec detail 1) insertedFields rec).Version = 1 ∧
    (buildHistoryRow env.now (buildConfigRow rec detail 1) insertedFields rec).ChangedFields =
      ["exchange_provider", "market_provider", "allocation_pct", "detail"] ∧
    ((env.dbNil = false ∧ env.fault DbOp.beginTx = none ∧
        env.fault (DbOp.insertConfig rec.ID) = none ∧ env.fault (DbOp.delCache rec.ID) = none ∧
        env.fault (DbOp.insertHistory rec.ID 1) = none ∧ env.fault DbOp.commit = none) →
      syncOne env db rec =
        ((configSyncAction.configInserted, none),
         withInserted db (buildConfigRow rec detail 1)
           (buildHistoryRow env.now (buildConfigRow rec detail 1) insertedFields rec)) ∧
      (Sync env db [rec]).1 = ({ Inserted := [rec.ID], Updated := [], Unchanged := [] }, none)) ∧
    (syncOne env db rec =
        ((configSyncAction.configInserted, none),
         withInserted db (buildConfigRow rec detail 1)
           (buildHistoryRow env.now (buildConfigRow rec detail 1) insertedFields rec)) ∨
      ∃ e : RepoError, syncOne env db rec = ((configSyncAction.configUnchanged, some e), db)) := by
  have hone := syncOne_of_notFound env db rec detail hid hnorm hfind
  have habsent := findOne_notFound_absent env db rec.ID hfind
  refine ⟨rfl, rfl, rfl, rfl, rfl, rfl, ?_, ?_⟩
  · rintro ⟨hnil, hbegin, hins, hdel, hhist, hcommit⟩
    have hfn := insertBoth_ok env db (buildConfigRow rec detail 1)
      (buildHistoryRow env.now (buildConfigRow rec detail 1) insertedFields rec)
      habsent hins hdel hhist
    have htx := withTx_ok env db _ (fun tx =>
        match insertConfigTx env tx (buildConfigRow rec detail 1) with
        | Except.error e => Except.error e
        | Except.ok tx1 =>
          insertHistoryTx env tx1
            (buildHistoryRow env.now (buildConfigRow rec detail 1) insertedFields rec))
      hnil hbegin hfn hcommit
    have hres : syncOne env db rec =
        ((configSyncAction.configInserted, none),
         withInserted db (buildConfigRow rec detail 1)
           (buildHistoryRow env.now (buildConfigRow rec detail 1) insertedFields rec)) := by
      rw [hone, htx]
    refine ⟨hres, ?_⟩
    unfold Sync
    simp only [List.length_singleton, one_ne_zero, if_false]
    rw [syncLoop, hres]
    rfl
  · rcases withTx_cases env db (fun tx =>
        match insertConfigTx env tx (buildConfigRow rec detail 1) with
        | Except.error e => Except.error e
        | Except.ok tx1 =>
          insertHistoryTx env tx1
            (buildHistoryRow env.now (buildConfigRow rec detail 1) insertedFields rec))
      with ⟨e, he⟩ | ⟨db1, hfn, hok⟩
    · right
      exact ⟨e, by rw [hone, he]⟩
    · left
      have hdb1 := insertBoth_cases env db _ _ db1 hfn
      rw [hone, hok, hdb1]

/-- Claim C10, on the empty database: the sample record is inserted with version 1 and one
history row; with the driver failing the history insert nothing is stored. -/
theorem syncOne_inserts_version_one_witness :
    goTrimSpace sampleRecord.ID ≠ "" ∧
    (syncOne sampleEnv emptyDB sampleRecord).1 = (configSyncAction.configInserted, none) ∧
    (syncOne sampleEnv emptyDB sampleRecord).2.traderConfig.map
      (fun row => (row.Id, row.Version, row.Detail)) = [("t1", 1, "\x7b\"id\":\"t1\"\x7d")] ∧
    (syncOne sampleEnv emptyDB sampleRecord).2.traderConfigHistory.map
      (fun h => (h.TraderId, h.Version, h.ChangedFields)) =
      [("t1", 1, ["exchange_provider", "market_provider", "allocation_pct", "detail"])] ∧
    (syncOne historyFailEnv emptyDB sampleRecord).2.traderConfig.length = 0 ∧
    (syncOne historyFailEnv emptyDB sampleRecord).2.traderConfigHistory.length = 0 := by
  have h := syncOne_inserts_version_one sampleEnv emptyDB sampleRecord "\x7b\"id\":\"t1\"\x7d"
    (by decide) rfl rfl
  have hres := (h.2.2.2.2.2.2.1 ⟨rfl, rfl, rfl, rfl, rfl, rfl⟩).1
  refine ⟨by decide, ?_, ?_, ?_, by decide, by decide⟩
  · rw [hres]
  · rw [hres]; decide
  · rw [hres]; decide

theorem computeChangedFields_eq_differingColumns (existing : TraderConfig)
    (rec : TraderConfigRecord) (detail : String) :
    computeChangedFields existing rec detail = differingColumns existing rec detail := by
  unfold computeChangedFields differingColumns
  by_cases h1 : existing.ExchangeProvider = rec.ExchangeProvider <;>
  by_cases h2 : existing.MarketProvider = rec.MarketProvider <;>
  by_cases h3 : existing.AllocationPct = rec.AllocationPct <;>
  by_cases h4 : goTrimSpace existing.Detail = detail <;>
  simp +decide [h1, h2, h3, h4, List.insertionSort, List.orderedInsert, dedupeLoop]

theorem differingColumns_sorted (existing : TraderConfig) (rec : TraderConfigRecord)
    (detail : String) :
    (differingColumns existing rec detail).Sorted (fun a b => a < b) := by
  unfold differingColumns
  by_cases h1 : existing.ExchangeProvider = rec.ExchangeProvider <;>
  by_cases h2 : existing.MarketProvider = rec.MarketProvider <;>
  by_cases h3 : existing.AllocationPct = rec.AllocationPct <;>
  by_cases h4 : goTrimSpace existing.Detail = detail <;>
  simp +decide [h1, h2, h3, h4]

theorem differingColumns_ne_nil (existing : TraderConfig) (rec : TraderConfigRecord)
    (detail : String)
    (hdiff : existing.ExchangeProvider ≠ rec.ExchangeProvider ∨
      existing.MarketProvider ≠ rec.MarketProvider ∨
      existing.AllocationPct ≠ rec.AllocationPct ∨
      goTrimSpace existing.Detail ≠ detail) :
    differingColumns existing rec detail ≠ [] := by
  unfold differingColumns
  by_cases h1 : existing.ExchangeProvider = rec.ExchangeProvider <;>
  by_cases h2 : existing.MarketProvider = rec.MarketProvider <;>
  by_cases h3 : existing.AllocationPct = rec.AllocationPct <;>
  by_cases h4 : goTrimSpace existing.Detail = detail <;>
  simp [h1, h2, h3, h4] at hdiff ⊢

theorem updateBoth_ok (env : RepoEnv) (db : DB) (row : TraderConfig)
    (history : TraderConfigHistory)
    (hupd : env.fault (DbOp.updateConfig row.Id) = none)
    (hdel : env.fault (DbOp.delCache row.Id) = none)
    (hhist : env.fault (DbOp.insertHistory history.TraderId history.Version) = none) :
    (match updateConfigTx env db row with
      | Except.error e => Except.error e
      | Except.ok tx1 => insertHistoryTx env tx1 history) =
      Except.ok (withUpdated db row history) := by
  unfold updateConfigTx insertHistoryTx
  simp only [hupd, hdel, hhist]
  rfl

theorem syncOne_of_changes (env : RepoEnv) (db : DB) (rec : TraderConfigRecord)
    (existing : TraderConfig) (detail : String)
    (hid : goTrimSpace rec.ID ≠ "")
    (hnorm : normalizeDetail env.json rec.Detail = Except.ok detail)
    (hfind : findOne env db rec.ID = Except.ok existing)
    (hne : computeChangedFields existing rec detail ≠ []) :
    syncOne env db rec =
      match withTx env db (fun tx =>
          match updateConfigTx env tx (buildConfigRow rec detail (existing.Version + 1)) with
          | Except.error e => Except.error e
          | Except.ok tx1 =>
            insertHistoryTx env tx1
              (buildHistoryRow env.now (buildConfigRow rec detail (existing.Version + 1))
                (computeChangedFields existing rec detail) rec)) with
      | (some e, db1) => ((configSyncAction.configUnchanged, some e), db1)
      | (none, db1) => ((configSyncAction.configUpdated, none), db1) := by
  have hlen : ¬ (computeChangedFields existing rec detail).length = 0 := by
    intro h
    exact hne (List.length_eq_zero.mp h)
  unfold syncOne
  simp only [hid, if_false, hnorm, hfind, hlen]

theorem findOne_withUpdated (env : RepoEnv) (db : DB) (existing row : TraderConfig)
    (history : TraderConfigHistory)
    (hfind : findOne env db row.Id = Except.ok existing) :
    findOne env (withUpdated db row history) row.Id =
      Except.ok
        { existing with
          Version := row.Version
          ExchangeProvider := row.ExchangeProvider
          MarketProvider := row.MarketProvider
          AllocationPct := row.AllocationPct
          Detail := row.Detail } := by
  have hmem := findOne_ok_mem env db row.Id existing hfind
  unfold findOne at hfind ⊢
  cases hf : env.fault (DbOp.findOne row.Id) with
  | some msg => simp only [hf] at hfind; exact absurd hfind (by simp)
  | none =>
    simp only [hf] at hfind ⊢
    cases hfd : db.traderConfig.find? (fun r => decide (r.Id = row.Id)) with
    | none => simp only [hfd] at hfind; exact absurd hfind (by simp)
    | some r =>
      simp only [hfd, Except.ok.injEq] at hfind
      have hcomp : ((fun r : TraderConfig => decide (r.Id = row.Id)) ∘
          (fun r : TraderConfig =>
            if r.Id = row.Id then
              { r with
                Version := row.Version
                ExchangeProvider := row.ExchangeProvider
                MarketProvider := row.MarketProvider
                AllocationPct := row.AllocationPct
                Detail := row.Detail }
            else r)) = (fun r : TraderConfig => decide (r.Id = row.Id)) := by
        funext r0
        simp only [Function.comp]
        by_cases h0 : r0.Id = row.Id
        · simp only [h0, if_true]
        · simp only [h0, if_false]
      simp only [withUpdated, updatedConfigRows, List.find?_map, hcomp, hfd, Option.map_some']
      rw [hfind]
      simp only [hmem.2, if_true]

/-- Claim C11: when the stored row of a record's trader differs from the record in
at least one of exchange provider, market provider, allocation or canonical detail,
the changed fields `syncOne` computes are exactly the differing columns in strictly
ascending order (so without duplicates); whenever the database runs the transaction
`syncOne` rewrites the stored row with `version = existing.version + 1`, appends
one history row with that version and those changed fields, and reports the id as
updated; whatever the database does, either both writes happen or the call fails
and the database is what it was. The database is one `Sync` maintains (no stored id
is blank). -/
theorem syncOne_updates_changed_row (env : RepoEnv) (db : DB) (rec : TraderConfigRecord)
    (existing : TraderConfig) (detail : String)
    (hwf : storedIdsNonBlank db)
    (hnorm : normalizeDetail env.json rec.Detail = Except.ok detail)
    (hfind : findOne env db rec.ID = Except.ok existing)
    (hdiff : existing.ExchangeProvider ≠ rec.ExchangeProvider ∨
      existing.MarketProvider ≠ rec.MarketProvider ∨
      existing.AllocationPct ≠ rec.AllocationPct ∨
      goTrimSpace existing.Detail ≠ detail) :
    computeChangedFields existing rec detail = differingColumns existing rec detail ∧
    (computeChangedFields existing rec detail).Sorted (fun a b => a < b) ∧
    (computeChangedFields existing rec detail).Nodup ∧
    computeChangedFields existing rec detail ≠ [] ∧
    (buildHistoryRow env.now (buildConfigRow rec detail (existing.Version + 1))
      (computeChangedFields existing rec detail) rec).Version = existing.Version + 1 ∧
    (buildHistoryRow env.now (buildConfigRow rec detail (existing.Version + 1))
      (computeChangedFields existing rec detail) rec).ChangedFields =
        differingColumns existing rec detail ∧
    ((env.dbNil = false ∧ env.fault DbOp.beginTx = none ∧
        env.fault (DbOp.updateConfig rec.ID) = none ∧ env.fault (DbOp.delCache rec.ID) = none ∧
        env.fault (DbOp.insertHistory rec.ID (existing.Version + 1)) = none ∧
        env.fault DbOp.commit = none) →
      syncOne env db rec =
        ((configSyncAction.configUpdated, none),
         withUpdated db (buildConfigRow rec detail (existing.Version + 1))
           (buildHistoryRow env.now (buildConfigRow rec detail (existing.Version + 1))
             (computeChangedFields existing rec detail) rec)) ∧
      findOne env (syncOne env db rec).2 rec.ID =
        Except.ok
          { existing with
            Version := existing.Version + 1
            ExchangeProvider := rec.ExchangeProvider
            MarketProvider := rec.MarketProvider
            AllocationPct := rec.AllocationPct
            Detail := detail } ∧
      (syncOne env db rec).2.traderConfigHistory =
        db.traderConfigHistory ++
          [buildHistoryRow env.now (buildConfigRow rec detail (existing.Version + 1))
            (computeChangedFields existing rec detail) rec] ∧
      (Sync env db [rec]).1 = ({ Inserted := [], Updated := [rec.ID], Unchanged := [] }, none)) ∧
    (syncOne env db rec =
        ((configSyncAction.configUpdated, none),
         withUpdated db (buildConfigRow rec detail (existing.Version + 1))
           (buildHistoryRow env.now (buildConfigRow rec detail (existing.Version + 1))
             (computeChangedFields existing rec detail) rec)) ∨
      ∃ e : RepoError, syncOne env db rec = ((configSyncAction.configUnchanged, some e), db)) := by
  have hmem := findOne_ok_mem env db rec.ID existing hfind
  have hid : goTrimSpace rec.ID ≠ "" := by
    rw [← hmem.2]
    exact hwf existing hmem.1
  have heq := computeChangedFields_eq_differingColumns existing rec detail
  have hsorted := differingColumns_sorted existing rec detail
  have hne : computeChangedFields existing rec detail ≠ [] := by
    rw [heq]
    exact differingColumns_ne_nil existing rec detail hdiff
  have hone := syncOne_of_changes env db rec existing detail hid hnorm hfind hne
  have hlenpos : (computeChangedFields existing rec detail).length > 0 :=
    List.length_pos.mpr hne
  refine ⟨heq, by rw [heq]; exact hsorted, ?_, hne, rfl, ?_, ?_, ?_⟩
  · rw [heq]
    exact List.Sorted.nodup hsorted
  · simp only [buildHistoryRow, hlenpos, if_true]
    exact heq
  · rintro ⟨hnil, hbegin, hupd, hdel, hhist, hcommit⟩
    have hfn := updateBoth_ok env db (buildConfigRow rec detail (existing.Version + 1))
      (buildHistoryRow env.now (buildConfigRow rec detail (existing.Version + 1))
        (computeChangedFields existing rec detail) rec) hupd hdel hhist
    have htx := withTx_ok env db _ (fun tx =>
        match updateConfigTx env tx (buildConfigRow rec detail (existing.Version + 1)) with
        | Except.error e => Except.error e
        | Except.ok tx1 =>
          insertHistoryTx env tx1
            (buildHistoryRow env.now (buildConfigRow rec detail (existing.Version + 1))
              (computeChangedFields existing rec detail) rec))
      hnil hbegin hfn hcommit
    have hres : syncOne env db rec =
        ((configSyncAction.configUpdated, none),
         withUpdated db (buildConfigRow rec detail (existing.Version + 1))
           (buildHistoryRow env.now (buildConfigRow rec detail (existing.Version + 1))
             (computeChangedFields existing rec detail) rec)) := by
      rw [hone, htx]
    refine ⟨hres, ?_, by rw [hres]; rfl, ?_⟩
    · rw [hres]
      exact findOne_withUpdated env db existing
        (buildConfigRow rec detail (existing.Version + 1)) _ hfind
    · unfold Sync
      simp only [List.length_singleton, one_ne_zero, if_false]
      rw [syncLoop, hres]
      rfl
  · rcases withTx_cases env db (fun tx =>
        match updateConfigTx env tx (buildConfigRow rec detail (existing.Version + 1)) with
        | Except.error e => Except.error e
        | Except.ok tx1 =>
          insertHistoryTx env tx1
            (buildHistoryRow env.now (buildConfigRow rec detail (existing.Version + 1))
              (computeChangedFields existing rec detail) rec))
      with ⟨e, he⟩ | ⟨db1, hfn, hok⟩
    · right
      exact ⟨e, by rw [hone, he]⟩
    · left
      have hdb1 := updateBoth_cases env db _ _ db1 hfn
      rw [hone, hok, hdb1]
      rfl

/-- Claim C11 on the sample database: after the sample record is stored, a record for
the same trader with another allocation and exchange provider is reported as updated,
the stored row has version 2 and the history gains one row with version 2 and changed
fields `allocation_pct`, `exchange_provider`. -/
theorem syncOne_updates_changed_row_witness :
    (Sync sampleEnv sampleDBSynced [sampleRecordChanged]).1 =
      ({ Inserted := [], Updated := ["t1"], Unchanged := [] }, none) ∧
    (syncOne sampleEnv sampleDBSynced sampleRecordChanged).2.traderConfig.map
      (fun row => (row.Id, row.Version, row.AllocationPct, row.ExchangeProvider)) =
      [("t1", 2, 50, "sim")] ∧
    (syncOne sampleEnv sampleDBSynced sampleRecordChanged).2.traderConfigHistory.map
      (fun h => (h.Version, h.ChangedFields)) =
      [(1, ["exchange_provider", "market_provider", "allocation_pct", "detail"]),
       (2, ["allocation_pct", "exchange_provider"])] := by
  have hwf : storedIdsNonBlank sampleDBSynced :=
    syncOne_preserves_storedIdsNonBlank sampleEnv emptyDB sampleRecord
      storedIdsNonBlank_emptyDB
  have h := syncOne_updates_changed_row sampleEnv sampleDBSynced sampleRecordChanged
    (buildConfigRow sampleRecord "\x7b\"id\":\"t1\"\x7d" 1) "\x7b\"id\":\"t1\"\x7d"
    hwf rfl rfl (Or.inl (by decide))
  have hrun := h.2.2.2.2.2.2.1 ⟨rfl, rfl, rfl, rfl, rfl, rfl⟩
  have hcols : computeChangedFields (buildConfigRow sampleRecord "\x7b\"id\":\"t1\"\x7d" 1)
      sampleRecordChanged "\x7b\"id\":\"t1\"\x7d" = ["allocation_pct", "exchange_provider"] := by
    rw [h.1]
    simp +decide [differingColumns, buildConfigRow, sampleRecord, sampleRecordChanged]
  refine ⟨hrun.2.2.2, ?_, ?_⟩
  · rw [hrun.1]
    simp +decide [withUpdated, updatedConfigRows, sampleDBSynced, buildConfigRow,
      sampleRecordChanged, sampleRecord]
  · rw [hrun.2.2.1, hcols]
    decide

/-! ## Journal reader -/

theorem list_lt_append_left {α : Type} [LT α] (hirr : ∀ a : α, ¬ a < a)
    (p a b : List α) : (p ++ a) < (p ++ b) ↔ a < b := by
  induction p with
  | nil => simp
  | cons c rest ih =>
    constructor
    · intro h
      cases h with
      | cons hrest => exact ih.mp hrest
      | rel hlt => exact absurd hlt (hirr c)
    · intro h
      exact List.Lex.cons (ih.mpr h)

theorem string_append_le_append_left (p a b : String) : p ++ a ≤ p ++ b ↔ a ≤ b := by
  have hlt : ∀ x y : String, p ++ x < p ++ y ↔ x < y := by
    intro x y
    rw [String.lt_iff_toList_lt, String.lt_iff_toList_lt]
    simp only [String.toList, String.data_append]
    exact list_lt_append_left (fun c : Char => lt_irrefl c) p.data x.data y.data
  rw [← not_lt, ← not_lt, hlt]

theorem collectCycleFiles_eq {Record : Type} (env : JournalEnv Record) (dir : String)
    (entries : List DirEntry) :
    collectCycleFiles env dir entries =
      ((entries.filter isCycleFile).map (fun ent => ent.Name)).map
        (fun name => env.joinPrefix dir ++ name) := by
  induction entries with
  | nil => rfl
  | cons ent rest ih =>
    unfold collectCycleFiles
    cases hd : ent.IsDir with
    | true =>
      have hk : isCycleFile ent = false := by simp [isCycleFile, hd]
      simp only [if_true, List.filter_cons, hk, ih]
      rfl
    | false =>
      by_cases hn : (!goHasPrefix ent.Name "cycle_" || !goHasSuffix ent.Name ".json") = true
      · have hk : isCycleFile ent = false := by
          simp only [Bool.or_eq_true, Bool.not_eq_true'] at hn
          rcases hn with h | h <;> simp [isCycleFile, hd, h]
        simp only [Bool.false_eq_true, if_false, hn, if_true, List.filter_cons, hk, ih]
      · have hk : isCycleFile ent = true := by
          simp only [Bool.or_eq_true, Bool.not_eq_true', not_or, Bool.not_eq_false] at hn
          simp [isCycleFile, hd, hn.1, hn.2]
        simp only [Bool.false_eq_true, if_false, hn, List.filter_cons, hk, if_true,
          List.map_cons, ih]

theorem sorted_paths_eq {Record : Type} (env : JournalEnv Record) (dir : String)
    (entries : List DirEntry) :
    (collectCycleFiles env dir entries).insertionSort (fun a b => a ≤ b) =
      (sortedCycleNames entries).map (fun name => env.joinPrefix dir ++ name) := by
  rw [collectCycleFiles_eq]
  unfold sortedCycleNames
  symm
  apply List.map_insertionSort
  intro a _ b _
  exact (string_append_le_append_left (env.joinPrefix dir) a b).symm

theorem sortedCycleNames_sorted (entries : List DirEntry) :
    (sortedCycleNames entries).Sorted (fun a b => a ≤ b) :=
  List.sorted_insertionSort (fun a b : String => a ≤ b) _

theorem sortedCycleNames_perm (entries : List DirEntry) :
    (sortedCycleNames entries).Perm ((entries.filter isCycleFile).map (fun ent => ent.Name)) :=
  List.perm_insertionSort (fun a b : String => a ≤ b) _

/-- Claim C12: on a readable directory `Reader.List` returns the joined paths of the
non-directory entries whose name starts with `cycle_` and ends with `.json`, in
ascending order of name (the names sorted, each behind the directory prefix); with
`limit > 0` and more than `limit` such files it returns the last `limit` of them,
otherwise all of them. -/
theorem reader_list_sorted_tail {Record : Type} (env : JournalEnv Record) (r : Reader)
    (limit : Int) (entries : List DirEntry)
    (hdir : env.readDir r.dir = Except.ok entries) :
    (sortedCycleNames entries).Sorted (fun a b => a ≤ b) ∧
    (sortedCycleNames entries).Perm
      ((entries.filter isCycleFile).map (fun ent => ent.Name)) ∧
    (∀ ent : DirEntry, isCycleFile ent = true ↔
      (ent.IsDir = false ∧ goHasPrefix ent.Name "cycle_" = true ∧
        goHasSuffix ent.Name ".json" = true)) ∧
    ((sortedCycleNames entries).map (fun name => env.joinPrefix r.dir ++ name)).Sorted
      (fun a b => a ≤ b) ∧
    (limit > 0 → ((sortedCycleNames entries).length : Int) > limit →
      r.List env limit =
        Except.ok (((sortedCycleNames entries).drop
          ((sortedCycleNames entries).length - limit.toNat)).map
            (fun name => env.joinPrefix r.dir ++ name)) ∧
      ((sortedCycleNames entries).drop
        ((sortedCycleNames entries).length - limit.toNat)).length = limit.toNat) ∧
    ((limit ≤ 0 ∨ ((sortedCycleNames entries).length : Int) ≤ limit) →
      r.List env limit =
        Except.ok ((sortedCycleNames entries).map (fun name => env.joinPrefix r.dir ++ name))) := by
  have hpaths := sorted_paths_eq env r.dir entries
  have hlen : ((sortedCycleNames entries).map
      (fun name => env.joinPrefix r.dir ++ name)).length = (sortedCycleNames entries).length :=
    List.length_map _ _
  refine ⟨sortedCycleNames_sorted entries, sortedCycleNames_perm entries, ?_, ?_, ?_, ?_⟩
  · intro ent
    simp [isCycleFile, and_assoc]
  · rw [← hpaths]
    exact List.sorted_insertionSort (fun a b : String => a ≤ b) _
  · intro hpos hmore
    constructor
    · unfold Reader.List
      simp only [hdir, hpaths, hlen, hpos, hmore, and_self, if_true, List.map_drop]
    · rw [List.length_drop]
      have h1 : limit.toNat ≤ (sortedCycleNames entries).length := by
        have : (limit.toNat : Int) = limit := Int.toNat_of_nonneg (le_of_lt hpos)
        omega
      omega
  · intro hcase
    have hcond : ¬ (limit > 0 ∧ ((sortedCycleNames entries).length : Int) > limit) := by
      rintro ⟨h1, h2⟩
      rcases hcase with h | h <;> omega
    unfold Reader.List
    simp only [hdir, hpaths, hlen, hcond, if_false]

/-- Claim C12 on the directory of `TestReaderLatest`: of the two cycle files and
`notes.txt`, `List(1)` returns the newer cycle file and `List(5)` and `List(0)`
return both cycle files, older first. -/
theorem reader_list_sorted_tail_witness :
    testJournalEnv.readDir "tmp" = Except.ok testJournalEntries ∧
    ({ dir := "tmp" } : Reader).List testJournalEnv 1 =
      Except.ok ["tmp/cycle_20250102_000001.json"] ∧
    ({ dir := "tmp" } : Reader).List testJournalEnv 5 =
      Except.ok ["tmp/cycle_20250101_000001.json", "tmp/cycle_20250102_000001.json"] ∧
    ({ dir := "tmp" } : Reader).List testJournalEnv 0 =
      Except.ok ["tmp/cycle_20250101_000001.json", "tmp/cycle_20250102_000001.json"] := by
  have hnames : sortedCycleNames testJournalEntries =
      ["cycle_20250101_000001.json", "cycle_20250102_000001.json"] := by
    simp +decide [sortedCycleNames, testJournalEntries, List.insertionSort, List.orderedInsert]
  have h1 := reader_list_sorted_tail testJournalEnv { dir := "tmp" } 1 testJournalEntries rfl
  have h5 := reader_list_sorted_tail testJournalEnv { dir := "tmp" } 5 testJournalEntries rfl
  have h0 := reader_list_sorted_tail testJournalEnv { dir := "tmp" } 0 testJournalEntries rfl
  rw [hnames] at h1 h5 h0
  refine ⟨rfl, ?_, ?_, ?_⟩
  · rw [(h1.2.2.2.2.1 (by decide) (by decide)).1]
    rfl
  · rw [h5.2.2.2.2.2 (Or.inr (by decide))]
    rfl
  · rw [h0.2.2.2.2.2 (Or.inl (by decide))]
    rfl

theorem loadCycleFiles_ok_iff {Record : Type} (env : JournalEnv Record) (r : Reader)
    (files : List String) (recs : List Record) :
    loadCycleFiles env r files = Except.ok recs ↔
      List.Forall₂ (fun path rec => r.Load env path = Except.ok rec) files recs := by
  induction files generalizing recs with
  | nil =>
    unfold loadCycleFiles
    constructor
    · intro h
      simp only [Except.ok.injEq] at h
      rw [← h]
      exact List.Forall₂.nil
    · intro h
      cases h
      rfl
  | cons path rest ih =>
    unfold loadCycleFiles
    cases hload : r.Load env path with
    | error e =>
      constructor
      · intro h
        exact absurd h (by simp)
      · intro h
        cases h with
        | cons h1 _ => rw [hload] at h1; exact absurd h1 (by simp)
    | ok rec =>
      cases hrest : loadCycleFiles env r rest with
      | error e =>
        constructor
        · intro h
          exact absurd h (by simp)
        · intro h
          cases h with
          | cons h1 h2 =>
            have := (ih _).mpr h2
            rw [hrest] at this
            exact absurd this (by simp)
      | ok out =>
        constructor
        · intro h
          simp only [Except.ok.injEq] at h
          rw [← h]
          exact List.Forall₂.cons hload ((ih out).mp hrest)
        · intro h
          cases h with
          | cons h1 h2 =>
            rw [hload] at h1
            have hout := (ih _).mpr h2
            rw [hrest] at hout
            simp only [Except.ok.injEq] at h1 hout ⊢
            rw [h1, hout]

theorem loadCycleFiles_first_error {Record : Type} (env : JournalEnv Record) (r : Reader)
    (before : List String) (path : String) (after : List String) (e : JournalError)
    (hbefore : ∀ q ∈ before, ∃ rec : Record, r.Load env q = Except.ok rec)
    (hfail : r.Load env path = Except.error e) :
    loadCycleFiles env r (before ++ path :: after) = Except.error e := by
  induction before with
  | nil =>
    simp only [List.nil_append]
    unfold loadCycleFiles
    simp only [hfail]
  | cons q rest ih =>
    obtain ⟨rec, hq⟩ := hbefore q (List.mem_cons_self q rest)
    have hrest := ih (fun q2 hq2 => hbefore q2 (List.mem_cons_of_mem q hq2))
    simp only [List.cons_append]
    unfold loadCycleFiles
    simp only [hq, hrest]

theorem forall₂_left_exists {α β : Type} {R : α → β → Prop} {l₁ : List α} {l₂ : List β}
    (h : List.Forall₂ R l₁ l₂) : ∀ a ∈ l₁, ∃ b : β, R a b := by
  induction h with
  | nil => intro a ha; exact absurd ha (List.not_mem_nil a)
  | cons hab _ ih =>
    intro a ha
    rcases List.mem_cons.mp ha with h1 | h1
    · rw [h1]; exact ⟨_, hab⟩
    · exact ih a h1

/-- Claim C13: `Reader.Latest(limit)` returns the decoded records of the files
`List(limit)` returns, one per file and in the same order; when one of those files
cannot be read or decoded, `Latest` returns the error of the first such file and no
records; an error of `List` is returned as it is. -/
theorem reader_latest_loads_listed {Record : Type} (env : JournalEnv Record) (r : Reader)
    (limit : Int) :
    (∀ files : List String, r.List env limit = Except.ok files →
      (∀ recs : List Record, r.Latest env limit = Except.ok recs ↔
        List.Forall₂ (fun path rec => r.Load env path = Except.ok rec) files recs) ∧
      (∀ recs : List Record, r.Latest env limit = Except.ok recs →
        recs.length = files.length) ∧
      (∀ (before : List String) (path : String) (after : List String) (e : JournalError),
        files = before ++ path :: after →
        (∀ q ∈ before, ∃ rec : Record, r.Load env q = Except.ok rec) →
        r.Load env path = Except.error e →
        r.Latest env limit = Except.error e) ∧
      ((∃ path ∈ files, ∃ e : JournalError, r.Load env path = Except.error e) →
        ∃ e : JournalError, r.Latest env limit = Except.error e)) ∧
    (∀ e : JournalError, r.List env limit = Except.error e →
      r.Latest env limit = Except.error e) ∧
    (∀ (path : String) (e : JournalError), r.Load env path = Except.error e →
      (∃ cause : String, env.readFile path = Except.error cause ∧
        e = JournalError.read path cause) ∨
      (∃ data cause : String, env.readFile path = Except.ok data ∧
        env.unmarshal data = Except.error cause ∧ e = JournalError.decode path cause)) := by
  refine ⟨?_, ?_, ?_⟩
  · intro files hlist
    have hlatest : r.Latest env limit = loadCycleFiles env r files := by
      unfold Reader.Latest
      simp only [hlist]
    refine ⟨?_, ?_, ?_, ?_⟩
    · intro recs
      rw [hlatest]
      exact loadCycleFiles_ok_iff env r files recs
    · intro recs h
      rw [hlatest] at h
      exact ((loadCycleFiles_ok_iff env r files recs).mp h).length_eq.symm
    · intro before path after e hfiles hbefore hfail
      rw [hlatest, hfiles]
      exact loadCycleFiles_first_error env r before path after e hbefore hfail
    · rintro ⟨path, hmem, e, hfail⟩
      cases hres : r.Latest env limit with
      | error e2 => exact ⟨e2, rfl⟩
      | ok recs =>
        exfalso
        rw [hlatest] at hres
        have hall := (loadCycleFiles_ok_iff env r files recs).mp hres
        obtain ⟨rec, hok⟩ := forall₂_left_exists hall path hmem
        rw [hfail] at hok
        exact absurd hok (by simp)
  · intro e hlist
    unfold Reader.Latest
    simp only [hlist]
  · intro path e hload
    unfold Reader.Load at hload
    cases hread : env.readFile path with
    | error cause =>
      simp only [hread, Except.error.injEq] at hload
      exact Or.inl ⟨cause, rfl, hload.symm⟩
    | ok data =>
      cases hdec : env.unmarshal data with
      | error cause =>
        simp only [hread, hdec, Except.error.injEq] at hload
        exact Or.inr ⟨data, cause, rfl, hdec, hload.symm⟩
      | ok rec =>
        simp only [hread, hdec] at hload
        exact absurd hload (by simp)

/-- Claim C13 on the directory of `TestReaderLatest`: `Latest(1)` is the record of
`t2` alone, `Latest(5)` the records of `t1` and `t2` in that order; with the older
file not decodable `Latest(5)` returns its decode error and `Latest(1)`, which does
not list it, still succeeds. -/
theorem reader_latest_loads_listed_witness :
    ({ dir := "tmp" } : Reader).Latest testJournalEnv 1 = Except.ok ["t2"] ∧
    ({ dir := "tmp" } : Reader).Latest testJournalEnv 5 = Except.ok ["t1", "t2"] ∧
    ({ dir := "tmp" } : Reader).Latest brokenJournalEnv 5 =
      Except.error (JournalError.decode "tmp/cycle_20250101_000001.json"
        "unexpected end of JSON input") ∧
    ({ dir := "tmp" } : Reader).Latest brokenJournalEnv 1 = Except.ok ["t2"] := by
  have hnames : sortedCycleNames testJournalEntries =
      ["cycle_20250101_000001.json", "cycle_20250102_000001.json"] := by
    simp +decide [sortedCycleNames, testJournalEntries, List.insertionSort, List.orderedInsert]
  have hl1 : ({ dir := "tmp" } : Reader).List testJournalEnv 1 =
      Except.ok ["tmp/cycle_20250102_000001.json"] := by
    unfold Reader.List
    simp +decide [testJournalEnv, sorted_paths_eq, hnames]
  have hl5 : ({ dir := "tmp" } : Reader).List testJournalEnv 5 =
      Except.ok ["tmp/cycle_20250101_000001.json", "tmp/cycle_20250102_000001.json"] := by
    unfold Reader.List
    simp +decide [testJournalEnv, sorted_paths_eq, hnames]
  have hb1 : ({ dir := "tmp" } : Reader).List brokenJournalEnv 1 =
      Except.ok ["tmp/cycle_20250102_000001.json"] := by
    unfold Reader.List
    simp +decide [brokenJournalEnv, testJournalEnv, sorted_paths_eq, hnames]
  have hb5 : ({ dir := "tmp" } : Reader).List brokenJournalEnv 5 =
      Except.ok ["tmp/cycle_20250101_000001.json", "tmp/cycle_20250102_000001.json"] := by
    unfold Reader.List
    simp +decide [brokenJournalEnv, testJournalEnv, sorted_paths_eq, hnames]
  have h1 := (reader_latest_loads_listed testJournalEnv { dir := "tmp" } 1).1 _ hl1
  have h5 := (reader_latest_loads_listed testJournalEnv { dir := "tmp" } 5).1 _ hl5
  have hb := (reader_latest_loads_listed brokenJournalEnv { dir := "tmp" } 5).1 _ hb5
  have hbo := (reader_latest_loads_listed brokenJournalEnv { dir := "tmp" } 1).1 _ hb1
  refine ⟨?_, ?_, ?_, ?_⟩
  · exact (h1.1 ["t2"]).mpr (List.Forall₂.cons rfl List.Forall₂.nil)
  · exact (h5.1 ["t1", "t2"]).mpr
      (List.Forall₂.cons rfl (List.Forall₂.cons rfl List.Forall₂.nil))
  · exact hb.2.2.1 [] "tmp/cycle_20250101_000001.json" ["tmp/cycle_20250102_000001.json"] _
      rfl (fun q hq => absurd hq (List.not_mem_nil q)) rfl
  · exact (hbo.1 ["t2"]).mpr (List.Forall₂.cons rfl List.Forall₂.nil)

/-! ## Persistence service: position events -/

theorem writePositionsCache_tables (env : PersistEnv) (st : PersistStore) (traderID : String)
    (payload : List (String × positionCacheEntry)) :
    (writePositionsCache env st traderID payload).positions = st.positions ∧
    (writePositionsCache env st traderID payload).trades = st.trades ∧
    (writePositionsCache env st traderID payload).tradesCache = st.tradesCache := by
  unfold writePositionsCache
  simp only []
  split_ifs <;> (try split) <;> exact ⟨rfl, rfl, rfl⟩

theorem writeTradesCache_tables (env : PersistEnv) (st : PersistStore) (traderID : String)
    (payload : List tradeCacheEntry) :
    (writeTradesCache env st traderID payload).positions = st.positions ∧
    (writeTradesCache env st traderID payload).trades = st.trades ∧
    (writeTradesCache env st traderID payload).positionsCache = st.positionsCache := by
  unfold writeTradesCache
  simp only []
  split_ifs <;> (try split) <;> exact ⟨rfl, rfl, rfl⟩

theorem cacheOpenPosition_tables (env : PersistEnv) (st : PersistStore) (modelID symbol : String)
    (entry : Option positionCacheEntry) :
    (cacheOpenPosition env st modelID symbol entry).positions = st.positions ∧
    (cacheOpenPosition env st modelID symbol entry).trades = st.trades ∧
    (cacheOpenPosition env st modelID symbol entry).tradesCache = st.tradesCache := by
  unfold cacheOpenPosition
  split_ifs
  · exact ⟨rfl, rfl, rfl⟩
  · split
    · exact ⟨rfl, rfl, rfl⟩
    · simp only []
      split_ifs
      · exact ⟨rfl, rfl, rfl⟩
      · exact writePositionsCache_tables env st modelID _

theorem appendRecentTrade_tables (env : PersistEnv) (st : PersistStore) (modelID : String)
    (entry : tradeCacheEntry) :
    (appendRecentTrade env st modelID entry).positions = st.positions ∧
    (appendRecentTrade env st modelID entry).trades = st.trades ∧
    (appendRecentTrade env st modelID entry).positionsCache = st.positionsCache := by
  unfold appendRecentTrade
  split_ifs
  · exact ⟨rfl, rfl, rfl⟩
  · split
    · exact ⟨rfl, rfl, rfl⟩
    · exact writeTradesCache_tables env st modelID _

theorem handleClosePosition_found (env : PersistEnv) (st : PersistStore)
    (modelID symbol : String) (event : PositionEvent) (pos : Positions)
    (hpm : env.positionsModel = true) (htm : env.tradesModel = true)
    (hfind : findPosition env st (positionID modelID symbol) = Except.ok pos)
    (hclose : env.fault (PersistOp.closePosition (positionID modelID symbol)) = none)
    (hins : env.fault (PersistOp.insertTrade
      (buildTradeID modelID symbol (closeTimeOf env event))) = none)
    (hfresh : st.trades.any (fun row =>
      decide (row.Id = buildTradeID modelID symbol (closeTimeOf env event))) = false) :
    (handleClosePosition env st modelID symbol event).1 = none ∧
    (handleClosePosition env st modelID symbol event).2.trades =
      st.trades ++ [closedTrade env pos modelID symbol event] ∧
    (handleClosePosition env st modelID symbol event).2.positions =
      closePositionRows st.positions (positionID modelID symbol)
        (closedDetail env pos event) := by
  have hinsert : insertTrade env
      { st with
        positions :=
          closePositionRows st.positions (positionID modelID symbol) (closedDetail env pos event) }
      (some pos) modelID symbol (closeNumbers env.parseFloat (some pos) event).closePrice
      (closeNumbers env.parseFloat (some pos) event).qty
      (closeNumbers env.parseFloat (some pos) event).pnl (closeTimeOf env event) event =
      ((some { ModelID := pos.TraderId, Symbol := symbol, Side := pos.Side,
               Quantity := (closedTrade env pos modelID symbol event).Detail.QuantityTotal,
               EntryPrice := pos.Detail.Entry.Price,
               ExitPrice := (closeNumbers env.parseFloat (some pos) event).closePrice,
               RealizedPnL := pnlOrZero (closeNumbers env.parseFloat (some pos) event).pnl,
               Confidence := (event.Decision.Confidence : ℚ),
               ClosedAtMs := unixMilli (closeTimeOf env event),
               Exchange := pos.Detail.Exchange.Provider,
               EntryTimeMs := pos.Detail.Entry.TimeMs,
               Leverage := pos.Detail.Entry.Leverage,
               PositionSize := pos.Detail.Entry.Quantity }, none),
       { st with
         positions :=
           closePositionRows st.positions (positionID modelID symbol) (closedDetail env pos event)
         trades := st.trades ++ [closedTrade env pos modelID symbol event] }) := by
    unfold insertTrade insertTradeRow
    simp only [htm, Bool.not_true, Bool.false_eq_true, if_false, hins, hfresh]
    rfl
  unfold handleClosePosition
  simp only [hpm, if_true, hfind, hclose, Option.map_some']
  have hdet : updatePositionDetailOnClose (some pos.Detail)
      { Price := (closeNumbers env.parseFloat (some pos) event).closePrice,
        TimeMs := unixMilli (if event.OccurredAt = 0 then env.now else event.OccurredAt),
        Quantity := (closeNumbers env.parseFloat (some pos) event).qty,
        PnL := pnlOrZero (closeNumbers env.parseFloat (some pos) event).pnl } =
      closedDetail env pos event := rfl
  have hct : (if event.OccurredAt = 0 then env.now else event.OccurredAt) =
      closeTimeOf env event := rfl
  rw [hdet, hct, hinsert]
  simp only []
  refine ⟨trivial, ?_, ?_⟩
  · rw [(appendRecentTrade_tables env _ modelID _).2.1,
      (cacheOpenPosition_tables env _ modelID symbol none).2.1]
  · rw [(appendRecentTrade_tables env _ modelID _).1,
      (cacheOpenPosition_tables env _ modelID symbol none).1]

theorem closeNumbers_pnl_some (parseFloat : String → Option ℚ) (pos : Positions)
    (event : PositionEvent)
    (hprice : pos.Detail.Entry.Price > 0)
    (hclose : (closeNumbers parseFloat (some pos) event).closePrice > 0)
    (hqty : (closeNumbers parseFloat (some pos) event).qtyForPnl > 0) :
    (closeNumbers parseFloat (some pos) event).pnl =
      some (pnlSign pos.Side *
        ((closeNumbers parseFloat (some pos) event).closePrice - pos.Detail.Entry.Price) *
        (closeNumbers parseFloat (some pos) event).qtyForPnl) := by
  unfold closeNumbers at hclose hqty ⊢
  simp only [] at hclose hqty ⊢
  rw [if_pos ⟨hclose, hprice, hqty⟩]
  rfl

theorem closeNumbers_pnl_none (parseFloat : String → Option ℚ) (pos : Positions)
    (event : PositionEvent)
    (hnot : ¬ (pos.Detail.Entry.Price > 0 ∧
      (closeNumbers parseFloat (some pos) event).closePrice > 0 ∧
      (closeNumbers parseFloat (some pos) event).qtyForPnl > 0)) :
    (closeNumbers parseFloat (some pos) event).pnl = none := by
  unfold closeNumbers at hnot ⊢
  simp only [] at hnot ⊢
  rw [if_neg]
  rintro ⟨h1, h2, h3⟩
  exact hnot ⟨h2, h1, h3⟩

/-- Claim C14: when `handleClosePosition` finds the position row, with recorded entry
price > 0, and the close price and the quantity used (after their fallbacks) are
> 0, the PnL it computes and records in the trade row and in the closed row's detail
is `sign × (close_price − entry_price) × qty`, with sign −1 when the stored side
equals "short" ignoring case and +1 otherwise; in every other case, and when no row is
found, no PnL is computed and 0 is recorded. -/
theorem handleClosePosition_pnl (env : PersistEnv) (st : PersistStore)
    (modelID symbol : String) (event : PositionEvent) (pos : Positions)
    (hpm : env.positionsModel = true) (htm : env.tradesModel = true)
    (hfind : findPosition env st (positionID modelID symbol) = Except.ok pos)
    (hclose : env.fault (PersistOp.closePosition (positionID modelID symbol)) = none)
    (hins : env.fault (PersistOp.insertTrade
      (buildTradeID modelID symbol (closeTimeOf env event))) = none)
    (hfresh : st.trades.any (fun row =>
      decide (row.Id = buildTradeID modelID symbol (closeTimeOf env event))) = false) :
    (handleClosePosition env st modelID symbol event).2.trades =
      st.trades ++ [closedTrade env pos modelID symbol event] ∧
    (handleClosePosition env st modelID symbol event).2.positions =
      closePositionRows st.positions (positionID modelID symbol) (closedDetail env pos event) ∧
    (closedTrade env pos modelID symbol event).Detail.PnLNet =
      pnlOrZero (closeNumbers env.parseFloat (some pos) event).pnl ∧
    (closedDetail env pos event).Close.map (fun c => c.PnL) =
      some (pnlOrZero (closeNumbers env.parseFloat (some pos) event).pnl) ∧
    (pos.Detail.Entry.Price > 0 →
      (closeNumbers env.parseFloat (some pos) event).closePrice > 0 →
      (closeNumbers env.parseFloat (some pos) event).qtyForPnl > 0 →
      (closeNumbers env.parseFloat (some pos) event).pnl =
        some (pnlSign pos.Side *
          ((closeNumbers env.parseFloat (some pos) event).closePrice - pos.Detail.Entry.Price) *
          (closeNumbers env.parseFloat (some pos) event).qtyForPnl) ∧
      (closedTrade env pos modelID symbol event).Detail.PnLNet =
        pnlSign pos.Side *
          ((closeNumbers env.parseFloat (some pos) event).closePrice - pos.Detail.Entry.Price) *
          (closeNumbers env.parseFloat (some pos) event).qtyForPnl) ∧
    (¬ (pos.Detail.Entry.Price > 0 ∧
        (closeNumbers env.parseFloat (some pos) event).closePrice > 0 ∧
        (closeNumbers env.parseFloat (some pos) event).qtyForPnl > 0) →
      (closeNumbers env.parseFloat (some pos) event).pnl = none ∧
      (closedTrade env pos modelID symbol event).Detail.PnLNet = 0) ∧
    ((closeNumbers env.parseFloat none event).pnl = none ∧
      pnlOrZero (closeNumbers env.parseFloat none event).pnl = 0) ∧
    (pnlSign pos.Side = if goEqualFold pos.Side "short" = true then -1 else 1) := by
  have hfound := handleClosePosition_found env st modelID symbol event pos hpm htm hfind
    hclose hins hfresh
  refine ⟨hfound.2.1, hfound.2.2, rfl, rfl, ?_, ?_, ⟨rfl, rfl⟩, rfl⟩
  · intro hprice hcp hq
    have hp := closeNumbers_pnl_some env.parseFloat pos event hprice hcp hq
    refine ⟨hp, ?_⟩
    show pnlOrZero (closeNumbers env.parseFloat (some pos) event).pnl = _
    rw [hp]
    rfl
  · intro hnot
    have hp := closeNumbers_pnl_none env.parseFloat pos event hnot
    refine ⟨hp, ?_⟩
    show pnlOrZero (closeNumbers env.parseFloat (some pos) event).pnl = _
    rw [hp]
    rfl

theorem closeNumbers_btc_no_size (row : Positions)
    (hprice : row.Detail.Entry.Price = 100) (hqty : row.Detail.Entry.Quantity = 2) :
    (closeNumbers samplePersistEnv.parseFloat (some row) (btcCloseEvent 110 0 0)).closePrice =
      110 ∧
    (closeNumbers samplePersistEnv.parseFloat (some row) (btcCloseEvent 110 0 0)).qtyForPnl =
      2 := by
  constructor
  · norm_num [closeNumbers, effectivePrice, btcCloseEvent, btcDecision]
  · norm_num [closeNumbers, effectivePrice, effectiveQuantity, extractFill, btcCloseEvent,
      btcDecision, samplePersistEnv, hprice, hqty]

/-- Claim C14 on stored BTC rows with entry price 100 and quantity 2, closed at 110 by
an event that carries no size: the long row records a PnL of 20, the row whose side
is "Short" records −20. -/
theorem handleClosePosition_pnl_witness :
    ((handleClosePosition samplePersistEnv (storeWithRow btcOpenRow) "t1" "BTC"
      (btcCloseEvent 110 0 0)).2.trades.map (fun t => t.Detail.PnLNet)) = [20] ∧
    ((handleClosePosition samplePersistEnv (storeWithRow btcShortRow) "t1" "BTC"
      (btcCloseEvent 110 0 0)).2.trades.map (fun t => t.Detail.PnLNet)) = [-20] := by
  have hl := handleClosePosition_pnl samplePersistEnv (storeWithRow btcOpenRow) "t1" "BTC"
    (btcCloseEvent 110 0 0) btcOpenRow rfl rfl rfl rfl rfl rfl
  have hs := handleClosePosition_pnl samplePersistEnv (storeWithRow btcShortRow) "t1" "BTC"
    (btcCloseEvent 110 0 0) btcShortRow rfl rfl rfl rfl rfl rfl
  have nl := closeNumbers_btc_no_size btcOpenRow rfl rfl
  have ns := closeNumbers_btc_no_size btcShortRow rfl rfl
  have hlv := (hl.2.2.2.2.1 (by norm_num [btcOpenRow]) (by rw [nl.1]; norm_num)
    (by rw [nl.2]; norm_num)).2
  have hsv := (hs.2.2.2.2.1 (by norm_num [btcShortRow, btcOpenRow]) (by rw [ns.1]; norm_num)
    (by rw [ns.2]; norm_num)).2
  have hsignl : pnlSign btcOpenRow.Side = 1 := by decide
  have hsigns : pnlSign btcShortRow.Side = -1 := by decide
  constructor
  · rw [hl.1]
    simp only [storeWithRow, emptyStore, List.nil_append, List.map_cons, List.map_nil]
    rw [hlv, nl.1, nl.2, hsignl]
    norm_num [btcOpenRow]
  · rw [hs.1]
    simp only [storeWithRow, emptyStore, List.nil_append, List.map_cons, List.map_nil]
    rw [hsv, ns.1, ns.2, hsigns]
    norm_num [btcShortRow, btcOpenRow]

theorem handleOpenPosition_ok (env : PersistEnv) (st : PersistStore) (modelID symbol : String)
    (event : PositionEvent)
    (hup : env.fault (PersistOp.upsertPosition (positionID modelID symbol)) = none) :
    (handleOpenPosition env st modelID symbol event).1 = none ∧
    (handleOpenPosition env st modelID symbol event).2.positions =
      upsertPosition st.positions (positionID modelID symbol) modelID symbol
        (openedSide event) (openedDetail env event) ∧
    (handleOpenPosition env st modelID symbol event).2.trades = st.trades := by
  unfold handleOpenPosition
  simp only [hup]
  refine ⟨trivial, ?_, ?_⟩
  · rw [(cacheOpenPosition_tables env _ modelID symbol _).1]
    rfl
  · rw [(cacheOpenPosition_tables env _ modelID symbol _).2.1]

theorem find?_upsertPosition (rows : List Positions) (id traderID symbol side : String)
    (detail : positionDetail) :
    ∃ row : Positions,
      (upsertPosition rows id traderID symbol side detail).find?
        (fun r => decide (r.Id = id)) = some row ∧
      row.Side = side ∧ row.Detail = detail := by
  unfold upsertPosition
  cases hany : rows.any (fun row => decide (row.Id = id)) with
  | true =>
    simp only [if_true]
    have hcomp : ((fun r : Positions => decide (r.Id = id)) ∘
        (fun row : Positions =>
          if row.Id = id then { row with Side := side, Status := "open", Detail := detail }
          else row)) = (fun r : Positions => decide (r.Id = id)) := by
      funext r0
      simp only [Function.comp]
      by_cases h0 : r0.Id = id
      · simp only [h0, if_true]
      · simp only [h0, if_false]
    rw [List.find?_map, hcomp]
    cases hfind : rows.find? (fun r => decide (r.Id = id)) with
    | none =>
      rw [List.find?_eq_none] at hfind
      rw [List.any_eq_true] at hany
      obtain ⟨r, hr, hrid⟩ := hany
      exact absurd hrid (hfind r hr)
    | some r =>
      have hrid : r.Id = id := by simpa using List.find?_some hfind
      refine ⟨_, rfl, ?_, ?_⟩ <;> simp only [hrid, if_true]
  | false =>
    simp only [Bool.false_eq_true, if_false]
    have hnone : rows.find? (fun r => decide (r.Id = id)) = none := by
      rw [List.find?_eq_none]
      rw [List.any_eq_false] at hany
      exact hany
    refine ⟨{ Id := id, TraderId := traderID, Symbol := symbol, Side := side,
              Status := "open", Detail := detail }, ?_, rfl, rfl⟩
    rw [List.find?_append, hnone]
    simp

theorem effectiveQuantity_nonneg_cases (parseFloat : String → Option ℚ)
    (event : PositionEvent) (price : ℚ) :
    effectiveQuantity parseFloat event price > 0 ∨ effectiveQuantity parseFloat event price = 0 := by
  unfold effectiveQuantity
  simp only []
  split_ifs with h1 h2 h3 h4
  · exact Or.inl h1
  · exact Or.inl h2.2.2
  · exact Or.inl h3.2
  · exact Or.inl h4
  · exact Or.inr rfl

theorem closeNumbers_long_recorded (parseFloat : String → Option ℚ) (pos : Positions)
    (event : PositionEvent) (E Q X : ℚ)
    (hside : goEqualFold pos.Side "short" = false)
    (hE : pos.Detail.Entry.Price = E) (hEpos : E > 0)
    (hQ : pos.Detail.Entry.Quantity = Q) (hQpos : Q > 0)
    (hX : effectivePrice parseFloat event = X) (hXpos : X > 0) :
    (closeNumbers parseFloat (some pos) event).closePrice = X ∧
    (closeNumbers parseFloat (some pos) event).pnl =
      some (1 * (X - E) *
        (if effectiveQuantity parseFloat event X > 0 then effectiveQuantity parseFloat event X
         else Q)) := by
  have hXn : ¬ X ≤ 0 := not_le.mpr hXpos
  rcases effectiveQuantity_nonneg_cases parseFloat event X with hq | hq
  · have hqn : ¬ effectiveQuantity parseFloat event X ≤ 0 := not_le.mpr hq
    unfold closeNumbers
    simp only [hX, hXn, false_and, if_false, hqn, hE, hEpos, hXpos, hq, and_self, if_true,
      hside, Bool.false_eq_true]
  · have hqn : effectiveQuantity parseFloat event X ≤ 0 := le_of_eq hq
    have hqn2 : ¬ effectiveQuantity parseFloat event X > 0 := not_lt.mpr hqn
    have hQn : ¬ Q ≤ 0 := not_le.mpr hQpos
    unfold closeNumbers
    simp only [hX, hXn, false_and, if_false, hqn, hE, hEpos, hXpos, hQ, hQpos, hQn,
      Option.isSome_some, and_self, if_true, hside, Bool.false_eq_true, hqn2]

theorem recordOpenThenClose_trade (env : PersistEnv) (st : PersistStore)
    (openEv closeEv : PositionEvent) (m s : String)
    (hsql : env.sqlConn = true) (hpm : env.positionsModel = true)
    (htm : env.tradesModel = true)
    (hmo : normalizedModelID openEv = m) (hmc : normalizedModelID closeEv = m)
    (hso : goToUpper (goTrimSpace openEv.Decision.Symbol) = s)
    (hsc : goToUpper (goTrimSpace closeEv.Decision.Symbol) = s)
    (hm : m ≠ "") (hs : s ≠ "")
    (hko : openEv.Event = PositionEventKind.PositionEventOpen)
    (hkc : closeEv.Event = PositionEventKind.PositionEventClose)
    (hup : env.fault (PersistOp.upsertPosition (positionID m s)) = none)
    (hfd : env.fault (PersistOp.findPosition (positionID m s)) = none)
    (hcl : env.fault (PersistOp.closePosition (positionID m s)) = none)
    (hins : env.fault (PersistOp.insertTrade (buildTradeID m s (closeTimeOf env closeEv))) = none)
    (hfresh : st.trades.any (fun row =>
      decide (row.Id = buildTradeID m s (closeTimeOf env closeEv))) = false) :
    ∃ row : Positions,
      row.Side = openedSide openEv ∧ row.Detail = openedDetail env openEv ∧
      (recordOpenThenClose env st openEv closeEv).1 = none ∧
      (recordOpenThenClose env st openEv closeEv).2.trades =
        st.trades ++ [closedTrade env row m s closeEv] := by
  have hopen := handleOpenPosition_ok env st m s openEv hup
  obtain ⟨row, hrow, hside, hdetail⟩ := find?_upsertPosition st.positions (positionID m s) m s
    (openedSide openEv) (openedDetail env openEv)
  have hfind : findPosition env (handleOpenPosition env st m s openEv).2 (positionID m s) =
      Except.ok row := by
    unfold findPosition
    rw [hfd, hopen.2.1, hrow]
  have hfresh1 : (handleOpenPosition env st m s openEv).2.trades.any (fun row =>
      decide (row.Id = buildTradeID m s (closeTimeOf env closeEv))) = false := by
    rw [hopen.2.2]
    exact hfresh
  have hfound := handleClosePosition_found env (handleOpenPosition env st m s openEv).2 m s
    closeEv row hpm htm hfind hcl hins hfresh1
  have hrun : recordOpenThenClose env st openEv closeEv =
      handleClosePosition env (handleOpenPosition env st m s openEv).2 m s closeEv := by
    unfold recordOpenThenClose RecordPositionEvent
    simp only [hsql, Bool.not_true, Bool.false_eq_true, if_false, hmo, hmc, hso, hsc, hm, hs,
      or_self, hko, hkc]
  refine ⟨row, hside, hdetail, ?_, ?_⟩
  · rw [hrun]
    exact hfound.1
  · rw [hrun, hfound.2.1, hopen.2.2]

theorem recordOpenThenClose_long_pnl (env : PersistEnv) (st : PersistStore)
    (openEv closeEv : PositionEvent) (m s : String) (P E X : ℚ)
    (hsql : env.sqlConn = true) (hpm : env.positionsModel = true)
    (htm : env.tradesModel = true)
    (hmo : normalizedModelID openEv = m) (hmc : normalizedModelID closeEv = m)
    (hso : goToUpper (goTrimSpace openEv.Decision.Symbol) = s)
    (hsc : goToUpper (goTrimSpace closeEv.Decision.Symbol) = s)
    (hm : m ≠ "") (hs : s ≠ "")
    (hko : openEv.Event = PositionEventKind.PositionEventOpen)
    (hkc : closeEv.Event = PositionEventKind.PositionEventClose)
    (hup : env.fault (PersistOp.upsertPosition (positionID m s)) = none)
    (hfd : env.fault (PersistOp.findPosition (positionID m s)) = none)
    (hcl : env.fault (PersistOp.closePosition (positionID m s)) = none)
    (hins : env.fault (PersistOp.insertTrade (buildTradeID m s (closeTimeOf env closeEv))) = none)
    (hfresh : st.trades.any (fun row =>
      decide (row.Id = buildTradeID m s (closeTimeOf env closeEv))) = false)
    (hlong : goEqualFold openEv.Decision.Action "open_short" = false)
    (hfill : openEv.FillSize = 0)
    (hP : openEv.Decision.PositionSizeUSD = P) (hPpos : P > 0)
    (hE : effectivePrice env.parseFloat openEv = E) (hEpos : E > 0)
    (hX : effectivePrice env.parseFloat closeEv = X) (hXpos : X > 0) :
    (openedDetail env openEv).Entry.Quantity = P / E ∧
    (recordOpenThenClose env st openEv closeEv).1 = none ∧
    (recordOpenThenClose env st openEv closeEv).2.trades.map (fun t => t.Detail.PnLNet) =
      st.trades.map (fun t => t.Detail.PnLNet) ++
        [1 * (X - E) *
          (if closeEventQuantity env closeEv X > 0 then closeEventQuantity env closeEv X
           else P / E)] := by
  obtain ⟨row, hside, hdetail, herr, htrades⟩ := recordOpenThenClose_trade env st openEv closeEv
    m s hsql hpm htm hmo hmc hso hsc hm hs hko hkc hup hfd hcl hins hfresh
  have hquot : P / E > 0 := div_pos hPpos hEpos
  have hqty : (openedDetail env openEv).Entry.Quantity = P / E := by
    show effectiveQuantity env.parseFloat openEv (effectivePrice env.parseFloat openEv) = P / E
    unfold effectiveQuantity
    simp only [hfill, lt_self_iff_false, if_false, hE, hP, hEpos, hPpos, hquot, and_self,
      if_true, gt_iff_lt]
  have hrowside : goEqualFold row.Side "short" = false := by
    rw [hside]
    unfold openedSide
    rw [hlong]
    decide
  have hrowE : row.Detail.Entry.Price = E := by
    rw [hdetail]
    exact hE
  have hrowQ : row.Detail.Entry.Quantity = P / E := by
    rw [hdetail]
    exact hqty
  have hnum := closeNumbers_long_recorded env.parseFloat row closeEv E (P / E) X hrowside hrowE
    hEpos hrowQ hquot hX hXpos
  refine ⟨hqty, herr, ?_⟩
  rw [htrades, List.map_append]
  congr 1
  show [pnlOrZero (closeNumbers env.parseFloat (some row) closeEv).pnl] = _
  rw [hnum.2]
  rfl

/-- Claim C15 (amended): a long position opened with `position_size_usd = P` at entry
price `E` is recorded with quantity `P / E`; when it is later closed at exit price
`X > 0`, the trade row written has realized net PnL `+1 × (X − E) × q`, where `q` is
the close event's own quantity when that is positive (its fill size, else its
`position_size_usd / X`, else the exchange fill size, else its `position_size_usd`)
and the recorded `P / E` only when the close event carries no quantity. -/
theorem recordOpenThenClose_pnl_quantity (env : PersistEnv) (st : PersistStore)
    (openEv closeEv : PositionEvent) (m s : String) (P E X : ℚ)
    (hsql : env.sqlConn = true) (hpm : env.positionsModel = true)
    (htm : env.tradesModel = true)
    (hmo : normalizedModelID openEv = m) (hmc : normalizedModelID closeEv = m)
    (hso : goToUpper (goTrimSpace openEv.Decision.Symbol) = s)
    (hsc : goToUpper (goTrimSpace closeEv.Decision.Symbol) = s)
    (hm : m ≠ "") (hs : s ≠ "")
    (hko : openEv.Event = PositionEventKind.PositionEventOpen)
    (hkc : closeEv.Event = PositionEventKind.PositionEventClose)
    (hup : env.fault (PersistOp.upsertPosition (positionID m s)) = none)
    (hfd : env.fault (PersistOp.findPosition (positionID m s)) = none)
    (hcl : env.fault (PersistOp.closePosition (positionID m s)) = none)
    (hins : env.fault (PersistOp.insertTrade (buildTradeID m s (closeTimeOf env closeEv))) = none)
    (hfresh : st.trades.any (fun row =>
      decide (row.Id = buildTradeID m s (closeTimeOf env closeEv))) = false)
    (hlong : goEqualFold openEv.Decision.Action "open_short" = false)
    (hfill : openEv.FillSize = 0)
    (hP : openEv.Decision.PositionSizeUSD = P) (hPpos : P > 0)
    (hE : effectivePrice env.parseFloat openEv = E) (hEpos : E > 0)
    (hX : effectivePrice env.parseFloat closeEv = X) (hXpos : X > 0) :
    (openedDetail env openEv).Entry.Quantity = P / E ∧
    (recordOpenThenClose env st openEv closeEv).1 = none ∧
    (recordOpenThenClose env st openEv closeEv).2.trades.map (fun t => t.Detail.PnLNet) =
      st.trades.map (fun t => t.Detail.PnLNet) ++
        [1 * (X - E) *
          (if closeEventQuantity env closeEv X > 0 then closeEventQuantity env closeEv X
           else P / E)] ∧
    (closeEventQuantity env closeEv X > 0 →
      (recordOpenThenClose env st openEv closeEv).2.trades.map (fun t => t.Detail.PnLNet) =
        st.trades.map (fun t => t.Detail.PnLNet) ++
          [1 * (X - E) * closeEventQuantity env closeEv X]) ∧
    (closeEventQuantity env closeEv X = 0 →
      (recordOpenThenClose env st openEv closeEv).2.trades.map (fun t => t.Detail.PnLNet) =
        st.trades.map (fun t => t.Detail.PnLNet) ++ [1 * (X - E) * (P / E)]) ∧
    (closeEv.FillSize = 0 → closeEv.Decision.PositionSizeUSD = 0 →
      closeEv.ExchangeResponse = none → closeEventQuantity env closeEv X = 0) := by
  have h := recordOpenThenClose_long_pnl env st openEv closeEv m s P E X hsql hpm htm hmo hmc
    hso hsc hm hs hko hkc hup hfd hcl hins hfresh hlong hfill hP hPpos hE hEpos hX hXpos
  refine ⟨h.1, h.2.1, h.2.2, ?_, ?_, ?_⟩
  · intro hq
    rw [h.2.2, if_pos hq]
  · intro hq
    rw [h.2.2, hq]
    simp only [gt_iff_lt, lt_self_iff_false, if_false]
  · intro hf hp hr
    unfold closeEventQuantity effectiveQuantity
    simp only [hf, hp, hr, extractFill, lt_self_iff_false, if_false, and_false, false_and,
      gt_iff_lt, Bool.false_eq_true]

theorem btcOpenEvent_price : effectivePrice samplePersistEnv.parseFloat btcOpenEvent = 100 := by
  norm_num [effectivePrice, btcOpenEvent, btcDecision]

theorem btcCloseEvent_price (fillSize size : ℚ) :
    effectivePrice samplePersistEnv.parseFloat (btcCloseEvent 110 fillSize size) = 110 := by
  norm_num [effectivePrice, btcCloseEvent, btcDecision]

/-- Claim C15 on scenario 1: opened with `P = 200` at `E = 100`, closed at 110 by an
event without size fields, the trade row records `(110 − 100) × 2 = 20`. -/
theorem recordOpenThenClose_pnl_quantity_witness :
    (recordOpenThenClose samplePersistEnv emptyStore btcOpenEvent
      (btcCloseEvent 110 0 0)).2.trades.map (fun t => t.Detail.PnLNet) = [20] := by
  have h := recordOpenThenClose_pnl_quantity samplePersistEnv emptyStore btcOpenEvent
    (btcCloseEvent 110 0 0) "t1" "BTC" 200 100 110 rfl rfl rfl (by decide) (by decide)
    (by decide) (by decide) (by decide) (by decide) rfl rfl rfl rfl rfl rfl rfl (by decide)
    rfl rfl (by norm_num) btcOpenEvent_price (by norm_num) (btcCloseEvent_price 0 0)
    (by norm_num)
  have hq := h.2.2.2.2.2 rfl rfl rfl
  rw [h.2.2.2.2.1 hq]
  norm_num [emptyStore]

/-- The position of scenario 1 (`P = 200`, `E = 100`, recorded quantity 2) closed at
110 by an event whose fill size is 1: the trade row records `(110 − 100) × 1 = 10`,
not `(110 − 100) × 2`. -/
theorem recordOpenThenClose_pnl_counterexample :
    (recordOpenThenClose samplePersistEnv emptyStore btcOpenEvent
      (btcCloseEvent 110 1 0)).2.trades.map (fun t => t.Detail.PnLNet) = [10] ∧
    (recordOpenThenClose samplePersistEnv emptyStore btcOpenEvent
      (btcCloseEvent 110 1 0)).2.trades.map (fun t => t.Detail.PnLNet) ≠
      [1 * (110 - 100) * (200 / 100)] := by
  have h := recordOpenThenClose_long_pnl samplePersistEnv emptyStore btcOpenEvent
    (btcCloseEvent 110 1 0) "t1" "BTC" 200 100 110 rfl rfl rfl (by decide) (by decide)
    (by decide) (by decide) (by decide) (by decide) rfl rfl rfl rfl rfl rfl rfl (by decide)
    rfl rfl (by norm_num) btcOpenEvent_price (by norm_num) (btcCloseEvent_price 1 0)
    (by norm_num)
  have hq : closeEventQuantity samplePersistEnv (btcCloseEvent 110 1 0) 110 = 1 := by
    norm_num [closeEventQuantity, effectiveQuantity, btcCloseEvent]
  have hval : (recordOpenThenClose samplePersistEnv emptyStore btcOpenEvent
      (btcCloseEvent 110 1 0)).2.trades.map (fun t => t.Detail.PnLNet) = [10] := by
    rw [h.2.2, hq]
    norm_num [emptyStore]
  refine ⟨hval, ?_⟩
  rw [hval]
  norm_num

/-! ## Decision cycles -/

theorem ttlDuration_pos (value : Int) : ¬ ttlDuration value ≤ 0 := by
  unfold ttlDuration defaultCacheTTL
  split_ifs with h <;> omega

theorem cacheDecisionSummary_decisionCycles (env : PersistEnv) (st : PersistStore)
    (modelID : String) (record : DecisionCycleRecord) :
    (cacheDecisionSummary env st modelID record).decisionCycles = st.decisionCycles := by
  unfold cacheDecisionSummary
  cases record.Cycle with
  | none => rfl
  | some cycle =>
    simp only []
    split_ifs
    · rfl
    · rfl
    · cases env.fault (PersistOp.cacheSet (env.traderHashField modelID)) <;> rfl
    · rfl
    · cases env.fault (PersistOp.cacheSet (env.decisionLastKey modelID)) <;> rfl

theorem cacheDecisionSummary_stored (env : PersistEnv) (st : PersistStore)
    (modelID : String) (record : DecisionCycleRecord) (cycle : CycleRecord)
    (hcycle : record.Cycle = some cycle)
    (hbackend : env.redis = true ∨ env.cache = true)
    (hfield : env.redis = true → goTrimSpace (env.traderHashField modelID) ≠ "")
    (hset : env.fault (PersistOp.cacheSet (env.decisionSlot modelID)) = none) :
    (cacheDecisionSummary env st modelID record).decisionCache.lookup
      (env.decisionSlot modelID) = some (decisionSummaryEntry env modelID record cycle) := by
  unfold cacheDecisionSummary
  rw [hcycle]
  simp only [ttlDuration_pos, if_false]
  cases hredis : env.redis with
  | true =>
    have hslot : env.decisionSlot modelID = env.traderHashField modelID := by
      simp [PersistEnv.decisionSlot, hredis]
    rw [hslot] at hset ⊢
    simp only [if_true, hfield hredis, if_false, hset]
    exact lookup_mapInsert_self _ _ _
  | false =>
    have hcache : env.cache = true := by
      rcases hbackend with h | h
      · rw [hredis] at h
        exact absurd h (by decide)
      · exact h
    have hslot : env.decisionSlot modelID = env.decisionLastKey modelID := by
      simp [PersistEnv.decisionSlot, hredis]
    rw [hslot] at hset ⊢
    simp only [Bool.false_eq_true, if_false, hcache, Bool.not_true, hset]
    exact lookup_mapInsert_self _ _ _

theorem recordDecisionCycle_unfold (env : PersistEnv) (st : PersistStore)
    (record : DecisionCycleRecord) (cycle : CycleRecord)
    (hmodel : env.decisionModel = true) (hcycle : record.Cycle = some cycle)
    (hid : decisionModelID record cycle ≠ "") :
    RecordDecisionCycle env st record =
      match insertDecisionRow env st
          (decisionRow env (decisionModelID record cycle) record cycle) with
      | Except.error err =>
        if isUniqueViolation (some err) then (none, st) else (some err, st)
      | Except.ok st1 =>
        (none, cacheDecisionSummary env st1 (decisionModelID record cycle) record) := by
  unfold RecordDecisionCycle
  rw [hcycle]
  unfold decisionModelID at hid ⊢
  simp only [hmodel, Bool.not_true, Bool.false_eq_true, if_false, hid]

theorem recordDecisionCycle_no_error (env : PersistEnv) (st : PersistStore)
    (record : DecisionCycleRecord) (cycle : CycleRecord)
    (hmodel : env.decisionModel = true) (hcycle : record.Cycle = some cycle)
    (hid : decisionModelID record cycle ≠ "")
    (hfault : env.fault (PersistOp.insertDecision (decisionModelID record cycle)) = none ∨
      env.fault (PersistOp.insertDecision (decisionModelID record cycle)) =
        some (PersistError.pq "23505")) :
    (RecordDecisionCycle env st record).1 = none := by
  rw [recordDecisionCycle_unfold env st record cycle hmodel hcycle hid]
  unfold insertDecisionRow
  have hrow : (decisionRow env (decisionModelID record cycle) record cycle).ModelId =
      decisionModelID record cycle := rfl
  rw [hrow]
  rcases hfault with h | h
  · rw [h]
    simp only []
    split_ifs <;> rfl
  · rw [h]
    rfl

theorem recordDecisionCycle_conflict_after (env : PersistEnv) (st : PersistStore)
    (record : DecisionCycleRecord) (cycle : CycleRecord)
    (hmodel : env.decisionModel = true) (hcycle : record.Cycle = some cycle)
    (hid : decisionModelID record cycle ≠ "")
    (hfault : env.fault (PersistOp.insertDecision (decisionModelID record cycle)) = none)
    (hrefl : env.decisionConflict
      (decisionRow env (decisionModelID record cycle) record cycle)
      (decisionRow env (decisionModelID record cycle) record cycle) = true) :
    (RecordDecisionCycle env st record).2.decisionCycles.any (fun stored =>
      env.decisionConflict stored
        (decisionRow env (decisionModelID record cycle) record cycle)) = true := by
  rw [recordDecisionCycle_unfold env st record cycle hmodel hcycle hid]
  unfold insertDecisionRow
  have hrow : (decisionRow env (decisionModelID record cycle) record cycle).ModelId =
      decisionModelID record cycle := rfl
  rw [hrow, hfault]
  simp only []
  by_cases hany : st.decisionCycles.any (fun stored =>
      env.decisionConflict stored
        (decisionRow env (decisionModelID record cycle) record cycle)) = true
  · rw [if_pos hany]
    exact hany
  · rw [if_neg hany]
    simp only [cacheDecisionSummary_decisionCycles, List.any_append, List.any_cons, hrefl,
      List.any_nil, Bool.or_false, Bool.or_true]

/-- Claim C16: for a record with a non-nil cycle and a non-empty trader id,
`RecordDecisionCycle` returns nil and leaves the store, the last-decision cache
included, as it was when the insert fails with a unique violation (code 23505);
returns any other insert error unchanged; on a successful insert appends the row, runs
`cacheDecisionSummary` (which stores the trader's entry when a cache backend is
configured and its set succeeds) and returns nil. So when the insert can fail only by
unique violation, recording the same cycle twice returns nil both times, and when the
constraint refuses a row next to itself the second recording changes nothing. -/
theorem recordDecisionCycle_replay_safe (env : PersistEnv) (st : PersistStore)
    (record : DecisionCycleRecord) (cycle : CycleRecord)
    (hmodel : env.decisionModel = true) (hcycle : record.Cycle = some cycle)
    (hid : decisionModelID record cycle ≠ "") :
    (∀ err, insertDecisionRow env st
        (decisionRow env (decisionModelID record cycle) record cycle) = Except.error err →
      isUniqueViolation (some err) = true →
      RecordDecisionCycle env st record = (none, st)) ∧
    (∀ err, insertDecisionRow env st
        (decisionRow env (decisionModelID record cycle) record cycle) = Except.error err →
      isUniqueViolation (some err) = false →
      RecordDecisionCycle env st record = (some err, st)) ∧
    (∀ st1, insertDecisionRow env st
        (decisionRow env (decisionModelID record cycle) record cycle) = Except.ok st1 →
      RecordDecisionCycle env st record =
        (none, cacheDecisionSummary env st1 (decisionModelID record cycle) record) ∧
      (RecordDecisionCycle env st record).2.decisionCycles =
        st.decisionCycles ++ [decisionRow env (decisionModelID record cycle) record cycle] ∧
      ((env.redis = true ∨ env.cache = true) →
        (env.redis = true →
          goTrimSpace (env.traderHashField (decisionModelID record cycle)) ≠ "") →
        env.fault (PersistOp.cacheSet (env.decisionSlot (decisionModelID record cycle))) =
          none →
        (RecordDecisionCycle env st record).2.decisionCache.lookup
          (env.decisionSlot (decisionModelID record cycle)) =
          some (decisionSummaryEntry env (decisionModelID record cycle) record cycle))) ∧
    ((env.fault (PersistOp.insertDecision (decisionModelID record cycle)) = none ∨
        env.fault (PersistOp.insertDecision (decisionModelID record cycle)) =
          some (PersistError.pq "23505")) →
      (RecordDecisionCycle env st record).1 = none ∧
      (RecordDecisionCycle env (RecordDecisionCycle env st record).2 record).1 = none) ∧
    (env.fault (PersistOp.insertDecision (decisionModelID record cycle)) = none →
      env.decisionConflict (decisionRow env (decisionModelID record cycle) record cycle)
        (decisionRow env (decisionModelID record cycle) record cycle) = true →
      RecordDecisionCycle env (RecordDecisionCycle env st record).2 record =
        (none, (RecordDecisionCycle env st record).2)) := by
  have hrun := recordDecisionCycle_unfold env st record cycle hmodel hcycle hid
  refine ⟨?_, ?_, ?_, ?_, ?_⟩
  · intro err herr huniq
    rw [hrun, herr]
    simp only [huniq, if_true]
  · intro err herr huniq
    rw [hrun, herr]
    simp only [huniq, Bool.false_eq_true, if_false]
  · intro st1 hok
    have hres : RecordDecisionCycle env st record =
        (none, cacheDecisionSummary env st1 (decisionModelID record cycle) record) := by
      rw [hrun, hok]
    have hrows : st1.decisionCycles =
        st.decisionCycles ++ [decisionRow env (decisionModelID record cycle) record cycle] := by
      unfold insertDecisionRow at hok
      split at hok
      · exact absurd hok (by simp)
      · split_ifs at hok
        injection hok with hst
        rw [← hst]
    refine ⟨hres, ?_, ?_⟩
    · rw [hres]
      show (cacheDecisionSummary env st1 _ record).decisionCycles = _
      rw [cacheDecisionSummary_decisionCycles, hrows]
    · intro hbackend hfield hset
      rw [hres]
      exact cacheDecisionSummary_stored env st1 _ record cycle hcycle hbackend hfield hset
  · intro hfault
    exact ⟨recordDecisionCycle_no_error env st record cycle hmodel hcycle hid hfault,
      recordDecisionCycle_no_error env _ record cycle hmodel hcycle hid hfault⟩
  · intro hfault hrefl
    have hany := recordDecisionCycle_conflict_after env st record cycle hmodel hcycle hid
      hfault hrefl
    rw [recordDecisionCycle_unfold env (RecordDecisionCycle env st record).2 record cycle
      hmodel hcycle hid]
    unfold insertDecisionRow
    have hrow : (decisionRow env (decisionModelID record cycle) record cycle).ModelId =
        decisionModelID record cycle := rfl
    rw [hrow, hfault]
    simp only [hany, if_true]
    rfl

/-- Claim C16 on `sampleDecisionRecord` and the empty store: the first recording
inserts the row and caches the summary, the second hits the unique constraint, and
both return nil. -/
theorem recordDecisionCycle_replay_safe_witness :
    (RecordDecisionCycle samplePersistEnv emptyStore sampleDecisionRecord).1 = none ∧
    (RecordDecisionCycle samplePersistEnv
      (RecordDecisionCycle samplePersistEnv emptyStore sampleDecisionRecord).2
      sampleDecisionRecord) =
      (none, (RecordDecisionCycle samplePersistEnv emptyStore sampleDecisionRecord).2) ∧
    (RecordDecisionCycle samplePersistEnv emptyStore
      sampleDecisionRecord).2.decisionCache.lookup "decision:t1" =
      some (decisionSummaryEntry samplePersistEnv "t1" sampleDecisionRecord sampleCycle) := by
  have h := recordDecisionCycle_replay_safe samplePersistEnv emptyStore sampleDecisionRecord
    sampleCycle rfl rfl (by decide)
  refine ⟨(h.2.2.2.1 (Or.inl rfl)).1, h.2.2.2.2 rfl (by decide), ?_⟩
  exact (h.2.2.1 _ rfl).2.2 (Or.inr rfl) (fun hr => absurd hr (by decide)) rfl

/-! ## Account snapshots -/

theorem foldr_max_ge (ids : List Int) : ∀ id ∈ ids, id ≤ ids.foldr max 0 := by
  induction ids with
  | nil => intro id hid; cases hid
  | cons a rest ih =>
    intro id hid
    rcases List.mem_cons.mp hid with h | h
    · rw [h]
      exact le_max_left _ _
    · exact le_trans (ih id h) (le_max_right _ _)

theorem nextSnapshotId_gt (rows : List AccountEquitySnapshots) :
    ∀ r ∈ rows, r.Id < nextSnapshotId rows := by
  intro r hr
  have h := foldr_max_ge (rows.map (fun row => row.Id)) r.Id (List.mem_map_of_mem _ hr)
  unfold nextSnapshotId
  omega

theorem filter_key_singleton (rows : List AccountEquitySnapshots)
    (hkeys : (rows.map snapshotKey).Nodup) (x : AccountEquitySnapshots) (hx : x ∈ rows) :
    snapshotsWithKey rows (snapshotKey x) = [x] := by
  unfold snapshotsWithKey
  induction rows with
  | nil => cases hx
  | cons a rest ih =>
    rw [List.map_cons, List.nodup_cons] at hkeys
    rcases List.mem_cons.mp hx with h | h
    · subst h
      have hrest : rest.filter (fun stored => decide (snapshotKey stored = snapshotKey x)) =
          [] := by
        rw [List.filter_eq_nil_iff]
        intro r hr hk
        have hk1 : snapshotKey r = snapshotKey x := by simpa using hk
        exact hkeys.1 (hk1 ▸ List.mem_map_of_mem _ hr)
      rw [List.filter_cons]
      simp only [decide_True, if_true, hrest]
    · have hne : snapshotKey a ≠ snapshotKey x := by
        intro hk
        exact hkeys.1 (hk ▸ List.mem_map_of_mem _ h)
      rw [List.filter_cons]
      simp only [hne, decide_False, Bool.false_eq_true, if_false]
      exact ih hkeys.2 h

theorem filter_map_unchanged (rows : List AccountEquitySnapshots)
    (p : AccountEquitySnapshots → Bool) (f : AccountEquitySnapshots → AccountEquitySnapshots)
    (hp : ∀ r ∈ rows, p (f r) = p r) (hf : ∀ r ∈ rows, p r = true → f r = r) :
    (rows.map f).filter p = rows.filter p := by
  induction rows with
  | nil => rfl
  | cons a rest ih =>
    have ha := hp a (List.mem_cons_self _ _)
    have hrest := ih (fun r hr => hp r (List.mem_cons_of_mem _ hr))
      (fun r hr => hf r (List.mem_cons_of_mem _ hr))
    rw [List.map_cons, List.filter_cons, List.filter_cons, ha, hrest]
    cases hpa : p a with
    | true =>
      simp only [if_true]
      rw [hf a (List.mem_cons_self _ _) hpa]
    | false => simp only [Bool.false_eq_true, if_false]

theorem snapshots_append_fresh (rows : List AccountEquitySnapshots)
    (row : AccountEquitySnapshots) (hwf : snapshotsWellKeyed rows)
    (hnone : rows.any (fun stored => decide (snapshotKey stored = snapshotKey row)) = false) :
    snapshotsWellKeyed (rows ++ [{ row with Id := nextSnapshotId rows }]) ∧
    snapshotsWithKey (rows ++ [{ row with Id := nextSnapshotId rows }]) (snapshotKey row) =
      [{ row with Id := nextSnapshotId rows }] ∧
    snapshotsOffKey (rows ++ [{ row with Id := nextSnapshotId rows }]) (snapshotKey row) =
      snapshotsOffKey rows (snapshotKey row) := by
  have hkeyNew : snapshotKey { row with Id := nextSnapshotId rows } = snapshotKey row := rfl
  have hnone1 : ∀ r ∈ rows, snapshotKey r ≠ snapshotKey row := by
    intro r hr hk
    rw [List.any_eq_false] at hnone
    exact hnone r hr (by simpa using hk)
  refine ⟨⟨?_, ?_⟩, ?_, ?_⟩
  · rw [List.map_append, List.nodup_append]
    refine ⟨hwf.1, List.nodup_singleton _, ?_⟩
    intro a ha hb
    rw [List.map_cons, List.map_nil, List.mem_singleton] at hb
    obtain ⟨r, hr, hra⟩ := List.mem_map.mp ha
    have hlt := nextSnapshotId_gt rows r hr
    simp only at hb
    omega
  · rw [List.map_append, List.nodup_append]
    refine ⟨hwf.2, List.nodup_singleton _, ?_⟩
    intro a ha hb
    rw [List.map_cons, List.map_nil, List.mem_singleton] at hb
    obtain ⟨r, hr, hra⟩ := List.mem_map.mp ha
    exact hnone1 r hr (by rw [hra, hb]; rfl)
  · unfold snapshotsWithKey
    rw [List.filter_append]
    have hrest : rows.filter (fun stored => decide (snapshotKey stored = snapshotKey row)) =
        [] := by
      rw [List.filter_eq_nil_iff]
      intro r hr hk
      exact hnone1 r hr (by simpa using hk)
    rw [hrest, List.filter_cons]
    simp only [hkeyNew, decide_True, if_true, List.filter_nil, List.nil_append]
  · unfold snapshotsOffKey
    rw [List.filter_append, List.filter_cons]
    simp only [hkeyNew, ne_eq, not_true_eq_false, decide_False, Bool.false_eq_true, if_false,
      List.filter_nil, List.append_nil]

theorem snapshots_replace_existing (rows : List AccountEquitySnapshots)
    (row existing : AccountEquitySnapshots) (hwf : snapshotsWellKeyed rows)
    (hmem : existing ∈ rows) (hkey : snapshotKey existing = snapshotKey row) :
    snapshotsWellKeyed (rows.map (fun stored =>
      if stored.Id = existing.Id then { row with Id := existing.Id } else stored)) ∧
    snapshotsWithKey (rows.map (fun stored =>
      if stored.Id = existing.Id then { row with Id := existing.Id } else stored))
      (snapshotKey row) = [{ row with Id := existing.Id }] ∧
    snapshotsOffKey (rows.map (fun stored =>
      if stored.Id = existing.Id then { row with Id := existing.Id } else stored))
      (snapshotKey row) = snapshotsOffKey rows (snapshotKey row) ∧
    (rows.map (fun stored =>
      if stored.Id = existing.Id then { row with Id := existing.Id } else stored)).length =
      rows.length := by
  have hkeyNew : snapshotKey { row with Id := existing.Id } = snapshotKey row := rfl
  have hsame : ∀ r ∈ rows, r.Id = existing.Id → r = existing := by
    intro r hr hid
    exact List.inj_on_of_nodup_map hwf.1 hr hmem hid
  have hids : (rows.map (fun stored =>
      if stored.Id = existing.Id then { row with Id := existing.Id } else stored)).map
      (fun r => r.Id) = rows.map (fun r => r.Id) := by
    rw [List.map_map]
    apply List.map_congr_left
    intro r _
    simp only [Function.comp]
    split_ifs with h
    · exact h.symm
    · rfl
  have hkeys : (rows.map (fun stored =>
      if stored.Id = existing.Id then { row with Id := existing.Id } else stored)).map
      snapshotKey = rows.map snapshotKey := by
    rw [List.map_map]
    apply List.map_congr_left
    intro r hr
    simp only [Function.comp]
    split_ifs with h
    · rw [hsame r hr h, hkeyNew, hkey]
    · rfl
  have hwf1 : snapshotsWellKeyed (rows.map (fun stored =>
      if stored.Id = existing.Id then { row with Id := existing.Id } else stored)) := by
    unfold snapshotsWellKeyed
    rw [hids, hkeys]
    exact hwf
  have hin : ({ row with Id := existing.Id } : AccountEquitySnapshots) ∈ rows.map (fun stored =>
      if stored.Id = existing.Id then { row with Id := existing.Id } else stored) := by
    refine List.mem_map.mpr ⟨existing, hmem, ?_⟩
    simp only [if_true]
  refine ⟨hwf1, ?_, ?_, List.length_map _ _⟩
  · have h := filter_key_singleton _ hwf1.2 _ hin
    rw [hkeyNew] at h
    exact h
  · unfold snapshotsOffKey
    apply filter_map_unchanged
    · intro r hr
      split_ifs with h
      · rw [hsame r hr h, hkeyNew, hkey]
      · rfl
    · intro r hr hp
      have hne : snapshotKey r ≠ snapshotKey row := by simpa using hp
      split_ifs with h
      · rw [hsame r hr h] at hne
        exact absurd hkey hne
      · rfl

theorem recordAccountSnapshot_insert (env : PersistEnv) (st : PersistStore)
    (snapshot : AccountSyncSnapshot)
    (hmodel : env.snapshotsModel = true) (hid : snapshot.TraderID ≠ "")
    (hins : env.fault (PersistOp.insertSnapshot snapshot.TraderID
      (snapshotRow env snapshot).TsMs) = none)
    (hnone : st.snapshots.any (fun stored =>
      decide (snapshotKey stored = snapshotKey (snapshotRow env snapshot))) = false) :
    RecordAccountSnapshot env st snapshot =
      (none, { st with
        snapshots := st.snapshots ++
          [{ snapshotRow env snapshot with Id := nextSnapshotId st.snapshots }] }) := by
  have hm : (snapshotRow env snapshot).ModelId = snapshot.TraderID := rfl
  unfold RecordAccountSnapshot insertSnapshotRow
  simp only [hmodel, Bool.not_true, Bool.false_eq_true, hid, or_self, if_false, hm, hins, hnone]

theorem recordAccountSnapshot_update (env : PersistEnv) (st : PersistStore)
    (snapshot : AccountSyncSnapshot) (existing : AccountEquitySnapshots)
    (hmodel : env.snapshotsModel = true) (hid : snapshot.TraderID ≠ "")
    (hins : env.fault (PersistOp.insertSnapshot snapshot.TraderID
      (snapshotRow env snapshot).TsMs) = none)
    (hfind : env.fault (PersistOp.findSnapshot snapshot.TraderID
      (snapshotRow env snapshot).TsMs) = none)
    (hupd : env.fault (PersistOp.updateSnapshot existing.Id) = none)
    (hsome : st.snapshots.find? (fun stored =>
      decide (snapshotKey stored = snapshotKey (snapshotRow env snapshot))) = some existing) :
    RecordAccountSnapshot env st snapshot =
      (none, { st with
        snapshots := st.snapshots.map (fun stored =>
          if stored.Id = existing.Id then { snapshotRow env snapshot with Id := existing.Id }
          else stored) }) := by
  have hm : (snapshotRow env snapshot).ModelId = snapshot.TraderID := rfl
  have hany : st.snapshots.any (fun stored =>
      decide (snapshotKey stored = snapshotKey (snapshotRow env snapshot))) = true := by
    rw [List.any_eq_true]
    have hp := List.find?_some hsome
    exact ⟨existing, List.mem_of_find?_eq_some hsome, hp⟩
  have hsome1 : st.snapshots.find? (fun stored =>
      decide (snapshotKey stored = (snapshot.TraderID, (snapshotRow env snapshot).TsMs))) =
      some existing := hsome
  have huniq : isUniqueViolation (some (PersistError.pq "23505")) = true := by decide
  unfold RecordAccountSnapshot insertSnapshotRow
  simp only [hmodel, Bool.not_true, Bool.false_eq_true, hid, or_self, if_false, hm, hins, hany,
    if_true, huniq, findSnapshotByModelIdTsMs, hfind, hsome1, updateSnapshotRow, hupd]

theorem recordAccountSnapshot_upsert (env : PersistEnv) (st : PersistStore)
    (snapshot : AccountSyncSnapshot)
    (hmodel : env.snapshotsModel = true) (hid : snapshot.TraderID ≠ "")
    (hwf : snapshotsWellKeyed st.snapshots)
    (hins : env.fault (PersistOp.insertSnapshot snapshot.TraderID
      (snapshotRow env snapshot).TsMs) = none)
    (hfind : env.fault (PersistOp.findSnapshot snapshot.TraderID
      (snapshotRow env snapshot).TsMs) = none)
    (hupd : ∀ id, env.fault (PersistOp.updateSnapshot id) = none) :
    (RecordAccountSnapshot env st snapshot).1 = none ∧
    snapshotsWellKeyed (RecordAccountSnapshot env st snapshot).2.snapshots ∧
    (∃ id, snapshotsWithKey (RecordAccountSnapshot env st snapshot).2.snapshots
      (snapshotKey (snapshotRow env snapshot)) = [{ snapshotRow env snapshot with Id := id }]) ∧
    snapshotsOffKey (RecordAccountSnapshot env st snapshot).2.snapshots
      (snapshotKey (snapshotRow env snapshot)) =
      snapshotsOffKey st.snapshots (snapshotKey (snapshotRow env snapshot)) ∧
    (snapshotsWithKey st.snapshots (snapshotKey (snapshotRow env snapshot)) ≠ [] →
      (RecordAccountSnapshot env st snapshot).2.snapshots.length = st.snapshots.length) := by
  cases hsome : st.snapshots.find? (fun stored =>
      decide (snapshotKey stored = snapshotKey (snapshotRow env snapshot))) with
  | none =>
    have hnone : st.snapshots.any (fun stored =>
        decide (snapshotKey stored = snapshotKey (snapshotRow env snapshot))) = false := by
      rw [List.any_eq_false]
      rw [List.find?_eq_none] at hsome
      exact hsome
    rw [recordAccountSnapshot_insert env st snapshot hmodel hid hins hnone]
    have h := snapshots_append_fresh st.snapshots (snapshotRow env snapshot) hwf hnone
    refine ⟨rfl, h.1, ⟨_, h.2.1⟩, h.2.2, ?_⟩
    intro hne
    exfalso
    apply hne
    unfold snapshotsWithKey
    rw [List.filter_eq_nil_iff]
    rw [List.any_eq_false] at hnone
    exact hnone
  | some existing =>
    rw [recordAccountSnapshot_update env st snapshot existing hmodel hid hins hfind
      (hupd existing.Id) hsome]
    have hkey : snapshotKey existing = snapshotKey (snapshotRow env snapshot) := by
      simpa using List.find?_some hsome
    have h := snapshots_replace_existing st.snapshots (snapshotRow env snapshot) existing hwf
      (List.mem_of_find?_eq_some hsome) hkey
    exact ⟨rfl, h.1, ⟨_, h.2.1⟩, h.2.2.1, fun _ => h.2.2.2⟩

/-- Claim C17: for a snapshot with a non-empty trader id, on a table whose ids and
`(model_id, ts_ms)` keys are unique and with no failing database call,
`RecordAccountSnapshot` returns nil and leaves exactly one row with the key
`(trader_id, ts_ms)`, `ts_ms` being `SyncedAt` in Unix milliseconds, holding the new
values, every row of another key untouched: it appends the row when the key is new, and
when the insert hits the unique index it gives the new values to the existing row under
the existing id. So recording a second snapshot of the same key succeeds, adds no row
and leaves the one row with the latest values. A snapshot with an empty trader id
writes nothing and returns nil. -/
theorem recordAccountSnapshot_upsert_by_key (env : PersistEnv) (st : PersistStore)
    (first second : AccountSyncSnapshot)
    (hmodel : env.snapshotsModel = true) (hid : first.TraderID ≠ "")
    (htrader : second.TraderID = first.TraderID)
    (hts : (snapshotRow env second).TsMs = (snapshotRow env first).TsMs)
    (hwf : snapshotsWellKeyed st.snapshots)
    (hins : env.fault (PersistOp.insertSnapshot first.TraderID
      (snapshotRow env first).TsMs) = none)
    (hfind : env.fault (PersistOp.findSnapshot first.TraderID
      (snapshotRow env first).TsMs) = none)
    (hupd : ∀ id, env.fault (PersistOp.updateSnapshot id) = none) :
    snapshotKey (snapshotRow env first) =
      (first.TraderID,
        unixMilli (if first.SyncedAt = 0 then env.now else first.SyncedAt)) ∧
    (RecordAccountSnapshot env st first).1 = none ∧
    (∃ id, snapshotsWithKey (RecordAccountSnapshot env st first).2.snapshots
      (snapshotKey (snapshotRow env first)) = [{ snapshotRow env first with Id := id }]) ∧
    snapshotsOffKey (RecordAccountSnapshot env st first).2.snapshots
      (snapshotKey (snapshotRow env first)) =
      snapshotsOffKey st.snapshots (snapshotKey (snapshotRow env first)) ∧
    (st.snapshots.any (fun stored =>
        decide (snapshotKey stored = snapshotKey (snapshotRow env first))) = false →
      (RecordAccountSnapshot env st first).2.snapshots =
        st.snapshots ++ [{ snapshotRow env first with Id := nextSnapshotId st.snapshots }]) ∧
    (∀ existing, st.snapshots.find? (fun stored =>
        decide (snapshotKey stored = snapshotKey (snapshotRow env first))) = some existing →
      (RecordAccountSnapshot env st first).2.snapshots =
        st.snapshots.map (fun stored =>
          if stored.Id = existing.Id then { snapshotRow env first with Id := existing.Id }
          else stored)) ∧
    (RecordAccountSnapshot env (RecordAccountSnapshot env st first).2 second).1 = none ∧
    (∃ id, snapshotsWithKey
      (RecordAccountSnapshot env (RecordAccountSnapshot env st first).2 second).2.snapshots
      (snapshotKey (snapshotRow env first)) = [{ snapshotRow env second with Id := id }]) ∧
    (RecordAccountSnapshot env
      (RecordAccountSnapshot env st first).2 second).2.snapshots.length =
      (RecordAccountSnapshot env st first).2.snapshots.length ∧
    snapshotsOffKey
      (RecordAccountSnapshot env (RecordAccountSnapshot env st first).2 second).2.snapshots
      (snapshotKey (snapshotRow env first)) =
      snapshotsOffKey st.snapshots (snapshotKey (snapshotRow env first)) ∧
    (∀ blank : AccountSyncSnapshot, blank.TraderID = "" →
      RecordAccountSnapshot env st blank = (none, st)) := by
  have h1 := recordAccountSnapshot_upsert env st first hmodel hid hwf hins hfind hupd
  have hkey2 : snapshotKey (snapshotRow env second) = snapshotKey (snapshotRow env first) := by
    show ((snapshotRow env second).ModelId, (snapshotRow env second).TsMs) =
      ((snapshotRow env first).ModelId, (snapshotRow env first).TsMs)
    rw [hts]
    show (second.TraderID, _) = (first.TraderID, _)
    rw [htrader]
  have h2 := recordAccountSnapshot_upsert env (RecordAccountSnapshot env st first).2 second
    hmodel (by rw [htrader]; exact hid) h1.2.1 (by rw [htrader, hts]; exact hins)
    (by rw [htrader, hts]; exact hfind) hupd
  rw [hkey2] at h2
  refine ⟨rfl, h1.1, h1.2.2.1, h1.2.2.2.1, ?_, ?_, h2.1, h2.2.2.1, ?_, ?_, ?_⟩
  · intro hnone
    rw [recordAccountSnapshot_insert env st first hmodel hid hins hnone]
  · intro existing hsome
    rw [recordAccountSnapshot_update env st first existing hmodel hid hins hfind
      (hupd existing.Id) hsome]
  · apply h2.2.2.2.2
    obtain ⟨id, hid1⟩ := h1.2.2.1
    rw [hid1]
    exact List.cons_ne_nil _ _
  · rw [h2.2.2.2.1, h1.2.2.2.1]
  · intro blank hblank
    unfold RecordAccountSnapshot
    simp only [hblank, or_true, if_true]

/-- Claim C17 on the empty table: two snapshots of trader `t1` at the same instant,
the second with new values, both succeed and leave one row, which holds the values of
the second. -/
theorem recordAccountSnapshot_upsert_by_key_witness :
    (RecordAccountSnapshot samplePersistEnv emptyStore (sampleSnapshot 1000 10)).1 = none ∧
    (RecordAccountSnapshot samplePersistEnv
      (RecordAccountSnapshot samplePersistEnv emptyStore (sampleSnapshot 1000 10)).2
      (sampleSnapshot 1200 30)).1 = none ∧
    (RecordAccountSnapshot samplePersistEnv
      (RecordAccountSnapshot samplePersistEnv emptyStore (sampleSnapshot 1000 10)).2
      (sampleSnapshot 1200 30)).2.snapshots.length = 1 ∧
    (∃ id, snapshotsWithKey
      (RecordAccountSnapshot samplePersistEnv
        (RecordAccountSnapshot samplePersistEnv emptyStore (sampleSnapshot 1000 10)).2
        (sampleSnapshot 1200 30)).2.snapshots
      (snapshotKey (snapshotRow samplePersistEnv (sampleSnapshot 1000 10))) =
      [{ snapshotRow samplePersistEnv (sampleSnapshot 1200 30) with Id := id }]) := by
  have h := recordAccountSnapshot_upsert_by_key samplePersistEnv emptyStore
    (sampleSnapshot 1000 10) (sampleSnapshot 1200 30) rfl (by decide) rfl rfl
    ⟨List.nodup_nil, List.nodup_nil⟩ rfl rfl (fun _ => rfl)
  refine ⟨h.2.1, h.2.2.2.2.2.2.1, ?_, h.2.2.2.2.2.2.2.1⟩
  rw [h.2.2.2.2.2.2.2.2.1, h.2.2.2.2.1 rfl]
  rfl

/-! ## Recent trades cache -/

theorem capped_eq_take (entries : List tradeCacheEntry) :
    (if entries.length > recentTradesLimit then entries.take recentTradesLimit else entries) =
      entries.take recentTradesLimit := by
  split_ifs with h
  · rfl
  · exact (List.take_of_length_le (not_lt.mp h)).symm

theorem appendRecentTrade_eq_write (env : PersistEnv) (st : PersistStore) (modelID : String)
    (entry : tradeCacheEntry) (cached : List tradeCacheEntry)
    (hload : loadTradesCache env st modelID = Except.ok cached) :
    appendRecentTrade env st modelID entry =
      writeTradesCache env st modelID ((entry :: cached).take recentTradesLimit) := by
  unfold appendRecentTrade
  rw [hload]
  simp only [capped_eq_take]
  split_ifs with h
  · unfold writeTradesCache
    simp only [Bool.and_eq_true, Bool.not_eq_true'] at h
    simp only [h.1, h.2, Bool.false_eq_true, if_false, Bool.not_false, if_true]
  · rfl

theorem writeTradesCache_nonempty (env : PersistEnv) (st : PersistStore) (modelID : String)
    (payload : List tradeCacheEntry) (hne : payload.length ≠ 0) :
    ((env.redis = true ∨ env.cache = true) →
      (env.redis = true → goTrimSpace (env.traderHashField modelID) ≠ "") →
      env.fault (PersistOp.cacheSet (env.tradesSlot modelID)) = none →
      (writeTradesCache env st modelID payload).tradesCache.lookup (env.tradesSlot modelID) =
        some payload) ∧
    (∀ l, (writeTradesCache env st modelID payload).tradesCache.lookup
        (env.tradesSlot modelID) = some l →
      l = payload ∨ st.tradesCache.lookup (env.tradesSlot modelID) = some l) := by
  unfold writeTradesCache
  simp only [ttlDuration_pos, hne, if_false]
  cases hredis : env.redis with
  | true =>
    have hslot : env.tradesSlot modelID = env.traderHashField modelID := by
      simp [PersistEnv.tradesSlot, hredis]
    rw [hslot]
    simp only [if_true]
    constructor
    · intro _ hfield hset
      simp only [hfield trivial, if_false, hset]
      exact lookup_mapInsert_self _ _ _
    · intro l hl
      split_ifs at hl with hblank
      · exact Or.inr hl
      · cases hset : env.fault (PersistOp.cacheSet (env.traderHashField modelID)) with
        | some err =>
          rw [hset] at hl
          exact Or.inr hl
        | none =>
          rw [hset] at hl
          simp only [lookup_mapInsert_self, Option.some.injEq] at hl
          exact Or.inl hl.symm
  | false =>
    have hslot : env.tradesSlot modelID = env.tradesRecentKey modelID := by
      simp [PersistEnv.tradesSlot, hredis]
    rw [hslot]
    simp only [Bool.false_eq_true, if_false]
    constructor
    · intro hbackend _ hset
      have hcache : env.cache = true := by
        rcases hbackend with h | h
        · exact absurd h (by decide)
        · exact h
      simp only [hcache, Bool.not_true, Bool.false_eq_true, if_false, hset]
      exact lookup_mapInsert_self _ _ _
    · intro l hl
      split_ifs at hl with hcache
      · exact Or.inr hl
      · cases hset : env.fault (PersistOp.cacheSet (env.tradesRecentKey modelID)) with
        | some err =>
          rw [hset] at hl
          exact Or.inr hl
        | none =>
          rw [hset] at hl
          simp only [lookup_mapInsert_self, Option.some.injEq] at hl
          exact Or.inl hl.symm

/-- Claim C18: when `appendRecentTrade` reads the cached list `cached` of a trader, it
writes back `entry` followed by `cached`, cut to its first `recentTradesLimit = 100`
entries: at most 100 trades, `entry` first, then the first 99 of `cached` in their
order. The list is stored when a cache backend is configured and its set succeeds, and
in every case the slot afterwards holds either that list or what it held before. -/
theorem appendRecentTrade_prepends_capped (env : PersistEnv) (st : PersistStore)
    (modelID : String) (entry : tradeCacheEntry) (cached : List tradeCacheEntry)
    (hload : loadTradesCache env st modelID = Except.ok cached) :
    appendRecentTrade env st modelID entry =
      writeTradesCache env st modelID ((entry :: cached).take recentTradesLimit) ∧
    recentTradesLimit = 100 ∧
    ((entry :: cached).take recentTradesLimit).length ≤ 100 ∧
    (entry :: cached).take recentTradesLimit = entry :: cached.take 99 ∧
    cached.take 99 <+: cached ∧
    ((env.redis = true ∨ env.cache = true) →
      (env.redis = true → goTrimSpace (env.traderHashField modelID) ≠ "") →
      env.fault (PersistOp.cacheSet (env.tradesSlot modelID)) = none →
      (appendRecentTrade env st modelID entry).tradesCache.lookup (env.tradesSlot modelID) =
        some ((entry :: cached).take recentTradesLimit)) ∧
    (∀ l, (appendRecentTrade env st modelID entry).tradesCache.lookup
        (env.tradesSlot modelID) = some l →
      l = (entry :: cached).take recentTradesLimit ∨
      st.tradesCache.lookup (env.tradesSlot modelID) = some l) := by
  have heq := appendRecentTrade_eq_write env st modelID entry cached hload
  have hne : ((entry :: cached).take recentTradesLimit).length ≠ 0 := by
    simp [recentTradesLimit]
  have hw := writeTradesCache_nonempty env st modelID
    ((entry :: cached).take recentTradesLimit) hne
  refine ⟨heq, rfl, ?_, rfl, List.take_prefix _ _, ?_, ?_⟩
  · rw [List.length_take]
    exact min_le_left _ _
  · rw [heq]
    exact hw.1
  · rw [heq]
    exact hw.2

/-- Claim C18 on a full cache: appending a trade closed at millisecond 101 to the
hundred trades closed at 100, ..., 1 stores a hundred trades, the new one first and
the oldest dropped. -/
theorem appendRecentTrade_prepends_capped_witness :
    (appendRecentTrade samplePersistEnv fullTradesStore "t1"
      (sampleTradeEntry 101)).tradesCache.lookup "trades:t1" =
      some (sampleTradeEntry 101 ::
        (List.range 99).map (fun i => sampleTradeEntry (100 - (i : Int)))) := by
  have h := appendRecentTrade_prepends_capped samplePersistEnv fullTradesStore "t1"
    (sampleTradeEntry 101)
    ((List.range 100).map (fun i => sampleTradeEntry (100 - (i : Int)))) rfl
  have hstored := h.2.2.2.2.2.1 (Or.inr rfl) (fun hr => absurd hr (by decide)) rfl
  have hslot : samplePersistEnv.tradesSlot "t1" = "trades:t1" := by decide
  rw [hslot, h.2.2.2.1] at hstored
  rw [hstored]
  rfl

/-! ## Row ids -/

/-- Claim C19: `buildTradeID` is `positionID` followed by "|" and the close time in
Unix nanoseconds when it is given the trimmed trader id, and "btc " and "BTC" give the
same key; but it keeps the trader id as passed while `positionID` trims it, and
`normalizedModelID` passes an event's trader id untrimmed: for the trader id " t1 " the
position id is "t1|BTC" and the trade id is " t1 |BTC|5". -/
theorem buildTradeID_keeps_untrimmed_trader :
    (∀ (m s : String) (t : Int),
      buildTradeID (goTrimSpace m) s t = positionID m s ++ "|" ++ toString (unixNano t)) ∧
    positionID "t1" "btc " = positionID "t1" "BTC" ∧
    buildTradeID "t1" "btc " (unixEpochNanos + 5) =
      buildTradeID "t1" "BTC" (unixEpochNanos + 5) ∧
    normalizedModelID { btcOpenEvent with TraderID := " t1 " } = " t1 " ∧
    positionID " t1 " "btc " = "t1|BTC" ∧
    buildTradeID " t1 " "btc " (unixEpochNanos + 5) = " t1 |BTC|5" ∧
    buildTradeID " t1 " "btc " (unixEpochNanos + 5) ≠
      positionID " t1 " "btc " ++ "|" ++ toString (unixNano (unixEpochNanos + 5)) := by
  refine ⟨?_, by decide, by decide, by decide, by decide, by decide, by decide⟩
  intro m s t
  rfl

/-! ## Cache hydration -/

/-- Claim C20: `HydrateCaches` does issue a cache delete. Trader `T1` has one open
row, whose symbol is blank, and a cached BTC position; the query returns the row,
`hydratePositions` skips it and hands `writePositionsCache` the empty map, which deletes
the trader's cached positions. `hydrateTrades`, in contrast, skips a trader without
trades. -/
theorem hydrateCaches_deletes_positions :
    normalizeIDs ["T1"] = ["T1"] ∧
    (staleCacheStore.positionsCache.lookup "positions:T1").isSome = true ∧
    (HydrateCaches samplePersistEnv staleCacheStore ["T1"]).1 = [] ∧
    ((HydrateCaches samplePersistEnv staleCacheStore ["T1"]).2.positionsCache.lookup
      "positions:T1").isSome = false ∧
    (hydrateTrades samplePersistEnv staleCacheStore ["T1"]).2.tradesCache =
      staleCacheStore.tradesCache := by
  refine ⟨by decide, by decide, ?_, ?_, ?_⟩
  · rfl
  · rfl
  · rfl

/-! ## Prompt template version guard -/

theorem enforce_of_version (g : TemplateVersionGuard)
    (readFile : String → Except String String) (templatePath version : String)
    (hpath : goTrimSpace templatePath ≠ "")
    (hextract : ExtractTemplateVersion readFile (goTrimSpace templatePath) g.scanLimit =
      Except.ok version) :
    g.Enforce readFile templatePath =
      if goTrimSpace g.ExpectedVersion ≠ "" ∧ version ≠ goTrimSpace g.ExpectedVersion then
        if g.StrictMode then
          (("", some (TemplateError.mismatch
            (mismatchMessage g (goTrimSpace templatePath) version
              (goTrimSpace g.ExpectedVersion)))), [])
        else
          ((version, none),
           [TemplateLog.message (mismatchMessage g (goTrimSpace templatePath) version
              (goTrimSpace g.ExpectedVersion))])
      else ((version, none), []) := by
  unfold TemplateVersionGuard.Enforce
  rw [if_neg hpath, hextract]

theorem mismatchMessage_names_version (g : TemplateVersionGuard)
    (templatePath version expected : String) :
    version.data <:+: (mismatchMessage g templatePath version expected).data := by
  refine ⟨(g.componentName ++ " template " ++ templatePath ++ " declared version ").data,
    (" but expected " ++ expected).data, ?_⟩
  unfold mismatchMessage
  simp only [String.data_append, List.append_assoc]

/-- Claim C21 (amended): for a template whose header declares version `v` and a guard
whose expected version, trimmed of surrounding whitespace, is a non-empty `e` different
from `v`, `Enforce` returns the mismatch error, whose message names `v`, when
`StrictMode` is true and returns `(v, nil)` when it is false; when the trimmed expected
version is empty or equals `v` it returns `(v, nil)` in either mode. -/
theorem enforce_version_mismatch (g : TemplateVersionGuard)
    (readFile : String → Except String String) (templatePath version : String)
    (hpath : goTrimSpace templatePath ≠ "")
    (hextract : ExtractTemplateVersion readFile (goTrimSpace templatePath) g.scanLimit =
      Except.ok version) :
    (goTrimSpace g.ExpectedVersion ≠ "" → version ≠ goTrimSpace g.ExpectedVersion →
      g.StrictMode = true →
      (g.Enforce readFile templatePath).1 =
        ("", some (TemplateError.mismatch
          (mismatchMessage g (goTrimSpace templatePath) version
            (goTrimSpace g.ExpectedVersion)))) ∧
      version.data <:+:
        (mismatchMessage g (goTrimSpace templatePath) version
          (goTrimSpace g.ExpectedVersion)).data) ∧
    (goTrimSpace g.ExpectedVersion ≠ "" → version ≠ goTrimSpace g.ExpectedVersion →
      g.StrictMode = false →
      (g.Enforce readFile templatePath).1 = (version, none)) ∧
    (goTrimSpace g.ExpectedVersion = "" ∨ version = goTrimSpace g.ExpectedVersion →
      (g.Enforce readFile templatePath).1 = (version, none)) := by
  have hrun := enforce_of_version g readFile templatePath version hpath hextract
  refine ⟨?_, ?_, ?_⟩
  · intro he hne hstrict
    rw [hrun, if_pos ⟨he, hne⟩, hstrict]
    exact ⟨rfl, mismatchMessage_names_version g _ version _⟩
  · intro he hne hstrict
    rw [hrun, if_pos ⟨he, hne⟩, hstrict]
    rfl
  · intro h
    have hnot : ¬ (goTrimSpace g.ExpectedVersion ≠ "" ∧
        version ≠ goTrimSpace g.ExpectedVersion) := by
      rintro ⟨h1, h2⟩
      rcases h with h | h
      · exact h1 h
      · exact h2 h
    rw [hrun, if_neg hnot]

/-- Claim C21 on the template of the prompt tests, which declares `v0.9.0`, against
the expected version `v1.0.0`: the strict guard returns the mismatch error, the
non-strict guard returns `v0.9.0`. -/
theorem enforce_version_mismatch_witness :
    ((versionGuard true true).Enforce (oneTemplate "/* Version: v0.9.0 */\nbody")
      "prompt.tmpl").1 =
      ("", some (TemplateError.mismatch
        "executor template prompt.tmpl declared version v0.9.0 but expected v1.0.0")) ∧
    ((versionGuard false true).Enforce (oneTemplate "/* Version: v0.9.0 */\nbody")
      "prompt.tmpl").1 = ("v0.9.0", none) := by
  have hs := enforce_version_mismatch (versionGuard true true)
    (oneTemplate "/* Version: v0.9.0 */\nbody") "prompt.tmpl" "v0.9.0" (by decide) rfl
  have hn := enforce_version_mismatch (versionGuard false true)
    (oneTemplate "/* Version: v0.9.0 */\nbody") "prompt.tmpl" "v0.9.0" (by decide) rfl
  refine ⟨?_, hn.2.1 (by decide) (by decide) rfl⟩
  rw [(hs.1 (by decide) (by decide) rfl).1]
  decide

/-- A strict guard whose expected version is " v1.0.0 ", non-blank and different from
the declared `v1.0.0`, returns `(v1.0.0, nil)`: the comparison is with the trimmed
expected version. -/
theorem enforce_padded_expected_counterexample :
    goTrimSpace " v1.0.0 " ≠ "" ∧ " v1.0.0 " ≠ "v1.0.0" ∧
    ExtractTemplateVersion (oneTemplate "/* Version: v1.0.0 */\nbody") "prompt.tmpl"
      (TemplateVersionGuard.scanLimit
        { versionGuard true true with ExpectedVersion := " v1.0.0 " }) =
      Except.ok "v1.0.0" ∧
    (TemplateVersionGuard.Enforce { versionGuard true true with ExpectedVersion := " v1.0.0 " }
      (oneTemplate "/* Version: v1.0.0 */\nbody") "prompt.tmpl").1 = ("v1.0.0", none) := by
  refine ⟨by decide, by decide, rfl, by decide⟩

theorem utf8Width_pos (c : Char) : 0 < utf8Width c := by
  unfold utf8Width
  split_ifs <;> omega

theorem takeBytes_append (pre post : List Char) :
    ∀ n, n ≤ utf8Len pre → takeBytes n (pre ++ post) = takeBytes n pre := by
  induction pre with
  | nil =>
    intro n hn
    have h0 : n = 0 := by
      simp only [utf8Len, List.map_nil, List.sum_nil] at hn
      omega
    subst h0
    cases post with
    | nil => rfl
    | cons c cs =>
      have hw := utf8Width_pos c
      simp only [List.nil_append, takeBytes]
      rw [if_neg (by omega)]
  | cons c cs ih =>
    intro n hn
    simp only [List.cons_append, takeBytes]
    by_cases hw : utf8Width c ≤ n
    · rw [if_pos hw, if_pos hw]
      congr 1
      apply ih
      simp only [utf8Len, List.map_cons, List.sum_cons] at hn ⊢
      omega
    · rw [if_neg hw, if_neg hw]

theorem scannedContent_append (scanLimit : Int) (data post : String)
    (hfull : (if scanLimit ≤ 0 then defaultPromptHeaderScanLimit else scanLimit) ≤
      (utf8Len data.data : Int)) :
    scannedContent scanLimit (data ++ post) = scannedContent scanLimit data := by
  have hpos : 0 < (if scanLimit ≤ 0 then defaultPromptHeaderScanLimit else scanLimit) := by
    unfold defaultPromptHeaderScanLimit
    split_ifs <;> omega
  have hlen : (utf8Len (data ++ post).data : Int) =
      (utf8Len data.data : Int) + (utf8Len post.data : Int) := by
    simp only [String.data_append, utf8Len, List.map_append, List.sum_append, Nat.cast_add]
  unfold scannedContent
  simp only []
  generalize (if scanLimit ≤ 0 then defaultPromptHeaderScanLimit else scanLimit) = limit
    at hfull hpos ⊢
  rw [if_neg (by omega), if_neg (by omega), String.data_append]
  apply takeBytes_append
  omega

theorem enforce_of_missing (g : TemplateVersionGuard)
    (readFile : String → Except String String) (templatePath data : String)
    (hpath : goTrimSpace templatePath ≠ "")
    (hread : readFile (goTrimSpace templatePath) = Except.ok data)
    (hnone : findVersionHeader (scannedContent g.scanLimit data) = none) :
    g.Enforce readFile templatePath =
      if g.RequireVersionHeader then
        (("", some (TemplateError.missingHeader (goTrimSpace templatePath))), [])
      else
        (("", none),
         [TemplateLog.error (TemplateError.missingHeader (goTrimSpace templatePath))]) := by
  unfold TemplateVersionGuard.Enforce ExtractTemplateVersion
  rw [if_neg hpath, hread]
  simp only [hnone]

/-- Claim C22: for a readable template whose scanned content (the first `ScanLimit`
bytes when that is positive, else the first 8 KiB) holds no version header, `Enforce`
returns the missing-header error if and only if `RequireVersionHeader` is true, and
returns the empty version and nil when it is false, whatever `StrictMode` and
`ExpectedVersion` are; text appended to a file that fills the scanned bytes, a header
included, does not change the scanned content. -/
theorem enforce_missing_header (g : TemplateVersionGuard)
    (readFile : String → Except String String) (templatePath data : String)
    (hpath : goTrimSpace templatePath ≠ "")
    (hread : readFile (goTrimSpace templatePath) = Except.ok data)
    (hnone : findVersionHeader (scannedContent g.scanLimit data) = none) :
    g.scanLimit = (if g.ScanLimit > 0 then g.ScanLimit else 8 * 1024) ∧
    ((g.Enforce readFile templatePath).1.2 =
        some (TemplateError.missingHeader (goTrimSpace templatePath)) ↔
      g.RequireVersionHeader = true) ∧
    (g.RequireVersionHeader = true →
      (g.Enforce readFile templatePath).1 =
        ("", some (TemplateError.missingHeader (goTrimSpace templatePath)))) ∧
    (g.RequireVersionHeader = false →
      (g.Enforce readFile templatePath).1 = ("", none)) ∧
    (∀ (strict : Bool) (expected : String),
      (TemplateVersionGuard.Enforce
        { g with StrictMode := strict, ExpectedVersion := expected }
        readFile templatePath).1 = (g.Enforce readFile templatePath).1) ∧
    (∀ post : String, g.scanLimit ≤ (utf8Len data.data : Int) →
      findVersionHeader (scannedContent g.scanLimit (data ++ post)) = none) := by
  have hrun := enforce_of_missing g readFile templatePath data hpath hread hnone
  refine ⟨rfl, ?_, ?_, ?_, ?_, ?_⟩
  · rw [hrun]
    cases g.RequireVersionHeader <;> simp
  · intro h
    rw [hrun, h]
    rfl
  · intro h
    rw [hrun, h]
    rfl
  · intro strict expected
    have hrun2 := enforce_of_missing
      { g with StrictMode := strict, ExpectedVersion := expected } readFile templatePath data
      hpath hread hnone
    rw [hrun, hrun2]
  · intro post hfull
    have hlim : (if g.scanLimit ≤ 0 then defaultPromptHeaderScanLimit else g.scanLimit) =
        g.scanLimit := by
      unfold TemplateVersionGuard.scanLimit defaultPromptHeaderScanLimit
      split_ifs <;> omega
    rw [scannedContent_append g.scanLimit data post (by rw [hlim]; exact hfull)]
    exact hnone

/-- Claim C22 on a guard that scans 4 bytes and a template whose header starts at
byte 5: with `RequireVersionHeader` the header counts as missing, without it `Enforce`
returns the empty version and nil. -/
theorem enforce_missing_header_witness :
    (TemplateVersionGuard.Enforce { versionGuard true true with ScanLimit := 4 }
      (oneTemplate "body\nVersion: v1.0.0") "prompt.tmpl").1 =
      ("", some (TemplateError.missingHeader "prompt.tmpl")) ∧
    (TemplateVersionGuard.Enforce { versionGuard true false with ScanLimit := 4 }
      (oneTemplate "body\nVersion: v1.0.0") "prompt.tmpl").1 = ("", none) := by
  have hr := enforce_missing_header { versionGuard true true with ScanLimit := 4 }
    (oneTemplate "body\nVersion: v1.0.0") "prompt.tmpl" "body\nVersion: v1.0.0"
    (by decide) rfl (by decide)
  have hf := enforce_missing_header { versionGuard true false with ScanLimit := 4 }
    (oneTemplate "body\nVersion: v1.0.0") "prompt.tmpl" "body\nVersion: v1.0.0"
    (by decide) rfl (by decide)
  exact ⟨hr.2.2.1 rfl, hf.2.2.2.1 rfl⟩

/-! ## Cache hydration and trader ids -/

/-- Claim C23: `HydrateCaches` does not look trader `t1` up under the id its rows are
stored under. `RecordPositionEvent` and `RecordDecisionCycle` store the rows of `t1`
under `t1`; `normalizeIDs` turns the id into `T1`, under which the three queries find
nothing, so `HydrateCaches(["t1"])` leaves the caches empty, although the queries find
the rows under `t1`. -/
theorem hydrateCaches_uppercases_trader_id :
    restartStore.positions.map (fun row => (row.TraderId, row.Status)) = [("t1", "open")] ∧
    restartStore.trades.map (fun row => row.TraderId) = ["t1"] ∧
    restartStore.decisionCycles.map (fun row => row.ModelId) = ["t1"] ∧
    normalizeIDs ["t1"] = ["T1"] ∧
    (HydrateCaches samplePersistEnv restartStore ["t1"]).1 = [] ∧
    (HydrateCaches samplePersistEnv restartStore ["t1"]).2.positionsCache = [] ∧
    (HydrateCaches samplePersistEnv restartStore ["t1"]).2.tradesCache = [] ∧
    (HydrateCaches samplePersistEnv restartStore ["t1"]).2.decisionCache = [] ∧
    ((hydratePositions samplePersistEnv restartStore ["t1"]).2.positionsCache.lookup
      "positions:t1").isSome = true ∧
    ((hydrateTrades samplePersistEnv restartStore ["t1"]).2.tradesCache.lookup
      "trades:t1").isSome = true ∧
    ((hydrateDecisionCycles samplePersistEnv restartStore ["t1"]).2.decisionCache.lookup
      "decision:t1").isSome = true := by
  refine ⟨?_, ?_, ?_, by decide, ?_, ?_, ?_, ?_, ?_, ?_, ?_⟩
  all_goals rfl

/-! ## Canonical detail -/

theorem dropWhile_prefix_self (p : Char → Bool) (x y : List Char)
    (hx : x.dropWhile p = x) (hpre : y <+: x) : y.dropWhile p = y := by
  cases y with
  | nil => rfl
  | cons a rest =>
    obtain ⟨t, ht⟩ := hpre
    cases hpa : p a with
    | false => simp [List.dropWhile, hpa]
    | true =>
      exfalso
      have hlen : (List.dropWhile p (rest ++ t)).length ≤ (rest ++ t).length :=
        (List.dropWhile_suffix p).length_le
      rw [← ht] at hx
      have hx2 : List.dropWhile p (rest ++ t) = a :: (rest ++ t) := by
        simpa [List.dropWhile, hpa] using hx
      rw [hx2] at hlen
      simp only [List.length_cons] at hlen
      omega

theorem trimChars_idempotent (l : List Char) : trimChars (trimChars l) = trimChars l := by
  have hform : ∀ m : List Char, trimChars m = (m.dropWhile isSpace).rdropWhile isSpace :=
    fun _ => rfl
  have hself : (trimChars l).dropWhile isSpace = trimChars l := by
    apply dropWhile_prefix_self isSpace (l.dropWhile isSpace)
    · exact List.dropWhile_idempotent _ _
    · rw [hform]
      exact List.rdropWhile_prefix _ _
  rw [hform (trimChars l), hself, hform l]
  exact List.rdropWhile_idempotent _ _

theorem goTrimSpace_idempotent (s : String) : goTrimSpace (goTrimSpace s) = goTrimSpace s := by
  unfold goTrimSpace
  rw [trimChars_idempotent]

theorem normalizeDetail_of_blank (json : JsonLib) (d : String)
    (hblank : (goTrimSpace d).length = 0) : normalizeDetail json d = Except.ok "\x7b\x7d" := by
  unfold normalizeDetail
  simp only [hblank, if_true]

theorem normalizeDetail_of_decoded (json : JsonLib) (d : String) (v : json.Value)
    (hlen : (goTrimSpace d).length ≠ 0) (hv : json.unmarshal (goTrimSpace d) = Except.ok v) :
    normalizeDetail json d = json.marshal v := by
  unfold normalizeDetail
  simp only [hlen, if_false, hv]
  cases json.marshal v <;> rfl

theorem normalizeDetail_of_invalid (json : JsonLib) (d e : String)
    (hlen : (goTrimSpace d).length ≠ 0)
    (hv : json.unmarshal (goTrimSpace d) = Except.error e) :
    normalizeDetail json d = Except.error e := by
  unfold normalizeDetail
  simp only [hlen, if_false, hv]

theorem normalizeDetail_fixed (json : JsonLib) (s : String) (v : json.Value)
    (htrim : goTrimSpace s = s) (hlen : s.length ≠ 0)
    (hv : json.unmarshal s = Except.ok v) (hm : json.marshal v = Except.ok s) :
    normalizeDetail json s = Except.ok s := by
  rw [normalizeDetail_of_decoded json s v (by rw [htrim]; exact hlen) (by rw [htrim]; exact hv),
    hm]

theorem normalizeDetail_idempotent (json : JsonLib) (hlaw : json.RoundTrips) (d s : String)
    (h : normalizeDetail json d = Except.ok s) : normalizeDetail json s = Except.ok s := by
  by_cases hblank : (goTrimSpace d).length = 0
  · rw [normalizeDetail_of_blank json d hblank] at h
    injection h with hs
    subst hs
    obtain ⟨v, hv, hm⟩ := hlaw.emptyObject
    exact normalizeDetail_fixed json _ v (by decide) (by decide) hv hm
  · cases hv : json.unmarshal (goTrimSpace d) with
    | error e =>
      rw [normalizeDetail_of_invalid json d e hblank hv] at h
      exact absurd h (by simp)
    | ok v =>
      rw [normalizeDetail_of_decoded json d v hblank hv] at h
      obtain ⟨htrim, hlen, v1, hv1, hm1⟩ := hlaw.canonical _ v s hv h
      exact normalizeDetail_fixed json s v1 htrim hlen hv1 hm1

theorem getLast?_filter_of_last (p : Char → Bool) (l : List Char) (c : Char)
    (hlast : l.getLast? = some c) (hc : p c = true) : (l.filter p).getLast? = some c := by
  obtain ⟨init, hinit⟩ : ∃ init, l = init ++ [c] := by
    rw [List.getLast?_eq_some_iff] at hlast
    exact hlast
  rw [hinit, List.filter_append]
  simp [List.filter, hc]

theorem sampleJson_roundTrips : sampleJson.RoundTrips := by
  have hdecode : ∀ (d : String) (v : sampleJson.Value), sampleJson.unmarshal d = Except.ok v →
      v = d ∧ d.data.head? = some (Char.ofNat 123) ∧ d.data.getLast? = some (Char.ofNat 125) := by
    intro d v h
    simp only [sampleJson] at h
    split_ifs at h with hcond
    injection h with hv
    exact ⟨hv.symm, hcond.1, hcond.2⟩
  refine ⟨?_, ?_, ?_⟩
  · intro d v _
    exact ⟨_, rfl⟩
  · intro d v s hv hm
    obtain ⟨hvd, hhead, hlast⟩ := hdecode d v hv
    have htrim := sampleJson_marshal_trimmed v s hm
    have hs : s = String.mk (v.data.filter (fun c => !isSpace c)) := by
      simp only [sampleJson, Except.ok.injEq] at hm
      exact hm.symm
    subst hvd
    have hhead1 : (v.data.filter (fun c => !isSpace c)).head? = some (Char.ofNat 123) := by
      cases hdata : v.data with
      | nil => rw [hdata] at hhead; exact absurd hhead (by simp)
      | cons a rest =>
        rw [hdata] at hhead
        have ha : a = Char.ofNat 123 := by simpa using hhead
        subst ha
        have hns : (!isSpace (Char.ofNat 123)) = true := by decide
        simp [List.filter, hns]
    have hlast1 : (v.data.filter (fun c => !isSpace c)).getLast? = some (Char.ofNat 125) :=
      getLast?_filter_of_last _ _ _ hlast (by decide)
    refine ⟨htrim, ?_, s, ?_, ?_⟩
    · rw [hs]
      intro hlen
      have hnil : v.data.filter (fun c => !isSpace c) = [] := by
        simpa [String.length] using hlen
      rw [hnil] at hhead1
      exact absurd hhead1 (by simp)
    · rw [hs]
      simp only [sampleJson]
      rw [if_pos ⟨hhead1, hlast1⟩]
    · rw [hs]
      simp only [sampleJson, List.filter_filter, Bool.and_self]
  · exact ⟨"\x7b\x7d", rfl, rfl⟩

/-- Claim C24: with a JSON library that round-trips (`JsonLib.RoundTrips`),
`normalizeDetail` is a canonicalisation: its output is a fixed point, so it is
idempotent on every input it accepts; a valid input is accepted; inputs that decode to
the same value (as inputs differing in insignificant whitespace or key order do) and
inputs differing in surrounding whitespace normalise to the same text; blank input
normalises to `{}`; input that does not decode is rejected with the decoder's error and
`syncOne` then returns an error and leaves the database as it was. -/
theorem normalizeDetail_canonicalises (json : JsonLib) (hlaw : json.RoundTrips) :
    (∀ d s, normalizeDetail json d = Except.ok s → normalizeDetail json s = Except.ok s) ∧
    (∀ d (v : json.Value), (goTrimSpace d).length ≠ 0 →
      json.unmarshal (goTrimSpace d) = Except.ok v →
      ∃ s, normalizeDetail json d = Except.ok s ∧ normalizeDetail json s = Except.ok s) ∧
    (∀ d1 d2 (v : json.Value), (goTrimSpace d1).length ≠ 0 → (goTrimSpace d2).length ≠ 0 →
      json.unmarshal (goTrimSpace d1) = Except.ok v →
      json.unmarshal (goTrimSpace d2) = Except.ok v →
      normalizeDetail json d1 = normalizeDetail json d2) ∧
    (∀ d, normalizeDetail json (goTrimSpace d) = normalizeDetail json d) ∧
    (∀ d, (goTrimSpace d).length = 0 → normalizeDetail json d = Except.ok "\x7b\x7d") ∧
    (∀ d e, (goTrimSpace d).length ≠ 0 → json.unmarshal (goTrimSpace d) = Except.error e →
      normalizeDetail json d = Except.error e ∧
      ∀ (env : RepoEnv) (db : DB) (rec : TraderConfigRecord),
        env.json = json → rec.Detail = d →
        (syncOne env db rec).1.2 ≠ none ∧ (syncOne env db rec).2 = db) := by
  refine ⟨normalizeDetail_idempotent json hlaw, ?_, ?_, ?_, normalizeDetail_of_blank json, ?_⟩
  · intro d v hlen hv
    obtain ⟨s, hs⟩ := hlaw.marshals _ v hv
    have hd : normalizeDetail json d = Except.ok s := by
      rw [normalizeDetail_of_decoded json d v hlen hv, hs]
    exact ⟨s, hd, normalizeDetail_idempotent json hlaw d s hd⟩
  · intro d1 d2 v h1 h2 hv1 hv2
    rw [normalizeDetail_of_decoded json d1 v h1 hv1, normalizeDetail_of_decoded json d2 v h2 hv2]
  · intro d
    unfold normalizeDetail
    rw [goTrimSpace_idempotent]
  · intro d e hlen hv
    have hd := normalizeDetail_of_invalid json d e hlen hv
    refine ⟨hd, ?_⟩
    intro env db rec hjson hdetail
    unfold syncOne
    by_cases hid : goTrimSpace rec.ID = ""
    · rw [if_pos hid]
      exact ⟨by simp, rfl⟩
    · rw [if_neg hid, hjson, hdetail, hd]
      exact ⟨by simp, rfl⟩

/-- Claim C24 on the sample library and the detail of `sampleRecord`: it normalises
to the text without whitespace, which normalises to itself; text outside braces is
rejected. -/
theorem normalizeDetail_canonicalises_witness :
    normalizeDetail sampleJson sampleRecord.Detail =
      Except.ok "\x7b\"id\":\"t1\"\x7d" ∧
    normalizeDetail sampleJson "\x7b\"id\":\"t1\"\x7d" =
      Except.ok "\x7b\"id\":\"t1\"\x7d" ∧
    normalizeDetail sampleJson "" = Except.ok "\x7b\x7d" ∧
    normalizeDetail sampleJson "id" =
      Except.error "invalid character looking for beginning of value" := by
  have h := normalizeDetail_canonicalises sampleJson sampleJson_roundTrips
  have h1 : normalizeDetail sampleJson sampleRecord.Detail =
      Except.ok "\x7b\"id\":\"t1\"\x7d" := rfl
  exact ⟨h1, h.1 _ _ h1, h.2.2.2.2.1 "" (by decide), (h.2.2.2.2.2 "id" _ (by decide) rfl).1⟩

/-! ## Rebuilding the executor context -/

theorem toUpper_idempotent (c : Char) : c.toUpper.toUpper = c.toUpper := by
  by_cases h : c.toNat ≥ 97 ∧ c.toNat ≤ 122
  · have hc : c = Char.ofNat c.toNat := (Char.ofNat_toNat c).symm
    rw [hc]
    generalize c.toNat = n at h
    obtain ⟨h1, h2⟩ := h
    interval_cases n <;> decide
  · have hsame : c.toUpper = c := by
      unfold Char.toUpper
      simp only []
      rw [if_neg]
      intro hval
      apply h
      have h1 := hval.1
      have h2 := hval.2
      simp only [ge_iff_le, UInt32.le_def, Fin.le_def] at h1 h2
      exact ⟨h1, h2⟩
    rw [hsame, hsame]

theorem goToUpper_idempotent (s : String) : goToUpper (goToUpper s) = goToUpper s := by
  unfold goToUpper
  simp only [List.map_map]
  congr 1
  apply List.map_congr_left
  intro c _
  exact toUpper_idempotent c

theorem mapCandidates_upper (raw : List String) :
    ∀ c ∈ mapCandidates raw, goToUpper c.Symbol = c.Symbol := by
  intro c hc
  unfold mapCandidates at hc
  obtain ⟨sym, _, hsym⟩ := List.mem_filterMap.mp hc
  split_ifs at hsym
  injection hsym with hsym
  rw [← hsym]
  exact goToUpper_idempotent _

theorem mapMarketDigest_fold_upper (env : ReplayEnv)
    (raw : List (String × Option (List (String × AnyValue)))) :
    ∀ out : List (String × Snapshot),
      (∀ e ∈ out, goToUpper e.1 = e.1 ∧ e.2.Symbol = e.1) →
      ∀ e ∈ raw.foldl (fun out entry =>
          mapInsert (goToUpper entry.1) (digestSnapshot env entry.1 entry.2) out) out,
        goToUpper e.1 = e.1 ∧ e.2.Symbol = e.1 := by
  induction raw with
  | nil =>
    intro out hout e he
    exact hout e he
  | cons entry rest ih =>
    intro out hout
    apply ih
    intro e he
    unfold mapInsert at he
    rcases List.mem_cons.mp he with h | h
    · rw [h]
      exact ⟨goToUpper_idempotent _, rfl⟩
    · unfold mapErase at h
      exact hout e (List.mem_filter.mp h).1

/-- Claim C25: in the context `BuildExecutorContext` rebuilds, the symbol of every
candidate coin and every market-data key with its snapshot's symbol are upper-case, but
the symbol of a position is copied as journaled: `mapPositions` lower-cases the side and
leaves the symbol alone, so the journaled position symbol `btc` stays `btc`. -/
theorem buildExecutorContext_position_symbol_kept :
    (∀ env cfg rec, (BuildExecutorContext env cfg rec).CandidateCoins.all
      (fun c => decide (goToUpper c.Symbol = c.Symbol)) = true) ∧
    (∀ env cfg rec, (BuildExecutorContext env cfg rec).MarketDataMap.all
      (fun e => decide (goToUpper e.1 = e.1 ∧ e.2.Symbol = e.1)) = true) ∧
    (BuildExecutorContext sampleReplayEnv none (some lowerCaseRecord)).CandidateCoins.map
      (fun c => c.Symbol) = ["ETH"] ∧
    (BuildExecutorContext sampleReplayEnv none (some lowerCaseRecord)).MarketDataMap.map
      (fun e => (e.1, e.2.Symbol)) = [("SOL", "SOL")] ∧
    (BuildExecutorContext sampleReplayEnv none (some lowerCaseRecord)).Positions.map
      (fun p => (p.Symbol, p.Side)) = [("btc", "long")] ∧
    goToUpper "btc" ≠ "btc" := by
  refine ⟨?_, ?_, by decide, by decide, by decide, by decide⟩
  · intro env cfg rec
    rw [List.all_eq_true]
    intro c hc
    cases rec with
    | none => exact absurd hc (by simp [BuildExecutorContext, ExecutorContext.zero])
    | some r => simpa using mapCandidates_upper r.Candidates c hc
  · intro env cfg rec
    rw [List.all_eq_true]
    intro e he
    cases rec with
    | none => exact absurd he (by simp [BuildExecutorContext, ExecutorContext.zero])
    | some r =>
      have h := mapMarketDigest_fold_upper env r.MarketDigest [] (by simp) e he
      simpa using h

/-! ## Orders from journaled decisions -/

theorem decisionToOrder_some (env : BacktestEnv) (s : journalStrategy) (d : Decision)
    (fallbackPrice : ℚ) (order : Order)
    (h : (s.decisionToOrder env d fallbackPrice).1 = some order) :
    orderPrice d fallbackPrice > 0 ∧ d.PositionSizeUSD > 0 ∧
    ∃ (asset : Int) (isBuy reduceOnly : Bool),
      order = iocLimitOrder env asset isBuy reduceOnly (orderPrice d fallbackPrice)
        (d.PositionSizeUSD / orderPrice d fallbackPrice) ∧
      ((goToLower (goTrimSpace d.Action) = "open_long" ∧ isBuy = true ∧ reduceOnly = false) ∨
       (goToLower (goTrimSpace d.Action) = "open_short" ∧ isBuy = false ∧
          reduceOnly = false) ∨
       (goToLower (goTrimSpace d.Action) = "close_long" ∧ isBuy = false ∧
          reduceOnly = true) ∨
       (goToLower (goTrimSpace d.Action) = "close_short" ∧ isBuy = true ∧
          reduceOnly = true)) := by
  unfold journalStrategy.decisionToOrder at h
  simp only [] at h
  by_cases hp : orderPrice d fallbackPrice ≤ 0
  · rw [if_pos hp] at h
    exact absurd h (by simp)
  rw [if_neg hp] at h
  by_cases hn : d.PositionSizeUSD ≤ 0
  · rw [if_pos hn] at h
    exact absurd h (by simp)
  rw [if_neg hn] at h
  by_cases hq : d.PositionSizeUSD / orderPrice d fallbackPrice ≤ 0
  · rw [if_pos hq] at h
    exact absurd h (by simp)
  rw [if_neg hq] at h
  refine ⟨not_le.mp hp, not_le.mp hn, ?_⟩
  rcases hasset : s.ensureAsset env d.Symbol with ⟨res, s1⟩
  rw [hasset] at h
  cases res with
  | error err => exact absurd h (by simp)
  | ok asset =>
    simp only [] at h
    split_ifs at h with h1 h2 h3 h4
    · injection h with h
      exact ⟨asset, true, false, h.symm, Or.inl ⟨h1, rfl, rfl⟩⟩
    · injection h with h
      exact ⟨asset, false, false, h.symm, Or.inr (Or.inl ⟨h2, rfl, rfl⟩)⟩
    · injection h with h
      exact ⟨asset, false, true, h.symm, Or.inr (Or.inr (Or.inl ⟨h3, rfl, rfl⟩))⟩
    · injection h with h
      exact ⟨asset, true, true, h.symm, Or.inr (Or.inr (Or.inr ⟨h4, rfl, rfl⟩))⟩

theorem decisionToOrder_none_of_action (env : BacktestEnv) (s : journalStrategy) (d : Decision)
    (fallbackPrice : ℚ)
    (h1 : goToLower (goTrimSpace d.Action) ≠ "open_long")
    (h2 : goToLower (goTrimSpace d.Action) ≠ "open_short")
    (h3 : goToLower (goTrimSpace d.Action) ≠ "close_long")
    (h4 : goToLower (goTrimSpace d.Action) ≠ "close_short") :
    (s.decisionToOrder env d fallbackPrice).1 = none := by
  cases hres : (s.decisionToOrder env d fallbackPrice).1 with
  | none => rfl
  | some order =>
    obtain ⟨_, _, _, _, _, _, hact⟩ := decisionToOrder_some env s d fallbackPrice order hres
    rcases hact with h | h | h | h
    · exact absurd h.1 h1
    · exact absurd h.1 h2
    · exact absurd h.1 h3
    · exact absurd h.1 h4

/-- Claim C26: an order `decisionToOrder` returns is a limit order with time in force
`Ioc`, priced at the fallback price when that is positive and else at the decision's
entry price, whose `ReduceOnly` is true exactly when the action, trimmed and
lower-cased, is `close_long` or `close_short`, and whose `IsBuy` is true exactly when
it is `open_long` or `close_short`; the action is then one of the four. A decision with
any other action, with no positive price, or with `position_size_usd <= 0` yields no
order. -/
theorem decisionToOrder_ioc_flags (env : BacktestEnv) (s : journalStrategy) (d : Decision)
    (fallbackPrice : ℚ) :
    (∀ order, (s.decisionToOrder env d fallbackPrice).1 = some order →
      order.OrderType = { Limit := some { TIF := "Ioc" }, Trigger := none } ∧
      order.LimitPx = env.formatDecimal (orderPrice d fallbackPrice) ∧
      order.Sz = env.formatDecimal (d.PositionSizeUSD / orderPrice d fallbackPrice) ∧
      (order.ReduceOnly = true ↔
        goToLower (goTrimSpace d.Action) = "close_long" ∨
        goToLower (goTrimSpace d.Action) = "close_short") ∧
      (order.IsBuy = true ↔
        goToLower (goTrimSpace d.Action) = "open_long" ∨
        goToLower (goTrimSpace d.Action) = "close_short") ∧
      (goToLower (goTrimSpace d.Action) = "open_long" ∨
        goToLower (goTrimSpace d.Action) = "open_short" ∨
        goToLower (goTrimSpace d.Action) = "close_long" ∨
        goToLower (goTrimSpace d.Action) = "close_short")) ∧
    (goToLower (goTrimSpace d.Action) ≠ "open_long" →
      goToLower (goTrimSpace d.Action) ≠ "open_short" →
      goToLower (goTrimSpace d.Action) ≠ "close_long" →
      goToLower (goTrimSpace d.Action) ≠ "close_short" →
      (s.decisionToOrder env d fallbackPrice).1 = none) ∧
    (goToLower (goTrimSpace d.Action) = "hold" →
      (s.decisionToOrder env d fallbackPrice).1 = none) ∧
    (fallbackPrice ≤ 0 → d.EntryPrice ≤ 0 →
      (s.decisionToOrder env d fallbackPrice).1 = none) ∧
    (d.PositionSizeUSD ≤ 0 → (s.decisionToOrder env d fallbackPrice).1 = none) := by
  refine ⟨?_, decisionToOrder_none_of_action env s d fallbackPrice, ?_, ?_, ?_⟩
  · intro order h
    obtain ⟨_, _, asset, isBuy, reduceOnly, horder, hact⟩ :=
      decisionToOrder_some env s d fallbackPrice order h
    subst horder
    refine ⟨rfl, rfl, rfl, ?_, ?_, ?_⟩
    · show reduceOnly = true ↔ _
      rcases hact with ⟨ha, _, hr⟩ | ⟨ha, _, hr⟩ | ⟨ha, _, hr⟩ | ⟨ha, _, hr⟩ <;>
        rw [ha, hr] <;> decide
    · show isBuy = true ↔ _
      rcases hact with ⟨ha, hb, _⟩ | ⟨ha, hb, _⟩ | ⟨ha, hb, _⟩ | ⟨ha, hb, _⟩ <;>
        rw [ha, hb] <;> decide
    · rcases hact with ⟨ha, _, _⟩ | ⟨ha, _, _⟩ | ⟨ha, _, _⟩ | ⟨ha, _, _⟩ <;>
        rw [ha] <;> decide
  · intro hhold
    apply decisionToOrder_none_of_action <;> rw [hhold] <;> decide
  · intro hf he
    cases hres : (s.decisionToOrder env d fallbackPrice).1 with
    | none => rfl
    | some order =>
      have hp := (decisionToOrder_some env s d fallbackPrice order hres).1
      unfold orderPrice at hp
      rw [if_neg (not_lt.mpr hf)] at hp
      exact absurd hp (not_lt.mpr he)
  · intro hn
    cases hres : (s.decisionToOrder env d fallbackPrice).1 with
    | none => rfl
    | some order =>
      have hp := (decisionToOrder_some env s d fallbackPrice order hres).2.1
      exact absurd hp (not_lt.mpr hn)

/-- Claim C26 on BTC decisions of size 220 at the fallback price 110: ` Close_Long `
gives a reduce-only IOC sell of 2 at 110, `hold` gives no order. -/
theorem decisionToOrder_ioc_flags_witness :
    (btcStrategy.decisionToOrder sampleBacktestEnv (btcDecision " Close_Long " 220 100)
      110).1 =
      some { Asset := 0, IsBuy := false, LimitPx := "110.00000000", Sz := "2.00000000",
             ReduceOnly := true,
             OrderType := { Limit := some { TIF := "Ioc" }, Trigger := none },
             Cloid := "", TriggerPx := "", TriggerRel := "", Grouping := "",
             Builder := none } ∧
    (btcStrategy.decisionToOrder sampleBacktestEnv (btcDecision "hold" 220 100) 110).1 =
      none := by
  have h := decisionToOrder_ioc_flags sampleBacktestEnv btcStrategy
    (btcDecision "hold" 220 100) 110
  refine ⟨?_, h.2.2.1 (by decide)⟩
  have hp : orderPrice (btcDecision " Close_Long " 220 100) 110 = 110 := by
    norm_num [orderPrice]
  unfold journalStrategy.decisionToOrder
  simp only [hp]
  norm_num [btcDecision, journalStrategy.ensureAsset, btcStrategy, sampleBacktestEnv,
    iocLimitOrder]
  decide

/-! ## Order responses -/

/-- Claim C27: `UnmarshalJSON` sets `Status` and stores a string response in
`ErrorMessage`, decodes an object response into `Response` when its members decode and
returns the "neither" error when they do not, and returns that error for a number, a
boolean or an array; but a null response is accepted: `json.Unmarshal` of null into the
struct succeeds, so the call returns nil with an empty `Response` and no
`ErrorMessage`. -/
theorem unmarshalJSON_accepts_null_response :
    (∀ o status s, OrderResponse.UnmarshalJSON o (responseText status (JsonValue.string s)) =
      (none, { o with Status := status, ErrorMessage := s })) ∧
    (∀ o status members,
      OrderResponse.UnmarshalJSON o (responseText status (JsonValue.object members)) =
        match decodeMembers responseDataStep OrderResponseData.zero members with
        | some respData => (none, { o with Status := status, Response := respData })
        | none => (some UnmarshalError.neither, { o with Status := status })) ∧
    (∀ o status literal,
      OrderResponse.UnmarshalJSON o (responseText status (JsonValue.number literal)) =
        (some UnmarshalError.neither, { o with Status := status })) ∧
    (∀ o status b,
      OrderResponse.UnmarshalJSON o (responseText status (JsonValue.bool b)) =
        (some UnmarshalError.neither, { o with Status := status })) ∧
    (∀ o status items,
      OrderResponse.UnmarshalJSON o (responseText status (JsonValue.array items)) =
        (some UnmarshalError.neither, { o with Status := status })) ∧
    OrderResponse.UnmarshalJSON OrderResponse.zero
      (responseText "ok" (JsonValue.object [("type", JsonValue.string "order"),
        ("data", JsonValue.object [("statuses", JsonValue.array
          [JsonValue.object [("resting", JsonValue.object
            [("oid", JsonValue.number "7")])]])])])) =
      (none, { Status := "ok",
               Response := { Type_ := "order",
                             Data := { Statuses := [{ Resting := some { Oid := 7 },
                                                      Filled := none, Error := "" }] } },
               ErrorMessage := "" }) ∧
    OrderResponse.UnmarshalJSON OrderResponse.zero
      (responseText "ok" (JsonValue.object [("type", JsonValue.number "5")])) =
      (some UnmarshalError.neither, { OrderResponse.zero with Status := "ok" }) ∧
    OrderResponse.UnmarshalJSON OrderResponse.zero (responseText "ok" JsonValue.null) =
      (none, { Status := "ok", Response := OrderResponseData.zero, ErrorMessage := "" }) := by
  refine ⟨?_, ?_, ?_, ?_, ?_, ?_, ?_, ?_⟩
  · intro o status s
    rfl
  · intro o status members
    have henv : (responseText status (JsonValue.object members)).bind
        (decodeStructInto envelopeStep { Status := "", Response := none }) =
        some { Status := status, Response := some (JsonValue.object members) } := rfl
    unfold OrderResponse.UnmarshalJSON
    rw [henv]
    simp only [Option.bind, decodeStructInto]
    cases decodeMembers responseDataStep OrderResponseData.zero members <;> rfl
  · intro o status literal
    rfl
  · intro o status b
    rfl
  · intro o status items
    rfl
  · rfl
  · rfl
  · rfl

/-! ## Budget ledger within one day -/

theorem allowAttempt_same_day (g : BudgetGuard) (now : Int)
    (h0 : g.periodStart ≠ 0) (hd : truncateDay now = g.periodStart) :
    (g.AllowAttempt now).2 = g := by
  unfold BudgetGuard.AllowAttempt
  rw [resetIfNeeded_same_day g now h0 hd]
  cases g.cfg with
  | none => rfl
  | some c =>
    simp only []
    split_ifs <;> rfl

theorem recordUsage_nonpositive (g : BudgetGuard) (now : Int) (model : String) (tokens : Int)
    (htok : tokens ≤ 0) : (g.RecordUsage now model tokens).2 = g := by
  unfold BudgetGuard.RecordUsage
  cases g.cfg with
  | none => rfl
  | some c => simp only [htok, or_true, if_true]

theorem step_same_day (g : BudgetGuard) (call : BudgetCall)
    (h0 : g.periodStart ≠ 0) (hd : truncateDay call.now = g.periodStart) :
    (g.step call).2.cfg = g.cfg ∧ (g.step call).2.periodStart = g.periodStart ∧
    g.usedTokens ≤ (g.step call).2.usedTokens := by
  cases call with
  | allow now =>
    have h := allowAttempt_same_day g now h0 hd
    simp only [BudgetGuard.step, h, le_refl, and_self]
  | record now model tokens =>
    have hd1 : truncateDay now = g.periodStart := hd
    by_cases htok : tokens ≤ 0
    · have h := recordUsage_nonpositive g now model tokens htok
      simp only [BudgetGuard.step, h, le_refl, and_self]
    · cases hcfg : g.cfg with
      | none =>
        have h : (g.RecordUsage now model tokens).2 = g := by
          unfold BudgetGuard.RecordUsage
          rw [hcfg]
        simp only [BudgetGuard.step, h, hcfg, le_refl, and_self]
      | some c =>
        by_cases hen : c.DailyTokenLimit ≤ 0
        · have h : (g.RecordUsage now model tokens).2 = g := by
            unfold BudgetGuard.RecordUsage
            simp only [hcfg, hen, true_or, if_true]
          simp only [BudgetGuard.step, h, hcfg, le_refl, and_self]
        · have h := recordUsage_enabled g now model tokens c hcfg (not_le.mp hen)
            (not_le.mp htok)
          rw [resetIfNeeded_same_day g now h0 hd1] at h
          simp only [BudgetGuard.step, h, hcfg, true_and]
          omega

theorem run_same_day (calls : List BudgetCall) :
    ∀ g : BudgetGuard, g.periodStart ≠ 0 →
      (∀ call ∈ calls, truncateDay call.now = g.periodStart) →
      (g.run calls).cfg = g.cfg ∧ (g.run calls).periodStart = g.periodStart ∧
      g.usedTokens ≤ (g.run calls).usedTokens := by
  induction calls with
  | nil =>
    intro g _ _
    exact ⟨rfl, rfl, le_refl _⟩
  | cons call rest ih =>
    intro g h0 hday
    have hstep := step_same_day g call h0 (hday call (List.mem_cons_self _ _))
    have hrest := ih (g.step call).2 (by rw [hstep.2.1]; exact h0)
      (fun c hc => by rw [hstep.2.1]; exact hday c (List.mem_cons_of_mem _ hc))
    have hrun : g.run (call :: rest) = (g.step call).2.run rest := rfl
    rw [hrun]
    refine ⟨hrest.1.trans hstep.1, hrest.2.1.trans hstep.2.1, le_trans hstep.2.2 hrest.2.2⟩

theorem run_append (g : BudgetGuard) (pre post : List BudgetCall) :
    g.run (pre ++ post) = (g.run pre).run post := by
  unfold BudgetGuard.run
  rw [List.foldl_append]

theorem allowAttempt_exceeded_iff (g : BudgetGuard) (now : Int) (c : BudgetConfig)
    (hcfg : g.cfg = some c) (hen : 0 < c.DailyTokenLimit) (hstrict : c.StrictEnforcement = true)
    (h0 : g.periodStart ≠ 0) (hd : truncateDay now = g.periodStart) :
    (g.AllowAttempt now).1 = some LlmError.ErrBudgetExceeded ↔
      g.usedTokens ≥ c.DailyTokenLimit := by
  unfold BudgetGuard.AllowAttempt
  rw [resetIfNeeded_same_day g now h0 hd, hcfg]
  simp only [not_le.mpr hen, if_false, hstrict, if_true]
  split_ifs with h
  · simp [h]
  · simp [h]

theorem periodStart_resetIfNeeded (g : BudgetGuard) (now : Int) :
    (g.resetIfNeeded now).periodStart = truncateDay now := by
  unfold BudgetGuard.resetIfNeeded
  by_cases h : g.periodStart = 0 ∨ ¬ (truncateDay now = g.periodStart)
  · simp only [h, if_true]
  · simp only [h, if_false]
    push_neg at h
    exact h.2.symm

theorem allowAttempt_state (g : BudgetGuard) (now : Int) (c : BudgetConfig)
    (hcfg : g.cfg = some c) (hen : 0 < c.DailyTokenLimit) :
    (g.AllowAttempt now).2 = g.resetIfNeeded now := by
  unfold BudgetGuard.AllowAttempt
  simp only [hcfg, not_le.mpr hen, if_false]
  split_ifs <;> rfl

/-- Claim C28 (amended): for an enabled guard under strict enforcement and a sequence
of calls that all fall on one UTC day: when the guard's current period is that day,
`used_tokens` never decreases from any point of the sequence to its end, and
`AllowAttempt`, and `RecordUsage` with `tokens <= 0`, leave the guard as it was; and for
any guard, once `AllowAttempt` on that day has returned `ErrBudgetExceeded`, which puts
the period on that day, `AllowAttempt` after any further calls of the day returns
`ErrBudgetExceeded` again. -/
theorem budget_ledger_monotone_within_day (g : BudgetGuard) (c : BudgetConfig)
    (calls : List BudgetCall) (day : Int)
    (hcfg : g.cfg = some c) (hen : 0 < c.DailyTokenLimit)
    (hstrict : c.StrictEnforcement = true) (h0 : day ≠ 0)
    (hday : ∀ call ∈ calls, truncateDay call.now = day) :
    (g.periodStart = day →
      (∀ pre post, calls = pre ++ post →
        (g.run pre).usedTokens ≤ (g.run calls).usedTokens) ∧
      g.usedTokens ≤ (g.run calls).usedTokens ∧
      (∀ now, truncateDay now = day → (g.AllowAttempt now).2 = g)) ∧
    (∀ now model tokens, tokens ≤ 0 → (g.RecordUsage now model tokens).2 = g) ∧
    (∀ now later, truncateDay now = day → truncateDay later = day →
      (g.AllowAttempt now).1 = some LlmError.ErrBudgetExceeded →
      (g.AllowAttempt now).2.periodStart = day ∧
      (((g.AllowAttempt now).2.run calls).AllowAttempt later).1 =
        some LlmError.ErrBudgetExceeded) := by
  refine ⟨?_, ?_, ?_⟩
  · intro hperiod
    have h0g : g.periodStart ≠ 0 := by rw [hperiod]; exact h0
    have hdayg : ∀ call ∈ calls, truncateDay call.now = g.periodStart := by
      intro call hc
      rw [hperiod]
      exact hday call hc
    have hrun := run_same_day calls g h0g hdayg
    refine ⟨?_, hrun.2.2, ?_⟩
    · intro pre post hsplit
      have hpre := run_same_day pre g h0g
        (fun call hc => hdayg call (by rw [hsplit]; exact List.mem_append_left _ hc))
      have hpost := run_same_day post (g.run pre) (by rw [hpre.2.1]; exact h0g)
        (fun call hc => by
          rw [hpre.2.1]
          exact hdayg call (by rw [hsplit]; exact List.mem_append_right _ hc))
      rw [hsplit, run_append]
      exact hpost.2.2
    · intro now hd
      exact allowAttempt_same_day g now h0g (by rw [hperiod]; exact hd)
  · intro now model tokens htok
    exact recordUsage_nonpositive g now model tokens htok
  · intro now later hnow hlater hexc
    have hstate := allowAttempt_state g now c hcfg hen
    have hperiod : (g.AllowAttempt now).2.periodStart = day := by
      rw [hstate, periodStart_resetIfNeeded, hnow]
    have hcfg1 : (g.AllowAttempt now).2.cfg = some c := by
      rw [hstate, cfg_resetIfNeeded, hcfg]
    have h0g : (g.AllowAttempt now).2.periodStart ≠ 0 := by rw [hperiod]; exact h0
    have hused : (g.AllowAttempt now).2.usedTokens ≥ c.DailyTokenLimit := by
      rw [hstate]
      by_contra hlt
      unfold BudgetGuard.AllowAttempt at hexc
      rw [hcfg] at hexc
      simp only [not_le.mpr hen, if_false, ge_iff_le, hlt] at hexc
      exact absurd hexc (by simp)
    have hrun := run_same_day calls (g.AllowAttempt now).2 h0g
      (fun call hc => by rw [hperiod]; exact hday call hc)
    refine ⟨hperiod, ?_⟩
    rw [allowAttempt_exceeded_iff ((g.AllowAttempt now).2.run calls) later c
      (hrun.1.trans hcfg1) hen hstrict (by rw [hrun.2.1]; exact h0g)
      (by rw [hrun.2.1, hperiod]; exact hlater)]
    exact le_trans hused hrun.2.2

/-- Claim C28 on the test guard with 1000 of 1000 tokens used: `AllowAttempt` is
refused, and is refused again after a further attempt, a usage of 50 tokens and a usage
of 0 tokens on the same day. -/
theorem budget_ledger_monotone_within_day_witness :
    ((testGuard 1000 true).AllowAttempt testStart).1 = some LlmError.ErrBudgetExceeded ∧
    ((((testGuard 1000 true).AllowAttempt testStart).2.run
      [BudgetCall.allow (testStart + 5), BudgetCall.record (testStart + 6) "gpt-5" 50,
       BudgetCall.record (testStart + 7) "gpt-5" 0]).AllowAttempt (testStart + 8)).1 =
      some LlmError.ErrBudgetExceeded := by
  have h := budget_ledger_monotone_within_day (testGuard 1000 true)
    { testBudgetConfig with StrictEnforcement := true }
    [BudgetCall.allow (testStart + 5), BudgetCall.record (testStart + 6) "gpt-5" 50,
     BudgetCall.record (testStart + 7) "gpt-5" 0] testStart
    rfl (by decide) rfl (by decide)
    (by
      intro call hc
      simp only [List.mem_cons, List.mem_singleton, List.not_mem_nil, or_false] at hc
      rcases hc with rfl | rfl | rfl <;> decide)
  have hfirst : ((testGuard 1000 true).AllowAttempt testStart).1 =
      some LlmError.ErrBudgetExceeded := by decide
  exact ⟨hfirst, (h.2.2 testStart (testStart + 8) (by decide) (by decide) hfirst).2⟩

/-- A guard of `NewBudgetGuard` on the strict test configuration that recorded 500
tokens on the test day: on the next day a `RecordUsage` with 0 tokens leaves the 500 in
the ledger, and the `AllowAttempt` after it, on the same day, resets the ledger to 0, so
`used_tokens` decreases between two calls of one UTC day. -/
theorem budget_stale_ledger_counterexample :
    staleTestGuard.cfg = some testBudgetConfig ∧
    testBudgetConfig.DailyTokenLimit = 1000 ∧
    testBudgetConfig.StrictEnforcement = true ∧
    truncateDay testNextDay = truncateDay (testNextDay + 1) ∧
    (staleTestGuard.run [BudgetCall.record testNextDay "gpt-5" 0]).usedTokens = 500 ∧
    (staleTestGuard.run
      [BudgetCall.record testNextDay "gpt-5" 0,
       BudgetCall.allow (testNextDay + 1)]).usedTokens = 0 ∧
    ¬ ((staleTestGuard.run [BudgetCall.record testNextDay "gpt-5" 0]).usedTokens ≤
      (staleTestGuard.run
        [BudgetCall.record testNextDay "gpt-5" 0,
         BudgetCall.allow (testNextDay + 1)]).usedTokens) := by
  refine ⟨rfl, rfl, rfl, by decide, by decide, by decide, by decide⟩

/-! ## Sync over a list of records -/

theorem syncOne_error_keeps_db (env : RepoEnv) (db : DB) (rec : TraderConfigRecord)
    (e : RepoError) (h : (syncOne env db rec).1.2 = some e) : (syncOne env db rec).2 = db := by
  unfold syncOne at h ⊢
  by_cases hid : goTrimSpace rec.ID = ""
  · simp only [hid, if_true]
  · simp only [hid, if_false] at h ⊢
    cases hn : normalizeDetail env.json rec.Detail with
    | error msg => simp only [hn]
    | ok detail =>
      simp only [hn] at h ⊢
      cases hf : findOne env db rec.ID with
      | error err =>
        cases err with
        | ErrNotFound =>
          simp only [hf] at h ⊢
          rcases withTx_cases env db (fun tx =>
            match insertConfigTx env tx (buildConfigRow rec detail 1) with
            | Except.error e => Except.error e
            | Except.ok tx1 => insertHistoryTx env tx1
                (buildHistoryRow env.now (buildConfigRow rec detail 1)
                  ["exchange_provider", "market_provider", "allocation_pct", "detail"] rec))
            with ⟨e1, hw⟩ | ⟨db1, _, hw⟩
          · rw [hw]
          · rw [hw] at h
            exact absurd h (by simp)
        | missingID => simp only [hf]
        | normalizeDetail id cause => simp only [hf]
        | ErrNilDB => simp only [hf]
        | driver msg => simp only [hf]
      | ok existing =>
        simp only [hf] at h ⊢
        by_cases hch : (computeChangedFields existing rec detail).length = 0
        · simp only [hch, if_true]
        · simp only [hch, if_false] at h ⊢
          rcases withTx_cases env db (fun tx =>
            match updateConfigTx env tx (buildConfigRow rec detail (existing.Version + 1)) with
            | Except.error e => Except.error e
            | Except.ok tx1 => insertHistoryTx env tx1
                (buildHistoryRow env.now (buildConfigRow rec detail (existing.Version + 1))
                  (computeChangedFields existing rec detail) rec))
            with ⟨e1, hw⟩ | ⟨db1, _, hw⟩
          · rw [hw]
          · rw [hw] at h
            exact absurd h (by simp)

theorem syncLoop_cons_error (env : RepoEnv) (db : DB) (summary : ConfigSyncResult)
    (rec : TraderConfigRecord) (rest : List TraderConfigRecord) (e : RepoError)
    (h : (syncOne env db rec).1.2 = some e) :
    syncLoop env db summary (rec :: rest) = ((summary, some e), db) := by
  have hdb := syncOne_error_keeps_db env db rec e h
  rw [syncLoop]
  rcases hs : syncOne env db rec with ⟨⟨action, err⟩, db1⟩
  rw [hs] at h hdb
  simp only at h hdb
  subst h
  subst hdb
  cases action <;> rfl

theorem syncLoop_cons_ok (env : RepoEnv) (db : DB) (summary : ConfigSyncResult)
    (rec : TraderConfigRecord) (rest : List TraderConfigRecord)
    (h : (syncOne env db rec).1.2 = none) :
    syncLoop env db summary (rec :: rest) =
      syncLoop env (syncOne env db rec).2
        (match (syncOne env db rec).1.1 with
         | configSyncAction.configInserted => summary.recordInserted rec.ID
         | configSyncAction.configUpdated => summary.recordUpdated rec.ID
         | configSyncAction.configUnchanged => summary.recordUnchanged rec.ID) rest := by
  rw [syncLoop]
  rcases hs : syncOne env db rec with ⟨⟨action, err⟩, db1⟩
  rw [hs] at h
  simp only at h
  subst h
  cases action <;> rfl

theorem syncLoop_ok_actions (env : RepoEnv) (records : List TraderConfigRecord) :
    ∀ (db : DB) (summary summary1 : ConfigSyncResult) (db1 : DB),
      syncLoop env db summary records = ((summary1, none), db1) →
      ∃ actions : List configSyncAction, actions.length = records.length ∧
        summary1.Inserted =
          summary.Inserted ++ idsWithAction records actions configSyncAction.configInserted ∧
        summary1.Updated =
          summary.Updated ++ idsWithAction records actions configSyncAction.configUpdated ∧
        summary1.Unchanged =
          summary.Unchanged ++
            idsWithAction records actions configSyncAction.configUnchanged := by
  induction records with
  | nil =>
    intro db summary summary1 db1 h
    simp only [syncLoop, Prod.mk.injEq, and_true] at h
    refine ⟨[], rfl, ?_, ?_, ?_⟩ <;> simp [idsWithAction, ← h.1]
  | cons rec rest ih =>
    intro db summary summary1 db1 h
    cases herr : (syncOne env db rec).1.2 with
    | some e =>
      rw [syncLoop_cons_error env db summary rec rest e herr] at h
      simp at h
    | none =>
      rw [syncLoop_cons_ok env db summary rec rest herr] at h
      obtain ⟨actions, hlen, hi, hu, hn⟩ := ih _ _ _ _ h
      refine ⟨(syncOne env db rec).1.1 :: actions, by simp [hlen], ?_, ?_, ?_⟩
      · rw [hi]
        cases (syncOne env db rec).1.1 <;>
          simp [idsWithAction, ConfigSyncResult.recordInserted,
            ConfigSyncResult.recordUpdated, ConfigSyncResult.recordUnchanged]
      · rw [hu]
        cases (syncOne env db rec).1.1 <;>
          simp [idsWithAction, ConfigSyncResult.recordInserted,
            ConfigSyncResult.recordUpdated, ConfigSyncResult.recordUnchanged]
      · rw [hn]
        cases (syncOne env db rec).1.1 <;>
          simp [idsWithAction, ConfigSyncResult.recordInserted,
            ConfigSyncResult.recordUpdated, ConfigSyncResult.recordUnchanged]

theorem idsWithAction_lengths (records : List TraderConfigRecord) :
    ∀ actions : List configSyncAction, actions.length = records.length →
      (idsWithAction records actions configSyncAction.configInserted).length +
        (idsWithAction records actions configSyncAction.configUpdated).length +
        (idsWithAction records actions configSyncAction.configUnchanged).length =
        records.length := by
  induction records with
  | nil =>
    intro actions _
    simp [idsWithAction]
  | cons rec rest ih =>
    intro actions hlen
    cases actions with
    | nil => simp at hlen
    | cons a as =>
      have hrest := ih as (by simpa using hlen)
      simp only [idsWithAction, List.length_map] at hrest ⊢
      cases a <;> simp [List.zip_cons_cons, List.filter_cons] <;> omega

theorem syncLoop_error_split (env : RepoEnv) (records : List TraderConfigRecord) :
    ∀ (db : DB) (summary summary1 : ConfigSyncResult) (db1 : DB) (e : RepoError),
      syncLoop env db summary records = ((summary1, some e), db1) →
      ∃ pre rec post, records = pre ++ rec :: post ∧
        syncLoop env db summary pre = ((summary1, none), db1) ∧
        (syncOne env db1 rec).1.2 = some e ∧ (syncOne env db1 rec).2 = db1 := by
  induction records with
  | nil =>
    intro db summary summary1 db1 e h
    simp [syncLoop] at h
  | cons rec rest ih =>
    intro db summary summary1 db1 e h
    cases herr : (syncOne env db rec).1.2 with
    | some e1 =>
      rw [syncLoop_cons_error env db summary rec rest e1 herr] at h
      simp only [Prod.mk.injEq, Option.some.injEq] at h
      obtain ⟨⟨hs, he⟩, hdb⟩ := h
      subst hs he hdb
      exact ⟨[], rec, rest, rfl, rfl, herr, syncOne_error_keeps_db env db rec e1 herr⟩
    | none =>
      rw [syncLoop_cons_ok env db summary rec rest herr] at h
      obtain ⟨pre, r, post, hsplit, hpre, hfail, hkeep⟩ := ih _ _ _ _ _ h
      refine ⟨rec :: pre, r, post, by rw [hsplit]; rfl, ?_, hfail, hkeep⟩
      rw [syncLoop_cons_ok env db summary rec pre herr]
      exact hpre

theorem syncLoop_stops_at_error (env : RepoEnv) (pre : List TraderConfigRecord) :
    ∀ (db : DB) (summary summary1 : ConfigSyncResult) (db1 : DB) (rec : TraderConfigRecord)
      (post : List TraderConfigRecord) (e : RepoError),
      syncLoop env db summary pre = ((summary1, none), db1) →
      (syncOne env db1 rec).1.2 = some e →
      syncLoop env db summary (pre ++ rec :: post) = ((summary1, some e), db1) := by
  induction pre with
  | nil =>
    intro db summary summary1 db1 rec post e hpre hfail
    simp only [syncLoop, Prod.mk.injEq] at hpre
    obtain ⟨⟨hs, _⟩, hdb⟩ := hpre
    subst hs hdb
    exact syncLoop_cons_error env db summary rec post e hfail
  | cons r rest ih =>
    intro db summary summary1 db1 rec post e hpre hfail
    cases herr : (syncOne env db r).1.2 with
    | some e1 =>
      rw [syncLoop_cons_error env db summary r rest e1 herr] at hpre
      simp at hpre
    | none =>
      rw [syncLoop_cons_ok env db summary r rest herr] at hpre
      rw [List.cons_append, syncLoop_cons_ok env db summary r _ herr]
      exact ih _ _ _ _ rec post e hpre hfail

theorem sync_eq_syncLoop (env : RepoEnv) (db : DB) (records : List TraderConfigRecord) :
    Sync env db records = syncLoop env db emptySummary records := by
  unfold Sync
  cases records with
  | nil => rfl
  | cons r rest => rfl

/-- Claim C29: when `Sync` returns no error, each record's id is in exactly one of
`Inserted`, `Updated` and `Unchanged`, by the action of its `syncOne`, in input order, so
the three lists together have as many entries as the input. When `Sync` returns an
error, the input splits into the records before the failing one, whose outcomes and
writes are what `Sync` returns, the failing record, whose `syncOne` returns the error
and writes nothing, and the records after it, on which the result does not depend. A
blank id and a detail that does not normalise are such failures. -/
theorem sync_outcomes (env : RepoEnv) (db : DB) (records : List TraderConfigRecord) :
    (∀ summary db1, Sync env db records = ((summary, none), db1) →
      (∃ actions : List configSyncAction, actions.length = records.length ∧
        summary.Inserted = idsWithAction records actions configSyncAction.configInserted ∧
        summary.Updated = idsWithAction records actions configSyncAction.configUpdated ∧
        summary.Unchanged = idsWithAction records actions configSyncAction.configUnchanged) ∧
      summary.Inserted.length + summary.Updated.length + summary.Unchanged.length =
        records.length) ∧
    (∀ summary db1 e, Sync env db records = ((summary, some e), db1) →
      ∃ pre rec post, records = pre ++ rec :: post ∧
        Sync env db pre = ((summary, none), db1) ∧
        (syncOne env db1 rec).1.2 = some e ∧ (syncOne env db1 rec).2 = db1 ∧
        ∀ later, Sync env db (pre ++ rec :: later) = ((summary, some e), db1)) ∧
    (∀ (state : DB) (rec : TraderConfigRecord), goTrimSpace rec.ID = "" →
      (syncOne env state rec).1.2 = some RepoError.missingID) ∧
    (∀ (state : DB) (rec : TraderConfigRecord) (cause : String), goTrimSpace rec.ID ≠ "" →
      normalizeDetail env.json rec.Detail = Except.error cause →
      (syncOne env state rec).1.2 = some (RepoError.normalizeDetail rec.ID cause)) := by
  refine ⟨?_, ?_, ?_, ?_⟩
  · intro summary db1 h
    rw [sync_eq_syncLoop] at h
    obtain ⟨actions, hlen, hi, hu, hn⟩ := syncLoop_ok_actions env records db _ _ _ h
    have hi1 : summary.Inserted =
        idsWithAction records actions configSyncAction.configInserted := by
      rw [hi]; rfl
    have hu1 : summary.Updated =
        idsWithAction records actions configSyncAction.configUpdated := by
      rw [hu]; rfl
    have hn1 : summary.Unchanged =
        idsWithAction records actions configSyncAction.configUnchanged := by
      rw [hn]; rfl
    refine ⟨⟨actions, hlen, hi1, hu1, hn1⟩, ?_⟩
    rw [hi1, hu1, hn1]
    exact idsWithAction_lengths records actions hlen
  · intro summary db1 e h
    rw [sync_eq_syncLoop] at h
    obtain ⟨pre, rec, post, hsplit, hpre, hfail, hkeep⟩ :=
      syncLoop_error_split env records db _ _ _ _ h
    refine ⟨pre, rec, post, hsplit, ?_, hfail, hkeep, ?_⟩
    · rw [sync_eq_syncLoop]
      exact hpre
    · intro later
      rw [sync_eq_syncLoop]
      exact syncLoop_stops_at_error env pre db _ _ _ rec later e hpre hfail
  · intro state rec hid
    unfold syncOne
    rw [if_pos hid]
  · intro state rec cause hid hn
    unfold syncOne
    rw [if_neg hid, hn]

/-- Claim C29 on three records, the second without an id, on the empty database:
`Sync` returns the missing-id error with the first id under `Inserted`, keeps the first
record's write and never reaches the third record. -/
theorem sync_outcomes_witness :
    ∃ pre rec post, [sampleRecord, blankIdRecord, sampleRecordChanged] = pre ++ rec :: post ∧
      Sync sampleEnv emptyDB pre =
        (({ Inserted := ["t1"], Updated := [], Unchanged := [] }, none),
         (Sync sampleEnv emptyDB [sampleRecord]).2) ∧
      (syncOne sampleEnv (Sync sampleEnv emptyDB [sampleRecord]).2 rec).1.2 =
        some RepoError.missingID ∧
      (syncOne sampleEnv (Sync sampleEnv emptyDB [sampleRecord]).2 rec).2 =
        (Sync sampleEnv emptyDB [sampleRecord]).2 ∧
      ∀ later, Sync sampleEnv emptyDB (pre ++ rec :: later) =
        (({ Inserted := ["t1"], Updated := [], Unchanged := [] }, some RepoError.missingID),
         (Sync sampleEnv emptyDB [sampleRecord]).2) :=
  (sync_outcomes sampleEnv emptyDB [sampleRecord, blankIdRecord, sampleRecordChanged]).2.1
    { Inserted := ["t1"], Updated := [], Unchanged := [] }
    (Sync sampleEnv emptyDB [sampleRecord]).2 RepoError.missingID rfl

/-! ## Comparing recorded and replayed decisions -/

theorem compactOf_eq_iff (a b : Decision) : compactOf a = compactOf b ↔ decisionsAgree a b := by
  unfold compactOf decisionsAgree
  constructor
  · intro h
    injection h with h1 h2 h3 h4 h5 h6 h7
    exact ⟨h1, h2, h3, h4, h5, h6, h7⟩
  · rintro ⟨h1, h2, h3, h4, h5, h6, h7⟩
    rw [h1, h2, h3, h4, h5, h6, h7]

theorem map_compactOf_eq_iff (recorded : List Decision) :
    ∀ replayed : List Decision,
      recorded.map compactOf = replayed.map compactOf ↔
        List.Forall₂ decisionsAgree recorded replayed := by
  induction recorded with
  | nil =>
    intro replayed
    cases replayed with
    | nil => simp
    | cons b bs => simp
  | cons a as ih =>
    intro replayed
    cases replayed with
    | nil => simp
    | cons b bs =>
      simp only [List.map_cons, List.cons.injEq, List.forall₂_cons, compactOf_eq_iff, ih bs]

theorem compareDecisions_of_parsed (lib : CompactJson)
    (decode : String → Except String (List Decision)) (recordedJSON : String)
    (recorded replayed : List Decision)
    (htotal : ∀ l, ∃ t, lib.marshal l = Except.ok t)
    (hinj : ∀ l1 l2 t, lib.marshal l1 = Except.ok t → lib.marshal l2 = Except.ok t → l1 = l2)
    (hparse : ParseDecisionsJSON decode recordedJSON = Except.ok recorded) :
    compareDecisions lib decode recordedJSON replayed = none ↔
      recorded.map compactOf = replayed.map compactOf := by
  unfold compareDecisions
  rw [hparse]
  simp only []
  by_cases hempty : recorded.length = 0 ∧ replayed.length = 0
  · rw [if_pos hempty]
    have h1 : recorded = [] := List.length_eq_zero.mp hempty.1
    have h2 : replayed = [] := List.length_eq_zero.mp hempty.2
    simp [h1, h2]
  · rw [if_neg hempty]
    by_cases hlen : recorded.length ≠ replayed.length
    · rw [if_pos hlen]
      constructor
      · intro h
        exact absurd h (by simp)
      · intro h
        exfalso
        apply hlen
        have := congrArg List.length h
        simpa using this
    · rw [if_neg hlen]
      obtain ⟨t1, ht1⟩ := htotal (recorded.map compactOf)
      obtain ⟨t2, ht2⟩ := htotal (replayed.map compactOf)
      unfold normalizeDecisions
      rw [ht1, ht2]
      simp only []
      cases lib.textEq t1 t2 with
      | isTrue heq =>
        simp only [true_iff]
        exact hinj _ _ t1 ht1 (by rw [heq]; exact ht2)
      | isFalse hne =>
        simp only [false_iff]
        constructor
        · intro h
          exact absurd h (by simp)
        · intro h
          exfalso
          apply hne
          rw [h] at ht1
          rw [ht1] at ht2
          injection ht2

/-- Claim C30: with a `json.Marshal` that is total and injective on compact lists,
`compareDecisions` returns nil if and only if the recorded text parses as a decision
list and that list agrees with the replayed one position by position (hence in length)
on symbol and action, both up to case and surrounding whitespace, `position_size_usd`,
`entry_price`, `stop_loss`, `take_profit` and `confidence`; a blank text parses as the
empty list; and the result does not depend on the `leverage`, `risk_usd`, `reasoning`
and `invalidation_condition` of the replayed decisions. -/
theorem compareDecisions_nil_iff (lib : CompactJson)
    (decode : String → Except String (List Decision)) (recordedJSON : String)
    (replayed : List Decision)
    (htotal : ∀ l, ∃ t, lib.marshal l = Except.ok t)
    (hinj : ∀ l1 l2 t, lib.marshal l1 = Except.ok t → lib.marshal l2 = Except.ok t →
      l1 = l2) :
    (compareDecisions lib decode recordedJSON replayed = none ↔
      ∃ recorded, ParseDecisionsJSON decode recordedJSON = Except.ok recorded ∧
        List.Forall₂ decisionsAgree recorded replayed) ∧
    (∀ recorded, List.Forall₂ decisionsAgree recorded replayed →
      recorded.length = replayed.length) ∧
    (goTrimSpace recordedJSON = "" →
      ParseDecisionsJSON decode recordedJSON = Except.ok []) ∧
    (∀ (leverage : Int) (risk : ℚ) (reasoning invalidation : String),
      compareDecisions lib decode recordedJSON
        (replayed.map (fun d =>
          { d with Leverage := leverage, RiskUSD := risk, Reasoning := reasoning,
                   InvalidationCondition := invalidation })) =
      compareDecisions lib decode recordedJSON replayed) := by
  refine ⟨?_, fun recorded h => h.length_eq, ?_, ?_⟩
  · cases hparse : ParseDecisionsJSON decode recordedJSON with
    | error cause =>
      constructor
      · intro h
        unfold compareDecisions at h
        rw [hparse] at h
        exact absurd h (by simp)
      · rintro ⟨recorded, hrec, _⟩
        exact absurd hrec (by simp)
    | ok recorded =>
      rw [compareDecisions_of_parsed lib decode recordedJSON recorded replayed htotal hinj
        hparse, map_compactOf_eq_iff]
      constructor
      · intro h
        exact ⟨recorded, rfl, h⟩
      · rintro ⟨recorded1, hrec, h⟩
        injection hrec with hrec
        rw [hrec]
        exact h
  · intro hblank
    unfold ParseDecisionsJSON
    rw [if_pos hblank]
  · intro leverage risk reasoning invalidation
    have hmap : (replayed.map (fun d =>
        { d with Leverage := leverage, RiskUSD := risk, Reasoning := reasoning,
                 InvalidationCondition := invalidation })).map compactOf =
        replayed.map compactOf := by
      rw [List.map_map]
      rfl
    unfold compareDecisions normalizeDecisions
    rw [hmap, List.length_map]

/-- Claim C30 on the recorded BTC decision of scenario 1: a replayed decision whose
symbol is " btc", whose action is "OPEN_LONG" and whose leverage, risk and reasoning
differ is accepted; one whose stop loss differs is not. -/
theorem compareDecisions_nil_iff_witness :
    compareDecisions sampleCompactJson sampleDecode "[btc]"
      [{ btcDecision "OPEN_LONG" 200 100 with
          Symbol := " btc", Leverage := 9, RiskUSD := 1, Reasoning := "replayed" }] = none ∧
    compareDecisions sampleCompactJson sampleDecode "[btc]"
      [{ btcDecision "open_long" 200 100 with StopLoss := 96 }] ≠ none := by
  have hinj : ∀ (l1 l2 : List compactDecision) (t : sampleCompactJson.Text),
      sampleCompactJson.marshal l1 = Except.ok t → sampleCompactJson.marshal l2 = Except.ok t →
      l1 = l2 := by
    intro l1 l2 t h1 h2
    injection h1 with h1
    injection h2 with h2
    rw [h1, h2]
  have ha := compareDecisions_nil_iff sampleCompactJson sampleDecode "[btc]"
    [{ btcDecision "OPEN_LONG" 200 100 with
        Symbol := " btc", Leverage := 9, RiskUSD := 1, Reasoning := "replayed" }]
    (fun l => ⟨l, rfl⟩) hinj
  have hb := compareDecisions_nil_iff sampleCompactJson sampleDecode "[btc]"
    [{ btcDecision "open_long" 200 100 with StopLoss := 96 }]
    (fun l => ⟨l, rfl⟩) hinj
  constructor
  · rw [ha.1]
    refine ⟨[btcDecision "open_long" 200 100], rfl, ?_⟩
    refine List.Forall₂.cons ?_ List.Forall₂.nil
    refine ⟨by decide, by decide, rfl, rfl, rfl, rfl, rfl⟩
  · rw [Ne, hb.1]
    rintro ⟨recorded, hrec, hagree⟩
    have hr : recorded = [btcDecision "open_long" 200 100] := by
      have : ParseDecisionsJSON sampleDecode "[btc]" =
          Except.ok [btcDecision "open_long" 200 100] := rfl
      rw [this] at hrec
      injection hrec with hrec
      exact hrec.symm
    rw [hr] at hagree
    cases hagree with
    | cons h _ =>
      have hstop := h.2.2.2.2.1
      norm_num [btcDecision] at hstop

end Nof0
